import Mathlib

/-!
# Rubik's cube demo: a shallow embedding and its verified properties

The development follows the three headers of the program:

* `geometry.hpp`: `Vec3D`, `Matrix3D`, `Quad`, `QuadModel` and `QuadModel::Project`;
* `rubiks.hpp`: `Cube`, the constants, `RubiksCube` with `RotateFace` and `RotateColors`;
* `rubiks_handler.hpp`: `AnimationQueue` and `AnimationHandler::Step`.

Modelling conventions.

* `double` is modelled in two ways, and a value of either model is a rational number.
  In the exact model the operations are those of `ℚ`; it serves the properties that no
  rounding can change: the colours, the indices and the control flow of combinatorial
  code. In the rounded model (`ieee`, and the definitions whose name ends in `64`) every
  operation returns the exact result rounded to the nearest number with 53 significant
  bits, ties to even, one rounding for each operation of the source, none fused; it
  serves the properties that depend on the stored value of a `double`: step counts of an
  animation, buckets of a coordinate, signs of a cross product. Overflow, subnormal
  numbers, infinities and NaN are outside both models; a division by zero returns `none`.
* `int` is modelled by `Int`, `uint32_t` colours by `Nat`.
* `std::vector` is modelled by `List`; an element access with an index outside the vector is
  undefined behaviour in the program and is modelled by `none`, so every operation that
  indexes a vector returns an `Option`.
* `std::sin` and `std::cos` belong to the C++ standard library; they are taken as a parameter
  (`Trig`).
-/

/-! ## geometry.hpp -/

/-- Three `double` components, as in `struct Vec3D`. -/
structure Vec3D where
  x : ℚ
  y : ℚ
  z : ℚ
  deriving DecidableEq, Repr

namespace Vec3D

/-- The constructor `Vec3D(int, int, int)`. -/
def ofInts (x y z : Int) : Vec3D := ⟨(x : ℚ), (y : ℚ), (z : ℚ)⟩

/-- The method `Vec3D::Dot`. -/
def Dot (a v : Vec3D) : ℚ := a.x * v.x + a.y * v.y + a.z * v.z

/-- The method `Vec3D::Cross`. -/
def Cross (a v : Vec3D) : Vec3D :=
  ⟨a.y * v.z - a.z * v.y, a.z * v.x - a.x * v.z, a.x * v.y - a.y * v.x⟩

/-- The method `Vec3D::Abs`. -/
def Abs (a : Vec3D) : Vec3D := ⟨|a.x|, |a.y|, |a.z|⟩

/-- The operator `Vec3D + Vec3D`. -/
def add (a v : Vec3D) : Vec3D := ⟨a.x + v.x, a.y + v.y, a.z + v.z⟩

/-- The unary operator `-Vec3D`. -/
def neg (a : Vec3D) : Vec3D := ⟨-a.x, -a.y, -a.z⟩

/-- The operator `Vec3D - Vec3D`. -/
def sub (a v : Vec3D) : Vec3D := ⟨a.x - v.x, a.y - v.y, a.z - v.z⟩

/-- The operator `Vec3D * double`. -/
def smul (a : Vec3D) (s : ℚ) : Vec3D := ⟨a.x * s, a.y * s, a.z * s⟩

/-- The operator `Vec3D / double`. -/
def sdiv (a : Vec3D) (s : ℚ) : Vec3D := ⟨a.x / s, a.y / s, a.z / s⟩

end Vec3D

/-- Nine `double` entries in row-major order, as in `struct Matrix3D`. -/
structure Matrix3D where
  m11 : ℚ
  m12 : ℚ
  m13 : ℚ
  m21 : ℚ
  m22 : ℚ
  m23 : ℚ
  m31 : ℚ
  m32 : ℚ
  m33 : ℚ
  deriving DecidableEq, Repr

namespace Matrix3D

/-- The method `Matrix3D::Transpose`. -/
def Transpose (a : Matrix3D) : Matrix3D :=
  ⟨a.m11, a.m21, a.m31,
   a.m12, a.m22, a.m32,
   a.m13, a.m23, a.m33⟩

/-- The operator `Matrix3D * Matrix3D`. -/
def mul (a A : Matrix3D) : Matrix3D :=
  ⟨a.m11 * A.m11 + a.m12 * A.m21 + a.m13 * A.m31,
   a.m11 * A.m12 + a.m12 * A.m22 + a.m13 * A.m32,
   a.m11 * A.m13 + a.m12 * A.m23 + a.m13 * A.m33,
   a.m21 * A.m11 + a.m22 * A.m21 + a.m23 * A.m31,
   a.m21 * A.m12 + a.m22 * A.m22 + a.m23 * A.m32,
   a.m21 * A.m13 + a.m22 * A.m23 + a.m23 * A.m33,
   a.m31 * A.m11 + a.m32 * A.m21 + a.m33 * A.m31,
   a.m31 * A.m12 + a.m32 * A.m22 + a.m33 * A.m32,
   a.m31 * A.m13 + a.m32 * A.m23 + a.m33 * A.m33⟩

/-- The operator `Matrix3D * Vec3D`. -/
def mulVec (a : Matrix3D) (v : Vec3D) : Vec3D :=
  ⟨a.m11 * v.x + a.m12 * v.y + a.m13 * v.z,
   a.m21 * v.x + a.m22 * v.y + a.m23 * v.z,
   a.m31 * v.x + a.m32 * v.y + a.m33 * v.z⟩

end Matrix3D

/-- Four vertex indices, a packed colour and a scratch depth, as in `struct Quad`. -/
structure Quad where
  v1 : Int
  v2 : Int
  v3 : Int
  v4 : Int
  color : Nat
  z : ℚ
  deriving DecidableEq, Repr

/-- The method `Quad::IncIndices`. -/
def Quad.IncIndices (q : Quad) (inc : Int) : Quad :=
  { q with v1 := q.v1 + inc, v2 := q.v2 + inc, v3 := q.v3 + inc, v4 := q.v4 + inc }

/-- Element access `v[i]` of a `std::vector` with an `int` index; `none` stands for the
undefined behaviour of an index outside the vector. -/
def vecGet {α : Type} (l : List α) (i : Int) : Option α :=
  if 0 ≤ i then l[i.toNat]? else none

/-- Assignment `v[i] = a` to an element of a `std::vector`; `none` stands for the undefined
behaviour of an index outside the vector. -/
def vecSet {α : Type} (l : List α) (i : Int) (a : α) : Option (List α) :=
  if 0 ≤ i ∧ i.toNat < l.length then some (l.set i.toNat a) else none

/-- Local vertices and faces with a rigid transform, as in `struct QuadModel`. -/
structure QuadModel where
  vertices : List Vec3D
  faces : List Quad
  rotation : Matrix3D
  translation : Vec3D
  scale : ℚ
  deriving DecidableEq, Repr

namespace QuadModel

/-- The method `QuadModel::AddVertex`. -/
def AddVertex (m : QuadModel) (v : Vec3D) : QuadModel :=
  { m with vertices := m.vertices ++ [v] }

/-- The method `QuadModel::AddFace`. -/
def AddFace (m : QuadModel) (f : Quad) : QuadModel :=
  { m with faces := m.faces ++ [f] }

/-- First loop of `QuadModel::Project`: the projected position of one local vertex. -/
def projectVertex (m : QuadModel) (global_rotation : Matrix3D) (global_translation : Vec3D)
    (v : Vec3D) : Vec3D :=
  let local_vec := ((m.rotation.mulVec v).smul m.scale).add m.translation
  (global_rotation.mulVec local_vec).add global_translation

/-- Second loop of `QuadModel::Project`, over the faces that remain: `npv` is
`new_projected_vertices` and `size` is `projected_vertices.size()`. The fourth vertex is read
only for a face that is kept. -/
def collectVisible (npv : List Vec3D) (size : Int) : List Quad → Option (List Quad)
  | [] => some []
  | f :: fs => do
    let v1 ← vecGet npv f.v1
    let v2 ← vecGet npv f.v2
    let v3 ← vecGet npv f.v3
    let cross_prod := (v2.sub v1).Cross (v3.sub v2)
    if cross_prod.z ≤ 0 then
      collectVisible npv size fs
    else do
      let v4 ← vecGet npv f.v4
      let copied_f := { f with z := (v1.z + v2.z + v3.z + v4.z) / 4 }
      let copied_f := copied_f.IncIndices size
      let rest ← collectVisible npv size fs
      pure (copied_f :: rest)

/-- The method `QuadModel::Project`; the two output vectors are passed in and returned. -/
def Project (m : QuadModel) (global_rotation : Matrix3D) (global_translation : Vec3D)
    (projected_vertices : List Vec3D) (visible_faces : List Quad) :
    Option (List Vec3D × List Quad) := do
  let new_projected_vertices :=
    m.vertices.map (projectVertex m global_rotation global_translation)
  let new_visible_faces ←
    collectVisible new_projected_vertices (projected_vertices.length : Int) m.faces
  pure (projected_vertices ++ new_projected_vertices, visible_faces ++ new_visible_faces)

end QuadModel

/-- The functions `std::sin` and `std::cos` of the C++ standard library, taken as a
parameter of the model. -/
structure Trig where
  sin : ℚ → ℚ
  cos : ℚ → ℚ

namespace geometry

/-- The function `geometry::Identity`. -/
def Identity : Matrix3D :=
  ⟨1, 0, 0,
   0, 1, 0,
   0, 0, 1⟩

/-- The function `geometry::RotationX`. -/
def RotationX (T : Trig) (theta : ℚ) : Matrix3D :=
  let s := T.sin theta
  let c := T.cos theta
  ⟨1, 0, 0,
   0, c, -s,
   0, s, c⟩

/-- The function `geometry::RotationY`. -/
def RotationY (T : Trig) (theta : ℚ) : Matrix3D :=
  let s := T.sin theta
  let c := T.cos theta
  ⟨c, 0, s,
   0, 1, 0,
   -s, 0, c⟩

/-- The function `geometry::RotationZ`. -/
def RotationZ (T : Trig) (theta : ℚ) : Matrix3D :=
  let s := T.sin theta
  let c := T.cos theta
  ⟨c, -s, 0,
   s, c, 0,
   0, 0, 1⟩

end geometry

/-! ## rubiks.hpp -/

namespace rubiks

/-- A sub-cube: `struct Cube : QuadModel` adds no field. -/
abbrev Cube := QuadModel

/-- A default-constructed `Cube`: empty vectors; the transform fields, which C++ leaves
uninitialised, are given as zero. -/
def Cube.empty : Cube :=
  { vertices := [], faces := [], rotation := ⟨0, 0, 0, 0, 0, 0, 0, 0, 0⟩,
    translation := ⟨0, 0, 0⟩, scale := 0 }

/-- A face given by its four indices, as the aggregate `{ a, b, c, d }` of `AddFace`:
the colour and the depth are zero-initialised. -/
def quadOf (a b c d : Int) : Quad := ⟨a, b, c, d, 0, 0⟩

/-- The method `Cube::Initialize`. -/
def Cube.Initialize (c : Cube) : Cube :=
  let c := c.AddVertex ⟨-1, 1, -1⟩
  let c := c.AddVertex ⟨-1, -1, -1⟩
  let c := c.AddVertex ⟨1, -1, -1⟩
  let c := c.AddVertex ⟨1, 1, -1⟩
  let c := c.AddVertex ⟨-1, 1, 1⟩
  let c := c.AddVertex ⟨-1, -1, 1⟩
  let c := c.AddVertex ⟨1, -1, 1⟩
  let c := c.AddVertex ⟨1, 1, 1⟩
  let c := c.AddFace (quadOf 0 1 2 3)  -- Z-
  let c := c.AddFace (quadOf 2 6 7 3)  -- X+
  let c := c.AddFace (quadOf 7 6 5 4)  -- Z+
  let c := c.AddFace (quadOf 4 5 1 0)  -- X-
  let c := c.AddFace (quadOf 0 3 7 4)  -- Y+
  let c := c.AddFace (quadOf 1 5 6 2)  -- Y-
  c

/-- Six colours indexed by face slot, as `std::array<uint32_t, 6>`. -/
structure Colors6 where
  c0 : Nat
  c1 : Nat
  c2 : Nat
  c3 : Nat
  c4 : Nat
  c5 : Nat
  deriving DecidableEq, Repr

/-- Element `colors[i]` of a six-colour array. -/
def Colors6.get (cs : Colors6) (i : Nat) : Nat :=
  match i with
  | 0 => cs.c0
  | 1 => cs.c1
  | 2 => cs.c2
  | 3 => cs.c3
  | 4 => cs.c4
  | _ => cs.c5

/-- Loop of `Cube::SetColors` from face slot `i` on, over the faces not yet visited. -/
def setColorsFrom (colors : Colors6) : Nat → List Quad → List Quad
  | _, [] => []
  | i, q :: qs => { q with color := colors.get i } :: setColorsFrom colors (i + 1) qs

/-- The method `Cube::SetColors`: `faces[i].color = colors[i]` for `i` in `[0, 6)`; `none`
when the cube has fewer than six faces. -/
def Cube.SetColors (c : Cube) (colors : Colors6) : Option Cube :=
  if 6 ≤ c.faces.length then
    some { c with faces := setColorsFrom colors 0 (c.faces.take 6) ++ c.faces.drop 6 }
  else none

/-! ### Enumerations and constants -/

abbrev FACE_Z_MINUS : Int := 0
abbrev FACE_X_PLUS : Int := 1
abbrev FACE_Z_PLUS : Int := 2
abbrev FACE_X_MINUS : Int := 3
abbrev FACE_Y_PLUS : Int := 4
abbrev FACE_Y_MINUS : Int := 5

abbrev COLOR_BLACK : Nat := 0x222222
abbrev COLOR_WHITE : Nat := 0xDDDDDD
abbrev COLOR_GRAY : Nat := 0xBBBBBB
abbrev COLOR_RED : Nat := 0xDD3333
abbrev COLOR_GREEN : Nat := 0x33DD33
abbrev COLOR_BLUE : Nat := 0x3333DD
abbrev COLOR_YELLOW : Nat := 0xDDDD33
abbrev COLOR_ORANGE : Nat := 0xDD9933

/-- The constant `RUBIKS_PI`, with the digits of the source. -/
def RUBIKS_PI : ℚ := 3.14159265358979323846264338327950288419716939937510582097494459

abbrev CUBE_NUM : Int := 3
/-- The constant `CUBE_DISTANCE`. -/
def CUBE_DISTANCE : ℚ := 180 / (CUBE_NUM : ℚ)
/-- The constant `CUBE_SCALE`. -/
def CUBE_SCALE : ℚ := CUBE_DISTANCE * 0.45
/-- The constant `RUBIKS_SIZE`. -/
def RUBIKS_SIZE : ℚ := CUBE_DISTANCE * (CUBE_NUM : ℚ) * 0.5
/-- The constant `DRAG_THRESHOLD`. -/
def DRAG_THRESHOLD : ℚ := 12
/-- The constant `ROTATION_SPEED`. -/
def ROTATION_SPEED : ℚ := RUBIKS_PI / 360
/-- The constant `GROBAL_ROTATION_SPEED`. -/
def GROBAL_ROTATION_SPEED : ℚ := RUBIKS_PI / 360

abbrev AXIS_NONE : Int := 0
abbrev AXIS_X : Int := 1
abbrev AXIS_Y : Int := 2
abbrev AXIS_Z : Int := 3

abbrev DEGREE_0 : Int := 0
abbrev DEGREE_90 : Int := 1
abbrev DEGREE_180 : Int := 2
abbrev DEGREE_270 : Int := 3

/-- The function `CubeIdToXYZ`, returning the three outputs; `/` and `%` of C++ truncate
towards zero. -/
def CubeIdToXYZ (id basis : Int) : Int × Int × Int :=
  (Int.tmod id CUBE_NUM + basis,
   Int.tmod (Int.tdiv id CUBE_NUM) CUBE_NUM + basis,
   Int.tdiv id (CUBE_NUM * CUBE_NUM) + basis)

/-- The counter values of `for (int i = 0; i < n; i++)`. -/
def loopRange (n : Int) : List Int := (List.range n.toNat).map Int.ofNat

/-- A loop over the given counter values whose body updates a state and may fail. -/
def forEach {σ : Type} : List Int → (Int → σ → Option σ) → σ → Option σ
  | [], _, s => some s
  | i :: is, body, s => (body i s).bind (forEach is body)

/-- The 27 sub-cubes with the view transform, as in `struct RubiksCube`. -/
structure RubiksCube where
  cubes : List Cube
  global_rotation : Matrix3D
  global_translation : Vec3D
  deriving DecidableEq, Repr

/-- A default-constructed `RubiksCube`: no sub-cube; the view transform, which C++ leaves
uninitialised, is given as zero. -/
def RubiksCube.empty : RubiksCube :=
  { cubes := [], global_rotation := ⟨0, 0, 0, 0, 0, 0, 0, 0, 0⟩, global_translation := ⟨0, 0, 0⟩ }

/-- One entry of `swap_queues`: four (sub-cube index, face slot) pairs, `e0 .. e7` standing
for `four_colors[0] .. four_colors[7]` of `std::array<int, 8>`. -/
structure SwapEntry where
  e0 : Int
  e1 : Int
  e2 : Int
  e3 : Int
  e4 : Int
  e5 : Int
  e6 : Int
  e7 : Int
  deriving DecidableEq, Repr

namespace RubiksCube

/-- In-place update of `cubes[i]` through a reference, by a step that may itself fail. -/
def updateCube (r : RubiksCube) (i : Int) (f : Cube → Option Cube) : Option RubiksCube := do
  let c ← vecGet r.cubes i
  let c ← f c
  let cs ← vecSet r.cubes i c
  pure { r with cubes := cs }

/-- Read of `cubes[cube].faces[face].color`. -/
def getColor (r : RubiksCube) (cube face : Int) : Option Nat := do
  let c ← vecGet r.cubes cube
  let q ← vecGet c.faces face
  pure q.color

/-- Assignment `cubes[cube].faces[face].color = col`. -/
def setColor (r : RubiksCube) (cube face : Int) (col : Nat) : Option RubiksCube :=
  r.updateCube cube (fun c => do
    let q ← vecGet c.faces face
    let fs ← vecSet c.faces face { q with color := col }
    pure { c with faces := fs })

/-- The palette that `RubiksCube::InitializeColors` computes for sub-cube `i`. -/
def initialColors (i : Int) : Colors6 :=
  let colors : Colors6 :=
    ⟨COLOR_GREEN, COLOR_RED, COLOR_BLUE, COLOR_ORANGE, COLOR_YELLOW, COLOR_WHITE⟩
  let xyz := CubeIdToXYZ i (-1)
  let x := xyz.1
  let y := xyz.2.1
  let z := xyz.2.2
  let colors := if z ≠ -1 then { colors with c0 := COLOR_BLACK } else colors
  let colors := if x ≠ 1 then { colors with c1 := COLOR_BLACK } else colors
  let colors := if z ≠ 1 then { colors with c2 := COLOR_BLACK } else colors
  let colors := if x ≠ -1 then { colors with c3 := COLOR_BLACK } else colors
  let colors := if y ≠ 1 then { colors with c4 := COLOR_BLACK } else colors
  let colors := if y ≠ -1 then { colors with c5 := COLOR_BLACK } else colors
  colors

/-- The method `RubiksCube::InitializeColors`. -/
def InitializeColors (r : RubiksCube) : Option RubiksCube :=
  forEach (loopRange (CUBE_NUM * CUBE_NUM * CUBE_NUM))
    (fun i r => r.updateCube i (fun c => c.SetColors (initialColors i))) r

/-- The method `RubiksCube::InitializeGlobalRotation`. -/
def InitializeGlobalRotation (T : Trig) (r : RubiksCube) : RubiksCube :=
  { r with global_rotation :=
      (geometry.RotationX T (RUBIKS_PI / 6)).mul (geometry.RotationY T (RUBIKS_PI / 4)) }

/-- The rest translation `Vec3D(x, y, z) * CUBE_DISTANCE` of sub-cube `i`, with
`(x, y, z) = CubeIdToXYZ(i, -1)`. -/
def restTranslation (i : Int) : Vec3D :=
  let xyz := CubeIdToXYZ i (-1)
  (Vec3D.ofInts xyz.1 xyz.2.1 xyz.2.2).smul CUBE_DISTANCE

/-- The method `RubiksCube::InitializeFaceRotation`. -/
def InitializeFaceRotation (r : RubiksCube) : Option RubiksCube :=
  forEach (loopRange (CUBE_NUM * CUBE_NUM * CUBE_NUM))
    (fun i r => r.updateCube i (fun c => some
      { c with rotation := geometry.Identity, translation := restTranslation i })) r

/-- The method `RubiksCube::Initialize`; `cubes.resize` keeps the first 27 cubes and fills
the vector up to 27 with default-constructed ones. -/
def Initialize (T : Trig) (r : RubiksCube) : Option RubiksCube := do
  let n := (CUBE_NUM * CUBE_NUM * CUBE_NUM).toNat
  let r := { r with cubes := r.cubes.take n ++ List.replicate (n - r.cubes.length) Cube.empty }
  let r ← forEach (loopRange (CUBE_NUM * CUBE_NUM * CUBE_NUM))
    (fun i r => r.updateCube i (fun c => some
      { c.Initialize with rotation := geometry.Identity,
                          translation := restTranslation i,
                          scale := CUBE_SCALE })) r
  let r ← r.InitializeColors
  let r := r.InitializeGlobalRotation T
  pure { r with global_translation := ⟨180, 180, RUBIKS_SIZE * 2⟩ }

/-- The method `RubiksCube::GlobalRotate`. -/
def GlobalRotate (T : Trig) (r : RubiksCube) (rotation : Vec3D) : RubiksCube :=
  let rotation := rotation.smul ROTATION_SPEED
  let r := { r with global_rotation := (geometry.RotationX T rotation.y).mul r.global_rotation }
  { r with global_rotation := (geometry.RotationY T (-rotation.x)).mul r.global_rotation }

/-- Body of the loops of `RubiksCube::RotateFace`: the sub-cube `cubes[idx]` gets the
rotation and the translation `(rotation * v + off) * CUBE_DISTANCE`. -/
def rotateCube (r : RubiksCube) (idx : Int) (rotation : Matrix3D) (v off : Vec3D) :
    Option RubiksCube :=
  r.updateCube idx (fun cube => some
    { cube with rotation := rotation,
                translation := ((rotation.mulVec v).add off).smul CUBE_DISTANCE })

/-- The method `RubiksCube::RotateFace`. -/
def RotateFace (T : Trig) (r : RubiksCube) (x y z axis : Int) (theta : ℚ) : Option RubiksCube :=
  if axis = AXIS_X then
    forEach (loopRange CUBE_NUM) (fun y r =>
      forEach (loopRange CUBE_NUM) (fun z r =>
        r.rotateCube (x + y * CUBE_NUM + z * CUBE_NUM * CUBE_NUM) (geometry.RotationX T theta)
          (Vec3D.ofInts 0 (y - 1) (z - 1)) (Vec3D.ofInts (x - 1) 0 0)) r) r
  else if axis = AXIS_Y then
    forEach (loopRange CUBE_NUM) (fun x r =>
      forEach (loopRange CUBE_NUM) (fun z r =>
        r.rotateCube (x + y * CUBE_NUM + z * CUBE_NUM * CUBE_NUM) (geometry.RotationY T theta)
          (Vec3D.ofInts (x - 1) 0 (z - 1)) (Vec3D.ofInts 0 (y - 1) 0)) r) r
  else
    forEach (loopRange CUBE_NUM) (fun x r =>
      forEach (loopRange CUBE_NUM) (fun y r =>
        r.rotateCube (x + y * CUBE_NUM + z * CUBE_NUM * CUBE_NUM) (geometry.RotationZ T theta)
          (Vec3D.ofInts (x - 1) (y - 1) 0) (Vec3D.ofInts 0 0 (z - 1))) r) r

/-- The method `RubiksCube::SwapFourColors90`. -/
def SwapFourColors90 (r : RubiksCube) (four_colors : SwapEntry) : Option RubiksCube := do
  let c1 ← r.getColor four_colors.e0 four_colors.e1
  let c2 ← r.getColor four_colors.e2 four_colors.e3
  let c3 ← r.getColor four_colors.e4 four_colors.e5
  let c4 ← r.getColor four_colors.e6 four_colors.e7
  let r ← r.setColor four_colors.e0 four_colors.e1 c2
  let r ← r.setColor four_colors.e2 four_colors.e3 c3
  let r ← r.setColor four_colors.e4 four_colors.e5 c4
  r.setColor four_colors.e6 four_colors.e7 c1

/-- The method `RubiksCube::SwapFourColors180`. -/
def SwapFourColors180 (r : RubiksCube) (four_colors : SwapEntry) : Option RubiksCube := do
  let c1 ← r.getColor four_colors.e0 four_colors.e1
  let c2 ← r.getColor four_colors.e2 four_colors.e3
  let c3 ← r.getColor four_colors.e4 four_colors.e5
  let c4 ← r.getColor four_colors.e6 four_colors.e7
  let r ← r.setColor four_colors.e0 four_colors.e1 c3
  let r ← r.setColor four_colors.e2 four_colors.e3 c4
  let r ← r.setColor four_colors.e4 four_colors.e5 c1
  r.setColor four_colors.e6 four_colors.e7 c2

/-- The method `RubiksCube::SwapFourColors270`. -/
def SwapFourColors270 (r : RubiksCube) (four_colors : SwapEntry) : Option RubiksCube := do
  let c1 ← r.getColor four_colors.e0 four_colors.e1
  let c2 ← r.getColor four_colors.e2 four_colors.e3
  let c3 ← r.getColor four_colors.e4 four_colors.e5
  let c4 ← r.getColor four_colors.e6 four_colors.e7
  let r ← r.setColor four_colors.e0 four_colors.e1 c4
  let r ← r.setColor four_colors.e2 four_colors.e3 c1
  let r ← r.setColor four_colors.e4 four_colors.e5 c2
  r.setColor four_colors.e6 four_colors.e7 c3

/-- First part of `RubiksCube::RotateColors`: the queue `swap_queues` it builds, front
first. -/
def swap_queues (x y z axis : Int) : List SwapEntry :=
  if axis = AXIS_X then
    (loopRange CUBE_NUM).map (fun i =>
      (⟨x + i * CUBE_NUM * CUBE_NUM, FACE_Y_MINUS,
        x + i * CUBE_NUM + (CUBE_NUM - 1) * CUBE_NUM * CUBE_NUM, FACE_Z_PLUS,
        x + (CUBE_NUM - 1) * CUBE_NUM + (CUBE_NUM - 1 - i) * CUBE_NUM * CUBE_NUM, FACE_Y_PLUS,
        x + (CUBE_NUM - 1 - i) * CUBE_NUM, FACE_Z_MINUS⟩ : SwapEntry)) ++
    (loopRange (CUBE_NUM - 1)).flatMap (fun i =>
      [(⟨x + i * CUBE_NUM * CUBE_NUM, FACE_X_PLUS,
         x + i * CUBE_NUM + (CUBE_NUM - 1) * CUBE_NUM * CUBE_NUM, FACE_X_PLUS,
         x + (CUBE_NUM - 1) * CUBE_NUM + (CUBE_NUM - 1 - i) * CUBE_NUM * CUBE_NUM, FACE_X_PLUS,
         x + (CUBE_NUM - 1 - i) * CUBE_NUM, FACE_X_PLUS⟩ : SwapEntry),
       ⟨x + i * CUBE_NUM * CUBE_NUM, FACE_X_MINUS,
        x + i * CUBE_NUM + (CUBE_NUM - 1) * CUBE_NUM * CUBE_NUM, FACE_X_MINUS,
        x + (CUBE_NUM - 1) * CUBE_NUM + (CUBE_NUM - 1 - i) * CUBE_NUM * CUBE_NUM, FACE_X_MINUS,
        x + (CUBE_NUM - 1 - i) * CUBE_NUM, FACE_X_MINUS⟩])
  else if axis = AXIS_Y then
    (loopRange CUBE_NUM).map (fun i =>
      (⟨i + y * CUBE_NUM, FACE_Z_MINUS,
        CUBE_NUM - 1 + y * CUBE_NUM + i * CUBE_NUM * CUBE_NUM, FACE_X_PLUS,
        CUBE_NUM - 1 - i + y * CUBE_NUM + (CUBE_NUM - 1) * CUBE_NUM * CUBE_NUM, FACE_Z_PLUS,
        y * CUBE_NUM + (CUBE_NUM - 1 - i) * CUBE_NUM * CUBE_NUM, FACE_X_MINUS⟩ : SwapEntry)) ++
    (loopRange (CUBE_NUM - 1)).flatMap (fun i =>
      [(⟨i + y * CUBE_NUM, FACE_Y_PLUS,
         CUBE_NUM - 1 + y * CUBE_NUM + i * CUBE_NUM * CUBE_NUM, FACE_Y_PLUS,
         CUBE_NUM - 1 - i + y * CUBE_NUM + (CUBE_NUM - 1) * CUBE_NUM * CUBE_NUM, FACE_Y_PLUS,
         y * CUBE_NUM + (CUBE_NUM - 1 - i) * CUBE_NUM * CUBE_NUM, FACE_Y_PLUS⟩ : SwapEntry),
       ⟨i + y * CUBE_NUM, FACE_Y_MINUS,
        CUBE_NUM - 1 + y * CUBE_NUM + i * CUBE_NUM * CUBE_NUM, FACE_Y_MINUS,
        CUBE_NUM - 1 - i + y * CUBE_NUM + (CUBE_NUM - 1) * CUBE_NUM * CUBE_NUM, FACE_Y_MINUS,
        y * CUBE_NUM + (CUBE_NUM - 1 - i) * CUBE_NUM * CUBE_NUM, FACE_Y_MINUS⟩])
  else if axis = AXIS_Z then
    (loopRange CUBE_NUM).map (fun i =>
      (⟨(CUBE_NUM - 1 - i) * CUBE_NUM + z * CUBE_NUM * CUBE_NUM, FACE_X_MINUS,
        CUBE_NUM - 1 - i + (CUBE_NUM - 1) * CUBE_NUM + z * CUBE_NUM * CUBE_NUM, FACE_Y_PLUS,
        CUBE_NUM - 1 + i * CUBE_NUM + z * CUBE_NUM * CUBE_NUM, FACE_X_PLUS,
        i + z * CUBE_NUM * CUBE_NUM, FACE_Y_MINUS⟩ : SwapEntry)) ++
    (loopRange (CUBE_NUM - 1)).flatMap (fun i =>
      [(⟨(CUBE_NUM - 1 - i) * CUBE_NUM + z * CUBE_NUM * CUBE_NUM, FACE_Z_MINUS,
         CUBE_NUM - 1 - i + (CUBE_NUM - 1) * CUBE_NUM + z * CUBE_NUM * CUBE_NUM, FACE_Z_MINUS,
         CUBE_NUM - 1 + i * CUBE_NUM + z * CUBE_NUM * CUBE_NUM, FACE_Z_MINUS,
         i + z * CUBE_NUM * CUBE_NUM, FACE_Z_MINUS⟩ : SwapEntry),
       ⟨(CUBE_NUM - 1 - i) * CUBE_NUM + z * CUBE_NUM * CUBE_NUM, FACE_Z_PLUS,
        CUBE_NUM - 1 - i + (CUBE_NUM - 1) * CUBE_NUM + z * CUBE_NUM * CUBE_NUM, FACE_Z_PLUS,
        CUBE_NUM - 1 + i * CUBE_NUM + z * CUBE_NUM * CUBE_NUM, FACE_Z_PLUS,
        i + z * CUBE_NUM * CUBE_NUM, FACE_Z_PLUS⟩])
  else []

/-- One turn of the `while` loop of `RubiksCube::RotateColors` on the front entry. -/
def swapFront (degree : Int) (r : RubiksCube) (front : SwapEntry) : Option RubiksCube :=
  if degree = DEGREE_90 then r.SwapFourColors90 front
  else if degree = DEGREE_180 then r.SwapFourColors180 front
  else if degree = DEGREE_270 then r.SwapFourColors270 front
  else some r

/-- The `while` loop of `RubiksCube::RotateColors`, which empties the queue. -/
def swapLoop (degree : Int) : List SwapEntry → RubiksCube → Option RubiksCube
  | [], r => some r
  | front :: rest, r => (swapFront degree r front).bind (swapLoop degree rest)

/-- The method `RubiksCube::RotateColors`. -/
def RotateColors (r : RubiksCube) (x y z axis degree : Int) : Option RubiksCube :=
  swapLoop degree (swap_queues x y z axis) r

end RubiksCube

/-! ## rubiks_handler.hpp -/

/-- One pending face rotation, as in `struct AnimationQueue`. -/
structure AnimationQueue where
  x : Int
  y : Int
  z : Int
  axis : Int
  rotation_type : Int
  degree_start : ℚ
  degree_end : ℚ
  speed : ℚ
  deriving DecidableEq, Repr

/-- The fields of `class AnimationHandler`; `m_rubiks` holds the cube the pointer refers to,
and the queue is kept front first. -/
structure AnimationHandler where
  m_animation_queues : List AnimationQueue
  m_degree : ℚ
  m_rubiks : RubiksCube
  m_is_animating : Bool
  deriving DecidableEq, Repr

namespace AnimationHandler

/-- The constructor `AnimationHandler::AnimationHandler`. -/
def new (rubiks : RubiksCube) : AnimationHandler :=
  { m_animation_queues := [], m_degree := 0, m_rubiks := rubiks, m_is_animating := false }

/-- The method `AnimationHandler::IsAnimating`. -/
def IsAnimating (h : AnimationHandler) : Bool := h.m_is_animating

/-- The method `AnimationHandler::ClearAnimations`. -/
def ClearAnimations (h : AnimationHandler) : AnimationHandler :=
  { h with m_is_animating := false, m_animation_queues := [] }

/-- The method `AnimationHandler::Push`. -/
def Push (h : AnimationHandler) (q : AnimationQueue) : AnimationHandler :=
  { h with m_animation_queues := h.m_animation_queues ++ [q] }

/-- The test of `AnimationHandler::Step` that makes a step the last one of the front
entry, on the running angle already advanced. -/
def isTerminal (speed m_degree degree_end : ℚ) : Bool :=
  (decide (speed > 0) && decide (m_degree ≥ degree_end)) ||
  (decide (speed < 0) && decide (m_degree ≤ degree_end)) ||
  decide (speed = 0)

/-- The method `AnimationHandler::Step`: the returned flag and the handler after the call. -/
def Step (T : Trig) (h : AnimationHandler) : Option (Int × AnimationHandler) :=
  match h.m_animation_queues with
  | [] => some (0, h)
  | queue :: rest =>
    let x := queue.x
    let y := queue.y
    let z := queue.z
    let axis := queue.axis
    let speed := queue.speed
    let rotation_type := queue.rotation_type
    let h := if !h.IsAnimating then
        { h with m_degree := queue.degree_start, m_is_animating := true }
      else h
    let h := { h with m_degree := h.m_degree + queue.speed }
    if isTerminal speed h.m_degree queue.degree_end then do
      let r ← if rotation_type ≠ DEGREE_0 then
          h.m_rubiks.RotateColors x y z axis rotation_type
        else some h.m_rubiks
      let r ← r.InitializeFaceRotation
      let h := { h with m_rubiks := r, m_animation_queues := rest }
      let h := match rest with
        | next :: _ => { h with m_degree := next.degree_start }
        | [] => { h with m_is_animating := false }
      pure (1, h)
    else do
      let th := h.m_degree * RUBIKS_PI / 180
      let r ← h.m_rubiks.RotateFace T x y z axis th
      pure (1, { h with m_rubiks := r })

/-- The handler after `n` successive calls of `Step`, the returned flags dropped. -/
def stepN (T : Trig) : Nat → AnimationHandler → Option AnimationHandler
  | 0, h => some h
  | n + 1, h => (Step T h).bind (fun p => stepN T n p.2)

end AnimationHandler

end rubiks

/-! ## Notions used by the statements -/

namespace rubiks

namespace RubiksCube

/-- A cube state is well formed when it has 27 sub-cubes with 6 faces each, which is what
`RubiksCube::Initialize` sets up and every operation keeps. -/
def WF (r : RubiksCube) : Prop :=
  r.cubes.length = 27 ∧ ∀ c ∈ r.cubes, c.faces.length = 6

instance (r : RubiksCube) : Decidable r.WF := by
  unfold WF
  exact inferInstance

/-- Two cube states carry the same colour on every face of every sub-cube. -/
def ColorsEq (r r' : RubiksCube) : Prop :=
  ∀ j g : Int, r'.getColor j g = r.getColor j g

/-- A slot (sub-cube index, face slot) that exists in a well-formed state. -/
def InRange (i f : Int) : Prop := 0 ≤ i ∧ i < 27 ∧ 0 ≤ f ∧ f < 6

instance (i f : Int) : Decidable (InRange i f) := by
  unfold InRange
  exact inferInstance

end RubiksCube

end rubiks

namespace rubiks

namespace RubiksCube

/-- The four slots of a queue entry all exist in a well-formed state. -/
def EntryInRange (e : SwapEntry) : Prop :=
  InRange e.e0 e.e1 ∧ InRange e.e2 e.e3 ∧ InRange e.e4 e.e5 ∧ InRange e.e6 e.e7

instance (e : SwapEntry) : Decidable (EntryInRange e) := by
  unfold EntryInRange
  exact inferInstance

/-- The layer coordinate that `RotateColors` and `RotateFace` use for the axis lies in
`[0, 3)`, the axis being one of `AXIS_X`, `AXIS_Y`, `AXIS_Z`. -/
def LayerOK (x y z axis : Int) : Prop :=
  (axis = AXIS_X ∧ 0 ≤ x ∧ x < 3) ∨ (axis = AXIS_Y ∧ 0 ≤ y ∧ y < 3) ∨
  (axis = AXIS_Z ∧ 0 ≤ z ∧ z < 3)

instance (x y z axis : Int) : Decidable (LayerOK x y z axis) := by
  unfold LayerOK
  exact inferInstance

/-- Where the colour found in slot `s` after four assignments `a0 := old b0`, ...,
`a3 := old b3` (made in this order, from colours read beforehand) was before them. -/
def src4 (a0 a1 a2 a3 b0 b1 b2 b3 : Int × Int) (s : Int × Int) : Int × Int :=
  if s = a3 then b3 else if s = a2 then b2 else if s = a1 then b1 else if s = a0 then b0 else s

/-- Source slot of the colour in slot `s` after `SwapFourColors90`. -/
def src90 (e : SwapEntry) (s : Int × Int) : Int × Int :=
  src4 (e.e0, e.e1) (e.e2, e.e3) (e.e4, e.e5) (e.e6, e.e7)
    (e.e2, e.e3) (e.e4, e.e5) (e.e6, e.e7) (e.e0, e.e1) s

/-- Source slot of the colour in slot `s` after `SwapFourColors180`. -/
def src180 (e : SwapEntry) (s : Int × Int) : Int × Int :=
  src4 (e.e0, e.e1) (e.e2, e.e3) (e.e4, e.e5) (e.e6, e.e7)
    (e.e4, e.e5) (e.e6, e.e7) (e.e0, e.e1) (e.e2, e.e3) s

/-- Source slot of the colour in slot `s` after `SwapFourColors270`. -/
def src270 (e : SwapEntry) (s : Int × Int) : Int × Int :=
  src4 (e.e0, e.e1) (e.e2, e.e3) (e.e4, e.e5) (e.e6, e.e7)
    (e.e6, e.e7) (e.e0, e.e1) (e.e2, e.e3) (e.e4, e.e5) s

/-- Source slot of the colour in slot `s` after one turn of the `while` loop. -/
def srcFront (degree : Int) (e : SwapEntry) (s : Int × Int) : Int × Int :=
  if degree = DEGREE_90 then src90 e s
  else if degree = DEGREE_180 then src180 e s
  else if degree = DEGREE_270 then src270 e s
  else s

/-- Source slot of the colour in slot `s` after the `while` loop has emptied the queue. -/
def srcLoop (degree : Int) : List SwapEntry → Int × Int → Int × Int
  | [], s => s
  | e :: es, s => srcFront degree e (srcLoop degree es s)

/-- Source slot of the colour in slot `s` after `RotateColors(x, y, z, axis, degree)`. -/
def rotSrc (x y z axis degree : Int) (s : Int × Int) : Int × Int :=
  srcLoop degree (swap_queues x y z axis) s

end RubiksCube

end rubiks

namespace rubiks

/-- The four (sub-cube index, face slot) pairs that a queue entry names. -/
def SwapEntry.slots (e : SwapEntry) : List (Int × Int) :=
  [(e.e0, e.e1), (e.e2, e.e3), (e.e4, e.e5), (e.e6, e.e7)]

/-- All the (sub-cube index, face slot) pairs that the entries of a queue name, in order. -/
def queueSlots (es : List SwapEntry) : List (Int × Int) := es.flatMap SwapEntry.slots

end rubiks

namespace rubiks

/-- A trigonometry parameter with constant values, for concrete instances: `sin` is 0 and
`cos` is 1 everywhere. -/
def Trig.flat : Trig := ⟨fun _ => 0, fun _ => 1⟩

/-- A concrete cube state: 27 sub-cubes built by `Cube::Initialize` in their rest
transforms, sub-cube `i` carrying the colour `6 * i + f` on face slot `f`, so that all 162
stickers are told apart. -/
def RubiksCube.sample : RubiksCube :=
  { cubes := (List.range 27).map (fun i =>
      { Cube.empty.Initialize with
        faces := (Cube.empty.Initialize.faces.enum).map
          (fun p => { p.2 with color := 6 * i + p.1 }),
        rotation := geometry.Identity,
        translation := RubiksCube.restTranslation (Int.ofNat i),
        scale := CUBE_SCALE }),
    global_rotation := geometry.Identity,
    global_translation := ⟨180, 180, 180⟩ }

end rubiks

namespace rubiks

namespace RubiksCube

/-- The colours of all faces of all sub-cubes, sub-cube after sub-cube in face-slot order. -/
def faceColors (r : RubiksCube) : List Nat :=
  r.cubes.flatMap (fun c => c.faces.map Quad.color)

/-- The 162 slots (sub-cube index, face slot) of a well-formed state, in storage order. -/
def allSlots : List (Int × Int) :=
  (List.range 27).flatMap (fun (i : Nat) =>
    (List.range 6).map (fun (f : Nat) => ((i : Int), (f : Int))))

/-- The colour read at a slot, 0 when the slot does not exist. -/
def colorAt (r : RubiksCube) (s : Int × Int) : Nat := (r.getColor s.1 s.2).getD 0

end RubiksCube

end rubiks

namespace rubiks

namespace RubiksCube

/-- Centred grid position of sub-cube `i`, as `RotateFace` and `InitializeFaceRotation` use
it: `Vec3D(x, y, z)` with `(x, y, z) = CubeIdToXYZ(i, -1)`. -/
def cubePos (i : Int) : Vec3D :=
  let xyz := CubeIdToXYZ i (-1)
  Vec3D.ofInts xyz.1 xyz.2.1 xyz.2.2

/-- Outward direction of a face slot, as named by `enum CubeFaceIndices`. -/
def faceDir (f : Int) : Int × Int × Int :=
  if f = FACE_Z_MINUS then (0, 0, -1)
  else if f = FACE_X_PLUS then (1, 0, 0)
  else if f = FACE_Z_PLUS then (0, 0, 1)
  else if f = FACE_X_MINUS then (-1, 0, 0)
  else if f = FACE_Y_PLUS then (0, 1, 0)
  else (0, -1, 0)

/-- Outward direction of a face slot as a vector. -/
def faceNormal (f : Int) : Vec3D :=
  Vec3D.ofInts (faceDir f).1 (faceDir f).2.1 (faceDir f).2.2

/-- The face `f` of sub-cube `i` lies on the outer shell of the puzzle: the centred
coordinate of the sub-cube along the face's axis equals the face's sign. -/
def onShell (i f : Int) : Prop := (cubePos i).Dot (faceNormal f) = 1

instance (i f : Int) : Decidable (onShell i f) := by
  unfold onShell
  exact inferInstance

/-- The rotation matrix that `RotateFace` uses for an axis. -/
def axisRotation (T : Trig) (axis : Int) (theta : ℚ) : Matrix3D :=
  if axis = AXIS_X then geometry.RotationX T theta
  else if axis = AXIS_Y then geometry.RotationY T theta
  else geometry.RotationZ T theta

/-- Zero-based grid coordinate of sub-cube `i` along an axis. -/
def layerCoord (axis i : Int) : Int :=
  if axis = AXIS_X then (CubeIdToXYZ i 0).1
  else if axis = AXIS_Y then (CubeIdToXYZ i 0).2.1
  else (CubeIdToXYZ i 0).2.2

/-- The layer coordinate that a call `(x, y, z, axis)` selects. -/
def selectedLayer (x y z axis : Int) : Int :=
  if axis = AXIS_X then x else if axis = AXIS_Y then y else z

/-- Integer form of the centred grid position. -/
def gridPos (i : Int) : Int × Int × Int := CubeIdToXYZ i (-1)

/-- The quarter turn about an axis on integer triples: `(x, -z, y)` about X, `(z, y, -x)`
about Y, `(-y, x, z)` about Z. -/
def quarterTurn (axis : Int) (p : Int × Int × Int) : Int × Int × Int :=
  if axis = AXIS_X then (p.1, -p.2.2, p.2.1)
  else if axis = AXIS_Y then (p.2.2, p.2.1, -p.1)
  else (-p.2.1, p.1, p.2.2)

/-- Index of the sub-cube at a centred grid position. -/
def idOfPos (p : Int × Int × Int) : Int := (p.1 + 1) + (p.2.1 + 1) * 3 + (p.2.2 + 1) * 9

/-- Face slot with a given outward direction. -/
def faceOfDir (n : Int × Int × Int) : Int :=
  if n = (0, 0, -1) then FACE_Z_MINUS
  else if n = (1, 0, 0) then FACE_X_PLUS
  else if n = (0, 0, 1) then FACE_Z_PLUS
  else if n = (-1, 0, 0) then FACE_X_MINUS
  else if n = (0, 1, 0) then FACE_Y_PLUS
  else FACE_Y_MINUS

/-- Integer form of `onShell`. -/
def onShellI (i f : Int) : Prop :=
  (gridPos i).1 * (faceDir f).1 + (gridPos i).2.1 * (faceDir f).2.1 +
    (gridPos i).2.2 * (faceDir f).2.2 = 1

instance (i f : Int) : Decidable (onShellI i f) := by
  unfold onShellI
  exact inferInstance

end RubiksCube

end rubiks

namespace rubiks

/-- A trigonometry parameter for concrete instances of the quarter turn: `sin` is 1 and
`cos` is 0 everywhere. -/
def Trig.quarter : Trig := ⟨fun _ => 1, fun _ => 0⟩

end rubiks

namespace rubiks

namespace RubiksCube

/-- The fixed colour of each side of the puzzle, by face slot, in the words of the
specification: Z- green, X+ red, Z+ blue, X- orange, Y+ yellow, Y- white. -/
def sideColor (f : Int) : Nat :=
  if f = 0 then COLOR_GREEN
  else if f = 1 then COLOR_RED
  else if f = 2 then COLOR_BLUE
  else if f = 3 then COLOR_ORANGE
  else if f = 4 then COLOR_YELLOW
  else COLOR_WHITE

/-- The face slot `f` of sub-cube `i` lies on the outer shell, in the words of the
specification: with `(x, y, z) = (i mod 3 - 1, (i / 3) mod 3 - 1, i / 9 - 1)`, Z- needs
`z = -1`, X+ needs `x = 1`, Z+ needs `z = 1`, X- needs `x = -1`, Y+ needs `y = 1`, Y- needs
`y = -1`. -/
def specOnShell (i f : Int) : Prop :=
  (f = 0 ∧ i / 9 - 1 = -1) ∨ (f = 1 ∧ i % 3 - 1 = 1) ∨ (f = 2 ∧ i / 9 - 1 = 1) ∨
  (f = 3 ∧ i % 3 - 1 = -1) ∨ (f = 4 ∧ i / 3 % 3 - 1 = 1) ∨ (f = 5 ∧ i / 3 % 3 - 1 = -1)

instance (i f : Int) : Decidable (specOnShell i f) := by
  unfold specOnShell
  exact inferInstance

/-- The colour that the specification gives to face slot `f` of sub-cube `i` after
initialisation. -/
def specInitialColor (i f : Int) : Nat :=
  if specOnShell i f then sideColor f else COLOR_BLACK

end RubiksCube

end rubiks

namespace rubiks

/-- The three grid coordinates of a queue entry are coordinates of a sub-cube, as for
every entry that `MouseHandler::UnClick` or `Scrambler::GenerateFaceRotation` builds. -/
def AnimationQueue.CoordsOK (q : AnimationQueue) : Prop :=
  (0 ≤ q.x ∧ q.x < 3) ∧ (0 ≤ q.y ∧ q.y < 3) ∧ (0 ≤ q.z ∧ q.z < 3)

instance (q : AnimationQueue) : Decidable q.CoordsOK := by
  unfold AnimationQueue.CoordsOK
  exact inferInstance

namespace RubiksCube

/-- Every sub-cube has the rest transform that `InitializeFaceRotation` sets: identity
rotation and translation `(x - 1, y - 1, z - 1) * CUBE_DISTANCE`, with `(x, y, z)` the
zero-based grid coordinates `CubeIdToXYZ(i, 0)` of the sub-cube. -/
def AtRest (r : RubiksCube) : Prop :=
  ∀ i : Int, 0 ≤ i → i < 27 → ∃ c, vecGet r.cubes i = some c ∧
    c.rotation = geometry.Identity ∧
    c.translation =
      (Vec3D.ofInts ((CubeIdToXYZ i 0).1 - 1) ((CubeIdToXYZ i 0).2.1 - 1)
        ((CubeIdToXYZ i 0).2.2 - 1)).smul CUBE_DISTANCE

end RubiksCube

end rubiks

namespace rubiks

namespace AnimationHandler

/-- The running angle that `Step` compares with `degree_end`: the angle of the handler, or
the entry's `degree_start` when the handler is not animating yet, advanced by the speed. -/
def advanced (h : AnimationHandler) (q : AnimationQueue) : ℚ :=
  (if h.IsAnimating then h.m_degree else q.degree_start) + q.speed

/-- A step is terminal for the front entry, in the words of the specification: its speed is
0, or the advanced running angle is `>= degree_end` with positive speed, or `<= degree_end`
with negative speed. -/
def Terminal (q : AnimationQueue) (angle : ℚ) : Prop :=
  q.speed = 0 ∨ (q.speed > 0 ∧ angle ≥ q.degree_end) ∨ (q.speed < 0 ∧ angle ≤ q.degree_end)

instance (q : AnimationQueue) (angle : ℚ) : Decidable (Terminal q angle) := by
  unfold Terminal
  exact inferInstance

end AnimationHandler

end rubiks

namespace rubiks

/-- A concrete queue entry: the quarter turn of the layer `x = 0` about X, from 0 to 90
degrees in steps of 15. -/
def AnimationQueue.sample : AnimationQueue :=
  { x := 0, y := 0, z := 0, axis := AXIS_X, rotation_type := DEGREE_90,
    degree_start := 0, degree_end := 90, speed := 15 }

/-- A concrete handler: freshly constructed on the sample cube state, with the sample entry
pushed. -/
def AnimationHandler.sample : AnimationHandler :=
  (AnimationHandler.new RubiksCube.sample).Push AnimationQueue.sample

/-- A concrete handler about to take its sixth step on the sample entry: the running angle
is 75 degrees. -/
def AnimationHandler.sampleLast : AnimationHandler :=
  { m_animation_queues := [AnimationQueue.sample], m_degree := 75,
    m_rubiks := RubiksCube.sample, m_is_animating := true }

namespace AnimationHandler

/-- The entry `q`, pushed onto an idle handler with an empty queue, is consumed on the
`n`-th step, in the words of the specification: `n = 1` if the speed is 0, and otherwise
`n` is the least positive integer with `degree_start + n * speed >= degree_end` for a
positive speed, or `<= degree_end` for a negative speed. -/
def ConsumedAt (q : AnimationQueue) (n : Nat) : Prop :=
  1 ≤ n ∧
  ((q.speed = 0 ∧ n = 1) ∨
   (q.speed > 0 ∧ q.degree_start + (n : ℚ) * q.speed ≥ q.degree_end ∧
      ∀ m : Nat, m < n → 1 ≤ m → ¬ (q.degree_start + (m : ℚ) * q.speed ≥ q.degree_end)) ∨
   (q.speed < 0 ∧ q.degree_start + (n : ℚ) * q.speed ≤ q.degree_end ∧
      ∀ m : Nat, m < n → 1 ≤ m → ¬ (q.degree_start + (m : ℚ) * q.speed ≤ q.degree_end)))

end AnimationHandler

end rubiks

namespace QuadModel

/-- The list `new_projected_vertices` that `Project` builds for a model. -/
def projectedVertices (m : QuadModel) (global_rotation : Matrix3D)
    (global_translation : Vec3D) : List Vec3D :=
  m.vertices.map (projectVertex m global_rotation global_translation)

/-- The projected position with index `i`; the zero vector when there is none. -/
def projectedAt (npv : List Vec3D) (i : Int) : Vec3D := (vecGet npv i).getD ⟨0, 0, 0⟩

/-- The z component of `(p2 - p1) x (p3 - p2)`, with `p1`, `p2`, `p3` the projected
positions of the face's `v1`, `v2`, `v3`. -/
def windingZ (npv : List Vec3D) (f : Quad) : ℚ :=
  (((projectedAt npv f.v2).sub (projectedAt npv f.v1)).Cross
    ((projectedAt npv f.v3).sub (projectedAt npv f.v2))).z

/-- The copy of a face that `Project` appends: depth set to the mean projected z of the four
vertices, indices rebased by `size`, colour kept. -/
def emittedFace (npv : List Vec3D) (size : Int) (f : Quad) : Quad :=
  { v1 := f.v1 + size, v2 := f.v2 + size, v3 := f.v3 + size, v4 := f.v4 + size,
    color := f.color,
    z := ((projectedAt npv f.v1).z + (projectedAt npv f.v2).z + (projectedAt npv f.v3).z +
          (projectedAt npv f.v4).z) / 4 }

/-- All four indices of a face refer to one of `n` vertices. -/
def ValidFace (n : Nat) (f : Quad) : Prop :=
  (0 ≤ f.v1 ∧ f.v1 < n) ∧ (0 ≤ f.v2 ∧ f.v2 < n) ∧ (0 ≤ f.v3 ∧ f.v3 < n) ∧
  (0 ≤ f.v4 ∧ f.v4 < n)

instance (n : Nat) (f : Quad) : Decidable (ValidFace n f) := by
  unfold ValidFace
  exact inferInstance

/-- Every face of the model has valid indices into the model's vertices. -/
def ValidFaces (m : QuadModel) : Prop := ∀ f ∈ m.faces, ValidFace m.vertices.length f

instance (m : QuadModel) : Decidable m.ValidFaces := by
  unfold ValidFaces
  exact inferInstance

end QuadModel

namespace rubiks

/-- An initialised cube with colours `colors`, identity local rotation, local translation
`t` and scale `s`: `Cube::Initialize` on a default-constructed cube, then the six colour
assignments of `Cube::SetColors`, then the three transform fields. -/
def Cube.placed (colors : Colors6) (t : Vec3D) (s : ℚ) : Cube :=
  { Cube.empty.Initialize with
    faces := setColorsFrom colors 0 Cube.empty.Initialize.faces,
    rotation := geometry.Identity, translation := t, scale := s }

/-- A concrete model: the initialised cube with the colours 1 to 6, at the origin, with
scale 1. -/
def Cube.sample : Cube := Cube.placed ⟨1, 2, 3, 4, 5, 6⟩ ⟨0, 0, 0⟩ 1

end rubiks

namespace rubiks

namespace RubiksCube

/-! ## Notions for the frame of `RotateFace` -/

/-- The indices `x + y * CUBE_NUM + z * CUBE_NUM * CUBE_NUM` that the two nested loops of
`RotateFace` visit, in the order of the visits. -/
def layerIds (x y z axis : Int) : List Int :=
  if axis = AXIS_X then
    (loopRange CUBE_NUM).flatMap (fun y =>
      (loopRange CUBE_NUM).map (fun z => x + y * CUBE_NUM + z * CUBE_NUM * CUBE_NUM))
  else if axis = AXIS_Y then
    (loopRange CUBE_NUM).flatMap (fun x =>
      (loopRange CUBE_NUM).map (fun z => x + y * CUBE_NUM + z * CUBE_NUM * CUBE_NUM))
  else
    (loopRange CUBE_NUM).flatMap (fun x =>
      (loopRange CUBE_NUM).map (fun y => x + y * CUBE_NUM + z * CUBE_NUM * CUBE_NUM))

/-- The sub-cube `cubes[j]` after the body of `RotateFace` for the axis and the angle, with
`(x, y, z) = CubeIdToXYZ(j, 0)` the grid coordinates of the sub-cube. -/
def turned (T : Trig) (axis : Int) (theta : ℚ) (j : Int) (cube : Cube) : Cube :=
  let g := CubeIdToXYZ j 0
  if axis = AXIS_X then
    { cube with
        rotation := geometry.RotationX T theta,
        translation := (((geometry.RotationX T theta).mulVec
          (Vec3D.ofInts 0 (g.2.1 - 1) (g.2.2 - 1))).add
            (Vec3D.ofInts (g.1 - 1) 0 0)).smul CUBE_DISTANCE }
  else if axis = AXIS_Y then
    { cube with
        rotation := geometry.RotationY T theta,
        translation := (((geometry.RotationY T theta).mulVec
          (Vec3D.ofInts (g.1 - 1) 0 (g.2.2 - 1))).add
            (Vec3D.ofInts 0 (g.2.1 - 1) 0)).smul CUBE_DISTANCE }
  else
    { cube with
        rotation := geometry.RotationZ T theta,
        translation := (((geometry.RotationZ T theta).mulVec
          (Vec3D.ofInts (g.1 - 1) (g.2.1 - 1) 0)).add
            (Vec3D.ofInts 0 0 (g.2.2 - 1))).smul CUBE_DISTANCE }

/-- The rest position `(x - 1, y - 1, z - 1) * CUBE_DISTANCE` of sub-cube `j`, with
`(x, y, z) = CubeIdToXYZ(j, 0)`. -/
def restPosition (j : Int) : Vec3D :=
  (Vec3D.ofInts ((CubeIdToXYZ j 0).1 - 1) ((CubeIdToXYZ j 0).2.1 - 1)
    ((CubeIdToXYZ j 0).2.2 - 1)).smul CUBE_DISTANCE

/-- The sub-cube indices `0 .. 26` whose grid coordinate along the axis is `s`. -/
def layerOf (axis s : Int) : List Int :=
  (loopRange 27).filter (fun j => decide (layerCoord axis j = s))

end RubiksCube

end rubiks

/-! ## Depth sort and the projection of the whole puzzle -/

/-- The requirement that the C++ standard makes of the comparison passed to `std::sort`: a
strict weak ordering, that is an irreflexive and transitive relation whose incomparability
is transitive. -/
def StrictWeakOrder {α : Type} (comp : α → α → Bool) : Prop :=
  (∀ a, comp a a = false) ∧
  (∀ a b c, comp a b = true → comp b c = true → comp a c = true) ∧
  (∀ a b c, comp a b = false → comp b a = false → comp b c = false → comp c b = false →
    comp a c = false ∧ comp c a = false)

/-- The contract of `std::sort` on a `std::vector<Quad>`, for a function `sort` that stands
for it: with a strict weak ordering `comp`, the result is a permutation of the input in
which no element is ordered by `comp` before an element that precedes it. The standard
leaves the order of equivalent elements open, and so does the contract. -/
def StdSortContract (sort : (Quad → Quad → Bool) → List Quad → List Quad) : Prop :=
  ∀ comp l, StrictWeakOrder comp →
    (sort comp l).Perm l ∧ (sort comp l).Pairwise (fun a b => comp b a = false)

/-- A sorting function that meets the contract of `std::sort`, for concrete instances:
insertion sort. -/
def insertionStdSort (comp : Quad → Quad → Bool) (l : List Quad) : List Quad :=
  l.insertionSort (fun a b => comp b a = false)

namespace geometry

/-- The function `geometry::CompDepth`. -/
def CompDepth (q1 q2 : Quad) : Bool := decide (q1.z > q2.z)

/-- The function `geometry::Zsort`, over a function `sort` standing for `std::sort`. -/
def Zsort (sort : (Quad → Quad → Bool) → List Quad → List Quad) (visible_faces : List Quad) :
    List Quad :=
  sort CompDepth visible_faces

end geometry

namespace rubiks

namespace RubiksCube

/-- The loop `for (Cube& c : cubes) c.Project(...)` of `RubiksCube::Project`, over the
sub-cubes that remain. -/
def projectLoop (global_rotation : Matrix3D) (global_translation : Vec3D) :
    List Cube → List Vec3D → List Quad → Option (List Vec3D × List Quad)
  | [], projected_vertices, visible_faces => some (projected_vertices, visible_faces)
  | c :: cs, projected_vertices, visible_faces =>
    (c.Project global_rotation global_translation projected_vertices visible_faces).bind
      (fun p => projectLoop global_rotation global_translation cs p.1 p.2)

/-- The method `RubiksCube::Project`, over a function `sort` standing for `std::sort`; the
two output vectors are passed in and returned. -/
def Project (sort : (Quad → Quad → Bool) → List Quad → List Quad) (r : RubiksCube)
    (projected_vertices : List Vec3D) (visible_faces : List Quad) :
    Option (List Vec3D × List Quad) :=
  (projectLoop r.global_rotation r.global_translation r.cubes projected_vertices
    visible_faces).bind (fun p => some (p.1, geometry.Zsort sort p.2))

/-- The geometry of a cube state is well formed when it has 27 sub-cubes, each with 8
vertices and with faces whose indices are valid, which is what `RubiksCube::Initialize`
sets up and no operation changes. -/
def GeomWF (r : RubiksCube) : Prop :=
  r.cubes.length = 27 ∧ ∀ c ∈ r.cubes, c.vertices.length = 8 ∧ QuadModel.ValidFaces c

instance (r : RubiksCube) : Decidable r.GeomWF := by
  unfold GeomWF
  exact inferInstance

end RubiksCube

end rubiks

/-- Three faces with the depths 1, 3 and 2. -/
def Quad.sampleFaces : List Quad :=
  [⟨0, 1, 2, 3, 0, 1⟩, ⟨4, 5, 6, 7, 0, 3⟩, ⟨8, 9, 10, 11, 0, 2⟩]

/-! ## rubiks_handler.hpp: `MouseHandler` -/

namespace rubiks

/-- The function `Sign`: the difference of the two comparisons, each converted to 0 or 1. -/
def Sign (x : ℚ) : ℚ := (if x > 0 then 1 else 0) - (if x < 0 then 1 else 0)

/-- Truncation towards zero: the integer part that the conversion `int(double)` and
`std::fmod` use. -/
def truncate (x : ℚ) : Int := if 0 ≤ x then ⌊x⌋ else ⌈x⌉

/-- Division of doubles by a divisor that the code does not test: `none` stands for the
result of a division by zero, which under IEEE 754 is an infinity or a NaN. -/
def divDouble (a b : ℚ) : Option ℚ := if b = 0 then none else some (a / b)

/-- The function `std::fmod` for a nonzero divisor: `x - trunc(x / y) * y`. -/
def fmod (x y : ℚ) : ℚ := x - (truncate (x / y) : ℚ) * y

abbrev MOUSE_STATE_IDLE : Int := 0
abbrev MOUSE_STATE_ROTATE_VIEW : Int := 1
abbrev MOUSE_STATE_SELECE_AXIS : Int := 2
abbrev MOUSE_STATE_ROTATE_FACE : Int := 3

/-- The fields of `class MouseHandler`. The two pointers `m_rubiks` and
`m_animation_handler` are set up in `main.cpp` so that `m_rubiks` is the cube state of the
animation handler; the model holds the handler, and the cube state inside it. -/
structure MouseHandler where
  m_animation_handler : AnimationHandler
  m_state : Int
  m_old_mouse_pos : Vec3D
  m_clicked_cube : Int
  m_clicked_axis : Int
  m_clicked_pos : Vec3D
  m_rotation_axis : Int
  m_rotation_center : Vec3D
  m_rotation_theta : ℚ
  deriving DecidableEq, Repr

namespace MouseHandler

/-- The pointee of `m_rubiks`. -/
def m_rubiks (m : MouseHandler) : RubiksCube := m.m_animation_handler.m_rubiks

/-- The method `MouseHandler::InitializeState`. -/
def InitializeState (m : MouseHandler) : MouseHandler :=
  { m with m_state := MOUSE_STATE_IDLE, m_clicked_cube := -1, m_rotation_theta := 0 }

/-- The constructor `MouseHandler(rubiks, handler)`; the fields that C++ leaves
uninitialised are given as zero. -/
def new (handler : AnimationHandler) : MouseHandler :=
  InitializeState
    { m_animation_handler := handler, m_state := 0, m_old_mouse_pos := ⟨0, 0, 0⟩,
      m_clicked_cube := 0, m_clicked_axis := 0, m_clicked_pos := ⟨0, 0, 0⟩,
      m_rotation_axis := 0, m_rotation_center := ⟨0, 0, 0⟩, m_rotation_theta := 0 }

/-- First block of `MouseHandler::Click`, the test of the X faces: `some` is the state at
the `return` of the block, `none` means that the block is left without a hit. When the
division gives no finite `t`, every component of `intersection` is an infinity or a NaN,
and both comparisons `std::abs(...) < RUBIKS_SIZE` are false. -/
def clickX (m : MouseHandler) (ray_pos ray_vec : Vec3D) : Option MouseHandler :=
  if |ray_pos.x| > RUBIKS_SIZE then
    let sign_x := Sign ray_pos.x
    match divDouble (sign_x * RUBIKS_SIZE - ray_pos.x) ray_vec.x with
    | none => none
    | some t =>
      let intersection := ray_pos.add (ray_vec.smul t)
      if |intersection.y| < RUBIKS_SIZE ∧ |intersection.z| < RUBIKS_SIZE then
        let x := truncate (sign_x + 1)
        let y := truncate ((intersection.y + RUBIKS_SIZE) / CUBE_DISTANCE)
        let z := truncate ((intersection.z + RUBIKS_SIZE) / CUBE_DISTANCE)
        some { m with m_clicked_cube := x + y * CUBE_NUM + z * CUBE_NUM * CUBE_NUM,
                      m_clicked_axis := AXIS_X,
                      m_clicked_pos := intersection,
                      m_state := MOUSE_STATE_SELECE_AXIS }
      else none
  else none

/-- Second block of `MouseHandler::Click`, the test of the Y faces. -/
def clickY (m : MouseHandler) (ray_pos ray_vec : Vec3D) : Option MouseHandler :=
  if |ray_pos.y| > RUBIKS_SIZE then
    let sign_y := Sign ray_pos.y
    match divDouble (sign_y * RUBIKS_SIZE - ray_pos.y) ray_vec.y with
    | none => none
    | some t =>
      let intersection := ray_pos.add (ray_vec.smul t)
      if |intersection.x| < RUBIKS_SIZE ∧ |intersection.z| < RUBIKS_SIZE then
        let x := truncate ((intersection.x + RUBIKS_SIZE) / CUBE_DISTANCE)
        let y := truncate (sign_y + 1)
        let z := truncate ((intersection.z + RUBIKS_SIZE) / CUBE_DISTANCE)
        some { m with m_clicked_cube := x + y * CUBE_NUM + z * CUBE_NUM * CUBE_NUM,
                      m_clicked_axis := AXIS_Y,
                      m_clicked_pos := intersection,
                      m_state := MOUSE_STATE_SELECE_AXIS }
      else none
  else none

/-- Third block of `MouseHandler::Click`, the test of the Z faces. -/
def clickZ (m : MouseHandler) (ray_pos ray_vec : Vec3D) : Option MouseHandler :=
  if |ray_pos.z| > RUBIKS_SIZE then
    let sign_z := Sign ray_pos.z
    match divDouble (sign_z * RUBIKS_SIZE - ray_pos.z) ray_vec.z with
    | none => none
    | some t =>
      let intersection := ray_pos.add (ray_vec.smul t)
      if |intersection.x| < RUBIKS_SIZE ∧ |intersection.y| < RUBIKS_SIZE then
        let x := truncate ((intersection.x + RUBIKS_SIZE) / CUBE_DISTANCE)
        let y := truncate ((intersection.y + RUBIKS_SIZE) / CUBE_DISTANCE)
        let z := truncate (sign_z + 1)
        some { m with m_clicked_cube := x + y * CUBE_NUM + z * CUBE_NUM * CUBE_NUM,
                      m_clicked_axis := AXIS_Z,
                      m_clicked_pos := intersection,
                      m_state := MOUSE_STATE_SELECE_AXIS }
      else none
  else none

/-- The local `ray_pos` of `Click`: the pointer position moved into the puzzle's frame. -/
def rayPos (m : MouseHandler) (mouse_pos : Vec3D) : Vec3D :=
  m.m_rubiks.global_rotation.Transpose.mulVec (mouse_pos.sub m.m_rubiks.global_translation)

/-- The local `ray_vec` of `Click`: the viewing direction in the puzzle's frame. -/
def rayVec (m : MouseHandler) : Vec3D :=
  m.m_rubiks.global_rotation.Transpose.mulVec ⟨0, 0, 1⟩

/-- The local `intersection` of the X block of `Click`, for a finite `t`. -/
def hitX (ray_pos ray_vec : Vec3D) : Vec3D :=
  ray_pos.add (ray_vec.smul ((Sign ray_pos.x * RUBIKS_SIZE - ray_pos.x) / ray_vec.x))

/-- The local `intersection` of the Y block of `Click`, for a finite `t`. -/
def hitY (ray_pos ray_vec : Vec3D) : Vec3D :=
  ray_pos.add (ray_vec.smul ((Sign ray_pos.y * RUBIKS_SIZE - ray_pos.y) / ray_vec.y))

/-- The local `intersection` of the Z block of `Click`, for a finite `t`. -/
def hitZ (ray_pos ray_vec : Vec3D) : Vec3D :=
  ray_pos.add (ray_vec.smul ((Sign ray_pos.z * RUBIKS_SIZE - ray_pos.z) / ray_vec.z))

/-- The method `MouseHandler::Click`. -/
def Click (m : MouseHandler) (mouse_pos : Vec3D) : MouseHandler :=
  let ray_pos := m.rayPos mouse_pos
  let ray_vec := m.rayVec
  match clickX m ray_pos ray_vec with
  | some m' => m'
  | none =>
    match clickY m ray_pos ray_vec with
    | some m' => m'
    | none =>
      match clickZ m ray_pos ray_vec with
      | some m' => m'
      | none => { m with m_state := MOUSE_STATE_ROTATE_VIEW }

/-- The angle of `UnClick` after `m_rotation_theta *= 180 / RUBIKS_PI` and
`m_rotation_theta = std::fmod(std::fmod(m_rotation_theta, 360) + 360, 360)`. -/
def normalizedTheta (theta : ℚ) : ℚ :=
  fmod (fmod (theta * (180 / RUBIKS_PI)) 360 + 360) 360

/-- The local `rotation_type` of `UnClick`, from the normalised angle. -/
def snapType (theta : ℚ) : Int :=
  if theta > 45 ∧ theta ≤ 135 then DEGREE_90
  else if theta > 135 ∧ theta ≤ 225 then DEGREE_180
  else if theta > 225 ∧ theta ≤ 315 then DEGREE_270
  else DEGREE_0

/-- The local `queue` of `UnClick` at the test `queue.speed != 0`. -/
def unclickQueue (m : MouseHandler) : AnimationQueue :=
  let xyz := CubeIdToXYZ m.m_clicked_cube 0
  let theta := normalizedTheta m.m_rotation_theta
  let rotation_type := snapType theta
  let degree_start := theta
  let degree_end : ℚ := ((rotation_type * 90 : Int) : ℚ)
  let degree_start' :=
    if degree_end - degree_start > 180 then degree_start + 360 else degree_start
  let degree_end' :=
    if degree_end - degree_start > 180 then degree_end
    else if degree_start - degree_end > 180 then degree_end + 360 else degree_end
  { x := xyz.1, y := xyz.2.1, z := xyz.2.2, axis := m.m_rotation_axis,
    rotation_type := rotation_type,
    degree_start := degree_start', degree_end := degree_end',
    speed := (degree_end' - degree_start') / 5 }

/-- The method `MouseHandler::UnClick`. -/
def UnClick (m : MouseHandler) : MouseHandler :=
  let m :=
    if m.m_state = MOUSE_STATE_ROTATE_FACE then
      let queue := unclickQueue m
      let m := { m with m_rotation_theta := normalizedTheta m.m_rotation_theta }
      if queue.speed ≠ 0 then
        { m with m_animation_handler := m.m_animation_handler.Push queue }
      else m
    else m
  m.InitializeState

end MouseHandler

end rubiks

namespace rubiks

/-- A concrete mouse handler: freshly constructed over a fresh animation handler on the
sample cube state, whose view looks along the puzzle's Z axis. -/
def MouseHandler.sample : MouseHandler :=
  MouseHandler.new (AnimationHandler.new RubiksCube.sample)

/-- A concrete mouse handler whose view looks along the puzzle's X axis: the global
rotation is a quarter turn about Y. -/
def MouseHandler.sampleSide : MouseHandler :=
  MouseHandler.new (AnimationHandler.new
    { RubiksCube.sample with global_rotation := geometry.RotationY Trig.quarter 0 })

end rubiks

namespace rubiks

/-- The distance on the circle of 360 degrees between two angles less than 360 apart. -/
def circDist (a b : ℚ) : ℚ := min |a - b| (360 - |a - b|)

/-- A concrete mouse handler in the middle of a face drag: state
`MOUSE_STATE_ROTATE_FACE`, clicked sub-cube 14, rotation axis Z, and an accumulated angle
of 50 degrees, in radians. -/
def MouseHandler.sampleDrag : MouseHandler :=
  { MouseHandler.sample with
      m_state := MOUSE_STATE_ROTATE_FACE, m_clicked_cube := 14, m_clicked_axis := AXIS_X,
      m_rotation_axis := AXIS_Z, m_rotation_theta := 50 * RUBIKS_PI / 180 }

end rubiks

namespace rubiks

namespace MouseHandler

/-- The method `MouseHandler::RotateFace`. The divisor of the division that gives `t` is not
tested by the code; `none` stands for a `t` that is not finite, which the model does not
follow further, and for an out-of-range access inside `RubiksCube::RotateFace`. The
assignments to the components of the local `intersection` in the first branch have no
effect after the cross product is taken. -/
def RotateFace (T : Trig) (m : MouseHandler) (mouse_pos : Vec3D) : Option MouseHandler :=
  let ray_pos := m.rayPos mouse_pos
  let ray_vec := m.rayVec
  let xyz := CubeIdToXYZ m.m_clicked_cube 0
  let x := xyz.1
  let y := xyz.2.1
  let z := xyz.2.2
  let t :=
    if m.m_clicked_axis = AXIS_X then
      divDouble (Sign ((x - 1 : Int) : ℚ) * RUBIKS_SIZE - ray_pos.x) ray_vec.x
    else if m.m_clicked_axis = AXIS_Y then
      divDouble (Sign ((y - 1 : Int) : ℚ) * RUBIKS_SIZE - ray_pos.y) ray_vec.y
    else
      divDouble (Sign ((z - 1 : Int) : ℚ) * RUBIKS_SIZE - ray_pos.z) ray_vec.z
  t.bind (fun t =>
    let intersection := ray_pos.add (ray_vec.smul t)
    if m.m_state = MOUSE_STATE_ROTATE_FACE then
      let cross_prod :=
        (m.m_clicked_pos.sub m.m_rotation_center).Cross (intersection.sub m.m_rotation_center)
      let theta :=
        if m.m_rotation_axis = AXIS_X then cross_prod.x
        else if m.m_rotation_axis = AXIS_Y then cross_prod.y
        else if m.m_rotation_axis = AXIS_Z then cross_prod.z
        else m.m_rotation_theta
      let theta := theta * (GROBAL_ROTATION_SPEED / RUBIKS_SIZE)
      (m.m_rubiks.RotateFace T x y z m.m_rotation_axis theta).bind (fun r =>
        some { m with m_rotation_theta := theta,
                      m_animation_handler := { m.m_animation_handler with m_rubiks := r } })
    else
      let diff := (m.m_clicked_pos.sub intersection).Abs
      let rotation_axis :=
        if m.m_clicked_axis = AXIS_X then
          if diff.y > DRAG_THRESHOLD ∧ diff.y > diff.z then AXIS_Z
          else if diff.z > DRAG_THRESHOLD then AXIS_Y
          else AXIS_NONE
        else if m.m_clicked_axis = AXIS_Y then
          if diff.z > DRAG_THRESHOLD ∧ diff.z > diff.x then AXIS_X
          else if diff.x > DRAG_THRESHOLD then AXIS_Z
          else AXIS_NONE
        else if m.m_clicked_axis = AXIS_Z then
          if diff.x > DRAG_THRESHOLD ∧ diff.x > diff.y then AXIS_Y
          else if diff.y > DRAG_THRESHOLD then AXIS_X
          else AXIS_NONE
        else AXIS_NONE
      let rotation_center :=
        if rotation_axis = AXIS_X then ⟨intersection.x, 0, 0⟩
        else if rotation_axis = AXIS_Y then ⟨0, intersection.y, 0⟩
        else if rotation_axis = AXIS_Z then ⟨0, 0, intersection.z⟩
        else m.m_rotation_center
      some { m with m_rotation_axis := rotation_axis,
                    m_rotation_center := rotation_center,
                    m_state := if rotation_axis ≠ AXIS_NONE then MOUSE_STATE_ROTATE_FACE
                               else m.m_state })

/-- The handler states of a concrete drag on the sample handler: the button goes down at
`(260, 180)`, on the face `z = -RUBIKS_SIZE` of sub-cube 5; the pointer moves to
`(240, 180)`, which selects the rotation axis Y; and then to `(80, 180)`, 180 units left of
the click. -/
def sampleClicked : MouseHandler := sample.Click ⟨260, 180, 0⟩

/-- The state after the first pointer move of the concrete drag: the rotation axis is Y,
the pivot is the origin, and the state is `MOUSE_STATE_ROTATE_FACE`. -/
def sampleSelected : MouseHandler :=
  { sample with m_clicked_cube := 5, m_clicked_axis := AXIS_Z,
                m_clicked_pos := ⟨80, 0, -90⟩,
                m_rotation_axis := AXIS_Y, m_rotation_center := ⟨0, 0, 0⟩,
                m_state := MOUSE_STATE_ROTATE_FACE }

/-- The state of the concrete drag after the second pointer position; `none` when a call
fails. -/
def sampleDragged (T : Trig) : Option MouseHandler :=
  (sampleClicked.RotateFace T ⟨240, 180, 0⟩).bind (fun m => m.RotateFace T ⟨80, 180, 0⟩)

end MouseHandler

end rubiks

/-! ## rubiks_handler.hpp: `Scrambler` -/

namespace rubiks

/-- The state of `class Scrambler`: the generator `rng`. The engine `std::mt19937` is library
code, taken as a parameter: `rng n` is the value that the `n`-th next call `rng()` returns,
and `bits` is the width of its result type `uint_fast32_t`, which the implementation
chooses. -/
structure Scrambler where
  rng : Nat → Nat
  bits : Nat

namespace Scrambler

/-- One call `rng()`: the value returned, and the generator after the call. -/
def draw (s : Scrambler) : Nat × Scrambler :=
  (s.rng 0, { s with rng := fun n => s.rng (n + 1) })

/-- The method `Scrambler::GenerateFaceRotation`: the entry returned, and the scrambler
after the call. The sums `rng() + 3` are taken in the unsigned result type, modulo
`2 ^ bits`. -/
def GenerateFaceRotation (s : Scrambler) : AnimationQueue × Scrambler :=
  let d := s.draw
  let s := d.2
  let axis : Int := (((d.1 + 3) % 2 ^ s.bits % 3 + 1 : Nat) : Int)
  let x : Int := 0
  let y : Int := 0
  let z : Int := 0
  let c :=
    if axis = AXIS_X then
      let d := s.draw
      ((((d.1 % 3 : Nat) : Int), y, z), d.2)
    else if axis = AXIS_Y then
      let d := s.draw
      ((x, ((d.1 % 3 : Nat) : Int), z), d.2)
    else if axis = AXIS_Z then
      let d := s.draw
      ((x, y, ((d.1 % 3 : Nat) : Int)), d.2)
    else ((x, y, z), s)
  let s := c.2
  let d := s.draw
  let s := d.2
  let rotation_type : Int := (((d.1 + 3) % 2 ^ s.bits % 3 + 1 : Nat) : Int)
  let degree_start : ℚ := if rotation_type = DEGREE_270 then 360 else 0
  let speed : ℚ := if rotation_type = DEGREE_270 then -15 else 15
  ({ x := c.1.1, y := c.1.2.1, z := c.1.2.2, axis := axis,
     rotation_type := rotation_type,
     degree_start := degree_start,
     degree_end := ((rotation_type * 90 : Int) : ℚ),
     speed := speed }, s)

/-- A concrete scrambler: the generator returns 4, 5, 2, 7, 8, 9, ... and the result type
has 32 bits. -/
def sample : Scrambler := { rng := fun n => if n = 2 then 2 else n + 4, bits := 32 }

end Scrambler

end rubiks

/-! ## Notions for the view rotation -/

/-- The determinant of a matrix. -/
def Matrix3D.det (a : Matrix3D) : ℚ :=
  a.m11 * (a.m22 * a.m33 - a.m23 * a.m32) - a.m12 * (a.m21 * a.m33 - a.m23 * a.m31) +
  a.m13 * (a.m21 * a.m32 - a.m22 * a.m31)

/-- A matrix is orthogonal when the product with its transpose, on either side, is the
identity. -/
def Matrix3D.Orthogonal (a : Matrix3D) : Prop :=
  a.mul a.Transpose = geometry.Identity ∧ a.Transpose.mul a = geometry.Identity

instance (a : Matrix3D) : Decidable a.Orthogonal := by
  unfold Matrix3D.Orthogonal
  exact inferInstance

/-- The identity `sin^2 + cos^2 = 1`, which the sine and the cosine satisfy on the reals;
values of type `double` satisfy it only at the four points of the axes. -/
def Trig.Pythagorean (T : Trig) : Prop := ∀ theta : ℚ, T.sin theta ^ 2 + T.cos theta ^ 2 = 1

namespace rubiks

/-- The cube states reachable from `RubiksCube::Initialize` on a fresh object by calls of
`InitializeGlobalRotation` and `GlobalRotate`, in exact arithmetic. -/
inductive RubiksCube.ViewReachable (T : Trig) : RubiksCube → Prop
  | init (r : RubiksCube) (h : RubiksCube.Initialize T RubiksCube.empty = some r) :
      RubiksCube.ViewReachable T r
  | reset (r : RubiksCube) (h : RubiksCube.ViewReachable T r) :
      RubiksCube.ViewReachable T (r.InitializeGlobalRotation T)
  | rotate (r : RubiksCube) (delta : Vec3D) (h : RubiksCube.ViewReachable T r) :
      RubiksCube.ViewReachable T (r.GlobalRotate T delta)

/-- A trigonometry parameter with rational values on the unit circle, for concrete
instances: `sin` is 3/5 and `cos` is 4/5 everywhere. -/
def Trig.pythagorean : Trig := ⟨fun _ => 3 / 5, fun _ => 4 / 5⟩

end rubiks

namespace rubiks

namespace MouseHandler

/-! ## Notions for the drag of `MouseHandler::RotateFace` -/

/-- The local `t` of `MouseHandler::RotateFace`; `none` when it is not finite. -/
def dragT (m : MouseHandler) (mouse_pos : Vec3D) : Option ℚ :=
  if m.m_clicked_axis = AXIS_X then
    divDouble (Sign (((CubeIdToXYZ m.m_clicked_cube 0).1 - 1 : Int) : ℚ) * RUBIKS_SIZE -
      (m.rayPos mouse_pos).x) m.rayVec.x
  else if m.m_clicked_axis = AXIS_Y then
    divDouble (Sign (((CubeIdToXYZ m.m_clicked_cube 0).2.1 - 1 : Int) : ℚ) * RUBIKS_SIZE -
      (m.rayPos mouse_pos).y) m.rayVec.y
  else
    divDouble (Sign (((CubeIdToXYZ m.m_clicked_cube 0).2.2 - 1 : Int) : ℚ) * RUBIKS_SIZE -
      (m.rayPos mouse_pos).z) m.rayVec.z

/-- The local `intersection` of `MouseHandler::RotateFace`: the point where the pointer ray
meets the plane of the clicked face. -/
def dragPoint (m : MouseHandler) (mouse_pos : Vec3D) : Option Vec3D :=
  (m.dragT mouse_pos).bind (fun t => some ((m.rayPos mouse_pos).add (m.rayVec.smul t)))

/-- The absolute displacements `(du, dv)` between the click point and the current
intersection along the two axes orthogonal to the normal of the clicked face: `(y, z)` for
a clicked X face, `(z, x)` for Y, `(x, y)` for Z. -/
def dragUV (clicked_axis : Int) (diff : Vec3D) : ℚ × ℚ :=
  if clicked_axis = AXIS_X then (diff.y, diff.z)
  else if clicked_axis = AXIS_Y then (diff.z, diff.x)
  else (diff.x, diff.y)

/-- The axis of the first displacement of `dragUV`. -/
def uAxis (clicked_axis : Int) : Int :=
  if clicked_axis = AXIS_X then AXIS_Y else if clicked_axis = AXIS_Y then AXIS_Z else AXIS_X

/-- The axis of the second displacement of `dragUV`. -/
def vAxis (clicked_axis : Int) : Int :=
  if clicked_axis = AXIS_X then AXIS_Z else if clicked_axis = AXIS_Y then AXIS_X else AXIS_Y

/-- The component of a vector along an axis. -/
def axisComponent (axis : Int) (v : Vec3D) : ℚ :=
  if axis = AXIS_X then v.x else if axis = AXIS_Y then v.y else v.z

/-- A concrete mouse handler in the middle of a drag on the face `x = +90`: the view looks
along the puzzle's X axis, sub-cube 14 was clicked at `(90, -30, 20)`, and the rotation
axis is Z with the pivot `(0, 0, 20)`. -/
def sampleSideDrag : MouseHandler :=
  { sampleSide with
      m_state := MOUSE_STATE_ROTATE_FACE, m_clicked_cube := 14, m_clicked_axis := AXIS_X,
      m_clicked_pos := ⟨90, -30, 20⟩, m_rotation_axis := AXIS_Z,
      m_rotation_center := ⟨0, 0, 20⟩ }

end MouseHandler

end rubiks

/-- The comparison `Length() < c` of `Vec3D::Length`, for `c >= 0`. `Length()` is
`std::sqrt(Dot(*this))`; the square root is library code with irrational values, and the
comparison holds exactly when `Dot(*this) < c * c`. -/
def Vec3D.LengthLt (a : Vec3D) (c : ℚ) : Prop := a.Dot a < c * c

instance (a : Vec3D) (c : ℚ) : Decidable (a.LengthLt c) := by
  unfold Vec3D.LengthLt
  exact inferInstance

namespace rubiks

namespace MouseHandler

/-- The method `MouseHandler::Step`: the returned flag and the handler after the call;
`none` when the call of `RotateFace` gives `none`. -/
def Step (T : Trig) (m : MouseHandler) (mouse_pos : Vec3D) (down up : Int) :
    Option (Int × MouseHandler) :=
  if down ≠ 0 ∧ m.m_state = MOUSE_STATE_IDLE then
    some (1, ({ m with m_old_mouse_pos := mouse_pos }).Click mouse_pos)
  else if up ≠ 0 ∧ m.m_state ≠ MOUSE_STATE_IDLE then
    some (1, m.UnClick)
  else if m.m_state = MOUSE_STATE_IDLE then
    some (0, m)
  else if m.m_state = MOUSE_STATE_SELECE_AXIS ∨ m.m_state = MOUSE_STATE_ROTATE_FACE then
    (m.RotateFace T mouse_pos).bind (fun m' => some (1, m'))
  else
    let diff := mouse_pos.sub m.m_old_mouse_pos
    if diff.LengthLt 1 then
      some (0, m)
    else
      some (1, { m with
        m_animation_handler :=
          { m.m_animation_handler with m_rubiks := m.m_rubiks.GlobalRotate T diff },
        m_old_mouse_pos := mouse_pos })

/-- A concrete mouse handler that rotates the view: state `MOUSE_STATE_ROTATE_VIEW`, last
pointer position `(10, 10, 0)`. -/
def sampleView : MouseHandler :=
  { sample with m_state := MOUSE_STATE_ROTATE_VIEW, m_old_mouse_pos := ⟨10, 10, 0⟩ }

end MouseHandler

end rubiks

namespace rubiks

/-- The vertices of the model at the four indices of its face slot `k`, in the order
`v1, v2, v3, v4`; `none` when the slot or one of the indices is out of range. -/
def Cube.faceVertices (c : Cube) (k : Int) : Option (List Vec3D) := do
  let f ← vecGet c.faces k
  let p1 ← vecGet c.vertices f.v1
  let p2 ← vecGet c.vertices f.v2
  let p3 ← vecGet c.vertices f.v3
  let p4 ← vecGet c.vertices f.v4
  pure [p1, p2, p3, p4]

end rubiks

namespace rubiks

namespace RubiksCube

/-- The face slot `f` is one of the two faces across the axis (the lateral faces of a
layer): the quarter turn about the axis keeps its outward direction. -/
def lateralFace (axis f : Int) : Prop := quarterTurn axis (faceDir f) = faceDir f

instance (axis f : Int) : Decidable (lateralFace axis f) := by
  unfold lateralFace
  exact inferInstance

/-- A perimeter group of `swap_queues`: none of its four slots is on a lateral face. -/
def perimeterGroup (axis : Int) (e : SwapEntry) : Prop :=
  ∀ s ∈ e.slots, ¬ lateralFace axis s.2

instance (axis : Int) (e : SwapEntry) : Decidable (perimeterGroup axis e) := by
  unfold perimeterGroup
  exact inferInstance

/-- A lateral group of `swap_queues`: its four slots are on one and the same lateral face. -/
def lateralGroup (axis : Int) (e : SwapEntry) : Prop :=
  lateralFace axis e.e1 ∧ e.e3 = e.e1 ∧ e.e5 = e.e1 ∧ e.e7 = e.e1

instance (axis : Int) (e : SwapEntry) : Decidable (lateralGroup axis e) := by
  unfold lateralGroup
  exact inferInstance

end RubiksCube

end rubiks

namespace rubiks

namespace AnimationHandler

/-- The handler states that the public interface produces: a freshly constructed handler,
then any sequence of `Push`, `Step` and `ClearAnimations` calls. The cube behind the pointer
`m_rubiks` has other users, so it may change between the calls. -/
inductive Reachable (T : Trig) : AnimationHandler → Prop
  | fresh (rubiks : RubiksCube) : Reachable T (new rubiks)
  | push (h : AnimationHandler) (q : AnimationQueue) : Reachable T h → Reachable T (h.Push q)
  | step (h h' : AnimationHandler) (ret : Int) :
      Reachable T h → Step T h = some (ret, h') → Reachable T h'
  | clear (h : AnimationHandler) : Reachable T h → Reachable T h.ClearAnimations
  | cube (h : AnimationHandler) (r : RubiksCube) :
      Reachable T h → Reachable T { h with m_rubiks := r }

end AnimationHandler

end rubiks

namespace rubiks

namespace RubiksCube

/-- The cube states whose colouring is reachable: the result of `InitializeColors` on a
well-formed state, then any sequence of `RotateColors` calls on a valid layer, with any
degree argument. -/
inductive ColourReachable : RubiksCube → Prop
  | init (r r' : RubiksCube) : r.WF → r.InitializeColors = some r' → ColourReachable r'
  | rotate (r r' : RubiksCube) (x y z axis degree : Int) :
      ColourReachable r → LayerOK x y z axis →
      r.RotateColors x y z axis degree = some r' → ColourReachable r'

/-- The list of the six side colours. -/
def sideColors : List Nat :=
  [COLOR_GREEN, COLOR_RED, COLOR_BLUE, COLOR_ORANGE, COLOR_YELLOW, COLOR_WHITE]

/-- The sample cube state after `InitializeColors`. -/
def sampleColoured : RubiksCube := (sample.InitializeColors).getD sample

/-- The coloured sample cube state after a 90-degree `RotateColors` of the middle Z layer. -/
def sampleTurned : RubiksCube :=
  (sampleColoured.RotateColors 0 0 1 AXIS_Z DEGREE_90).getD sampleColoured

end RubiksCube

end rubiks

/-- The four vertex indices of a face. -/
def Quad.indices (q : Quad) : Int × Int × Int × Int := (q.v1, q.v2, q.v3, q.v4)

namespace rubiks

/-- The cube has the geometry that `Cube::Initialize` gives to a default-constructed cube:
its 8 vertices, and 6 faces with its vertex indices. The colours, the depth fields, the
local rotation, translation and scale are free. -/
def Cube.Initialised (c : Cube) : Prop :=
  c.vertices = Cube.empty.Initialize.vertices ∧
  c.faces.map Quad.indices = Cube.empty.Initialize.faces.map Quad.indices

instance (c : Cube) : Decidable c.Initialised := by
  unfold Cube.Initialised
  exact inferInstance

/-- The three pairs of opposite face slots. -/
def oppositePairs : List (Int × Int) :=
  [(FACE_Z_MINUS, FACE_Z_PLUS), (FACE_X_PLUS, FACE_X_MINUS), (FACE_Y_PLUS, FACE_Y_MINUS)]

/-- A concrete initialised cube with a sheared local matrix, which is not a rotation, and a
view matrix that is not orthonormal either. -/
def Cube.sampleSheared : Cube :=
  { Cube.sample with rotation := ⟨1, 2, 0, 0, 1, 3, 1, 0, 1⟩, translation := ⟨5, -7, 2⟩,
                     scale := 3 }

end rubiks

namespace rubiks

namespace MouseHandler

/-- The condition under which the X block of `Click` returns, for a finite `t`: the ray
origin is outside the slab `|x| <= RUBIKS_SIZE` and the intersection with the plane of the
X face on its side has both other coordinates strictly inside the face. -/
def testX (o d : Vec3D) : Prop :=
  |o.x| > RUBIKS_SIZE ∧ |(hitX o d).y| < RUBIKS_SIZE ∧ |(hitX o d).z| < RUBIKS_SIZE

/-- The condition under which the Y block of `Click` returns, for a finite `t`. -/
def testY (o d : Vec3D) : Prop :=
  |o.y| > RUBIKS_SIZE ∧ |(hitY o d).x| < RUBIKS_SIZE ∧ |(hitY o d).z| < RUBIKS_SIZE

/-- The condition under which the Z block of `Click` returns, for a finite `t`. -/
def testZ (o d : Vec3D) : Prop :=
  |o.z| > RUBIKS_SIZE ∧ |(hitZ o d).x| < RUBIKS_SIZE ∧ |(hitZ o d).y| < RUBIKS_SIZE

instance (o d : Vec3D) : Decidable (testX o d) := by
  unfold testX
  exact inferInstance

instance (o d : Vec3D) : Decidable (testY o d) := by
  unfold testY
  exact inferInstance

instance (o d : Vec3D) : Decidable (testZ o d) := by
  unfold testZ
  exact inferInstance

/-- The block of `MouseHandler::Click` that tests the faces across the given axis. -/
def clickBlock (axis : Int) (m : MouseHandler) (ray_pos ray_vec : Vec3D) :
    Option MouseHandler :=
  if axis = AXIS_X then clickX m ray_pos ray_vec
  else if axis = AXIS_Y then clickY m ray_pos ray_vec
  else clickZ m ray_pos ray_vec

/-- A variant of `Click` for comparison with it: the three blocks of the source are taken in
the given order of axes, the first block that returns decides, and without a hit the state
becomes `MOUSE_STATE_ROTATE_VIEW`. The source has the order X, Y, Z. -/
def ClickIn (m : MouseHandler) (order : List Int) (mouse_pos : Vec3D) : MouseHandler :=
  (order.findSome? (fun axis => clickBlock axis m (m.rayPos mouse_pos) m.rayVec)).getD
    { m with m_state := MOUSE_STATE_ROTATE_VIEW }

/-- A concrete mouse handler whose view is tilted about all three axes: the viewing
direction in the puzzle's frame is `(-1/3, 2/3, 2/3)`. -/
def sampleTilted : MouseHandler :=
  MouseHandler.new (AnimationHandler.new
    { RubiksCube.sample with
      global_rotation := ⟨2 / 3, -1 / 3, 2 / 3, 2 / 3, 2 / 3, -1 / 3, -1 / 3, 2 / 3, 2 / 3⟩ })

end MouseHandler

end rubiks

/-! ## Binary64 arithmetic -/

namespace ieee

/-- Rounding of a rational to the nearest integer, a tie going to the even one. -/
def roundEven (y : ℚ) : Int :=
  if y - ⌊y⌋ < 1 / 2 then ⌊y⌋
  else if 1 / 2 < y - ⌊y⌋ then ⌊y⌋ + 1
  else if ⌊y⌋ % 2 = 0 then ⌊y⌋ else ⌊y⌋ + 1

/-- The exponent of the unit in the last place of a nonzero `x` in a format with 53
significant bits: `2 ^ ulpExp x` is the gap between the neighbours of `x`. -/
def ulpExp (x : ℚ) : Int := Int.log 2 |x| - 52

/-- The value that an operation of `double` arithmetic stores for the exact result `x`:
round to nearest with 53 significant bits, ties to even, as IEEE 754 binary64 does in its
normal range. Overflow and subnormal results are not modelled. -/
def rnd (x : ℚ) : ℚ :=
  if x = 0 then 0 else (roundEven (x / 2 ^ ulpExp x) : ℚ) * 2 ^ ulpExp x

/-- The operator `double + double`. -/
def add (a b : ℚ) : ℚ := rnd (a + b)

/-- The operator `double - double`. -/
def sub (a b : ℚ) : ℚ := rnd (a - b)

/-- The operator `double * double`. -/
def mul (a b : ℚ) : ℚ := rnd (a * b)

/-- The operator `double / double` for a nonzero divisor. -/
def div (a b : ℚ) : ℚ := rnd (a / b)

end ieee

namespace rubiks

/-- The constant `RUBIKS_PI` as a `double`: the literal of the source, rounded. -/
def RUBIKS_PI64 : ℚ := ieee.rnd RUBIKS_PI

namespace AnimationHandler

/-- The method `AnimationHandler::Step` in `double` arithmetic: the addition
`m_degree += queue.speed` and the two operations of `m_degree * RUBIKS_PI / 180.0` round
their results. The comparisons and the calls are those of `Step`. -/
def Step64 (T : Trig) (h : AnimationHandler) : Option (Int × AnimationHandler) :=
  match h.m_animation_queues with
  | [] => some (0, h)
  | queue :: rest =>
    let x := queue.x
    let y := queue.y
    let z := queue.z
    let axis := queue.axis
    let speed := queue.speed
    let rotation_type := queue.rotation_type
    let h := if !h.IsAnimating then
        { h with m_degree := queue.degree_start, m_is_animating := true }
      else h
    let h := { h with m_degree := ieee.add h.m_degree queue.speed }
    if isTerminal speed h.m_degree queue.degree_end then do
      let r ← if rotation_type ≠ DEGREE_0 then
          h.m_rubiks.RotateColors x y z axis rotation_type
        else some h.m_rubiks
      let r ← r.InitializeFaceRotation
      let h := { h with m_rubiks := r, m_animation_queues := rest }
      let h := match rest with
        | next :: _ => { h with m_degree := next.degree_start }
        | [] => { h with m_is_animating := false }
      pure (1, h)
    else do
      let th := ieee.div (ieee.mul h.m_degree RUBIKS_PI64) 180
      let r ← h.m_rubiks.RotateFace T x y z axis th
      pure (1, { h with m_rubiks := r })

/-- The handler after `n` successive calls of `Step64`, the returned flags dropped. -/
def stepN64 (T : Trig) : Nat → AnimationHandler → Option AnimationHandler
  | 0, h => some h
  | n + 1, h => (Step64 T h).bind (fun p => stepN64 T n p.2)

/-- The running angle that `Step64` compares with `degree_end`: the angle of the handler,
or the entry's `degree_start` when the handler is not animating yet, advanced by the speed
with one rounded addition. -/
def advanced64 (h : AnimationHandler) (q : AnimationQueue) : ℚ :=
  ieee.add (if h.IsAnimating then h.m_degree else q.degree_start) q.speed

/-- The running angle of an entry after `k` calls: `degree_start` advanced `k` times by
the rounded addition `m_degree += speed`. -/
def runAngle (q : AnimationQueue) : Nat → ℚ
  | 0 => q.degree_start
  | k + 1 => ieee.add (runAngle q k) q.speed

/-- The `n`-th call is the first one at which the running angle of the entry, advanced by
rounded additions, passes the terminal test of `Step`. -/
def ConsumedAt64 (q : AnimationQueue) (n : Nat) : Prop :=
  1 ≤ n ∧ Terminal q (runAngle q n) ∧ ∀ m : Nat, 1 ≤ m → m < n → ¬ Terminal q (runAngle q m)

end AnimationHandler

/-- The entry that `UnClick` pushes after a drag that ends half a degree past a rest
position: from 0.5 back to 0 degrees with the speed `double(-0.5) / 5`, the `double` next
to -0.1. -/
def AnimationQueue.sampleBack : AnimationQueue :=
  { x := 2, y := 1, z := 0, axis := AXIS_Y, rotation_type := DEGREE_0,
    degree_start := 1 / 2, degree_end := 0,
    speed := -3602879701896397 / 36028797018963968 }

end rubiks

namespace rubiks

namespace MouseHandler

/-- The angle of `UnClick` in `double` arithmetic, after `m_rotation_theta *= 180 / RUBIKS_PI`
(the quotient is a `double` constant) and
`m_rotation_theta = std::fmod(std::fmod(m_rotation_theta, 360) + 360, 360)`. The result of
`std::fmod` is exact; the product and the sum are rounded. -/
def normalizedTheta64 (theta : ℚ) : ℚ :=
  fmod (ieee.add (fmod (ieee.mul theta (ieee.div 180 RUBIKS_PI64)) 360) 360) 360

/-- The local `queue` of `UnClick` at the test `queue.speed != 0`, in `double`
arithmetic: the differences, the sums with 360 and the quotient by 5 are rounded. -/
def unclickQueue64 (m : MouseHandler) : AnimationQueue :=
  let xyz := CubeIdToXYZ m.m_clicked_cube 0
  let theta := normalizedTheta64 m.m_rotation_theta
  let rotation_type := snapType theta
  let degree_start := theta
  let degree_end : ℚ := ((rotation_type * 90 : Int) : ℚ)
  let degree_start' :=
    if ieee.sub degree_end degree_start > 180 then ieee.add degree_start 360
    else degree_start
  let degree_end' :=
    if ieee.sub degree_end degree_start > 180 then degree_end
    else if ieee.sub degree_start degree_end > 180 then ieee.add degree_end 360
    else degree_end
  { x := xyz.1, y := xyz.2.1, z := xyz.2.2, axis := m.m_rotation_axis,
    rotation_type := rotation_type,
    degree_start := degree_start', degree_end := degree_end',
    speed := ieee.div (ieee.sub degree_end' degree_start') 5 }

/-- The method `MouseHandler::UnClick` in `double` arithmetic. -/
def UnClick64 (m : MouseHandler) : MouseHandler :=
  let m :=
    if m.m_state = MOUSE_STATE_ROTATE_FACE then
      let queue := unclickQueue64 m
      let m := { m with m_rotation_theta := normalizedTheta64 m.m_rotation_theta }
      if queue.speed ≠ 0 then
        { m with m_animation_handler := m.m_animation_handler.Push queue }
      else m
    else m
  m.InitializeState

/-- A concrete mouse handler in the middle of a face drag: state
`MOUSE_STATE_ROTATE_FACE`, clicked sub-cube 5, rotation axis Y, and the accumulated angle
`9000 * (GROBAL_ROTATION_SPEED / RUBIKS_SIZE)` as a `double`, which is 50 degrees. -/
def sampleDrag50 : MouseHandler :=
  { MouseHandler.sample with
      m_state := MOUSE_STATE_ROTATE_FACE, m_clicked_cube := 5, m_clicked_axis := AXIS_Z,
      m_rotation_axis := AXIS_Y,
      m_rotation_theta := 7860264168920489 / 9007199254740992 }

/-- A concrete mouse handler in the middle of a face drag: state
`MOUSE_STATE_ROTATE_FACE`, clicked sub-cube 5, rotation axis Y, and the accumulated angle
`10980 * (GROBAL_ROTATION_SPEED / RUBIKS_SIZE)` as a `double`, which is 61 degrees. With
the identity view it is reached by a press at (260, 180) and moves to (240, 180) and
(138, 180). -/
def sampleDrag61 : MouseHandler :=
  { MouseHandler.sample with
      m_state := MOUSE_STATE_ROTATE_FACE, m_clicked_cube := 5, m_clicked_axis := AXIS_Z,
      m_rotation_axis := AXIS_Y,
      m_rotation_theta := 2397380571520749 / 2251799813685248 }

end MouseHandler

end rubiks

/-! ## Projection in rounded arithmetic -/

namespace Vec3D

/-- The operator `Vec3D + Vec3D`, each sum rounded. -/
def add64 (a v : Vec3D) : Vec3D := ⟨ieee.add a.x v.x, ieee.add a.y v.y, ieee.add a.z v.z⟩

/-- The operator `Vec3D - Vec3D`, each difference rounded. -/
def sub64 (a v : Vec3D) : Vec3D := ⟨ieee.sub a.x v.x, ieee.sub a.y v.y, ieee.sub a.z v.z⟩

/-- The operator `Vec3D * double`, each product rounded. -/
def smul64 (a : Vec3D) (s : ℚ) : Vec3D := ⟨ieee.mul a.x s, ieee.mul a.y s, ieee.mul a.z s⟩

/-- The method `Vec3D::Cross`, each product and each difference rounded. -/
def Cross64 (a v : Vec3D) : Vec3D :=
  ⟨ieee.sub (ieee.mul a.y v.z) (ieee.mul a.z v.y),
   ieee.sub (ieee.mul a.z v.x) (ieee.mul a.x v.z),
   ieee.sub (ieee.mul a.x v.y) (ieee.mul a.y v.x)⟩

end Vec3D

namespace Matrix3D

/-- The operator `Matrix3D * Vec3D`: each product is rounded and each row is summed from
left to right with a rounding after each sum. -/
def mulVec64 (a : Matrix3D) (v : Vec3D) : Vec3D :=
  ⟨ieee.add (ieee.add (ieee.mul a.m11 v.x) (ieee.mul a.m12 v.y)) (ieee.mul a.m13 v.z),
   ieee.add (ieee.add (ieee.mul a.m21 v.x) (ieee.mul a.m22 v.y)) (ieee.mul a.m23 v.z),
   ieee.add (ieee.add (ieee.mul a.m31 v.x) (ieee.mul a.m32 v.y)) (ieee.mul a.m33 v.z)⟩

end Matrix3D

namespace QuadModel

/-- First loop of `QuadModel::Project` in rounded arithmetic: the projected position of one
local vertex. -/
def projectVertex64 (m : QuadModel) (global_rotation : Matrix3D) (global_translation : Vec3D)
    (v : Vec3D) : Vec3D :=
  let local_vec := ((m.rotation.mulVec64 v).smul64 m.scale).add64 m.translation
  (global_rotation.mulVec64 local_vec).add64 global_translation

/-- Second loop of `QuadModel::Project` in rounded arithmetic, over the faces that remain. -/
def collectVisible64 (npv : List Vec3D) (size : Int) : List Quad → Option (List Quad)
  | [] => some []
  | f :: fs => do
    let v1 ← vecGet npv f.v1
    let v2 ← vecGet npv f.v2
    let v3 ← vecGet npv f.v3
    let cross_prod := (v2.sub64 v1).Cross64 (v3.sub64 v2)
    if cross_prod.z ≤ 0 then
      collectVisible64 npv size fs
    else do
      let v4 ← vecGet npv f.v4
      let copied_f :=
        { f with z := ieee.div (ieee.add (ieee.add (ieee.add v1.z v2.z) v3.z) v4.z) 4 }
      let copied_f := copied_f.IncIndices size
      let rest ← collectVisible64 npv size fs
      pure (copied_f :: rest)

/-- The method `QuadModel::Project` in rounded arithmetic. -/
def Project64 (m : QuadModel) (global_rotation : Matrix3D) (global_translation : Vec3D)
    (projected_vertices : List Vec3D) (visible_faces : List Quad) :
    Option (List Vec3D × List Quad) := do
  let new_projected_vertices :=
    m.vertices.map (projectVertex64 m global_rotation global_translation)
  let new_visible_faces ←
    collectVisible64 new_projected_vertices (projected_vertices.length : Int) m.faces
  pure (projected_vertices ++ new_projected_vertices, visible_faces ++ new_visible_faces)

/-- The list `new_projected_vertices` that `Project64` builds for a model. -/
def projectedVertices64 (m : QuadModel) (global_rotation : Matrix3D)
    (global_translation : Vec3D) : List Vec3D :=
  m.vertices.map (projectVertex64 m global_rotation global_translation)

/-- The z component of the rounded `(p2 - p1) x (p3 - p2)`, with `p1`, `p2`, `p3` the
projected positions of the face's `v1`, `v2`, `v3`. -/
def windingZ64 (npv : List Vec3D) (f : Quad) : ℚ :=
  (((projectedAt npv f.v2).sub64 (projectedAt npv f.v1)).Cross64
    ((projectedAt npv f.v3).sub64 (projectedAt npv f.v2))).z

/-- The copy of a face that `Project64` appends. -/
def emittedFace64 (npv : List Vec3D) (size : Int) (f : Quad) : Quad :=
  { v1 := f.v1 + size, v2 := f.v2 + size, v3 := f.v3 + size, v4 := f.v4 + size,
    color := f.color,
    z := ieee.div (ieee.add (ieee.add (ieee.add (projectedAt npv f.v1).z
      (projectedAt npv f.v2).z) (projectedAt npv f.v3).z) (projectedAt npv f.v4).z) 4 }

end QuadModel

namespace rubiks

namespace RubiksCube

/-- The loop of `RubiksCube::Project` in rounded arithmetic, over the sub-cubes that
remain. -/
def projectLoop64 (global_rotation : Matrix3D) (global_translation : Vec3D) :
    List Cube → List Vec3D → List Quad → Option (List Vec3D × List Quad)
  | [], projected_vertices, visible_faces => some (projected_vertices, visible_faces)
  | c :: cs, projected_vertices, visible_faces =>
    (c.Project64 global_rotation global_translation projected_vertices visible_faces).bind
      (fun p => projectLoop64 global_rotation global_translation cs p.1 p.2)

/-- The method `RubiksCube::Project` in rounded arithmetic, over a function `sort` standing
for `std::sort`. -/
def Project64 (sort : (Quad → Quad → Bool) → List Quad → List Quad) (r : RubiksCube)
    (projected_vertices : List Vec3D) (visible_faces : List Quad) :
    Option (List Vec3D × List Quad) :=
  (projectLoop64 r.global_rotation r.global_translation r.cubes projected_vertices
    visible_faces).bind (fun p => some (p.1, geometry.Zsort sort p.2))

/-- A view matrix that sends the local x and z axes to the same screen direction, so that
the Y faces of a cube are seen edge on. -/
def edgeOnView : Matrix3D := ⟨1, 0, 1, 1, 1, 1, 0, 0, 1⟩

/-- A view translation whose x component is the `double` nearest to 0.3. -/
def edgeOnShift : Vec3D := ⟨5404319552844595 / 18014398509481984, 0, 0⟩

/-- A cube state of 27 copies of `Cube.sample` under `edgeOnView` and `edgeOnShift`. -/
def sampleEdgeOn : RubiksCube :=
  { cubes := List.replicate 27 Cube.sample, global_rotation := edgeOnView,
    global_translation := edgeOnShift }

end RubiksCube

end rubiks
namespace rubiks

/-- The eight projected positions of `Cube.sample` under `edgeOnView` and `edgeOnShift`,
in rounded arithmetic. -/
def RubiksCube.edgeOnProjected : List Vec3D :=
  [⟨-7656119366529843 / 4503599627370496, -1, -1⟩,
   ⟨-7656119366529843 / 4503599627370496, -3, -1⟩,
   ⟨5404319552844595 / 18014398509481984, -1, -1⟩,
   ⟨5404319552844595 / 18014398509481984, 1, -1⟩,
   ⟨5404319552844595 / 18014398509481984, 1, 1⟩,
   ⟨5404319552844595 / 18014398509481984, -1, 1⟩,
   ⟨2589569785738035 / 1125899906842624, 1, 1⟩,
   ⟨2589569785738035 / 1125899906842624, 3, 1⟩]

end rubiks

/-! ## The view and `Click` in rounded arithmetic -/

namespace Matrix3D

/-- The operator `Matrix3D * Matrix3D`: each product is rounded and each entry is summed
from left to right with a rounding after each sum. -/
def mul64 (a A : Matrix3D) : Matrix3D :=
  ⟨ieee.add (ieee.add (ieee.mul a.m11 A.m11) (ieee.mul a.m12 A.m21)) (ieee.mul a.m13 A.m31),
   ieee.add (ieee.add (ieee.mul a.m11 A.m12) (ieee.mul a.m12 A.m22)) (ieee.mul a.m13 A.m32),
   ieee.add (ieee.add (ieee.mul a.m11 A.m13) (ieee.mul a.m12 A.m23)) (ieee.mul a.m13 A.m33),
   ieee.add (ieee.add (ieee.mul a.m21 A.m11) (ieee.mul a.m22 A.m21)) (ieee.mul a.m23 A.m31),
   ieee.add (ieee.add (ieee.mul a.m21 A.m12) (ieee.mul a.m22 A.m22)) (ieee.mul a.m23 A.m32),
   ieee.add (ieee.add (ieee.mul a.m21 A.m13) (ieee.mul a.m22 A.m23)) (ieee.mul a.m23 A.m33),
   ieee.add (ieee.add (ieee.mul a.m31 A.m11) (ieee.mul a.m32 A.m21)) (ieee.mul a.m33 A.m31),
   ieee.add (ieee.add (ieee.mul a.m31 A.m12) (ieee.mul a.m32 A.m22)) (ieee.mul a.m33 A.m32),
   ieee.add (ieee.add (ieee.mul a.m31 A.m13) (ieee.mul a.m32 A.m23)) (ieee.mul a.m33 A.m33)⟩

end Matrix3D

namespace rubiks

/-- The constant `ROTATION_SPEED`, rounded. -/
def ROTATION_SPEED64 : ℚ := ieee.div RUBIKS_PI64 360

/-- The values of `std::sin` and `std::cos` at the three arguments that the default view
and a horizontal view drag of 90 pixels pass to them: 0, `RUBIKS_PI / 6.0` and
`RUBIKS_PI / 4.0` as `double`. Each value is the `double` nearest to the true sine or
cosine. At any other argument the value is that at 0. -/
def Trig.nearest : Trig :=
  ⟨fun theta =>
      if theta = 4716158501352293 / 9007199254740992 then
        9007199254740991 / 18014398509481984
      else if theta = 884279719003555 / 1125899906842624 then
        1592262918131443 / 2251799813685248
      else 0,
   fun theta =>
      if theta = 4716158501352293 / 9007199254740992 then
        7800463371553963 / 9007199254740992
      else if theta = 884279719003555 / 1125899906842624 then
        6369051672525773 / 9007199254740992
      else 1⟩

namespace RubiksCube

/-- The method `RubiksCube::InitializeGlobalRotation` in rounded arithmetic. -/
def InitializeGlobalRotation64 (T : Trig) (r : RubiksCube) : RubiksCube :=
  let rotation_x := geometry.RotationX T (ieee.div RUBIKS_PI64 6)
  let rotation_y := geometry.RotationY T (ieee.div RUBIKS_PI64 4)
  { r with global_rotation := rotation_x.mul64 rotation_y }

/-- The method `RubiksCube::GlobalRotate` in rounded arithmetic. -/
def GlobalRotate64 (T : Trig) (r : RubiksCube) (rotation : Vec3D) : RubiksCube :=
  let rotation := rotation.smul64 ROTATION_SPEED64
  let r :=
    { r with global_rotation := (geometry.RotationX T rotation.y).mul64 r.global_rotation }
  { r with global_rotation := (geometry.RotationY T (-rotation.x)).mul64 r.global_rotation }

/-- The sample cube state with the view of `InitializeGlobalRotation`. -/
def sampleDefaultView : RubiksCube := sample.InitializeGlobalRotation64 Trig.nearest

/-- The state `sampleDefaultView` after `GlobalRotate(Vec3D(-90, 0, 0))`, a view drag of 90
pixels to the left. -/
def sampleDraggedView : RubiksCube := sampleDefaultView.GlobalRotate64 Trig.nearest ⟨-90, 0, 0⟩

end RubiksCube

/-- Division of `double` by `double`, rounded; `none` when the divisor is zero and the
result is an infinity or a NaN. -/
def divDouble64 (a b : ℚ) : Option ℚ := if b = 0 then none else some (ieee.div a b)

namespace MouseHandler

/-- First block of `MouseHandler::Click` in rounded arithmetic, the test of the X faces. -/
def clickX64 (m : MouseHandler) (ray_pos ray_vec : Vec3D) : Option MouseHandler :=
  if |ray_pos.x| > RUBIKS_SIZE then
    let sign_x := Sign ray_pos.x
    match divDouble64 (ieee.sub (ieee.mul sign_x RUBIKS_SIZE) ray_pos.x) ray_vec.x with
    | none => none
    | some t =>
      let intersection := ray_pos.add64 (ray_vec.smul64 t)
      if |intersection.y| < RUBIKS_SIZE ∧ |intersection.z| < RUBIKS_SIZE then
        let x := truncate (ieee.add sign_x 1)
        let y := truncate (ieee.div (ieee.add intersection.y RUBIKS_SIZE) CUBE_DISTANCE)
        let z := truncate (ieee.div (ieee.add intersection.z RUBIKS_SIZE) CUBE_DISTANCE)
        some { m with m_clicked_cube := x + y * CUBE_NUM + z * CUBE_NUM * CUBE_NUM,
                      m_clicked_axis := AXIS_X,
                      m_clicked_pos := intersection,
                      m_state := MOUSE_STATE_SELECE_AXIS }
      else none
  else none

/-- Second block of `MouseHandler::Click` in rounded arithmetic, the test of the Y faces. -/
def clickY64 (m : MouseHandler) (ray_pos ray_vec : Vec3D) : Option MouseHandler :=
  if |ray_pos.y| > RUBIKS_SIZE then
    let sign_y := Sign ray_pos.y
    match divDouble64 (ieee.sub (ieee.mul sign_y RUBIKS_SIZE) ray_pos.y) ray_vec.y with
    | none => none
    | some t =>
      let intersection := ray_pos.add64 (ray_vec.smul64 t)
      if |intersection.x| < RUBIKS_SIZE ∧ |intersection.z| < RUBIKS_SIZE then
        let x := truncate (ieee.div (ieee.add intersection.x RUBIKS_SIZE) CUBE_DISTANCE)
        let y := truncate (ieee.add sign_y 1)
        let z := truncate (ieee.div (ieee.add intersection.z RUBIKS_SIZE) CUBE_DISTANCE)
        some { m with m_clicked_cube := x + y * CUBE_NUM + z * CUBE_NUM * CUBE_NUM,
                      m_clicked_axis := AXIS_Y,
                      m_clicked_pos := intersection,
                      m_state := MOUSE_STATE_SELECE_AXIS }
      else none
  else none

/-- Third block of `MouseHandler::Click` in rounded arithmetic, the test of the Z faces. -/
def clickZ64 (m : MouseHandler) (ray_pos ray_vec : Vec3D) : Option MouseHandler :=
  if |ray_pos.z| > RUBIKS_SIZE then
    let sign_z := Sign ray_pos.z
    match divDouble64 (ieee.sub (ieee.mul sign_z RUBIKS_SIZE) ray_pos.z) ray_vec.z with
    | none => none
    | some t =>
      let intersection := ray_pos.add64 (ray_vec.smul64 t)
      if |intersection.x| < RUBIKS_SIZE ∧ |intersection.y| < RUBIKS_SIZE then
        let x := truncate (ieee.div (ieee.add intersection.x RUBIKS_SIZE) CUBE_DISTANCE)
        let y := truncate (ieee.div (ieee.add intersection.y RUBIKS_SIZE) CUBE_DISTANCE)
        let z := truncate (ieee.add sign_z 1)
        some { m with m_clicked_cube := x + y * CUBE_NUM + z * CUBE_NUM * CUBE_NUM,
                      m_clicked_axis := AXIS_Z,
                      m_clicked_pos := intersection,
                      m_state := MOUSE_STATE_SELECE_AXIS }
      else none
  else none

/-- The local `ray_pos` of `Click` in rounded arithmetic. -/
def rayPos64 (m : MouseHandler) (mouse_pos : Vec3D) : Vec3D :=
  m.m_rubiks.global_rotation.Transpose.mulVec64
    (mouse_pos.sub64 m.m_rubiks.global_translation)

/-- The local `ray_vec` of `Click` in rounded arithmetic. -/
def rayVec64 (m : MouseHandler) : Vec3D :=
  m.m_rubiks.global_rotation.Transpose.mulVec64 ⟨0, 0, 1⟩

/-- The method `MouseHandler::Click` in rounded arithmetic. -/
def Click64 (m : MouseHandler) (mouse_pos : Vec3D) : MouseHandler :=
  let ray_pos := m.rayPos64 mouse_pos
  let ray_vec := m.rayVec64
  match clickX64 m ray_pos ray_vec with
  | some m' => m'
  | none =>
    match clickY64 m ray_pos ray_vec with
    | some m' => m'
    | none =>
      match clickZ64 m ray_pos ray_vec with
      | some m' => m'
      | none => { m with m_state := MOUSE_STATE_ROTATE_VIEW }

/-- A freshly constructed mouse handler on `sampleDefaultView`. -/
def sampleDefault64 : MouseHandler :=
  MouseHandler.new (AnimationHandler.new RubiksCube.sampleDefaultView)

/-- A freshly constructed mouse handler on `sampleDraggedView`. -/
def sampleDragged64 : MouseHandler :=
  MouseHandler.new (AnimationHandler.new RubiksCube.sampleDraggedView)

end MouseHandler

end rubiks
namespace rubiks

namespace RubiksCube

/-- The view matrix of `sampleDefaultView`, entry by entry. -/
def defaultView64 : Matrix3D :=
  ⟨6369051672525773 / 9007199254740992,
   0,
   1592262918131443 / 2251799813685248,
   6369051672525771 / 18014398509481984,
   7800463371553963 / 9007199254740992,
   -1592262918131443 / 4503599627370496,
   -2757880273211543 / 4503599627370496,
   9007199254740991 / 18014398509481984,
   5515760546423087 / 9007199254740992⟩

/-- The view matrix of `sampleDraggedView`, entry by entry. -/
def draggedView64 : Matrix3D :=
  ⟨1206735883187033 / 18014398509481984,
   6369051672525771 / 18014398509481984,
   8403831313147477 / 9007199254740992,
   6369051672525771 / 18014398509481984,
   7800463371553963 / 9007199254740992,
   -1592262918131443 / 4503599627370496,
   -8403831313147477 / 9007199254740992,
   1592262918131443 / 4503599627370496,
   -603367941593513 / 9007199254740992⟩

end RubiksCube

namespace MouseHandler

/-- The local `ray_pos` of `Click` at `sampleDefault64` and the pointer position
`(180, 320, 0)`, in rounded arithmetic. -/
def defaultRayPos : Vec3D :=
  ⟨2809903350454999 / 17592186044416,
   549642459161847 / 17592186044416,
   -5619806700909999 / 35184372088832⟩

/-- The local `ray_vec` of `Click` at `sampleDefault64`, in rounded arithmetic. -/
def defaultRayVec : Vec3D :=
  ⟨-2757880273211543 / 4503599627370496,
   9007199254740991 / 18014398509481984,
   5515760546423087 / 9007199254740992⟩

/-- The local `ray_pos` of `Click` at `sampleDragged64` and the pointer position
`(270, 180, 0)`, in rounded arithmetic. -/
def draggedRayPos : Vec3D :=
  ⟨6121065434023291 / 35184372088832,
   -8956478914489369 / 281474976710656,
   3378715029961349 / 35184372088832⟩

/-- The local `ray_vec` of `Click` at `sampleDragged64`, in rounded arithmetic. -/
def draggedRayVec : Vec3D :=
  ⟨-8403831313147477 / 9007199254740992,
   1592262918131443 / 4503599627370496,
   -603367941593513 / 9007199254740992⟩

end MouseHandler

end rubiks

/-! ## Notions for the view rotation in rounded arithmetic -/

namespace Matrix3D

/-- The entrywise sum of two matrices. -/
def add (a b : Matrix3D) : Matrix3D :=
  ⟨a.m11 + b.m11, a.m12 + b.m12, a.m13 + b.m13,
   a.m21 + b.m21, a.m22 + b.m22, a.m23 + b.m23,
   a.m31 + b.m31, a.m32 + b.m32, a.m33 + b.m33⟩

/-- The entrywise difference of two matrices. -/
def sub (a b : Matrix3D) : Matrix3D :=
  ⟨a.m11 - b.m11, a.m12 - b.m12, a.m13 - b.m13,
   a.m21 - b.m21, a.m22 - b.m22, a.m23 - b.m23,
   a.m31 - b.m31, a.m32 - b.m32, a.m33 - b.m33⟩

/-- Every entry of the matrix is at most `e` in absolute value. -/
def EntriesLe (a : Matrix3D) (e : ℚ) : Prop :=
  |a.m11| ≤ e ∧ |a.m12| ≤ e ∧ |a.m13| ≤ e ∧
  |a.m21| ≤ e ∧ |a.m22| ≤ e ∧ |a.m23| ≤ e ∧
  |a.m31| ≤ e ∧ |a.m32| ≤ e ∧ |a.m33| ≤ e

instance (a : Matrix3D) (e : ℚ) : Decidable (a.EntriesLe e) := by
  unfold EntriesLe
  exact inferInstance

/-- The defect of orthogonality: the exact product of the matrix with its transpose, minus
the identity matrix. -/
def defect (a : Matrix3D) : Matrix3D := (a.mul a.Transpose).sub geometry.Identity

/-- The matrix is orthogonal up to `e`: every entry of the exact product with its transpose
differs from the entry of the identity matrix by at most `e`. -/
def NearOrthogonal (a : Matrix3D) (e : ℚ) : Prop := a.defect.EntriesLe e

instance (a : Matrix3D) (e : ℚ) : Decidable (a.NearOrthogonal e) := by
  unfold NearOrthogonal
  exact inferInstance

/-- The matrix stretches no vector by more than the factor `c`, lengths being Euclidean. -/
def OpLe (a : Matrix3D) (c : ℚ) : Prop :=
  0 ≤ c ∧ ∀ v : Vec3D, (a.mulVec v).Dot (a.mulVec v) ≤ c ^ 2 * v.Dot v

end Matrix3D

/-- The values of `std::sin` and `std::cos` are on the unit circle up to `2 ^ (-50)`, as
values within one unit in the last place of the true sine and cosine are. -/
def Trig.NearPythagorean (T : Trig) : Prop :=
  ∀ theta : ℚ, |T.sin theta ^ 2 + T.cos theta ^ 2 - 1| ≤ 1 / 2 ^ 50

namespace rubiks

/-- The cube states reached by `n` calls of `GlobalRotate` since the last call of
`InitializeGlobalRotation`, in rounded arithmetic. `RubiksCube::Initialize` calls
`InitializeGlobalRotation`; every other method leaves `global_rotation` as it is. -/
inductive RubiksCube.ViewReachable64 (T : Trig) : Nat → RubiksCube → Prop
  | init (r : RubiksCube) : RubiksCube.ViewReachable64 T 0 (r.InitializeGlobalRotation64 T)
  | keep (n : Nat) (r r' : RubiksCube) (h : RubiksCube.ViewReachable64 T n r)
      (hr : r'.global_rotation = r.global_rotation) : RubiksCube.ViewReachable64 T n r'
  | rotate (n : Nat) (r : RubiksCube) (delta : Vec3D)
      (h : RubiksCube.ViewReachable64 T n r) :
      RubiksCube.ViewReachable64 T (n + 1) (r.GlobalRotate64 T delta)

end rubiks

namespace rubiks

/-- A concrete mouse handler in the middle of a face drag that has come back to within
rounding of its start: state `MOUSE_STATE_ROTATE_FACE`, clicked sub-cube 5, rotation axis
Y, and the accumulated angle `-2 ^ (-50)` radians. -/
def MouseHandler.sampleDragTiny : MouseHandler :=
  { MouseHandler.sample with
      m_state := MOUSE_STATE_ROTATE_FACE, m_clicked_cube := 5, m_clicked_axis := AXIS_Z,
      m_rotation_axis := AXIS_Y,
      m_rotation_theta := -1 / 1125899906842624 }

end rubiks

/-! # Theorems -/

/-! ## Vector access -/

theorem vecGet_of_lt {α : Type} (l : List α) (i : Int) (h0 : 0 ≤ i) (h1 : i.toNat < l.length) :
    vecGet l i = some (l.get ⟨i.toNat, h1⟩) := by
  simp [vecGet, h0, List.getElem?_eq_getElem h1]

theorem vecGet_some_bounds {α : Type} {l : List α} {i : Int} {a : α} (h : vecGet l i = some a) :
    0 ≤ i ∧ i.toNat < l.length := by
  unfold vecGet at h
  split at h
  · rename_i h0
    refine ⟨h0, ?_⟩
    by_contra hlt
    rw [List.getElem?_eq_none (by omega)] at h
    cases h
  · cases h

theorem vecSet_of_lt {α : Type} (l : List α) (i : Int) (a : α) (h0 : 0 ≤ i)
    (h1 : i.toNat < l.length) : vecSet l i a = some (l.set i.toNat a) := by
  simp [vecSet, h0, h1]

theorem vecGet_set {α : Type} (l : List α) (i j : Int) (a : α) (h0 : 0 ≤ i)
    (h1 : i.toNat < l.length) :
    vecGet (l.set i.toNat a) j = if j = i then some a else vecGet l j := by
  unfold vecGet
  by_cases hj : 0 ≤ j
  · simp only [hj, if_true]
    by_cases hji : j = i
    · subst hji
      simp [List.getElem?_set, h1]
    · have hne : i.toNat ≠ j.toNat := by omega
      simp [hji, List.getElem?_set, hne]
  · have hji : j ≠ i := by omega
    simp [hj, hji]

namespace rubiks

namespace RubiksCube

theorem ColorsEq.refl (r : RubiksCube) : ColorsEq r r := fun _ _ => rfl

theorem ColorsEq.trans {a b c : RubiksCube} (h1 : ColorsEq a b) (h2 : ColorsEq b c) :
    ColorsEq a c := fun j g => (h2 j g).trans (h1 j g)

theorem WF.cube {r : RubiksCube} (h : r.WF) {i : Int} (h0 : 0 ≤ i) (h1 : i < 27) :
    ∃ c, vecGet r.cubes i = some c ∧ c.faces.length = 6 := by
  have hlt : i.toNat < r.cubes.length := by rw [h.1]; omega
  exact ⟨_, vecGet_of_lt _ _ h0 hlt, h.2 _ (List.get_mem _ _ _)⟩

theorem updateCube_some {r : RubiksCube} {i : Int} {f : Cube → Option Cube} {c c' : Cube}
    (hc : vecGet r.cubes i = some c) (hf : f c = some c') :
    r.updateCube i f = some { r with cubes := r.cubes.set i.toNat c' } := by
  have hb := vecGet_some_bounds hc
  simp [updateCube, hc, hf, vecSet_of_lt _ _ _ hb.1 hb.2]

theorem WF_set {r : RubiksCube} (h : r.WF) (n : Nat) (c' : Cube) (hc' : c'.faces.length = 6) :
    WF { r with cubes := r.cubes.set n c' } := by
  refine ⟨by simpa using h.1, ?_⟩
  intro c hc
  rcases List.mem_or_eq_of_mem_set hc with hm | he
  · exact h.2 c hm
  · rw [he]; exact hc'

/-- Updating one sub-cube without touching its faces keeps the state well formed and
keeps every colour. -/
theorem updateCube_keepFaces {r : RubiksCube} (h : r.WF) {i : Int} (h0 : 0 ≤ i) (h1 : i < 27)
    (g : Cube → Cube) (hg : ∀ c, (g c).faces = c.faces) :
    ∃ r', r.updateCube i (fun c => some (g c)) = some r' ∧ r'.WF ∧ ColorsEq r r' ∧
      r'.global_rotation = r.global_rotation ∧ r'.global_translation = r.global_translation := by
  obtain ⟨c, hc, hlen⟩ := h.cube h0 h1
  have hb := vecGet_some_bounds hc
  refine ⟨_, updateCube_some hc rfl, WF_set h _ _ (by rw [hg]; exact hlen), ?_, rfl, rfl⟩
  intro j k
  simp only [getColor, vecGet_set _ _ _ _ hb.1 hb.2]
  by_cases hji : j = i
  · subst hji
    simp [hc, hg]
  · simp [hji]

theorem getColor_isSome {r : RubiksCube} (h : r.WF) {i f : Int} (hi : InRange i f) :
    ∃ col, r.getColor i f = some col := by
  obtain ⟨c, hc, hlen⟩ := h.cube hi.1 hi.2.1
  have hlt : f.toNat < c.faces.length := by rw [hlen]; have := hi.2.2; omega
  exact ⟨(c.faces.get ⟨f.toNat, hlt⟩).color,
    by simp [getColor, hc, vecGet_of_lt _ _ hi.2.2.1 hlt]⟩

/-- The assignment of one colour succeeds on an existing slot, keeps the state well formed,
and changes the colour read at that slot only. -/
theorem setColor_spec {r : RubiksCube} (h : r.WF) {i f : Int} (hi : InRange i f) (col : Nat) :
    ∃ r', r.setColor i f col = some r' ∧ r'.WF ∧
      ∀ j g : Int, r'.getColor j g = if j = i ∧ g = f then some col else r.getColor j g := by
  obtain ⟨c, hc, hlen⟩ := h.cube hi.1 hi.2.1
  have hb := vecGet_some_bounds hc
  have hlt : f.toNat < c.faces.length := by rw [hlen]; have := hi.2.2; omega
  have hq := vecGet_of_lt c.faces f hi.2.2.1 hlt
  refine ⟨_, ?_, WF_set h i.toNat
      { c with faces := c.faces.set f.toNat { c.faces.get ⟨f.toNat, hlt⟩ with color := col } }
      (by simpa using hlen), ?_⟩
  · unfold setColor
    exact updateCube_some hc (by simp [hq, vecSet_of_lt _ _ _ hi.2.2.1 hlt])
  · intro j g
    simp only [getColor, vecGet_set _ _ _ _ hb.1 hb.2]
    by_cases hji : j = i
    · subst hji
      simp only [true_and, if_true, Option.bind_eq_bind, Option.some_bind,
        vecGet_set _ _ _ _ hi.2.2.1 hlt, hc]
      by_cases hgf : g = f
      · simp [hgf]
      · simp [hgf]
    · simp [hji]

end RubiksCube

end rubiks

namespace rubiks

namespace RubiksCube

/-- Four successive colour assignments to existing slots succeed; the last assignment to a
slot is the one that is read back. -/
theorem setColor4_spec {r : RubiksCube} (h : r.WF) {a0 a1 a2 a3 : Int × Int}
    (h0 : InRange a0.1 a0.2) (h1 : InRange a1.1 a1.2) (h2 : InRange a2.1 a2.2)
    (h3 : InRange a3.1 a3.2) (c0 c1 c2 c3 : Nat) :
    ∃ r', ((((r.setColor a0.1 a0.2 c0).bind (fun r => r.setColor a1.1 a1.2 c1)).bind
        (fun r => r.setColor a2.1 a2.2 c2)).bind (fun r => r.setColor a3.1 a3.2 c3)) = some r' ∧
      r'.WF ∧
      ∀ s : Int × Int, r'.getColor s.1 s.2 =
        if s = a3 then some c3 else if s = a2 then some c2 else if s = a1 then some c1
        else if s = a0 then some c0 else r.getColor s.1 s.2 := by
  obtain ⟨r1, e1, w1, g1⟩ := setColor_spec h h0 c0
  obtain ⟨r2, e2, w2, g2⟩ := setColor_spec w1 h1 c1
  obtain ⟨r3, e3, w3, g3⟩ := setColor_spec w2 h2 c2
  obtain ⟨r4, e4, w4, g4⟩ := setColor_spec w3 h3 c3
  refine ⟨r4, by simp [e1, e2, e3, e4], w4, ?_⟩
  intro s
  rw [g4, g3, g2, g1]
  simp only [Prod.ext_iff]

end RubiksCube

end rubiks

namespace rubiks

namespace RubiksCube

/-- Reading four existing slots and then assigning them succeeds, and every slot then
holds the colour that the slot given by `src4` held before. -/
theorem swap4_spec {r : RubiksCube} (h : r.WF) (a0 a1 a2 a3 : Int × Int)
    (h0 : InRange a0.1 a0.2) (h1 : InRange a1.1 a1.2) (h2 : InRange a2.1 a2.2)
    (h3 : InRange a3.1 a3.2) (b0 b1 b2 b3 : Int × Int)
    (k0 : InRange b0.1 b0.2) (k1 : InRange b1.1 b1.2) (k2 : InRange b2.1 b2.2)
    (k3 : InRange b3.1 b3.2) :
    ∃ c0 c1 c2 c3 r', r.getColor b0.1 b0.2 = some c0 ∧ r.getColor b1.1 b1.2 = some c1 ∧
      r.getColor b2.1 b2.2 = some c2 ∧ r.getColor b3.1 b3.2 = some c3 ∧
      ((((r.setColor a0.1 a0.2 c0).bind (fun r => r.setColor a1.1 a1.2 c1)).bind
        (fun r => r.setColor a2.1 a2.2 c2)).bind (fun r => r.setColor a3.1 a3.2 c3)) = some r' ∧
      r'.WF ∧
      ∀ s : Int × Int, r'.getColor s.1 s.2 =
        r.getColor (src4 a0 a1 a2 a3 b0 b1 b2 b3 s).1 (src4 a0 a1 a2 a3 b0 b1 b2 b3 s).2 := by
  obtain ⟨c0, e0⟩ := getColor_isSome h k0
  obtain ⟨c1, e1⟩ := getColor_isSome h k1
  obtain ⟨c2, e2⟩ := getColor_isSome h k2
  obtain ⟨c3, e3⟩ := getColor_isSome h k3
  obtain ⟨r', er, w, g⟩ := setColor4_spec h h0 h1 h2 h3 c0 c1 c2 c3
  refine ⟨c0, c1, c2, c3, r', e0, e1, e2, e3, er, w, ?_⟩
  intro s
  rw [g]
  unfold src4
  split_ifs <;> simp [*]

theorem SwapFourColors90_spec {r : RubiksCube} (h : r.WF) {e : SwapEntry}
    (he : EntryInRange e) :
    ∃ r', r.SwapFourColors90 e = some r' ∧ r'.WF ∧
      ∀ s : Int × Int, r'.getColor s.1 s.2 = r.getColor (src90 e s).1 (src90 e s).2 := by
  obtain ⟨c0, c1, c2, c3, r', e0, e1, e2, e3, er, w, g⟩ :=
    swap4_spec h (e.e0, e.e1) (e.e2, e.e3) (e.e4, e.e5) (e.e6, e.e7)
      he.1 he.2.1 he.2.2.1 he.2.2.2
      (e.e2, e.e3) (e.e4, e.e5) (e.e6, e.e7) (e.e0, e.e1)
      he.2.1 he.2.2.1 he.2.2.2 he.1
  refine ⟨r', ?_, w, g⟩
  simp only [Option.bind_eq_some] at er
  obtain ⟨r3, ⟨r2, ⟨r1, s1, s2⟩, s3⟩, s4⟩ := er
  simp only at e0 e1 e2 e3 s1 s2 s3 s4
  simp [SwapFourColors90, e0, e1, e2, e3, s1, s2, s3, s4]

theorem SwapFourColors180_spec {r : RubiksCube} (h : r.WF) {e : SwapEntry}
    (he : EntryInRange e) :
    ∃ r', r.SwapFourColors180 e = some r' ∧ r'.WF ∧
      ∀ s : Int × Int, r'.getColor s.1 s.2 = r.getColor (src180 e s).1 (src180 e s).2 := by
  obtain ⟨c0, c1, c2, c3, r', e0, e1, e2, e3, er, w, g⟩ :=
    swap4_spec h (e.e0, e.e1) (e.e2, e.e3) (e.e4, e.e5) (e.e6, e.e7)
      he.1 he.2.1 he.2.2.1 he.2.2.2
      (e.e4, e.e5) (e.e6, e.e7) (e.e0, e.e1) (e.e2, e.e3)
      he.2.2.1 he.2.2.2 he.1 he.2.1
  refine ⟨r', ?_, w, g⟩
  simp only [Option.bind_eq_some] at er
  obtain ⟨r3, ⟨r2, ⟨r1, s1, s2⟩, s3⟩, s4⟩ := er
  simp only at e0 e1 e2 e3 s1 s2 s3 s4
  simp [SwapFourColors180, e0, e1, e2, e3, s1, s2, s3, s4]

theorem SwapFourColors270_spec {r : RubiksCube} (h : r.WF) {e : SwapEntry}
    (he : EntryInRange e) :
    ∃ r', r.SwapFourColors270 e = some r' ∧ r'.WF ∧
      ∀ s : Int × Int, r'.getColor s.1 s.2 = r.getColor (src270 e s).1 (src270 e s).2 := by
  obtain ⟨c0, c1, c2, c3, r', e0, e1, e2, e3, er, w, g⟩ :=
    swap4_spec h (e.e0, e.e1) (e.e2, e.e3) (e.e4, e.e5) (e.e6, e.e7)
      he.1 he.2.1 he.2.2.1 he.2.2.2
      (e.e6, e.e7) (e.e0, e.e1) (e.e2, e.e3) (e.e4, e.e5)
      he.2.2.2 he.1 he.2.1 he.2.2.1
  refine ⟨r', ?_, w, g⟩
  simp only [Option.bind_eq_some] at er
  obtain ⟨r3, ⟨r2, ⟨r1, s1, s2⟩, s3⟩, s4⟩ := er
  simp only at e0 e1 e2 e3 s1 s2 s3 s4
  simp [SwapFourColors270, e0, e1, e2, e3, s1, s2, s3, s4]

theorem swapFront_spec {r : RubiksCube} (h : r.WF) {e : SwapEntry} (he : EntryInRange e)
    (degree : Int) :
    ∃ r', r.swapFront degree e = some r' ∧ r'.WF ∧
      ∀ s : Int × Int,
        r'.getColor s.1 s.2 = r.getColor (srcFront degree e s).1 (srcFront degree e s).2 := by
  unfold swapFront srcFront
  split_ifs
  · exact SwapFourColors90_spec h he
  · exact SwapFourColors180_spec h he
  · exact SwapFourColors270_spec h he
  · exact ⟨r, rfl, h, fun _ => rfl⟩

theorem swapLoop_spec (degree : Int) (es : List SwapEntry) :
    ∀ {r : RubiksCube}, r.WF → (∀ e ∈ es, EntryInRange e) →
    ∃ r', swapLoop degree es r = some r' ∧ r'.WF ∧
      ∀ s : Int × Int,
        r'.getColor s.1 s.2 = r.getColor (srcLoop degree es s).1 (srcLoop degree es s).2 := by
  induction es with
  | nil => intro r h _; exact ⟨r, rfl, h, fun _ => rfl⟩
  | cons e es ih =>
    intro r h hes
    obtain ⟨r1, e1, w1, g1⟩ := swapFront_spec h (hes e (List.mem_cons_self _ _)) degree
    obtain ⟨r2, e2, w2, g2⟩ := ih w1 (fun e' he' => hes e' (List.mem_cons_of_mem _ he'))
    refine ⟨r2, by simp [swapLoop, e1, e2], w2, ?_⟩
    intro s
    rw [g2, g1]
    rfl

end RubiksCube

end rubiks

namespace rubiks

namespace RubiksCube

/-- For a valid axis and layer the queue only depends on the layer coordinate of the axis. -/
theorem swap_queues_layer {x y z axis : Int} (h : LayerOK x y z axis) :
    ∃ a ∈ [AXIS_X, AXIS_Y, AXIS_Z], ∃ k ∈ [(0 : Int), 1, 2],
      axis = a ∧ swap_queues x y z axis = swap_queues k k k a := by
  rcases h with ⟨ha, h0, h1⟩ | ⟨ha, h0, h1⟩ | ⟨ha, h0, h1⟩
  · refine ⟨AXIS_X, by simp, x, ?_, ha, ?_⟩
    · interval_cases x <;> simp
    · subst ha; simp [swap_queues]
  · refine ⟨AXIS_Y, by simp, y, ?_, ha, ?_⟩
    · interval_cases y <;> simp
    · subst ha; simp [swap_queues]
  · refine ⟨AXIS_Z, by simp, z, ?_, ha, ?_⟩
    · interval_cases z <;> simp
    · subst ha; simp [swap_queues]

theorem swap_queues_inRange_fin :
    ∀ a ∈ [AXIS_X, AXIS_Y, AXIS_Z], ∀ k ∈ [(0 : Int), 1, 2],
      ∀ e ∈ swap_queues k k k a, EntryInRange e := by
  decide

theorem swap_queues_inRange {x y z axis : Int} (h : LayerOK x y z axis) :
    ∀ e ∈ swap_queues x y z axis, EntryInRange e := by
  obtain ⟨a, ha, k, hk, -, hq⟩ := swap_queues_layer h
  rw [hq]
  exact swap_queues_inRange_fin a ha k hk

end RubiksCube

end rubiks

namespace rubiks

namespace RubiksCube

/-! ## The slot permutation of `RotateColors` -/

theorem srcFront_of_not_mem {d : Int} {e : SwapEntry} {s : Int × Int} (h : s ∉ e.slots) :
    srcFront d e s = s := by
  simp only [SwapEntry.slots, List.mem_cons, List.mem_singleton, List.not_mem_nil, or_false,
    not_or] at h
  obtain ⟨h0, h1, h2, h3⟩ := h
  unfold srcFront src90 src180 src270 src4
  simp [h0, h1, h2, h3]

theorem srcFront_mem {d : Int} {e : SwapEntry} {s : Int × Int} (h : s ∈ e.slots) :
    srcFront d e s ∈ e.slots := by
  unfold srcFront src90 src180 src270 src4
  simp only [SwapEntry.slots, List.mem_cons, List.mem_singleton, List.not_mem_nil, or_false]
    at h ⊢
  split_ifs <;> simp_all

theorem srcLoop_fixed_or_mem (d : Int) (es : List SwapEntry) (s : Int × Int) :
    srcLoop d es s = s ∨ srcLoop d es s ∈ queueSlots es := by
  induction es with
  | nil => exact Or.inl rfl
  | cons e es ih =>
    simp only [srcLoop, queueSlots, List.flatMap_cons, List.mem_append]
    by_cases ht : srcLoop d es s ∈ e.slots
    · exact Or.inr (Or.inl (srcFront_mem ht))
    · rw [srcFront_of_not_mem ht]
      rcases ih with ih | ih
      · exact Or.inl ih
      · exact Or.inr (Or.inr ih)

theorem srcLoop_of_not_mem {d : Int} {es : List SwapEntry} {s : Int × Int}
    (h : s ∉ queueSlots es) : srcLoop d es s = s := by
  induction es with
  | nil => rfl
  | cons e es ih =>
    simp only [queueSlots, List.flatMap_cons, List.mem_append, not_or] at h
    simp only [srcLoop]
    rw [ih h.2, srcFront_of_not_mem h.1]

theorem srcLoop_mem {d : Int} {es : List SwapEntry} {s : Int × Int}
    (h : s ∈ queueSlots es) : srcLoop d es s ∈ queueSlots es := by
  rcases srcLoop_fixed_or_mem d es s with h1 | h1
  · rw [h1]; exact h
  · exact h1

/-- A turn on one entry commutes with the loop over entries that name other slots. -/
theorem srcFront_srcLoop_comm {d d' : Int} {e : SwapEntry} {es : List SwapEntry}
    (hdis : ∀ s ∈ e.slots, s ∉ queueSlots es) (s : Int × Int) :
    srcLoop d' es (srcFront d e s) = srcFront d e (srcLoop d' es s) := by
  by_cases hs : s ∈ e.slots
  · rw [srcLoop_of_not_mem (hdis _ (srcFront_mem hs)), srcLoop_of_not_mem (hdis _ hs)]
  · rw [srcFront_of_not_mem hs]
    have : srcLoop d' es s ∉ e.slots := by
      rcases srcLoop_fixed_or_mem d' es s with h1 | h1
      · rw [h1]; exact hs
      · exact fun hm => hdis _ hm h1
    rw [srcFront_of_not_mem this]

theorem queueSlots_cons_nodup {e : SwapEntry} {es : List SwapEntry}
    (h : (queueSlots (e :: es)).Nodup) :
    e.slots.Nodup ∧ (queueSlots es).Nodup ∧ ∀ s ∈ e.slots, s ∉ queueSlots es := by
  simp only [queueSlots, List.flatMap_cons] at h
  rw [List.nodup_append] at h
  exact ⟨h.1, h.2.1, fun s hs hq => h.2.2 hs hq⟩

/-- A composition rule for turns on one entry lifts to the whole loop when no slot is named
twice. -/
theorem srcLoop_comp {d1 d2 d3 : Int}
    (hrule : ∀ e : SwapEntry, e.slots.Nodup → ∀ s, srcFront d1 e (srcFront d2 e s) = srcFront d3 e s)
    (es : List SwapEntry) (hnd : (queueSlots es).Nodup) (s : Int × Int) :
    srcLoop d1 es (srcLoop d2 es s) = srcLoop d3 es s := by
  induction es with
  | nil => rfl
  | cons e es ih =>
    obtain ⟨h1, h2, h3⟩ := queueSlots_cons_nodup hnd
    simp only [srcLoop]
    rw [srcFront_srcLoop_comm h3, ih h2, hrule e h1]

end RubiksCube

end rubiks

namespace rubiks

namespace RubiksCube

theorem slots_nodup_ne {e : SwapEntry} (h : e.slots.Nodup) :
    (e.e0, e.e1) ≠ (e.e2, e.e3) ∧ (e.e0, e.e1) ≠ (e.e4, e.e5) ∧ (e.e0, e.e1) ≠ (e.e6, e.e7) ∧
    (e.e2, e.e3) ≠ (e.e4, e.e5) ∧ (e.e2, e.e3) ≠ (e.e6, e.e7) ∧ (e.e4, e.e5) ≠ (e.e6, e.e7) := by
  simp only [SwapEntry.slots, List.nodup_cons, List.mem_cons, List.mem_singleton,
    List.not_mem_nil, or_false, not_or, List.nodup_nil, and_true, not_false_eq_true] at h
  obtain ⟨⟨a, b, c⟩, ⟨d, e'⟩, f⟩ := h
  exact ⟨a, b, c, d, e', f⟩

theorem src4_cases (a0 a1 a2 a3 b0 b1 b2 b3 s : Int × Int)
    (h01 : a0 ≠ a1) (h02 : a0 ≠ a2) (h03 : a0 ≠ a3) (h12 : a1 ≠ a2) (h13 : a1 ≠ a3)
    (h23 : a2 ≠ a3) :
    (s = a0 ∧ src4 a0 a1 a2 a3 b0 b1 b2 b3 s = b0) ∨
    (s = a1 ∧ src4 a0 a1 a2 a3 b0 b1 b2 b3 s = b1) ∨
    (s = a2 ∧ src4 a0 a1 a2 a3 b0 b1 b2 b3 s = b2) ∨
    (s = a3 ∧ src4 a0 a1 a2 a3 b0 b1 b2 b3 s = b3) ∨
    (s ≠ a0 ∧ s ≠ a1 ∧ s ≠ a2 ∧ s ≠ a3 ∧ src4 a0 a1 a2 a3 b0 b1 b2 b3 s = s) := by
  unfold src4
  by_cases e3 : s = a3
  · subst e3; simp
  · by_cases e2 : s = a2
    · subst e2; simp [e3]
    · by_cases e1 : s = a1
      · subst e1; simp [e3, e2]
      · by_cases e0 : s = a0
        · subst e0; simp [e3, e2, e1]
        · simp [e3, e2, e1, e0]

theorem src4_at (a0 a1 a2 a3 b0 b1 b2 b3 : Int × Int)
    (h01 : a0 ≠ a1) (h02 : a0 ≠ a2) (h03 : a0 ≠ a3) (h12 : a1 ≠ a2) (h13 : a1 ≠ a3)
    (h23 : a2 ≠ a3) :
    src4 a0 a1 a2 a3 b0 b1 b2 b3 a0 = b0 ∧ src4 a0 a1 a2 a3 b0 b1 b2 b3 a1 = b1 ∧
    src4 a0 a1 a2 a3 b0 b1 b2 b3 a2 = b2 ∧ src4 a0 a1 a2 a3 b0 b1 b2 b3 a3 = b3 := by
  unfold src4
  simp [h01, h02, h03, h12, h13, h23]

/-- Composition of two reassignments of the same four distinct slots. -/
theorem src4_comp (a0 a1 a2 a3 b0 b1 b2 b3 c0 c1 c2 c3 s : Int × Int)
    (h01 : a0 ≠ a1) (h02 : a0 ≠ a2) (h03 : a0 ≠ a3) (h12 : a1 ≠ a2) (h13 : a1 ≠ a3)
    (h23 : a2 ≠ a3) :
    src4 a0 a1 a2 a3 b0 b1 b2 b3 (src4 a0 a1 a2 a3 c0 c1 c2 c3 s) =
      src4 a0 a1 a2 a3
        (src4 a0 a1 a2 a3 b0 b1 b2 b3 c0) (src4 a0 a1 a2 a3 b0 b1 b2 b3 c1)
        (src4 a0 a1 a2 a3 b0 b1 b2 b3 c2) (src4 a0 a1 a2 a3 b0 b1 b2 b3 c3) s := by
  rcases src4_cases a0 a1 a2 a3 c0 c1 c2 c3 s h01 h02 h03 h12 h13 h23 with
    ⟨hs, hv⟩ | ⟨hs, hv⟩ | ⟨hs, hv⟩ | ⟨hs, hv⟩ | ⟨n0, n1, n2, n3, hv⟩
  · rw [hv, hs]; exact ((src4_at a0 a1 a2 a3 _ _ _ _ h01 h02 h03 h12 h13 h23).1).symm
  · rw [hv, hs]; exact ((src4_at a0 a1 a2 a3 _ _ _ _ h01 h02 h03 h12 h13 h23).2.1).symm
  · rw [hv, hs]; exact ((src4_at a0 a1 a2 a3 _ _ _ _ h01 h02 h03 h12 h13 h23).2.2.1).symm
  · rw [hv, hs]; exact ((src4_at a0 a1 a2 a3 _ _ _ _ h01 h02 h03 h12 h13 h23).2.2.2).symm
  · rw [hv]
    unfold src4
    simp [n0, n1, n2, n3]

theorem src4_id (a0 a1 a2 a3 s : Int × Int) : src4 a0 a1 a2 a3 a0 a1 a2 a3 s = s := by
  unfold src4
  split_ifs <;> simp_all

theorem srcFront_zero (e : SwapEntry) (s : Int × Int) : srcFront DEGREE_0 e s = s := by
  simp [srcFront]

theorem srcLoop_zero (es : List SwapEntry) (s : Int × Int) : srcLoop DEGREE_0 es s = s := by
  induction es with
  | nil => rfl
  | cons e es ih => simp only [srcLoop, ih, srcFront_zero]

/-- Two quarter turns of one entry make its half turn. -/
theorem srcFront_90_90 (e : SwapEntry) (h : e.slots.Nodup) (s : Int × Int) :
    srcFront DEGREE_90 e (srcFront DEGREE_90 e s) = srcFront DEGREE_180 e s := by
  obtain ⟨h01, h02, h03, h12, h13, h23⟩ := slots_nodup_ne h
  obtain ⟨k0, k1, k2, k3⟩ := src4_at (e.e0, e.e1) (e.e2, e.e3) (e.e4, e.e5) (e.e6, e.e7)
    (e.e2, e.e3) (e.e4, e.e5) (e.e6, e.e7) (e.e0, e.e1) h01 h02 h03 h12 h13 h23
  simp only [srcFront, src90, src180, if_true, DEGREE_90, DEGREE_180,
    show ((2 : Int) = 1) = False from by simp, if_false]
  rw [src4_comp _ _ _ _ _ _ _ _ _ _ _ _ _ h01 h02 h03 h12 h13 h23, k0, k1, k2, k3]

/-- A quarter turn after a half turn of one entry makes its three-quarter turn. -/
theorem srcFront_90_180 (e : SwapEntry) (h : e.slots.Nodup) (s : Int × Int) :
    srcFront DEGREE_90 e (srcFront DEGREE_180 e s) = srcFront DEGREE_270 e s := by
  obtain ⟨h01, h02, h03, h12, h13, h23⟩ := slots_nodup_ne h
  obtain ⟨k0, k1, k2, k3⟩ := src4_at (e.e0, e.e1) (e.e2, e.e3) (e.e4, e.e5) (e.e6, e.e7)
    (e.e2, e.e3) (e.e4, e.e5) (e.e6, e.e7) (e.e0, e.e1) h01 h02 h03 h12 h13 h23
  simp only [srcFront, src90, src180, src270, if_true, DEGREE_90, DEGREE_180, DEGREE_270,
    show ((2 : Int) = 1) = False from by simp, show ((3 : Int) = 1) = False from by simp,
    show ((3 : Int) = 2) = False from by simp, if_false]
  rw [src4_comp _ _ _ _ _ _ _ _ _ _ _ _ _ h01 h02 h03 h12 h13 h23, k0, k1, k2, k3]

/-- A quarter turn after a three-quarter turn of one entry is the identity. -/
theorem srcFront_90_270 (e : SwapEntry) (h : e.slots.Nodup) (s : Int × Int) :
    srcFront DEGREE_90 e (srcFront DEGREE_270 e s) = srcFront DEGREE_0 e s := by
  obtain ⟨h01, h02, h03, h12, h13, h23⟩ := slots_nodup_ne h
  obtain ⟨k0, k1, k2, k3⟩ := src4_at (e.e0, e.e1) (e.e2, e.e3) (e.e4, e.e5) (e.e6, e.e7)
    (e.e2, e.e3) (e.e4, e.e5) (e.e6, e.e7) (e.e0, e.e1) h01 h02 h03 h12 h13 h23
  rw [srcFront_zero]
  simp only [srcFront, src90, src270, if_true, DEGREE_90, DEGREE_270,
    show ((3 : Int) = 1) = False from by simp, show ((3 : Int) = 2) = False from by simp,
    if_false]
  rw [src4_comp _ _ _ _ _ _ _ _ _ _ _ _ _ h01 h02 h03 h12 h13 h23, k0, k1, k2, k3, src4_id]

/-- A three-quarter turn after a quarter turn of one entry is the identity. -/
theorem srcFront_270_90 (e : SwapEntry) (h : e.slots.Nodup) (s : Int × Int) :
    srcFront DEGREE_270 e (srcFront DEGREE_90 e s) = srcFront DEGREE_0 e s := by
  obtain ⟨h01, h02, h03, h12, h13, h23⟩ := slots_nodup_ne h
  obtain ⟨k0, k1, k2, k3⟩ := src4_at (e.e0, e.e1) (e.e2, e.e3) (e.e4, e.e5) (e.e6, e.e7)
    (e.e6, e.e7) (e.e0, e.e1) (e.e2, e.e3) (e.e4, e.e5) h01 h02 h03 h12 h13 h23
  rw [srcFront_zero]
  simp only [srcFront, src90, src270, if_true, DEGREE_90, DEGREE_270,
    show ((3 : Int) = 1) = False from by simp, show ((3 : Int) = 2) = False from by simp,
    if_false]
  rw [src4_comp _ _ _ _ _ _ _ _ _ _ _ _ _ h01 h02 h03 h12 h13 h23, k0, k1, k2, k3, src4_id]

/-- Two half turns of one entry are the identity. -/
theorem srcFront_180_180 (e : SwapEntry) (h : e.slots.Nodup) (s : Int × Int) :
    srcFront DEGREE_180 e (srcFront DEGREE_180 e s) = srcFront DEGREE_0 e s := by
  obtain ⟨h01, h02, h03, h12, h13, h23⟩ := slots_nodup_ne h
  obtain ⟨k0, k1, k2, k3⟩ := src4_at (e.e0, e.e1) (e.e2, e.e3) (e.e4, e.e5) (e.e6, e.e7)
    (e.e4, e.e5) (e.e6, e.e7) (e.e0, e.e1) (e.e2, e.e3) h01 h02 h03 h12 h13 h23
  rw [srcFront_zero]
  simp only [srcFront, src180, if_true, DEGREE_90, DEGREE_180,
    show ((2 : Int) = 1) = False from by simp, if_false]
  rw [src4_comp _ _ _ _ _ _ _ _ _ _ _ _ _ h01 h02 h03 h12 h13 h23, k0, k1, k2, k3, src4_id]

theorem queueSlots_nodup_fin :
    ∀ a ∈ [AXIS_X, AXIS_Y, AXIS_Z], ∀ k ∈ [(0 : Int), 1, 2],
      (queueSlots (swap_queues k k k a)).Nodup := by
  decide

theorem queueSlots_nodup {x y z axis : Int} (h : LayerOK x y z axis) :
    (queueSlots (swap_queues x y z axis)).Nodup := by
  obtain ⟨a, ha, k, hk, -, hq⟩ := swap_queues_layer h
  rw [hq]
  exact queueSlots_nodup_fin a ha k hk

/-- `RotateColors` on a valid layer of a well-formed state returns a well-formed state in
which every slot holds the colour that the slot given by `rotSrc` held before. -/
theorem RotateColors_spec {r : RubiksCube} (h : r.WF) {x y z axis : Int}
    (hl : LayerOK x y z axis) (degree : Int) :
    ∃ r', r.RotateColors x y z axis degree = some r' ∧ r'.WF ∧
      ∀ s : Int × Int, r'.getColor s.1 s.2 =
        r.getColor (rotSrc x y z axis degree s).1 (rotSrc x y z axis degree s).2 :=
  swapLoop_spec degree _ h (swap_queues_inRange hl)

end RubiksCube

end rubiks

namespace rubiks

namespace RubiksCube

theorem sample_WF : sample.WF := by
  decide

theorem rotSrc_90_90 {x y z axis : Int} (hl : LayerOK x y z axis) (s : Int × Int) :
    rotSrc x y z axis DEGREE_90 (rotSrc x y z axis DEGREE_90 s) =
      rotSrc x y z axis DEGREE_180 s :=
  srcLoop_comp srcFront_90_90 _ (queueSlots_nodup hl) s

theorem rotSrc_90_180 {x y z axis : Int} (hl : LayerOK x y z axis) (s : Int × Int) :
    rotSrc x y z axis DEGREE_90 (rotSrc x y z axis DEGREE_180 s) =
      rotSrc x y z axis DEGREE_270 s :=
  srcLoop_comp srcFront_90_180 _ (queueSlots_nodup hl) s

theorem rotSrc_90_270 {x y z axis : Int} (hl : LayerOK x y z axis) (s : Int × Int) :
    rotSrc x y z axis DEGREE_90 (rotSrc x y z axis DEGREE_270 s) = s := by
  have := srcLoop_comp srcFront_90_270 _ (queueSlots_nodup hl) s
  rw [srcLoop_zero] at this
  exact this

theorem rotSrc_270_90 {x y z axis : Int} (hl : LayerOK x y z axis) (s : Int × Int) :
    rotSrc x y z axis DEGREE_270 (rotSrc x y z axis DEGREE_90 s) = s := by
  have := srcLoop_comp srcFront_270_90 _ (queueSlots_nodup hl) s
  rw [srcLoop_zero] at this
  exact this

theorem rotSrc_180_180 {x y z axis : Int} (hl : LayerOK x y z axis) (s : Int × Int) :
    rotSrc x y z axis DEGREE_180 (rotSrc x y z axis DEGREE_180 s) = s := by
  have := srcLoop_comp srcFront_180_180 _ (queueSlots_nodup hl) s
  rw [srcLoop_zero] at this
  exact this

/-- C1: on a well-formed cube state, for every axis in {AXIS_X, AXIS_Y, AXIS_Z} and every
layer coordinate in {0, 1, 2}, four successive calls of `RotateColors` with `DEGREE_90` on
the same layer all succeed and leave the colour of every face of every sub-cube as it was
before the first call. -/
theorem C1_four_quarter_turns_restore (r : RubiksCube) (h : r.WF) (x y z axis : Int)
    (hl : LayerOK x y z axis) :
    ∃ r4, ((((r.RotateColors x y z axis DEGREE_90).bind
        (fun r1 => r1.RotateColors x y z axis DEGREE_90)).bind
        (fun r2 => r2.RotateColors x y z axis DEGREE_90)).bind
        (fun r3 => r3.RotateColors x y z axis DEGREE_90)) = some r4 ∧
      ∀ i f : Int, r4.getColor i f = r.getColor i f := by
  obtain ⟨r1, e1, w1, g1⟩ := RotateColors_spec h hl DEGREE_90
  obtain ⟨r2, e2, w2, g2⟩ := RotateColors_spec w1 hl DEGREE_90
  obtain ⟨r3, e3, w3, g3⟩ := RotateColors_spec w2 hl DEGREE_90
  obtain ⟨r4, e4, w4, g4⟩ := RotateColors_spec w3 hl DEGREE_90
  refine ⟨r4, by simp [e1, e2, e3, e4], ?_⟩
  intro i f
  have := g4 (i, f)
  rw [g3, g2, g1, rotSrc_90_90 hl (i, f), rotSrc_90_180 hl, rotSrc_90_270 hl] at this
  exact this

theorem C1_four_quarter_turns_restore_witness :
    sample.WF ∧ LayerOK 2 0 0 AXIS_X ∧
    ∃ r4, ((((sample.RotateColors 2 0 0 AXIS_X DEGREE_90).bind
        (fun r1 => r1.RotateColors 2 0 0 AXIS_X DEGREE_90)).bind
        (fun r2 => r2.RotateColors 2 0 0 AXIS_X DEGREE_90)).bind
        (fun r3 => r3.RotateColors 2 0 0 AXIS_X DEGREE_90)) = some r4 ∧
      ∀ i f : Int, r4.getColor i f = sample.getColor i f :=
  ⟨sample_WF, by decide,
    C1_four_quarter_turns_restore sample sample_WF 2 0 0 AXIS_X (by decide)⟩

/-- C2: on a well-formed cube state, for every axis in {X, Y, Z} and every layer coordinate
in {0, 1, 2}: `RotateColors` with `DEGREE_180` gives the colouring of two successive
`DEGREE_90` calls, `DEGREE_270` gives the colouring of three successive `DEGREE_90` calls,
and `DEGREE_270` followed by `DEGREE_90` restores every colour; all the calls succeed. -/
theorem C2_half_and_three_quarter_turns (r : RubiksCube) (h : r.WF) (x y z axis : Int)
    (hl : LayerOK x y z axis) :
    (∃ a b, r.RotateColors x y z axis DEGREE_180 = some a ∧
      ((r.RotateColors x y z axis DEGREE_90).bind
        (fun r1 => r1.RotateColors x y z axis DEGREE_90)) = some b ∧
      ∀ i f : Int, a.getColor i f = b.getColor i f) ∧
    (∃ a b, r.RotateColors x y z axis DEGREE_270 = some a ∧
      (((r.RotateColors x y z axis DEGREE_90).bind
        (fun r1 => r1.RotateColors x y z axis DEGREE_90)).bind
        (fun r2 => r2.RotateColors x y z axis DEGREE_90)) = some b ∧
      ∀ i f : Int, a.getColor i f = b.getColor i f) ∧
    (∃ c, ((r.RotateColors x y z axis DEGREE_270).bind
        (fun r1 => r1.RotateColors x y z axis DEGREE_90)) = some c ∧
      ∀ i f : Int, c.getColor i f = r.getColor i f) := by
  obtain ⟨r1, e1, w1, g1⟩ := RotateColors_spec h hl DEGREE_90
  obtain ⟨r2, e2, w2, g2⟩ := RotateColors_spec w1 hl DEGREE_90
  obtain ⟨r3, e3, w3, g3⟩ := RotateColors_spec w2 hl DEGREE_90
  obtain ⟨a, ea, wa, ga⟩ := RotateColors_spec h hl DEGREE_180
  obtain ⟨b, eb, wb, gb⟩ := RotateColors_spec h hl DEGREE_270
  obtain ⟨c, ec, wc, gc⟩ := RotateColors_spec wb hl DEGREE_90
  refine ⟨⟨a, r2, ea, by simp [e1, e2], ?_⟩, ⟨b, r3, eb, by simp [e1, e2, e3], ?_⟩,
    ⟨c, by simp [eb, ec], ?_⟩⟩
  · intro i f
    have h2 := g2 (i, f)
    rw [g1, rotSrc_90_90 hl] at h2
    rw [h2]
    exact ga (i, f)
  · intro i f
    have h3 := g3 (i, f)
    rw [g2, g1, rotSrc_90_90 hl (i, f), rotSrc_90_180 hl] at h3
    rw [h3]
    exact gb (i, f)
  · intro i f
    have hc := gc (i, f)
    rw [gb, rotSrc_270_90 hl] at hc
    exact hc

theorem C2_half_and_three_quarter_turns_witness :
    sample.WF ∧ LayerOK 0 1 0 AXIS_Y ∧
    ∃ c, ((sample.RotateColors 0 1 0 AXIS_Y DEGREE_270).bind
        (fun r1 => r1.RotateColors 0 1 0 AXIS_Y DEGREE_90)) = some c ∧
      ∀ i f : Int, c.getColor i f = sample.getColor i f :=
  ⟨sample_WF, by decide,
    (C2_half_and_three_quarter_turns sample sample_WF 0 1 0 AXIS_Y (by decide)).2.2⟩

end RubiksCube

end rubiks

namespace rubiks

namespace RubiksCube

/-! ## The colours as a multiset -/

theorem list_eq_range_map {α : Type} (l : List α) (g : Nat → α) (n : Nat) (hlen : l.length = n)
    (h : ∀ i (hi : i < l.length), l.get ⟨i, hi⟩ = g i) : l = (List.range n).map g := by
  apply List.ext_getElem
  · simp [hlen]
  · intro i h1 h2
    have := h i h1
    simp only [List.get_eq_getElem] at this
    simp [this]

theorem getColor_nat {r : RubiksCube} (i f : Nat) (hi : i < r.cubes.length)
    (hf : f < (r.cubes.get ⟨i, hi⟩).faces.length) :
    r.getColor (i : Int) (f : Int) = some (((r.cubes.get ⟨i, hi⟩).faces.get ⟨f, hf⟩).color) := by
  have h1 : vecGet r.cubes (i : Int) = some (r.cubes.get ⟨i, hi⟩) := by
    rw [vecGet_of_lt _ _ (by omega) (by simpa using hi)]
    simp
  have h2 : vecGet (r.cubes.get ⟨i, hi⟩).faces (f : Int) =
      some ((r.cubes.get ⟨i, hi⟩).faces.get ⟨f, hf⟩) := by
    rw [vecGet_of_lt _ _ (by omega) (by simpa using hf)]
    simp
  simp only [getColor, h1, Option.bind_eq_bind, Option.some_bind, h2]
  rfl

/-- In a well-formed state the stored colours are the colours read slot by slot. -/
theorem faceColors_eq {r : RubiksCube} (h : r.WF) : r.faceColors = allSlots.map r.colorAt := by
  have hc : r.cubes.map (fun c => c.faces.map Quad.color) =
      (List.range 27).map (fun (i : Nat) =>
        (List.range 6).map (fun (f : Nat) => r.colorAt ((i : Int), (f : Int)))) := by
    apply list_eq_range_map _ _ _ (by simpa using h.1)
    intro i hi
    have hi' : i < r.cubes.length := by simpa using hi
    have hlen : (r.cubes.get ⟨i, hi'⟩).faces.length = 6 := h.2 _ (List.get_mem _ _ _)
    simp only [List.get_eq_getElem, List.getElem_map]
    apply list_eq_range_map _ _ _ (by simpa using hlen)
    intro f hf
    have hf' : f < (r.cubes.get ⟨i, hi'⟩).faces.length := by simpa using hf
    simp only [List.get_eq_getElem, List.getElem_map, colorAt]
    rw [getColor_nat i f hi' hf']
    rfl
  unfold faceColors allSlots
  rw [List.flatMap_def, hc, List.map_flatMap, List.flatMap_def]
  simp [Function.comp_def]

end RubiksCube

end rubiks

namespace rubiks

namespace RubiksCube

theorem mem_allSlots {s : Int × Int} : s ∈ allSlots ↔ InRange s.1 s.2 := by
  obtain ⟨i, f⟩ := s
  simp only [allSlots, List.mem_flatMap, List.mem_range, List.mem_map, Prod.mk.injEq, InRange]
  constructor
  · rintro ⟨a, ha, b, hb, rfl, rfl⟩
    omega
  · rintro ⟨h0, h1, h2, h3⟩
    exact ⟨i.toNat, by omega, f.toNat, by omega, by omega, by omega⟩

theorem allSlots_length : allSlots.length = 162 := by
  rfl

theorem allSlots_nodup : allSlots.Nodup := by
  have h : allSlots = ((List.range 27).product (List.range 6)).map
      (fun p : Nat × Nat => ((p.1 : Int), (p.2 : Int))) := by
    simp [allSlots, List.product, List.map_flatMap, Function.comp_def]
  rw [h]
  apply ((List.nodup_range 27).product (List.nodup_range 6)).map
  intro a b hab
  simp only [Prod.mk.injEq, Nat.cast_inj] at hab
  exact Prod.ext hab.1 hab.2

theorem srcFront_other {d : Int} (h1 : d ≠ DEGREE_90) (h2 : d ≠ DEGREE_180)
    (h3 : d ≠ DEGREE_270) (e : SwapEntry) (s : Int × Int) : srcFront d e s = s := by
  simp [srcFront, h1, h2, h3]

theorem srcLoop_other {d : Int} (h1 : d ≠ DEGREE_90) (h2 : d ≠ DEGREE_180)
    (h3 : d ≠ DEGREE_270) (es : List SwapEntry) (s : Int × Int) : srcLoop d es s = s := by
  induction es with
  | nil => rfl
  | cons e es ih => simp only [srcLoop, ih, srcFront_other h1 h2 h3]

/-- The slot map of `RotateColors` on a valid layer is injective. -/
theorem rotSrc_injective {x y z axis : Int} (hl : LayerOK x y z axis) (degree : Int) :
    Function.Injective (rotSrc x y z axis degree) := by
  by_cases h1 : degree = DEGREE_90
  · subst h1
    exact Function.LeftInverse.injective (g := rotSrc x y z axis DEGREE_270) (rotSrc_270_90 hl)
  by_cases h2 : degree = DEGREE_180
  · subst h2
    exact Function.LeftInverse.injective (g := rotSrc x y z axis DEGREE_180) (rotSrc_180_180 hl)
  by_cases h3 : degree = DEGREE_270
  · subst h3
    exact Function.LeftInverse.injective (g := rotSrc x y z axis DEGREE_90) (rotSrc_90_270 hl)
  intro a b hab
  unfold rotSrc at hab
  rwa [srcLoop_other h1 h2 h3, srcLoop_other h1 h2 h3] at hab

theorem queueSlots_inRange {es : List SwapEntry} (h : ∀ e ∈ es, EntryInRange e)
    {s : Int × Int} (hs : s ∈ queueSlots es) : InRange s.1 s.2 := by
  simp only [queueSlots, List.mem_flatMap] at hs
  obtain ⟨e, he, hse⟩ := hs
  obtain ⟨k0, k1, k2, k3⟩ := h e he
  simp only [SwapEntry.slots, List.mem_cons, List.mem_singleton, List.not_mem_nil, or_false]
    at hse
  rcases hse with rfl | rfl | rfl | rfl <;> assumption

/-- The slot map of `RotateColors` on a valid layer sends existing slots to existing slots. -/
theorem rotSrc_inRange {x y z axis : Int} (hl : LayerOK x y z axis) (degree : Int)
    {s : Int × Int} (hs : InRange s.1 s.2) :
    InRange (rotSrc x y z axis degree s).1 (rotSrc x y z axis degree s).2 := by
  rcases srcLoop_fixed_or_mem degree (swap_queues x y z axis) s with h | h
  · unfold rotSrc; rw [h]; exact hs
  · exact queueSlots_inRange (swap_queues_inRange hl) h

theorem map_rotSrc_perm {x y z axis : Int} (hl : LayerOK x y z axis) (degree : Int) :
    (allSlots.map (rotSrc x y z axis degree)).Perm allSlots := by
  apply List.Subperm.perm_of_length_le
  · apply List.subperm_of_subset (allSlots_nodup.map (rotSrc_injective hl degree))
    intro s hs
    obtain ⟨t, ht, rfl⟩ := List.mem_map.1 hs
    exact mem_allSlots.2 (rotSrc_inRange hl degree (mem_allSlots.1 ht))
  · simp

/-- C3: on a well-formed cube state, for every axis in {X, Y, Z}, every layer coordinate in
{0, 1, 2} and every degree argument, `RotateColors` succeeds and the 162 face colours after
the call are a rearrangement of the 162 face colours before it: the same multiset, no
colour created or destroyed. -/
theorem C3_colours_permuted (r : RubiksCube) (h : r.WF) (x y z axis : Int)
    (hl : LayerOK x y z axis) (degree : Int) :
    ∃ r', r.RotateColors x y z axis degree = some r' ∧
      r'.faceColors.length = 162 ∧ r.faceColors.length = 162 ∧
      (r'.faceColors : Multiset Nat) = (r.faceColors : Multiset Nat) := by
  obtain ⟨r', e, w, g⟩ := RotateColors_spec h hl degree
  have hmap : r'.faceColors = (allSlots.map (rotSrc x y z axis degree)).map r.colorAt := by
    rw [faceColors_eq w, List.map_map]
    apply List.map_congr_left
    intro s _
    simp only [colorAt, Function.comp, g s]
  have hperm : r'.faceColors.Perm r.faceColors := by
    rw [hmap, faceColors_eq h]
    exact (map_rotSrc_perm hl degree).map _
  refine ⟨r', e, ?_, ?_, Quotient.sound hperm⟩
  · rw [hperm.length_eq, faceColors_eq h, List.length_map, allSlots_length]
  · rw [faceColors_eq h, List.length_map, allSlots_length]

theorem C3_colours_permuted_witness :
    sample.WF ∧ LayerOK 0 0 1 AXIS_Z ∧
    ∃ r', sample.RotateColors 0 0 1 AXIS_Z DEGREE_180 = some r' ∧
      r'.faceColors.length = 162 ∧ sample.faceColors.length = 162 ∧
      (r'.faceColors : Multiset Nat) = (sample.faceColors : Multiset Nat) :=
  ⟨sample_WF, by decide,
    C3_colours_permuted sample sample_WF 0 0 1 AXIS_Z (by decide) DEGREE_180⟩

end RubiksCube

end rubiks

namespace rubiks

namespace RubiksCube

/-! ## `RotateColors` against the quarter turn of `RotateFace` -/

theorem quarter_fin :
    ∀ a ∈ [AXIS_X, AXIS_Y, AXIS_Z], ∀ k ∈ [(0 : Int), 1, 2],
      ∀ i ∈ loopRange 27, layerCoord a i = k → ∀ f ∈ loopRange 6, onShellI i f →
        rotSrc k k k a DEGREE_90
          (idOfPos (quarterTurn a (gridPos i)), faceOfDir (quarterTurn a (faceDir f))) = (i, f) := by
  decide!

theorem queueSlots_layer_fin :
    ∀ a ∈ [AXIS_X, AXIS_Y, AXIS_Z], ∀ k ∈ [(0 : Int), 1, 2],
      ∀ s ∈ queueSlots (swap_queues k k k a), layerCoord a s.1 = k := by
  decide

theorem idOfPos_gridPos_fin : ∀ i ∈ loopRange 27, idOfPos (gridPos i) = i := by
  decide

theorem faceOfDir_faceDir_fin : ∀ f ∈ loopRange 6, faceOfDir (faceDir f) = f := by
  decide

theorem mem_loopRange {i n : Int} (h0 : 0 ≤ i) (h1 : i < n) : i ∈ loopRange n := by
  simp only [loopRange, List.mem_map, List.mem_range]
  exact ⟨i.toNat, by omega, by simp [Int.toNat_of_nonneg h0]⟩

theorem layer_cases {x y z axis : Int} (h : LayerOK x y z axis) :
    axis ∈ [AXIS_X, AXIS_Y, AXIS_Z] ∧ selectedLayer x y z axis ∈ [(0 : Int), 1, 2] ∧
    swap_queues x y z axis =
      swap_queues (selectedLayer x y z axis) (selectedLayer x y z axis)
        (selectedLayer x y z axis) axis := by
  rcases h with ⟨ha, h0, h1⟩ | ⟨ha, h0, h1⟩ | ⟨ha, h0, h1⟩
  · subst ha
    refine ⟨by simp, ?_, by simp [swap_queues, selectedLayer]⟩
    simp only [selectedLayer, if_true]
    interval_cases x <;> simp
  · subst ha
    refine ⟨by simp, ?_, by simp [swap_queues, selectedLayer]⟩
    simp only [selectedLayer]
    interval_cases y <;> simp
  · subst ha
    refine ⟨by simp, ?_, by simp [swap_queues, selectedLayer]⟩
    simp only [selectedLayer]
    interval_cases z <;> simp

theorem ofInts_inj {a b c a' b' c' : Int}
    (h : Vec3D.ofInts a b c = Vec3D.ofInts a' b' c') : (a, b, c) = (a', b', c') := by
  simp only [Vec3D.ofInts, Vec3D.mk.injEq, Int.cast_inj] at h
  simp [h.1, h.2.1, h.2.2]

/-- With `sin theta = 1` and `cos theta = 0` the rotation matrices of `geometry.hpp` act on
integer vectors as the quarter turns. -/
theorem axisRotation_ofInts (T : Trig) (theta : ℚ) (hs : T.sin theta = 1)
    (hc : T.cos theta = 0) (axis : Int) (p : Int × Int × Int) :
    (axisRotation T axis theta).mulVec (Vec3D.ofInts p.1 p.2.1 p.2.2) =
      Vec3D.ofInts (quarterTurn axis p).1 (quarterTurn axis p).2.1 (quarterTurn axis p).2.2 := by
  unfold axisRotation quarterTurn
  split_ifs <;>
    simp [geometry.RotationX, geometry.RotationY, geometry.RotationZ, Matrix3D.mulVec,
      Vec3D.ofInts, hs, hc]

theorem onShell_iff (i f : Int) : onShell i f ↔ onShellI i f := by
  unfold onShell onShellI cubePos faceNormal gridPos Vec3D.Dot Vec3D.ofInts
  simp only
  norm_cast

end RubiksCube

end rubiks

namespace rubiks

namespace RubiksCube

/-- C4: let `T`, `theta` be such that `sin theta = 1` and `cos theta = 0` (the quarter turn
that `RotateFace` animates). On a well-formed state, for every axis in {X, Y, Z} and layer
in {0, 1, 2}, `RotateColors` with `DEGREE_90` succeeds and: for every sub-cube `i` of the
layer and every face `f` of it on the outer shell, the sub-cube `i'` whose centred position
is the rotated position of `i` carries, on the face `f'` whose outward direction is the
rotated direction of `f`, the colour that `i`, `f` carried before; and every face of every
sub-cube outside the layer keeps its colour. -/
theorem C4_quarter_turn_moves_stickers (T : Trig) (theta : ℚ) (hs : T.sin theta = 1)
    (hc : T.cos theta = 0) (r : RubiksCube) (h : r.WF) (x y z axis : Int)
    (hl : LayerOK x y z axis) :
    ∃ r', r.RotateColors x y z axis DEGREE_90 = some r' ∧
      (∀ i f i' f' : Int, InRange i f → InRange i' f' →
        layerCoord axis i = selectedLayer x y z axis → onShell i f →
        cubePos i' = (axisRotation T axis theta).mulVec (cubePos i) →
        faceNormal f' = (axisRotation T axis theta).mulVec (faceNormal f) →
        r'.getColor i' f' = r.getColor i f) ∧
      (∀ i f : Int, InRange i f → layerCoord axis i ≠ selectedLayer x y z axis →
        r'.getColor i f = r.getColor i f) := by
  obtain ⟨r', e, -, g⟩ := RotateColors_spec h hl DEGREE_90
  obtain ⟨ha, hk, hq⟩ := layer_cases hl
  refine ⟨r', e, ?_, ?_⟩
  · intro i f i' f' hif hif' hlay hshell hpos hdir
    have hp : gridPos i' = quarterTurn axis (gridPos i) := by
      unfold cubePos at hpos
      simp only at hpos
      rw [axisRotation_ofInts T theta hs hc axis (CubeIdToXYZ i (-1))] at hpos
      exact ofInts_inj hpos
    have hd : faceDir f' = quarterTurn axis (faceDir f) := by
      unfold faceNormal at hdir
      rw [axisRotation_ofInts T theta hs hc axis (faceDir f)] at hdir
      exact ofInts_inj hdir
    have hi' : i' = idOfPos (quarterTurn axis (gridPos i)) := by
      rw [← hp]
      exact (idOfPos_gridPos_fin i' (mem_loopRange hif'.1 hif'.2.1)).symm
    have hf' : f' = faceOfDir (quarterTurn axis (faceDir f)) := by
      rw [← hd]
      exact (faceOfDir_faceDir_fin f' (mem_loopRange hif'.2.2.1 hif'.2.2.2)).symm
    have key := quarter_fin axis ha _ hk i (mem_loopRange hif.1 hif.2.1) hlay f
      (mem_loopRange hif.2.2.1 hif.2.2.2) ((onShell_iff i f).1 hshell)
    have hg := g (i', f')
    unfold rotSrc at hg key
    rw [hq, ← hi', ← hf'] at *
    rw [hg, key]
  · intro i f _ hlay
    have hnot : (i, f) ∉ queueSlots (swap_queues x y z axis) := by
      intro hmem
      rw [hq] at hmem
      exact hlay (queueSlots_layer_fin axis ha _ hk (i, f) hmem)
    have hg := g (i, f)
    unfold rotSrc at hg
    rw [srcLoop_of_not_mem hnot] at hg
    exact hg

theorem C4_quarter_turn_moves_stickers_witness :
    Trig.quarter.sin 0 = 1 ∧ Trig.quarter.cos 0 = 0 ∧ sample.WF ∧ LayerOK 0 0 0 AXIS_X ∧
    ∃ r', sample.RotateColors 0 0 0 AXIS_X DEGREE_90 = some r' ∧
      r'.getColor 6 FACE_Y_PLUS = sample.getColor 0 FACE_Z_MINUS ∧
      r'.getColor 26 FACE_Z_PLUS = sample.getColor 26 FACE_Z_PLUS :=
  ⟨rfl, rfl, sample_WF, by decide,
    (C4_quarter_turn_moves_stickers Trig.quarter 0 rfl rfl sample sample_WF 0 0 0 AXIS_X
      (by decide)).imp (fun _ hr =>
        ⟨hr.1,
         hr.2.1 0 FACE_Z_MINUS 6 FACE_Y_PLUS (by decide) (by decide) (by decide)
           ((onShell_iff 0 FACE_Z_MINUS).2 (by decide))
           (by
             rw [show cubePos 6 = Vec3D.ofInts (-1) 1 (-1) from rfl,
               show cubePos 0 = Vec3D.ofInts (-1) (-1) (-1) from rfl]
             exact (axisRotation_ofInts Trig.quarter 0 rfl rfl AXIS_X (-1, -1, -1)).symm)
           (by
             rw [show faceNormal FACE_Y_PLUS = Vec3D.ofInts 0 1 0 from rfl,
               show faceNormal FACE_Z_MINUS = Vec3D.ofInts 0 0 (-1) from rfl]
             exact (axisRotation_ofInts Trig.quarter 0 rfl rfl AXIS_X (0, 0, -1)).symm),
         hr.2.2 26 FACE_Z_PLUS (by decide) (by decide)⟩)⟩

end RubiksCube

end rubiks

namespace rubiks

namespace RubiksCube

/-! ## Loops that update the sub-cubes one by one -/

/-- A loop that updates `cubes[i]` for distinct existing indices `i` succeeds, and each
sub-cube named by the loop is updated once, by the body of its own index. -/
theorem forEach_updateCube_spec (F : Int → Cube → Option Cube) (is : List Int) :
    ∀ (r : RubiksCube), is.Nodup →
      (∀ i ∈ is, ∃ c c', vecGet r.cubes i = some c ∧ F i c = some c') →
      ∃ r', forEach is (fun i r => r.updateCube i (F i)) r = some r' ∧
        r'.cubes.length = r.cubes.length ∧
        r'.global_rotation = r.global_rotation ∧
        r'.global_translation = r.global_translation ∧
        ∀ j : Int, vecGet r'.cubes j =
          if j ∈ is then (vecGet r.cubes j).bind (F j) else vecGet r.cubes j := by
  induction is with
  | nil =>
    intro r _ _
    exact ⟨r, rfl, rfl, rfl, rfl, fun j => by simp⟩
  | cons i is ih =>
    intro r hnd hex
    obtain ⟨hni, hnd'⟩ := List.nodup_cons.1 hnd
    obtain ⟨c, c', hc, hF⟩ := hex i (List.mem_cons_self _ _)
    have hb := vecGet_some_bounds hc
    have hget : ∀ j : Int, vecGet (r.cubes.set i.toNat c') j =
        if j = i then some c' else vecGet r.cubes j := fun j => vecGet_set _ _ _ _ hb.1 hb.2
    obtain ⟨r', e', l', gr', gt', g'⟩ := ih { r with cubes := r.cubes.set i.toNat c' } hnd'
      (by
        intro j hj
        have hji : j ≠ i := fun hji => hni (hji ▸ hj)
        obtain ⟨d, d', hd, hFd⟩ := hex j (List.mem_cons_of_mem _ hj)
        exact ⟨d, d', by simp only [hget, hji, if_false, hd], hFd⟩)
    refine ⟨r', ?_, ?_, gr', gt', ?_⟩
    · simp only [forEach, updateCube_some hc hF, Option.some_bind, e']
    · simpa using l'
    · intro j
      rw [g' j]
      simp only [hget]
      by_cases hji : j = i
      · subst hji
        simp [hni, hc, hF]
      · simp [hji]

theorem loopRange_nodup (n : Int) : (loopRange n).Nodup := by
  unfold loopRange
  apply (List.nodup_range _).map
  intro a b hab
  exact Int.ofNat.inj hab

theorem mem_loopRange_iff {i n : Int} : i ∈ loopRange n ↔ 0 ≤ i ∧ i < n := by
  constructor
  · intro h
    simp only [loopRange, List.mem_map, List.mem_range] at h
    obtain ⟨a, ha, rfl⟩ := h
    have : (Int.ofNat a) = (a : Int) := rfl
    omega
  · intro h
    exact mem_loopRange h.1 h.2

theorem setColorsFrom_length (colors : Colors6) (l : List Quad) :
    ∀ k, (setColorsFrom colors k l).length = l.length := by
  induction l with
  | nil => intro k; rfl
  | cons q qs ih => intro k; simp [setColorsFrom, ih]

theorem setColorsFrom_getElem? (colors : Colors6) (l : List Quad) :
    ∀ k n : Nat, (setColorsFrom colors k l)[n]? =
      l[n]?.map (fun q => { q with color := colors.get (k + n) }) := by
  induction l with
  | nil => intro k n; simp [setColorsFrom]
  | cons q qs ih =>
    intro k n
    cases n with
    | zero => simp [setColorsFrom]
    | succ m =>
      simp only [setColorsFrom, List.getElem?_cons_succ, ih]
      congr 1
      funext q'
      congr 2
      omega

/-- `Cube::SetColors` on a cube with six faces succeeds, keeps six faces and gives face
slot `f` the colour `colors[f]`. -/
theorem SetColors_spec (c : Cube) (colors : Colors6) (h : c.faces.length = 6) :
    ∃ c', c.SetColors colors = some c' ∧ c'.faces.length = 6 ∧
      ∀ f : Int, 0 ≤ f → f < 6 →
        (vecGet c'.faces f).map Quad.color = some (colors.get f.toNat) := by
  have htake : c.faces.take 6 = c.faces := List.take_of_length_le (by omega)
  have hdrop : c.faces.drop 6 = [] := List.drop_of_length_le (by omega)
  refine ⟨{ c with faces := setColorsFrom colors 0 c.faces }, ?_, ?_, ?_⟩
  · simp [Cube.SetColors, h, htake, hdrop]
  · simp [setColorsFrom_length, h]
  · intro f h0 h1
    have hlt : f.toNat < c.faces.length := by omega
    simp [vecGet, h0, setColorsFrom_getElem?, List.getElem?_eq_getElem hlt]

end RubiksCube

end rubiks

namespace rubiks

namespace RubiksCube

theorem WF_of_vecGet {r : RubiksCube} (hlen : r.cubes.length = 27)
    (h : ∀ (j : Int) (c : Cube), vecGet r.cubes j = some c → c.faces.length = 6) : r.WF := by
  refine ⟨hlen, ?_⟩
  intro c hc
  obtain ⟨n, hn, rfl⟩ := List.mem_iff_getElem.1 hc
  apply h (n : Int)
  rw [vecGet_of_lt _ _ (by omega) (by simpa using hn)]
  simp

/-- `InitializeColors` on a well-formed state succeeds and gives every face slot the colour
of the palette computed for its sub-cube. -/
theorem InitializeColors_spec {r : RubiksCube} (h : r.WF) :
    ∃ r', r.InitializeColors = some r' ∧ r'.WF ∧
      r'.global_rotation = r.global_rotation ∧
      r'.global_translation = r.global_translation ∧
      ∀ i f : Int, InRange i f → r'.getColor i f = some ((initialColors i).get f.toNat) := by
  obtain ⟨r', e, l, gr, gt, g⟩ := forEach_updateCube_spec
    (fun i c => c.SetColors (initialColors i)) (loopRange (CUBE_NUM * CUBE_NUM * CUBE_NUM)) r
    (loopRange_nodup _)
    (by
      intro i hi
      obtain ⟨h0, h1⟩ := mem_loopRange_iff.1 hi
      obtain ⟨c, hc, hlen⟩ := h.cube h0 h1
      obtain ⟨c', hc', -⟩ := SetColors_spec c (initialColors i) hlen
      exact ⟨c, c', hc, hc'⟩)
  have hcube : ∀ i : Int, 0 ≤ i → i < 27 → ∃ c c', vecGet r.cubes i = some c ∧
      vecGet r'.cubes i = some c' ∧ c.SetColors (initialColors i) = some c' ∧
      c.faces.length = 6 := by
    intro i h0 h1
    obtain ⟨c, hc, hlen⟩ := h.cube h0 h1
    obtain ⟨c', hc', -⟩ := SetColors_spec c (initialColors i) hlen
    refine ⟨c, c', hc, ?_, hc', hlen⟩
    rw [g i, if_pos (mem_loopRange (n := CUBE_NUM * CUBE_NUM * CUBE_NUM) h0 h1), hc]
    exact hc'
  refine ⟨r', e, ?_, gr, gt, ?_⟩
  · apply WF_of_vecGet (l.trans h.1)
    intro j c hj
    obtain ⟨h0, h1⟩ := vecGet_some_bounds hj
    rw [l, h.1] at h1
    obtain ⟨d, d', -, hd', hs, hlen⟩ := hcube j h0 (by omega)
    obtain ⟨d'', hs', hlen', -⟩ := SetColors_spec d (initialColors j) hlen
    rw [hj] at hd'
    rw [hs] at hs'
    cases hd'
    cases hs'
    exact hlen'
  · intro i f hif
    obtain ⟨d, d', -, hd', hs, hlen⟩ := hcube i hif.1 hif.2.1
    obtain ⟨d'', hs', -, hcol⟩ := SetColors_spec d (initialColors i) hlen
    rw [hs] at hs'
    cases hs'
    have := hcol f hif.2.2.1 hif.2.2.2
    simp only [getColor, hd', Option.bind_eq_bind, Option.some_bind]
    cases hq : vecGet d'.faces f with
    | none => simp [hq] at this
    | some q => simpa [hq] using this

theorem initialColors_fin :
    ∀ i ∈ loopRange 27, ∀ f ∈ loopRange 6,
      (initialColors i).get f.toNat = specInitialColor i f := by
  decide

theorem CubeIdToXYZ_centred_fin :
    ∀ i ∈ loopRange 27, CubeIdToXYZ i (-1) = (i % 3 - 1, i / 3 % 3 - 1, i / 9 - 1) := by
  decide

end RubiksCube

end rubiks

namespace rubiks

namespace RubiksCube

/-- `Initialize` on a freshly constructed object succeeds and returns a well-formed state
with the colours of `InitializeColors` and the default view transform. -/
theorem Initialize_spec (T : Trig) :
    ∃ r', Initialize T RubiksCube.empty = some r' ∧ r'.WF ∧
      r'.global_rotation =
        (geometry.RotationX T (RUBIKS_PI / 6)).mul (geometry.RotationY T (RUBIKS_PI / 4)) ∧
      r'.global_translation = ⟨180, 180, RUBIKS_SIZE * 2⟩ ∧
      ∀ i f : Int, InRange i f → r'.getColor i f = some ((initialColors i).get f.toNat) := by
  have hlen0 : (List.replicate 27 Cube.empty).length = 27 := List.length_replicate _ _
  have hget0 : ∀ i : Int, 0 ≤ i → i < 27 →
      vecGet (List.replicate 27 Cube.empty) i = some Cube.empty := by
    intro i h0 h1
    rw [vecGet_of_lt _ _ h0 (by rw [hlen0]; omega)]
    simp only [List.get_eq_getElem, List.getElem_replicate]
  obtain ⟨r1, e1, l1, -, -, g1⟩ := forEach_updateCube_spec
    (fun i c => some
      { c.Initialize with rotation := geometry.Identity,
                          translation := restTranslation i,
                          scale := CUBE_SCALE })
    (loopRange (CUBE_NUM * CUBE_NUM * CUBE_NUM))
    { RubiksCube.empty with cubes := List.replicate 27 Cube.empty }
    (loopRange_nodup _)
    (by
      intro i hi
      obtain ⟨h0, h1⟩ := mem_loopRange_iff.1 hi
      exact ⟨Cube.empty, _, hget0 i h0 h1, rfl⟩)
  have w1 : r1.WF := by
    apply WF_of_vecGet (l1.trans hlen0)
    intro j c hj
    obtain ⟨h0, h1⟩ := vecGet_some_bounds hj
    have h1' : j < 27 := by
      have : r1.cubes.length = 27 := l1.trans hlen0
      omega
    rw [g1 j, if_pos (mem_loopRange (n := CUBE_NUM * CUBE_NUM * CUBE_NUM) h0 h1'),
      hget0 j h0 h1'] at hj
    simp only [Option.some_bind, Option.some.injEq] at hj
    rw [← hj]
    rfl
  obtain ⟨r2, e2, w2, -, -, g2⟩ := InitializeColors_spec w1
  refine ⟨{ (r2.InitializeGlobalRotation T) with
      global_translation := ⟨180, 180, RUBIKS_SIZE * 2⟩ }, ?_, w2, rfl, rfl, g2⟩
  have hresize : (RubiksCube.empty.cubes.take (CUBE_NUM * CUBE_NUM * CUBE_NUM).toNat ++
      List.replicate ((CUBE_NUM * CUBE_NUM * CUBE_NUM).toNat - RubiksCube.empty.cubes.length)
        Cube.empty) = List.replicate 27 Cube.empty := rfl
  simp only [Initialize, hresize, Option.bind_eq_bind, e1, Option.some_bind, e2]
  rfl

/-- C5: `InitializeColors` on a well-formed state, and `Initialize` on a fresh object,
succeed, and afterwards face slot `f` of sub-cube `i` (for `i` in `[0, 27)`, centred
coordinate `(i mod 3 - 1, (i / 3) mod 3 - 1, i / 9 - 1)`, which is what `CubeIdToXYZ(i, -1)`
returns) is `COLOR_BLACK` unless the face lies on the outer shell, where it has the fixed
colour of its side; all six faces of the centre sub-cube, index 13, are `COLOR_BLACK`. -/
theorem C5_initial_colours (T : Trig) (r : RubiksCube) (h : r.WF) :
    (∃ r', r.InitializeColors = some r' ∧
      (∀ i f : Int, InRange i f → r'.getColor i f = some (specInitialColor i f)) ∧
      (∀ f : Int, 0 ≤ f → f < 6 → r'.getColor 13 f = some COLOR_BLACK)) ∧
    (∃ r', Initialize T RubiksCube.empty = some r' ∧
      (∀ i f : Int, InRange i f → r'.getColor i f = some (specInitialColor i f)) ∧
      (∀ f : Int, 0 ≤ f → f < 6 → r'.getColor 13 f = some COLOR_BLACK)) ∧
    (∀ i : Int, 0 ≤ i → i < 27 →
      CubeIdToXYZ i (-1) = (i % 3 - 1, i / 3 % 3 - 1, i / 9 - 1)) := by
  have hfin : ∀ i f : Int, InRange i f →
      (initialColors i).get f.toNat = specInitialColor i f := fun i f hif =>
    initialColors_fin i (mem_loopRange hif.1 hif.2.1) f (mem_loopRange hif.2.2.1 hif.2.2.2)
  have hcentre : ∀ f : Int, 0 ≤ f → f < 6 → specInitialColor 13 f = COLOR_BLACK := by
    intro f h0 h1
    interval_cases f <;> decide
  obtain ⟨r1, e1, -, -, -, g1⟩ := InitializeColors_spec h
  obtain ⟨r2, e2, -, -, -, g2⟩ := Initialize_spec T
  refine ⟨⟨r1, e1, ?_, ?_⟩, ⟨r2, e2, ?_, ?_⟩, ?_⟩
  · intro i f hif
    rw [g1 i f hif, hfin i f hif]
  · intro f h0 h1
    have hif : InRange 13 f := ⟨by decide, by decide, h0, h1⟩
    rw [g1 13 f hif, hfin 13 f hif, hcentre f h0 h1]
  · intro i f hif
    rw [g2 i f hif, hfin i f hif]
  · intro f h0 h1
    have hif : InRange 13 f := ⟨by decide, by decide, h0, h1⟩
    rw [g2 13 f hif, hfin 13 f hif, hcentre f h0 h1]
  · intro i h0 h1
    exact CubeIdToXYZ_centred_fin i (mem_loopRange h0 h1)

theorem C5_initial_colours_witness :
    sample.WF ∧
    ∃ r', sample.InitializeColors = some r' ∧
      (∀ i f : Int, InRange i f → r'.getColor i f = some (specInitialColor i f)) ∧
      (∀ f : Int, 0 ≤ f → f < 6 → r'.getColor 13 f = some COLOR_BLACK) :=
  ⟨sample_WF, (C5_initial_colours Trig.flat sample sample_WF).1⟩

end RubiksCube

end rubiks

namespace rubiks

namespace RubiksCube

/-! ## Transform updates: `InitializeFaceRotation` and `RotateFace` -/

theorem forEach_inv {σ : Type} (I : σ → Prop) (body : Int → σ → Option σ) (is : List Int)
    (hbody : ∀ i ∈ is, ∀ s, I s → ∃ s', body i s = some s' ∧ I s') :
    ∀ s, I s → ∃ s', forEach is body s = some s' ∧ I s' := by
  induction is with
  | nil => intro s hs; exact ⟨s, rfl, hs⟩
  | cons i is ih =>
    intro s hs
    obtain ⟨s1, e1, h1⟩ := hbody i (List.mem_cons_self _ _) s hs
    obtain ⟨s2, e2, h2⟩ := ih (fun j hj => hbody j (List.mem_cons_of_mem _ hj)) s1 h1
    exact ⟨s2, by simp [forEach, e1, e2], h2⟩

theorem restTranslation_eq (i : Int) :
    restTranslation i =
      (Vec3D.ofInts ((CubeIdToXYZ i 0).1 - 1) ((CubeIdToXYZ i 0).2.1 - 1)
        ((CubeIdToXYZ i 0).2.2 - 1)).smul CUBE_DISTANCE := by
  simp only [restTranslation, CubeIdToXYZ, add_zero]
  rfl

/-- `InitializeFaceRotation` on a well-formed state succeeds, keeps every colour and the
view transform, and leaves every sub-cube in its rest transform. -/
theorem InitializeFaceRotation_spec {r : RubiksCube} (h : r.WF) :
    ∃ r', r.InitializeFaceRotation = some r' ∧ r'.WF ∧ ColorsEq r r' ∧
      r'.global_rotation = r.global_rotation ∧
      r'.global_translation = r.global_translation ∧ r'.AtRest := by
  obtain ⟨r', e, l, gr, gt, g⟩ := forEach_updateCube_spec
    (fun i c => some { c with rotation := geometry.Identity, translation := restTranslation i })
    (loopRange (CUBE_NUM * CUBE_NUM * CUBE_NUM)) r (loopRange_nodup _)
    (by
      intro i hi
      obtain ⟨h0, h1⟩ := mem_loopRange_iff.1 hi
      obtain ⟨c, hc, -⟩ := h.cube h0 h1
      exact ⟨c, _, hc, rfl⟩)
  have hfaces : ∀ (j : Int) (c' : Cube), vecGet r'.cubes j = some c' →
      ∃ c, vecGet r.cubes j = some c ∧ c'.faces = c.faces := by
    intro j c' hj
    rw [g j] at hj
    split_ifs at hj
    · cases hc : vecGet r.cubes j with
      | none => simp [hc] at hj
      | some c =>
        simp only [hc, Option.some_bind, Option.some.injEq] at hj
        exact ⟨c, rfl, by rw [← hj]⟩
    · exact ⟨c', hj, rfl⟩
  refine ⟨r', e, ?_, ?_, gr, gt, ?_⟩
  · apply WF_of_vecGet (l.trans h.1)
    intro j c' hj
    obtain ⟨c, hc, hf⟩ := hfaces j c' hj
    obtain ⟨h0, h1⟩ := vecGet_some_bounds hc
    rw [hf]
    exact h.2 c (by
      have := vecGet_of_lt r.cubes j h0 h1
      rw [hc] at this
      cases this
      exact List.get_mem _ _ _)
  · intro j k
    simp only [getColor, g j]
    split_ifs
    · cases hc : vecGet r.cubes j <;> simp
    · rfl
  · intro i h0 h1
    obtain ⟨c, hc, -⟩ := h.cube h0 h1
    refine ⟨{ c with rotation := geometry.Identity, translation := restTranslation i }, ?_,
      rfl, restTranslation_eq i⟩
    rw [g i, if_pos (mem_loopRange (n := CUBE_NUM * CUBE_NUM * CUBE_NUM) h0 h1), hc]
    rfl

end RubiksCube

end rubiks

namespace rubiks

namespace RubiksCube

theorem rotateCube_spec {r : RubiksCube} (h : r.WF) {idx : Int} (h0 : 0 ≤ idx) (h1 : idx < 27)
    (rotation : Matrix3D) (v off : Vec3D) :
    ∃ r', r.rotateCube idx rotation v off = some r' ∧ r'.WF ∧ ColorsEq r r' ∧
      r'.global_rotation = r.global_rotation ∧ r'.global_translation = r.global_translation :=
  updateCube_keepFaces h h0 h1
    (fun cube => { cube with rotation := rotation,
                             translation := ((rotation.mulVec v).add off).smul CUBE_DISTANCE })
    (fun _ => rfl)

/-- `RotateFace` on a well-formed state with sub-cube coordinates succeeds, and changes
neither a colour nor the view transform. -/
theorem RotateFace_spec (T : Trig) {r : RubiksCube} (h : r.WF) {x y z : Int}
    (hx : 0 ≤ x ∧ x < 3) (hy : 0 ≤ y ∧ y < 3) (hz : 0 ≤ z ∧ z < 3) (axis : Int) (theta : ℚ) :
    ∃ r', r.RotateFace T x y z axis theta = some r' ∧ r'.WF ∧ ColorsEq r r' ∧
      r'.global_rotation = r.global_rotation ∧ r'.global_translation = r.global_translation := by
  have key : ∀ (f : Int → Int → Int) (rot : Matrix3D) (v : Int → Int → Vec3D) (off : Vec3D),
      (∀ a b : Int, 0 ≤ a → a < 3 → 0 ≤ b → b < 3 → 0 ≤ f a b ∧ f a b < 27) →
      ∃ r', forEach (loopRange CUBE_NUM) (fun a r =>
          forEach (loopRange CUBE_NUM) (fun b r => r.rotateCube (f a b) rot (v a b) off) r) r
          = some r' ∧
        (r'.WF ∧ ColorsEq r r' ∧ r'.global_rotation = r.global_rotation ∧
          r'.global_translation = r.global_translation) := by
    intro f rot v off hf
    apply forEach_inv (fun s => s.WF ∧ ColorsEq r s ∧ s.global_rotation = r.global_rotation ∧
      s.global_translation = r.global_translation) _ _ _ r ⟨h, ColorsEq.refl r, rfl, rfl⟩
    intro a ha s hs
    obtain ⟨ha0, ha1⟩ := mem_loopRange_iff.1 ha
    apply forEach_inv (fun s => s.WF ∧ ColorsEq r s ∧ s.global_rotation = r.global_rotation ∧
      s.global_translation = r.global_translation) _ _ _ s hs
    intro b hb s' hs'
    obtain ⟨hb0, hb1⟩ := mem_loopRange_iff.1 hb
    obtain ⟨hi0, hi1⟩ := hf a b ha0 ha1 hb0 hb1
    obtain ⟨s'', e, w, ce, gr, gt⟩ := rotateCube_spec hs'.1 hi0 hi1 rot (v a b) off
    exact ⟨s'', e, w, hs'.2.1.trans ce, gr.trans hs'.2.2.1, gt.trans hs'.2.2.2⟩
  unfold RotateFace
  split_ifs
  · obtain ⟨r', e, hr'⟩ := key (fun a b => x + a * CUBE_NUM + b * CUBE_NUM * CUBE_NUM)
      (geometry.RotationX T theta) (fun a b => Vec3D.ofInts 0 (a - 1) (b - 1))
      (Vec3D.ofInts (x - 1) 0 0) (by intro a b _ _ _ _; simp only [CUBE_NUM]; omega)
    exact ⟨r', e, hr'⟩
  · obtain ⟨r', e, hr'⟩ := key (fun a b => a + y * CUBE_NUM + b * CUBE_NUM * CUBE_NUM)
      (geometry.RotationY T theta) (fun a b => Vec3D.ofInts (a - 1) 0 (b - 1))
      (Vec3D.ofInts 0 (y - 1) 0) (by intro a b _ _ _ _; simp only [CUBE_NUM]; omega)
    exact ⟨r', e, hr'⟩
  · obtain ⟨r', e, hr'⟩ := key (fun a b => a + b * CUBE_NUM + z * CUBE_NUM * CUBE_NUM)
      (geometry.RotationZ T theta) (fun a b => Vec3D.ofInts (a - 1) (b - 1) 0)
      (Vec3D.ofInts 0 0 (z - 1)) (by intro a b _ _ _ _; simp only [CUBE_NUM]; omega)
    exact ⟨r', e, hr'⟩

/-- `RotateColors` on a well-formed state with sub-cube coordinates succeeds for every axis
and degree argument, and every slot then holds the colour that the slot given by `rotSrc`
held before. -/
theorem RotateColors_total {r : RubiksCube} (h : r.WF) {x y z : Int}
    (hx : 0 ≤ x ∧ x < 3) (hy : 0 ≤ y ∧ y < 3) (hz : 0 ≤ z ∧ z < 3) (axis degree : Int) :
    ∃ r', r.RotateColors x y z axis degree = some r' ∧ r'.WF ∧
      ∀ s : Int × Int, r'.getColor s.1 s.2 =
        r.getColor (rotSrc x y z axis degree s).1 (rotSrc x y z axis degree s).2 := by
  by_cases hax : axis = AXIS_X ∨ axis = AXIS_Y ∨ axis = AXIS_Z
  · apply RotateColors_spec h
    rcases hax with ha | ha | ha
    · exact Or.inl ⟨ha, hx⟩
    · exact Or.inr (Or.inl ⟨ha, hy⟩)
    · exact Or.inr (Or.inr ⟨ha, hz⟩)
  · simp only [not_or] at hax
    have hq : swap_queues x y z axis = [] := by
      simp [swap_queues, hax.1, hax.2.1, hax.2.2]
    exact ⟨r, by simp [RotateColors, hq, swapLoop], h, fun s => by simp [rotSrc, hq, srcLoop]⟩

end RubiksCube

end rubiks

namespace rubiks

namespace AnimationHandler

theorem isTerminal_iff (q : AnimationQueue) (angle : ℚ) :
    isTerminal q.speed angle q.degree_end = true ↔ Terminal q angle := by
  simp only [isTerminal, Terminal, Bool.or_eq_true, Bool.and_eq_true, decide_eq_true_eq]
  tauto

theorem Step_empty (T : Trig) (h : AnimationHandler) (hq : h.m_animation_queues = []) :
    Step T h = some (0, h) := by
  unfold Step
  rw [hq]

/-- A terminal step of `Step` on a queue with a single entry. -/
theorem Step_terminal_last (T : Trig) (h : AnimationHandler) (q : AnimationQueue)
    (hq : h.m_animation_queues = [q]) (ht : Terminal q (h.advanced q))
    (rc r' : RubiksCube)
    (hrc : (if q.rotation_type ≠ DEGREE_0 then
        h.m_rubiks.RotateColors q.x q.y q.z q.axis q.rotation_type
      else some h.m_rubiks) = some rc)
    (hr' : rc.InitializeFaceRotation = some r') :
    Step T h = some (1, { m_animation_queues := [], m_degree := h.advanced q,
                          m_rubiks := r', m_is_animating := false }) := by
  have ht' := (isTerminal_iff q (h.advanced q)).2 ht
  obtain ⟨qs, deg, rb, an⟩ := h
  simp only at hq hrc
  subst hq
  by_cases hrt : q.rotation_type ≠ DEGREE_0
  · rw [if_pos hrt] at hrc
    cases an
    · simp only [advanced, IsAnimating, Bool.false_eq_true, if_false] at ht' ⊢
      simp only [Step, IsAnimating, Bool.not_false, if_true, ht']
      rw [if_pos hrt, hrc, Option.bind_eq_bind, Option.some_bind, hr', Option.some_bind]
      rfl
    · simp only [advanced, IsAnimating, if_true] at ht' ⊢
      simp only [Step, IsAnimating, Bool.not_true, Bool.false_eq_true, if_false, ht', if_true]
      rw [if_pos hrt, hrc, Option.bind_eq_bind, Option.some_bind, hr', Option.some_bind]
      rfl
  · rw [if_neg hrt] at hrc
    cases hrc
    cases an
    · simp only [advanced, IsAnimating, Bool.false_eq_true, if_false] at ht' ⊢
      simp only [Step, IsAnimating, Bool.not_false, if_true, ht']
      rw [if_neg hrt, Option.bind_eq_bind, Option.some_bind, hr', Option.some_bind]
      rfl
    · simp only [advanced, IsAnimating, if_true] at ht' ⊢
      simp only [Step, IsAnimating, Bool.not_true, Bool.false_eq_true, if_false, ht', if_true]
      rw [if_neg hrt, Option.bind_eq_bind, Option.some_bind, hr', Option.some_bind]
      rfl

/-- A terminal step of `Step` on a queue with a further entry. -/
theorem Step_terminal_next (T : Trig) (h : AnimationHandler) (q next : AnimationQueue)
    (tail : List AnimationQueue) (hq : h.m_animation_queues = q :: next :: tail) (ht : Terminal q (h.advanced q))
    (rc r' : RubiksCube)
    (hrc : (if q.rotation_type ≠ DEGREE_0 then
        h.m_rubiks.RotateColors q.x q.y q.z q.axis q.rotation_type
      else some h.m_rubiks) = some rc)
    (hr' : rc.InitializeFaceRotation = some r') :
    Step T h = some (1, { m_animation_queues := next :: tail, m_degree := next.degree_start,
                          m_rubiks := r', m_is_animating := true }) := by
  have ht' := (isTerminal_iff q (h.advanced q)).2 ht
  obtain ⟨qs, deg, rb, an⟩ := h
  simp only at hq hrc
  subst hq
  by_cases hrt : q.rotation_type ≠ DEGREE_0
  · rw [if_pos hrt] at hrc
    cases an
    · simp only [advanced, IsAnimating, Bool.false_eq_true, if_false] at ht' ⊢
      simp only [Step, IsAnimating, Bool.not_false, if_true, ht']
      rw [if_pos hrt, hrc, Option.bind_eq_bind, Option.some_bind, hr', Option.some_bind]
      rfl
    · simp only [advanced, IsAnimating, if_true] at ht' ⊢
      simp only [Step, IsAnimating, Bool.not_true, Bool.false_eq_true, if_false, ht', if_true]
      rw [if_pos hrt, hrc, Option.bind_eq_bind, Option.some_bind, hr', Option.some_bind]
      rfl
  · rw [if_neg hrt] at hrc
    cases hrc
    cases an
    · simp only [advanced, IsAnimating, Bool.false_eq_true, if_false] at ht' ⊢
      simp only [Step, IsAnimating, Bool.not_false, if_true, ht']
      rw [if_neg hrt, Option.bind_eq_bind, Option.some_bind, hr', Option.some_bind]
      rfl
    · simp only [advanced, IsAnimating, if_true] at ht' ⊢
      simp only [Step, IsAnimating, Bool.not_true, Bool.false_eq_true, if_false, ht', if_true]
      rw [if_neg hrt, Option.bind_eq_bind, Option.some_bind, hr', Option.some_bind]
      rfl

/-- A step of `Step` that is not terminal. -/
theorem Step_running (T : Trig) (h : AnimationHandler) (q : AnimationQueue)
    (rest : List AnimationQueue) (hq : h.m_animation_queues = q :: rest)
    (ht : ¬ Terminal q (h.advanced q)) (r' : RubiksCube)
    (hr' : h.m_rubiks.RotateFace T q.x q.y q.z q.axis (h.advanced q * RUBIKS_PI / 180) = some r') :
    Step T h = some (1, { m_animation_queues := q :: rest, m_degree := h.advanced q,
                          m_rubiks := r', m_is_animating := true }) := by
  have ht' : isTerminal q.speed (h.advanced q) q.degree_end = false := by
    rw [← Bool.not_eq_true]
    exact fun hc => ht ((isTerminal_iff q _).1 hc)
  obtain ⟨qs, deg, rb, an⟩ := h
  simp only at hq hr'
  subst hq
  cases an
  · simp only [advanced, IsAnimating, Bool.false_eq_true, if_false] at ht' hr' ⊢
    simp only [Step, IsAnimating, Bool.not_false, if_true, ht', Bool.false_eq_true, if_false]
    rw [hr', Option.bind_eq_bind, Option.some_bind]
    rfl
  · simp only [advanced, IsAnimating, if_true] at ht' hr' ⊢
    simp only [Step, IsAnimating, Bool.not_true, Bool.false_eq_true, if_false, ht']
    rw [hr', Option.bind_eq_bind, Option.some_bind]
    rfl

/-- Whatever `Step` returns on a non-empty queue, the flag is 1. -/
theorem Step_flag_of_cons (T : Trig) (h : AnimationHandler) (q : AnimationQueue)
    (rest : List AnimationQueue) (hq : h.m_animation_queues = q :: rest)
    (ret : Int) (h' : AnimationHandler) (hs : Step T h = some (ret, h')) : ret = 1 := by
  obtain ⟨qs, deg, rb, an⟩ := h
  simp only at hq
  subst hq
  simp only [Step] at hs
  split_ifs at hs
  all_goals
    simp only [Option.bind_eq_bind, Option.bind_eq_some, Option.pure_def, Option.some.injEq,
      Prod.mk.injEq] at hs
  all_goals
    first
    | (obtain ⟨_, _, _, _, hret, _⟩ := hs; exact hret.symm)
    | (obtain ⟨_, _, hret, _⟩ := hs; exact hret.symm)

end AnimationHandler

end rubiks

namespace rubiks

namespace AnimationHandler

/-- C8: `Step` on an empty queue returns 0 and leaves the handler, with its cube state,
queue, running angle and animating flag, unchanged; whatever `Step` returns, the flag is 0
if and only if the queue was empty; and on a non-empty queue whose front entry has sub-cube
coordinates, over a well-formed cube state, `Step` does return, with flag 1. -/
theorem C8_step_redraw_flag (T : Trig) (h : AnimationHandler) :
    (h.m_animation_queues = [] → Step T h = some (0, h)) ∧
    (∀ (ret : Int) (h' : AnimationHandler), Step T h = some (ret, h') →
      ((ret = 0 ↔ h.m_animation_queues = []) ∧ (h.m_animation_queues ≠ [] → ret = 1))) ∧
    (∀ (q : AnimationQueue) (rest : List AnimationQueue), h.m_animation_queues = q :: rest →
      h.m_rubiks.WF → q.CoordsOK → ∃ h', Step T h = some (1, h')) := by
  refine ⟨Step_empty T h, ?_, ?_⟩
  · intro ret h' hs
    cases hq : h.m_animation_queues with
    | nil =>
      rw [Step_empty T h hq] at hs
      simp only [Option.some.injEq, Prod.mk.injEq] at hs
      exact ⟨⟨fun _ => rfl, fun _ => hs.1.symm⟩, fun hne => absurd rfl hne⟩
    | cons q rest =>
      have h1 := Step_flag_of_cons T h q rest hq ret h' hs
      subst h1
      exact ⟨⟨fun h0 => absurd h0 (by decide), fun hc => by cases hc⟩, fun _ => rfl⟩
  · intro q rest hq hwf hco
    by_cases ht : Terminal q (h.advanced q)
    · have hrc : ∃ rc, (if q.rotation_type ≠ DEGREE_0 then
          h.m_rubiks.RotateColors q.x q.y q.z q.axis q.rotation_type
        else some h.m_rubiks) = some rc ∧ rc.WF := by
        split_ifs
        · obtain ⟨rc, e, w, -⟩ := RubiksCube.RotateColors_total hwf hco.1 hco.2.1 hco.2.2
            q.axis q.rotation_type
          exact ⟨rc, e, w⟩
        · exact ⟨_, rfl, hwf⟩
      obtain ⟨rc, e1, w1⟩ := hrc
      obtain ⟨r', e2, -⟩ := RubiksCube.InitializeFaceRotation_spec w1
      cases rest with
      | nil => exact ⟨_, Step_terminal_last T h q hq ht rc r' e1 e2⟩
      | cons next tail => exact ⟨_, Step_terminal_next T h q next tail hq ht rc r' e1 e2⟩
    · obtain ⟨r', e, -⟩ := RubiksCube.RotateFace_spec T hwf hco.1 hco.2.1 hco.2.2 q.axis
        (h.advanced q * RUBIKS_PI / 180)
      exact ⟨_, Step_running T h q rest hq ht r' e⟩

theorem C8_step_redraw_flag_witness :
    AnimationHandler.sample.m_rubiks.WF ∧ AnimationQueue.sample.CoordsOK ∧
    ∃ h', Step Trig.flat AnimationHandler.sample = some (1, h') :=
  ⟨RubiksCube.sample_WF, by decide,
    (C8_step_redraw_flag Trig.flat AnimationHandler.sample).2.2 AnimationQueue.sample [] rfl
      RubiksCube.sample_WF (by decide)⟩

/-- C7: when `Step` runs on a non-empty queue, over a well-formed cube state, with a front
entry `q` that has sub-cube coordinates, and the step is terminal for `q` (its speed is 0,
or the advanced running angle is `>= degree_end` with positive speed, or `<= degree_end`
with negative speed): `Step` returns 1; the cube state after it is `InitializeFaceRotation`
applied to `rc`, where `rc` is the result of `RotateColors(x, y, z, axis, rotation_type)`
when `rotation_type` is not `DEGREE_0` and the unchanged cube state when it is; every
sub-cube then has the identity rotation and its rest translation, and the colours are those
of `rc`; exactly the front entry is removed; and `IsAnimating()` is false if the queue is
now empty, otherwise the running angle is the new front entry's `degree_start`. -/
theorem C7_terminal_step (T : Trig) (h : AnimationHandler) (q : AnimationQueue)
    (rest : List AnimationQueue) (hq : h.m_animation_queues = q :: rest)
    (hwf : h.m_rubiks.WF) (hco : q.CoordsOK) (ht : Terminal q (h.advanced q)) :
    ∃ rc r' h',
      (q.rotation_type ≠ DEGREE_0 →
        h.m_rubiks.RotateColors q.x q.y q.z q.axis q.rotation_type = some rc) ∧
      (q.rotation_type = DEGREE_0 → rc = h.m_rubiks) ∧
      rc.InitializeFaceRotation = some r' ∧
      Step T h = some (1, h') ∧
      h'.m_rubiks = r' ∧
      r'.AtRest ∧ RubiksCube.ColorsEq rc r' ∧
      h'.m_animation_queues = rest ∧
      (rest = [] → h'.IsAnimating = false) ∧
      (∀ next tail, rest = next :: tail → h'.m_degree = next.degree_start) := by
  have hrc : ∃ rc, (if q.rotation_type ≠ DEGREE_0 then
      h.m_rubiks.RotateColors q.x q.y q.z q.axis q.rotation_type
    else some h.m_rubiks) = some rc ∧ rc.WF := by
    split_ifs
    · obtain ⟨rc, e, w, -⟩ := RubiksCube.RotateColors_total hwf hco.1 hco.2.1 hco.2.2
        q.axis q.rotation_type
      exact ⟨rc, e, w⟩
    · exact ⟨_, rfl, hwf⟩
  obtain ⟨rc, e1, w1⟩ := hrc
  obtain ⟨r', e2, -, hce, -, -, hrest⟩ := RubiksCube.InitializeFaceRotation_spec w1
  have hA : q.rotation_type ≠ DEGREE_0 →
      h.m_rubiks.RotateColors q.x q.y q.z q.axis q.rotation_type = some rc := by
    intro hne
    rw [if_pos hne] at e1
    exact e1
  have hB : q.rotation_type = DEGREE_0 → rc = h.m_rubiks := by
    intro he
    rw [if_neg (not_not.2 he)] at e1
    exact (Option.some.inj e1).symm
  cases rest with
  | nil =>
    exact ⟨rc, r', _, hA, hB, e2, Step_terminal_last T h q hq ht rc r' e1 e2, rfl, hrest, hce,
      rfl, fun _ => rfl, fun _ _ hc => by cases hc⟩
  | cons next tail =>
    refine ⟨rc, r', _, hA, hB, e2, Step_terminal_next T h q next tail hq ht rc r' e1 e2, rfl,
      hrest, hce, rfl, fun hc => (by cases hc), ?_⟩
    intro n t hnt
    cases hnt
    rfl

theorem C7_terminal_step_witness :
    AnimationHandler.sampleLast.m_animation_queues = [AnimationQueue.sample] ∧
    AnimationHandler.sampleLast.m_rubiks.WF ∧ AnimationQueue.sample.CoordsOK ∧
    Terminal AnimationQueue.sample (AnimationHandler.sampleLast.advanced AnimationQueue.sample) ∧
    ∃ rc r' h',
      (AnimationQueue.sample.rotation_type ≠ DEGREE_0 →
        AnimationHandler.sampleLast.m_rubiks.RotateColors AnimationQueue.sample.x
          AnimationQueue.sample.y AnimationQueue.sample.z AnimationQueue.sample.axis
          AnimationQueue.sample.rotation_type = some rc) ∧
      (AnimationQueue.sample.rotation_type = DEGREE_0 →
        rc = AnimationHandler.sampleLast.m_rubiks) ∧
      rc.InitializeFaceRotation = some r' ∧
      Step Trig.flat AnimationHandler.sampleLast = some (1, h') ∧
      h'.m_rubiks = r' ∧
      r'.AtRest ∧ RubiksCube.ColorsEq rc r' ∧
      h'.m_animation_queues = [] ∧
      (([] : List AnimationQueue) = [] → h'.IsAnimating = false) ∧
      (∀ next tail, ([] : List AnimationQueue) = next :: tail →
        h'.m_degree = next.degree_start) :=
  ⟨rfl, RubiksCube.sample_WF, by decide,
    Or.inr (Or.inl ⟨by decide, by
      simp only [advanced, IsAnimating, AnimationQueue.sample, AnimationHandler.sampleLast]
      norm_num⟩),
    C7_terminal_step Trig.flat AnimationHandler.sampleLast AnimationQueue.sample [] rfl
      RubiksCube.sample_WF (by decide)
      (Or.inr (Or.inl ⟨by decide, by
        simp only [advanced, IsAnimating, AnimationQueue.sample, AnimationHandler.sampleLast]
        norm_num⟩))⟩

end AnimationHandler

end rubiks

namespace rubiks

namespace AnimationHandler

/-! ## A single entry from push to consumption -/

theorem stepN_succ (T : Trig) (k : Nat) :
    ∀ h : AnimationHandler,
      stepN T (k + 1) h = (stepN T k h).bind (fun h' => (Step T h').map Prod.snd) := by
  induction k with
  | zero =>
    intro h
    simp only [stepN, Option.some_bind]
    cases Step T h <;> rfl
  | succ k ih =>
    intro h
    rw [stepN]
    cases hS : Step T h with
    | none => rw [stepN, hS]; rfl
    | some p =>
      rw [Option.some_bind, ih p.2]
      conv_rhs => rw [stepN, hS, Option.some_bind]

theorem ConsumedAt.terminal {q : AnimationQueue} {n : Nat} (h : ConsumedAt q n) :
    Terminal q (q.degree_start + (n : ℚ) * q.speed) := by
  rcases h.2 with ⟨h0, -⟩ | ⟨h1, h2, -⟩ | ⟨h1, h2, -⟩
  · exact Or.inl h0
  · exact Or.inr (Or.inl ⟨h1, h2⟩)
  · exact Or.inr (Or.inr ⟨h1, h2⟩)

theorem ConsumedAt.running {q : AnimationQueue} {n : Nat} (h : ConsumedAt q n) {m : Nat}
    (h1 : 1 ≤ m) (hm : m < n) : ¬ Terminal q (q.degree_start + (m : ℚ) * q.speed) := by
  rcases h.2 with ⟨-, hn1⟩ | ⟨hs, -, hmin⟩ | ⟨hs, -, hmin⟩
  · omega
  · rintro (h0 | ⟨-, hge⟩ | ⟨hneg, -⟩)
    · rw [h0] at hs; exact lt_irrefl _ hs
    · exact hmin m hm h1 hge
    · exact lt_asymm hs hneg
  · rintro (h0 | ⟨hpos, -⟩ | ⟨-, hle⟩)
    · rw [h0] at hs; exact lt_irrefl _ hs
    · exact lt_asymm hs hpos
    · exact hmin m hm h1 hle

/-- Every entry is consumed at some step: the step count of `ConsumedAt` exists. -/
theorem ConsumedAt.exists (q : AnimationQueue) : ∃ n, ConsumedAt q n := by
  rcases lt_trichotomy q.speed 0 with hs | hs | hs
  · have hex : ∃ n : Nat, 1 ≤ n ∧ q.degree_start + (n : ℚ) * q.speed ≤ q.degree_end := by
      obtain ⟨n, hn⟩ := exists_nat_ge ((q.degree_end - q.degree_start) / q.speed)
      refine ⟨n + 1, by omega, ?_⟩
      have h1 : (q.degree_end - q.degree_start) / q.speed ≤ ((n + 1 : Nat) : ℚ) := by
        push_cast; linarith
      have h2 := (div_le_iff_of_neg hs).1 h1
      linarith
    classical
    refine ⟨Nat.find hex, (Nat.find_spec hex).1, Or.inr (Or.inr ⟨hs, (Nat.find_spec hex).2, ?_⟩)⟩
    intro m hm h1 hle
    exact Nat.find_min hex hm ⟨h1, hle⟩
  · exact ⟨1, le_refl 1, Or.inl ⟨hs, rfl⟩⟩
  · have hex : ∃ n : Nat, 1 ≤ n ∧ q.degree_start + (n : ℚ) * q.speed ≥ q.degree_end := by
      obtain ⟨n, hn⟩ := exists_nat_ge ((q.degree_end - q.degree_start) / q.speed)
      refine ⟨n + 1, by omega, ?_⟩
      have h1 : (q.degree_end - q.degree_start) / q.speed ≤ ((n + 1 : Nat) : ℚ) := by
        push_cast; linarith
      have h2 := (div_le_iff₀ hs).1 h1
      linarith
    classical
    refine ⟨Nat.find hex, (Nat.find_spec hex).1, Or.inr (Or.inl ⟨hs, (Nat.find_spec hex).2, ?_⟩)⟩
    intro m hm h1 hge
    exact Nat.find_min hex hm ⟨h1, hge⟩

end AnimationHandler

end rubiks

namespace rubiks

namespace RubiksCube

theorem swapLoop_other {d : Int} (h1 : d ≠ DEGREE_90) (h2 : d ≠ DEGREE_180)
    (h3 : d ≠ DEGREE_270) (es : List SwapEntry) (r : RubiksCube) :
    swapLoop d es r = some r := by
  induction es with
  | nil => rfl
  | cons e es ih =>
    rw [swapLoop, swapFront, if_neg h1, if_neg h2, if_neg h3, Option.some_bind, ih]

/-- `RotateColors` with `DEGREE_0` returns the state unchanged. -/
theorem RotateColors_zero (r : RubiksCube) (x y z axis : Int) :
    r.RotateColors x y z axis DEGREE_0 = some r :=
  swapLoop_other (by decide) (by decide) (by decide) _ r

/-- On well-formed states with the same colours, `RotateColors` gives the same colours. -/
theorem RotateColors_congr {r1 r2 : RubiksCube} (w1 : r1.WF) (w2 : r2.WF)
    (hc : ColorsEq r1 r2) {x y z : Int} (hx : 0 ≤ x ∧ x < 3) (hy : 0 ≤ y ∧ y < 3)
    (hz : 0 ≤ z ∧ z < 3) (axis degree : Int) :
    ∃ a b, r1.RotateColors x y z axis degree = some a ∧
      r2.RotateColors x y z axis degree = some b ∧ a.WF ∧ b.WF ∧ ColorsEq a b := by
  obtain ⟨a, ea, wa, ga⟩ := RotateColors_total w1 hx hy hz axis degree
  obtain ⟨b, eb, wb, gb⟩ := RotateColors_total w2 hx hy hz axis degree
  refine ⟨a, b, ea, eb, wa, wb, ?_⟩
  intro j g
  have h1 := ga (j, g)
  have h2 := gb (j, g)
  simp only at h1 h2
  rw [h1, h2]
  exact hc _ _

end RubiksCube

namespace AnimationHandler

/-- The handler after `k` steps on a single pushed entry that is consumed at step `n > k`:
the entry is still queued, the colours are the initial ones, and the next step compares the
angle `degree_start + (k + 1) * speed`. -/
theorem stepN_running (T : Trig) (h0 : AnimationHandler) (q : AnimationQueue) (n : Nat)
    (hq0 : h0.m_animation_queues = []) (hidle : h0.IsAnimating = false)
    (hwf : h0.m_rubiks.WF) (hco : q.CoordsOK) (hn : ConsumedAt q n) :
    ∀ k, k < n → ∃ hk, stepN T k (h0.Push q) = some hk ∧ hk.m_animation_queues = [q] ∧
      hk.m_rubiks.WF ∧ RubiksCube.ColorsEq h0.m_rubiks hk.m_rubiks ∧
      hk.advanced q = q.degree_start + ((k + 1 : Nat) : ℚ) * q.speed := by
  intro k
  induction k with
  | zero =>
    intro _
    refine ⟨h0.Push q, rfl, ?_, hwf, RubiksCube.ColorsEq.refl _, ?_⟩
    · simp only [Push, hq0, List.nil_append]
    · have : (h0.Push q).IsAnimating = false := hidle
      simp only [advanced, this, Bool.false_eq_true, if_false]
      push_cast
      ring
  | succ k ih =>
    intro hk1
    obtain ⟨hk, e, hqk, wk, ck, ak⟩ := ih (by omega)
    have hrun : ¬ Terminal q (hk.advanced q) := by
      rw [ak]
      exact hn.running (by omega) hk1
    obtain ⟨r', er, wr, cr, -, -⟩ := RubiksCube.RotateFace_spec T wk hco.1 hco.2.1 hco.2.2
      q.axis (hk.advanced q * RUBIKS_PI / 180)
    have hstep := Step_running T hk q [] hqk hrun r' er
    refine ⟨{ m_animation_queues := [q], m_degree := hk.advanced q, m_rubiks := r',
              m_is_animating := true }, ?_, rfl, wr, ck.trans cr, ?_⟩
    · rw [stepN_succ, e, Option.some_bind, hstep]
      rfl
    · simp only [advanced, IsAnimating, if_true] at ak ⊢
      rw [ak]
      push_cast
      ring

end AnimationHandler

end rubiks

namespace rubiks

namespace AnimationHandler

theorem sample_ConsumedAt : ConsumedAt AnimationQueue.sample 6 := by
  refine ⟨by decide, Or.inr (Or.inl ⟨?_, ?_, ?_⟩)⟩
  · simp only [AnimationQueue.sample]; norm_num
  · simp only [AnimationQueue.sample]; norm_num
  · intro m hm h1
    simp only [AnimationQueue.sample]
    interval_cases m <;> norm_num

end AnimationHandler

end rubiks

namespace QuadModel

/-! ## `QuadModel::Project` -/

theorem vecGet_projectedAt {npv : List Vec3D} {i : Int} (h0 : 0 ≤ i)
    (h1 : i < (npv.length : Int)) : vecGet npv i = some (projectedAt npv i) := by
  have hlt : i.toNat < npv.length := by omega
  rw [projectedAt, vecGet_of_lt npv i h0 hlt]
  rfl

/-- The second loop of `Project` on faces with valid indices: it keeps, in order, the faces
with a strictly positive winding, each rebased and given its depth. -/
theorem collectVisible_spec (npv : List Vec3D) (size : Int) (fs : List Quad)
    (h : ∀ f ∈ fs, ValidFace npv.length f) :
    collectVisible npv size fs =
      some ((fs.filter (fun f => decide (0 < windingZ npv f))).map (emittedFace npv size)) := by
  induction fs with
  | nil => rfl
  | cons f fs ih =>
    have hf := h f (List.mem_cons_self _ _)
    have ih' := ih (fun g hg => h g (List.mem_cons_of_mem _ hg))
    have e1 := vecGet_projectedAt hf.1.1 hf.1.2
    have e2 := vecGet_projectedAt hf.2.1.1 hf.2.1.2
    have e3 := vecGet_projectedAt hf.2.2.1.1 hf.2.2.1.2
    have e4 := vecGet_projectedAt hf.2.2.2.1 hf.2.2.2.2
    rw [collectVisible, e1, e2, e3, Option.bind_eq_bind, Option.some_bind, Option.some_bind,
      Option.some_bind]
    by_cases hw : 0 < windingZ npv f
    · have hnot : ¬ (((projectedAt npv f.v2).sub (projectedAt npv f.v1)).Cross
          ((projectedAt npv f.v3).sub (projectedAt npv f.v2))).z ≤ 0 := not_le.2 hw
      rw [if_neg hnot, e4, Option.bind_eq_bind, Option.some_bind, ih', Option.some_bind,
        List.filter_cons_of_pos (by simpa using hw), List.map_cons]
      rfl
    · have hle : (((projectedAt npv f.v2).sub (projectedAt npv f.v1)).Cross
          ((projectedAt npv f.v3).sub (projectedAt npv f.v2))).z ≤ 0 := not_lt.1 hw
      rw [if_pos hle, ih', List.filter_cons_of_neg (by simpa using hw)]

end QuadModel

namespace QuadModel

theorem emittedFace_windingZ {npv : List Vec3D} {size : Int} {f g : Quad}
    (h : emittedFace npv size f = emittedFace npv size g) :
    windingZ npv f = windingZ npv g := by
  simp only [emittedFace, Quad.mk.injEq, add_left_inj] at h
  obtain ⟨h1, h2, h3, -⟩ := h
  simp only [windingZ, h1, h2, h3]

/-- C9: for a model whose faces all have valid indices, and every global rotation and
translation, `Project` succeeds; it appends the projected vertices, and the faces it appends
are, in the model's face order, exactly the faces whose winding `(p2 - p1) x (p3 - p2)` has a
strictly positive z component, each with its indices rebased, its depth set and its colour
kept. So a face is appended if and only if that z component is strictly positive, and a
face with a zero or negative value is never appended. -/
theorem C9_project_visibility (m : QuadModel) (global_rotation : Matrix3D)
    (global_translation : Vec3D) (projected_vertices : List Vec3D) (visible_faces : List Quad)
    (h : m.ValidFaces) :
    ∃ appended,
      m.Project global_rotation global_translation projected_vertices visible_faces =
        some (projected_vertices ++ m.projectedVertices global_rotation global_translation,
              visible_faces ++ appended) ∧
      appended =
        (m.faces.filter (fun f => decide (0 <
            windingZ (m.projectedVertices global_rotation global_translation) f))).map
          (emittedFace (m.projectedVertices global_rotation global_translation)
            projected_vertices.length) ∧
      (∀ f ∈ m.faces,
        (emittedFace (m.projectedVertices global_rotation global_translation)
            projected_vertices.length f ∈ appended ↔
          0 < windingZ (m.projectedVertices global_rotation global_translation) f)) ∧
      (∀ g ∈ appended, ∃ f ∈ m.faces,
        0 < windingZ (m.projectedVertices global_rotation global_translation) f ∧
        g = emittedFace (m.projectedVertices global_rotation global_translation)
          projected_vertices.length f ∧ g.color = f.color) := by
  have hvalid : ∀ f ∈ m.faces,
      ValidFace (m.projectedVertices global_rotation global_translation).length f := by
    intro f hf
    rw [projectedVertices, List.length_map]
    exact h f hf
  have hcv := collectVisible_spec (m.projectedVertices global_rotation global_translation)
    (projected_vertices.length : Int) m.faces hvalid
  refine ⟨_, ?_, rfl, ?_, ?_⟩
  · show ((collectVisible (m.projectedVertices global_rotation global_translation)
        (projected_vertices.length : Int) m.faces).bind fun nvf =>
        some (projected_vertices ++ m.projectedVertices global_rotation global_translation,
              visible_faces ++ nvf)) = _
    rw [hcv, Option.some_bind]
  · intro f hf
    simp only [List.mem_map, List.mem_filter, decide_eq_true_eq]
    constructor
    · rintro ⟨g, ⟨-, hg⟩, hgf⟩
      rw [← emittedFace_windingZ hgf]
      exact hg
    · intro hw
      exact ⟨f, ⟨hf, hw⟩, rfl⟩
  · intro g hg
    simp only [List.mem_map, List.mem_filter, decide_eq_true_eq] at hg
    obtain ⟨f, ⟨hf, hw⟩, rfl⟩ := hg
    exact ⟨f, hf, hw, rfl, rfl⟩

end QuadModel

namespace QuadModel

theorem C9_project_visibility_witness :
    rubiks.Cube.sample.ValidFaces ∧
    ∃ appended,
      rubiks.Cube.sample.Project geometry.Identity ⟨0, 0, 0⟩ [] [] =
        some ([] ++ rubiks.Cube.sample.projectedVertices geometry.Identity ⟨0, 0, 0⟩,
              [] ++ appended) ∧
      appended =
        (rubiks.Cube.sample.faces.filter (fun f => decide (0 <
            windingZ (rubiks.Cube.sample.projectedVertices geometry.Identity ⟨0, 0, 0⟩) f))).map
          (emittedFace (rubiks.Cube.sample.projectedVertices geometry.Identity ⟨0, 0, 0⟩)
            (([] : List Vec3D).length)) ∧
      (∀ f ∈ rubiks.Cube.sample.faces,
        (emittedFace (rubiks.Cube.sample.projectedVertices geometry.Identity ⟨0, 0, 0⟩)
            (([] : List Vec3D).length) f ∈ appended ↔
          0 < windingZ (rubiks.Cube.sample.projectedVertices geometry.Identity ⟨0, 0, 0⟩) f)) ∧
      (∀ g ∈ appended, ∃ f ∈ rubiks.Cube.sample.faces,
        0 < windingZ (rubiks.Cube.sample.projectedVertices geometry.Identity ⟨0, 0, 0⟩) f ∧
        g = emittedFace (rubiks.Cube.sample.projectedVertices geometry.Identity ⟨0, 0, 0⟩)
          (([] : List Vec3D).length) f ∧ g.color = f.color) :=
  ⟨by decide, C9_project_visibility rubiks.Cube.sample geometry.Identity ⟨0, 0, 0⟩ [] []
    (by decide)⟩

/-- The projected position of a vertex under identity local and global rotation. -/
theorem projectVertex_identity (m : QuadModel) (hrot : m.rotation = geometry.Identity)
    (T v : Vec3D) :
    projectVertex m geometry.Identity T v =
      ⟨v.x * m.scale + m.translation.x + T.x, v.y * m.scale + m.translation.y + T.y,
       v.z * m.scale + m.translation.z + T.z⟩ := by
  simp [projectVertex, hrot, geometry.Identity, Matrix3D.mulVec, Vec3D.smul, Vec3D.add]

theorem placed_projectedVertices (colors : rubiks.Colors6) (t T : Vec3D) (s : ℚ) :
    (rubiks.Cube.placed colors t s).projectedVertices geometry.Identity T =
      [⟨-1 * s + t.x + T.x, 1 * s + t.y + T.y, -1 * s + t.z + T.z⟩,
       ⟨-1 * s + t.x + T.x, -1 * s + t.y + T.y, -1 * s + t.z + T.z⟩,
       ⟨1 * s + t.x + T.x, -1 * s + t.y + T.y, -1 * s + t.z + T.z⟩,
       ⟨1 * s + t.x + T.x, 1 * s + t.y + T.y, -1 * s + t.z + T.z⟩,
       ⟨-1 * s + t.x + T.x, 1 * s + t.y + T.y, 1 * s + t.z + T.z⟩,
       ⟨-1 * s + t.x + T.x, -1 * s + t.y + T.y, 1 * s + t.z + T.z⟩,
       ⟨1 * s + t.x + T.x, -1 * s + t.y + T.y, 1 * s + t.z + T.z⟩,
       ⟨1 * s + t.x + T.x, 1 * s + t.y + T.y, 1 * s + t.z + T.z⟩] := by
  unfold projectedVertices
  rw [show (rubiks.Cube.placed colors t s).vertices =
      [⟨-1, 1, -1⟩, ⟨-1, -1, -1⟩, ⟨1, -1, -1⟩, ⟨1, 1, -1⟩,
       ⟨-1, 1, 1⟩, ⟨-1, -1, 1⟩, ⟨1, -1, 1⟩, ⟨1, 1, 1⟩] from rfl]
  simp only [List.map_cons, List.map_nil,
    projectVertex_identity (rubiks.Cube.placed colors t s) rfl]
  rfl

end QuadModel

namespace QuadModel

theorem windingZ_eq (npv : List Vec3D) (f : Quad) (p1 p2 p3 : Vec3D)
    (h1 : vecGet npv f.v1 = some p1) (h2 : vecGet npv f.v2 = some p2)
    (h3 : vecGet npv f.v3 = some p3) :
    windingZ npv f = (p2.x - p1.x) * (p3.y - p2.y) - (p2.y - p1.y) * (p3.x - p2.x) := by
  simp only [windingZ, projectedAt, h1, h2, h3, Option.getD_some, Vec3D.Cross, Vec3D.sub]

theorem placed_faces (colors : rubiks.Colors6) (t : Vec3D) (s : ℚ) :
    (rubiks.Cube.placed colors t s).faces =
      [⟨0, 1, 2, 3, colors.c0, 0⟩, ⟨2, 6, 7, 3, colors.c1, 0⟩, ⟨7, 6, 5, 4, colors.c2, 0⟩,
       ⟨4, 5, 1, 0, colors.c3, 0⟩, ⟨0, 3, 7, 4, colors.c4, 0⟩, ⟨1, 5, 6, 2, colors.c5, 0⟩] :=
  rfl

/-- `Cube::SetColors` on the initialised cube gives the faces of `Cube.placed`. -/
theorem placed_eq_SetColors (colors : rubiks.Colors6) (t : Vec3D) (s : ℚ) :
    ∃ c0, rubiks.Cube.empty.Initialize.SetColors colors = some c0 ∧
      rubiks.Cube.placed colors t s =
        { c0 with rotation := geometry.Identity, translation := t, scale := s } :=
  ⟨_, rfl, rfl⟩

end QuadModel

namespace QuadModel

theorem placed_valid (colors : rubiks.Colors6) (t T : Vec3D) (s : ℚ) :
    ∀ f ∈ (rubiks.Cube.placed colors t s).faces,
      ValidFace ((rubiks.Cube.placed colors t s).projectedVertices geometry.Identity T).length
        f := by
  intro f hf
  rw [placed_projectedVertices]
  rw [placed_faces] at hf
  simp only [List.mem_cons, List.mem_singleton, List.not_mem_nil, or_false] at hf
  rcases hf with rfl | rfl | rfl | rfl | rfl | rfl <;>
    simp [ValidFace]

theorem vecGet8 (q0 q1 q2 q3 q4 q5 q6 q7 : Vec3D) :
    vecGet [q0, q1, q2, q3, q4, q5, q6, q7] 0 = some q0 ∧
    vecGet [q0, q1, q2, q3, q4, q5, q6, q7] 1 = some q1 ∧
    vecGet [q0, q1, q2, q3, q4, q5, q6, q7] 2 = some q2 ∧
    vecGet [q0, q1, q2, q3, q4, q5, q6, q7] 3 = some q3 ∧
    vecGet [q0, q1, q2, q3, q4, q5, q6, q7] 4 = some q4 ∧
    vecGet [q0, q1, q2, q3, q4, q5, q6, q7] 5 = some q5 ∧
    vecGet [q0, q1, q2, q3, q4, q5, q6, q7] 6 = some q6 ∧
    vecGet [q0, q1, q2, q3, q4, q5, q6, q7] 7 = some q7 :=
  ⟨rfl, rfl, rfl, rfl, rfl, rfl, rfl, rfl⟩

/-- The six windings of the placed cube: `4 s^2` for the Z- face, `-4 s^2` for the Z+ face
and 0 for the four side faces. -/
theorem placed_windings (colors : rubiks.Colors6) (t T : Vec3D) (s : ℚ) :
    windingZ ((rubiks.Cube.placed colors t s).projectedVertices geometry.Identity T)
        ⟨0, 1, 2, 3, colors.c0, 0⟩ = 4 * s * s ∧
    windingZ ((rubiks.Cube.placed colors t s).projectedVertices geometry.Identity T)
        ⟨2, 6, 7, 3, colors.c1, 0⟩ = 0 ∧
    windingZ ((rubiks.Cube.placed colors t s).projectedVertices geometry.Identity T)
        ⟨7, 6, 5, 4, colors.c2, 0⟩ = -(4 * s * s) ∧
    windingZ ((rubiks.Cube.placed colors t s).projectedVertices geometry.Identity T)
        ⟨4, 5, 1, 0, colors.c3, 0⟩ = 0 ∧
    windingZ ((rubiks.Cube.placed colors t s).projectedVertices geometry.Identity T)
        ⟨0, 3, 7, 4, colors.c4, 0⟩ = 0 ∧
    windingZ ((rubiks.Cube.placed colors t s).projectedVertices geometry.Identity T)
        ⟨1, 5, 6, 2, colors.c5, 0⟩ = 0 := by
  rw [placed_projectedVertices]
  obtain ⟨g0, g1, g2, g3, g4, g5, g6, g7⟩ := vecGet8
    ⟨-1 * s + t.x + T.x, 1 * s + t.y + T.y, -1 * s + t.z + T.z⟩
    ⟨-1 * s + t.x + T.x, -1 * s + t.y + T.y, -1 * s + t.z + T.z⟩
    ⟨1 * s + t.x + T.x, -1 * s + t.y + T.y, -1 * s + t.z + T.z⟩
    ⟨1 * s + t.x + T.x, 1 * s + t.y + T.y, -1 * s + t.z + T.z⟩
    ⟨-1 * s + t.x + T.x, 1 * s + t.y + T.y, 1 * s + t.z + T.z⟩
    ⟨-1 * s + t.x + T.x, -1 * s + t.y + T.y, 1 * s + t.z + T.z⟩
    ⟨1 * s + t.x + T.x, -1 * s + t.y + T.y, 1 * s + t.z + T.z⟩
    ⟨1 * s + t.x + T.x, 1 * s + t.y + T.y, 1 * s + t.z + T.z⟩
  refine ⟨?_, ?_, ?_, ?_, ?_, ?_⟩
  · rw [windingZ_eq _ _ _ _ _ g0 g1 g2]; ring
  · rw [windingZ_eq _ _ _ _ _ g2 g6 g7]; ring
  · rw [windingZ_eq _ _ _ _ _ g7 g6 g5]; ring
  · rw [windingZ_eq _ _ _ _ _ g4 g5 g1]; ring
  · rw [windingZ_eq _ _ _ _ _ g0 g3 g7]; ring
  · rw [windingZ_eq _ _ _ _ _ g1 g5 g6]; ring

end QuadModel

namespace QuadModel

/-- C10: for an initialised cube (`Cube::Initialize`, with any colours set by
`Cube::SetColors`) with identity local rotation, any local translation `t` and any scale
`s > 0`, projected with the identity global rotation and any global translation `T`:
`Project` succeeds and appends exactly one face, the Z-minus face of slot 0 (vertex indices
0, 1, 2, 3 rebased, colour of slot 0), with stored depth `t.z - s + T.z`; the other five
faces are culled. -/
theorem C10_front_face_only (colors : rubiks.Colors6) (t T : Vec3D) (s : ℚ) (hs : 0 < s)
    (projected_vertices : List Vec3D) (visible_faces : List Quad) :
    ∃ c0, rubiks.Cube.empty.Initialize.SetColors colors = some c0 ∧
      Project { c0 with rotation := geometry.Identity, translation := t, scale := s }
          geometry.Identity T projected_vertices visible_faces =
        some (projected_vertices ++
                (rubiks.Cube.placed colors t s).projectedVertices geometry.Identity T,
              visible_faces ++
                [{ v1 := 0 + (projected_vertices.length : Int),
                   v2 := 1 + (projected_vertices.length : Int),
                   v3 := 2 + (projected_vertices.length : Int),
                   v4 := 3 + (projected_vertices.length : Int),
                   color := colors.c0,
                   z := t.z - s + T.z }]) := by
  obtain ⟨c0, hc0, hplaced⟩ := placed_eq_SetColors colors t s
  refine ⟨c0, hc0, ?_⟩
  rw [← hplaced]
  obtain ⟨w0, w1, w2, w3, w4, w5⟩ := placed_windings colors t T s
  have hss : 0 < 4 * s * s := by positivity
  have hfilter : (rubiks.Cube.placed colors t s).faces.filter (fun f => decide (0 <
      windingZ ((rubiks.Cube.placed colors t s).projectedVertices geometry.Identity T) f)) =
      [⟨0, 1, 2, 3, colors.c0, 0⟩] := by
    rw [placed_faces,
      List.filter_cons_of_pos (by rw [w0]; exact decide_eq_true hss),
      List.filter_cons_of_neg (by rw [w1]; simp),
      List.filter_cons_of_neg (by rw [w2]; simp only [decide_eq_true_eq, not_lt]; linarith),
      List.filter_cons_of_neg (by rw [w3]; simp),
      List.filter_cons_of_neg (by rw [w4]; simp),
      List.filter_cons_of_neg (by rw [w5]; simp), List.filter_nil]
  have hemit : emittedFace
      ((rubiks.Cube.placed colors t s).projectedVertices geometry.Identity T)
      (projected_vertices.length : Int) ⟨0, 1, 2, 3, colors.c0, 0⟩ =
      { v1 := 0 + (projected_vertices.length : Int),
        v2 := 1 + (projected_vertices.length : Int),
        v3 := 2 + (projected_vertices.length : Int),
        v4 := 3 + (projected_vertices.length : Int),
        color := colors.c0,
        z := t.z - s + T.z } := by
    rw [placed_projectedVertices]
    obtain ⟨g0, g1, g2, g3, -⟩ := vecGet8
      ⟨-1 * s + t.x + T.x, 1 * s + t.y + T.y, -1 * s + t.z + T.z⟩
      ⟨-1 * s + t.x + T.x, -1 * s + t.y + T.y, -1 * s + t.z + T.z⟩
      ⟨1 * s + t.x + T.x, -1 * s + t.y + T.y, -1 * s + t.z + T.z⟩
      ⟨1 * s + t.x + T.x, 1 * s + t.y + T.y, -1 * s + t.z + T.z⟩
      ⟨-1 * s + t.x + T.x, 1 * s + t.y + T.y, 1 * s + t.z + T.z⟩
      ⟨-1 * s + t.x + T.x, -1 * s + t.y + T.y, 1 * s + t.z + T.z⟩
      ⟨1 * s + t.x + T.x, -1 * s + t.y + T.y, 1 * s + t.z + T.z⟩
      ⟨1 * s + t.x + T.x, 1 * s + t.y + T.y, 1 * s + t.z + T.z⟩
    simp only [emittedFace, projectedAt, g0, g1, g2, g3, Option.getD_some, Quad.mk.injEq,
      true_and]
    ring
  show ((collectVisible
      ((rubiks.Cube.placed colors t s).projectedVertices geometry.Identity T)
      (projected_vertices.length : Int) (rubiks.Cube.placed colors t s).faces).bind fun nvf =>
      some (projected_vertices ++
              (rubiks.Cube.placed colors t s).projectedVertices geometry.Identity T,
            visible_faces ++ nvf)) = _
  rw [collectVisible_spec _ _ _ (placed_valid colors t T s), Option.some_bind, hfilter,
    List.map_cons, List.map_nil, hemit]

theorem C10_front_face_only_witness :
    (0 : ℚ) < 27 ∧
    ∃ c0, rubiks.Cube.empty.Initialize.SetColors ⟨1, 2, 3, 4, 5, 6⟩ = some c0 ∧
      Project { c0 with rotation := geometry.Identity, translation := ⟨60, 0, -60⟩,
                        scale := 27 }
          geometry.Identity ⟨180, 180, 180⟩ [] [] =
        some ([] ++ (rubiks.Cube.placed ⟨1, 2, 3, 4, 5, 6⟩ ⟨60, 0, -60⟩
                  27).projectedVertices geometry.Identity ⟨180, 180, 180⟩,
              [] ++
                [{ v1 := 0 + ((([] : List Vec3D).length : Nat) : Int),
                   v2 := 1 + ((([] : List Vec3D).length : Nat) : Int),
                   v3 := 2 + ((([] : List Vec3D).length : Nat) : Int),
                   v4 := 3 + ((([] : List Vec3D).length : Nat) : Int),
                   color := 1,
                   z := (-60 : ℚ) - 27 + 180 }]) :=
  ⟨by norm_num, C10_front_face_only ⟨1, 2, 3, 4, 5, 6⟩ ⟨60, 0, -60⟩ ⟨180, 180, 180⟩ 27
    (by norm_num) [] []⟩

end QuadModel

namespace rubiks

namespace RubiksCube

/-! ## The exact effect of `RotateFace` -/

theorem forEach_append {σ : Type} (body : Int → σ → Option σ) (l1 l2 : List Int) :
    ∀ s, forEach (l1 ++ l2) body s = (forEach l1 body s).bind (forEach l2 body) := by
  induction l1 with
  | nil => intro s; rfl
  | cons i is ih =>
    intro s
    rw [List.cons_append, forEach, forEach]
    cases h : body i s with
    | none => rfl
    | some s1 => rw [Option.some_bind, Option.some_bind, ih]

theorem forEach_map {σ : Type} (g : Int → Int) (body body2 : Int → σ → Option σ)
    (l : List Int) (hb : ∀ b ∈ l, body2 (g b) = body b) :
    ∀ s, forEach (l.map g) body2 s = forEach l body s := by
  induction l with
  | nil => intro s; rfl
  | cons i is ih =>
    intro s
    rw [List.map_cons, forEach, forEach, hb i (List.mem_cons_self _ _)]
    cases h : body i s with
    | none => rfl
    | some s1 =>
      rw [Option.some_bind, Option.some_bind,
        ih (fun b hb' => hb b (List.mem_cons_of_mem _ hb'))]

/-- Two nested loops that update `cubes[idx a b]` are one loop over the visited indices. -/
theorem forEach_nested (F : Int → Cube → Option Cube) (idx : Int → Int → Int)
    (G : Int → Int → Cube → Option Cube) (bs : List Int) (as : List Int)
    (hG : ∀ a ∈ as, ∀ b ∈ bs, G a b = F (idx a b)) :
    ∀ r : RubiksCube,
      forEach as (fun a r => forEach bs (fun b r => r.updateCube (idx a b) (G a b)) r) r =
        forEach (as.flatMap (fun a => bs.map (idx a))) (fun i r => r.updateCube i (F i)) r := by
  induction as with
  | nil => intro r; rfl
  | cons a as ih =>
    intro r
    rw [List.flatMap_cons, forEach_append, forEach]
    have h1 : forEach (bs.map (idx a)) (fun i r => r.updateCube i (F i)) r =
        forEach bs (fun b r => r.updateCube (idx a b) (G a b)) r := by
      apply forEach_map
      intro b hb
      rw [hG a (List.mem_cons_self _ _) b hb]
    rw [h1]
    cases h : forEach bs (fun b r => r.updateCube (idx a b) (G a b)) r with
    | none => rfl
    | some s1 =>
      rw [Option.some_bind, Option.some_bind,
        ih (fun a' ha' => hG a' (List.mem_cons_of_mem _ ha'))]

theorem CubeIdToXYZ_idx_fin :
    ∀ x ∈ loopRange 3, ∀ y ∈ loopRange 3, ∀ z ∈ loopRange 3,
      CubeIdToXYZ (x + y * CUBE_NUM + z * CUBE_NUM * CUBE_NUM) 0 = (x, y, z) := by
  decide

theorem CubeIdToXYZ_idx {x y z : Int} (hx : 0 ≤ x ∧ x < 3) (hy : 0 ≤ y ∧ y < 3)
    (hz : 0 ≤ z ∧ z < 3) :
    CubeIdToXYZ (x + y * CUBE_NUM + z * CUBE_NUM * CUBE_NUM) 0 = (x, y, z) :=
  CubeIdToXYZ_idx_fin x (mem_loopRange_iff.2 hx) y (mem_loopRange_iff.2 hy) z
    (mem_loopRange_iff.2 hz)

/-- Under `LayerOK`, `RotateFace` is one loop over the indices of the layer, whose body sets
the transform `turned` of the visited sub-cube. -/
theorem RotateFace_flat (T : Trig) (r : RubiksCube) {x y z axis : Int}
    (hl : LayerOK x y z axis) (theta : ℚ) :
    r.RotateFace T x y z axis theta =
      forEach (layerIds x y z axis)
        (fun i r => r.updateCube i (fun c => some (turned T axis theta i c))) r := by
  rcases hl with ⟨ha, hx⟩ | ⟨ha, hy⟩ | ⟨ha, hz⟩
  · subst ha
    rw [RotateFace, if_pos rfl, layerIds, if_pos rfl]
    apply forEach_nested (fun i c => some (turned T AXIS_X theta i c))
      (fun y z => x + y * CUBE_NUM + z * CUBE_NUM * CUBE_NUM)
    intro a ha b hb
    funext cube
    rw [turned, if_pos rfl,
      CubeIdToXYZ_idx hx (mem_loopRange_iff.1 ha) (mem_loopRange_iff.1 hb)]
  · subst ha
    rw [RotateFace, if_neg (by decide), if_pos rfl, layerIds, if_neg (by decide), if_pos rfl]
    apply forEach_nested (fun i c => some (turned T AXIS_Y theta i c))
      (fun x z => x + y * CUBE_NUM + z * CUBE_NUM * CUBE_NUM)
    intro a ha b hb
    funext cube
    rw [turned, if_neg (by decide), if_pos rfl,
      CubeIdToXYZ_idx (mem_loopRange_iff.1 ha) hy (mem_loopRange_iff.1 hb)]
  · subst ha
    rw [RotateFace, if_neg (by decide), if_neg (by decide), layerIds, if_neg (by decide),
      if_neg (by decide)]
    apply forEach_nested (fun i c => some (turned T AXIS_Z theta i c))
      (fun x y => x + y * CUBE_NUM + z * CUBE_NUM * CUBE_NUM)
    intro a ha b hb
    funext cube
    rw [turned, if_neg (by decide), if_neg (by decide),
      CubeIdToXYZ_idx (mem_loopRange_iff.1 ha) (mem_loopRange_iff.1 hb) hz]

end RubiksCube

end rubiks

namespace rubiks

namespace RubiksCube

theorem CUBE_DISTANCE_eq : CUBE_DISTANCE = 60 := by
  norm_num [CUBE_DISTANCE]

theorem RUBIKS_SIZE_eq : RUBIKS_SIZE = 90 := by
  norm_num [RUBIKS_SIZE, CUBE_DISTANCE]

theorem layer_fin :
    ∀ axis ∈ [AXIS_X, AXIS_Y, AXIS_Z], ∀ s ∈ loopRange 3,
      (layerIds s s s axis).Nodup ∧
      (∀ i ∈ layerIds s s s axis, (0 ≤ i ∧ i < 27) ∧ layerCoord axis i = s) ∧
      (∀ j ∈ loopRange 27, layerCoord axis j = s → j ∈ layerIds s s s axis) ∧
      (layerOf axis s).length = 9 := by
  decide!

theorem layerIds_eq {x y z axis : Int} (hl : LayerOK x y z axis) :
    layerIds x y z axis =
      layerIds (selectedLayer x y z axis) (selectedLayer x y z axis)
        (selectedLayer x y z axis) axis ∧
    axis ∈ [AXIS_X, AXIS_Y, AXIS_Z] ∧ selectedLayer x y z axis ∈ loopRange 3 := by
  rcases hl with ⟨ha, hx⟩ | ⟨ha, hy⟩ | ⟨ha, hz⟩
  · subst ha
    exact ⟨rfl, by decide, mem_loopRange_iff.2 hx⟩
  · subst ha
    exact ⟨rfl, by decide, mem_loopRange_iff.2 hy⟩
  · subst ha
    exact ⟨rfl, by decide, mem_loopRange_iff.2 hz⟩

/-- The indices that `RotateFace` visits are distinct, and they are the indices in
`[0, 27)` of the sub-cubes whose grid coordinate along the axis is the selected one. -/
theorem layerIds_spec {x y z axis : Int} (hl : LayerOK x y z axis) :
    (layerIds x y z axis).Nodup ∧
    (∀ j : Int, j ∈ layerIds x y z axis ↔
      (0 ≤ j ∧ j < 27) ∧ layerCoord axis j = selectedLayer x y z axis) ∧
    (layerOf axis (selectedLayer x y z axis)).length = 9 := by
  obtain ⟨e, ha, hs⟩ := layerIds_eq hl
  obtain ⟨h1, h2, h3, h4⟩ := layer_fin axis ha _ hs
  rw [e]
  refine ⟨h1, fun j => ⟨fun hj => h2 j hj, fun hj => h3 j (mem_loopRange_iff.2 hj.1) hj.2⟩, h4⟩

theorem turned_keeps (T : Trig) (axis : Int) (theta : ℚ) (j : Int) (c : Cube) :
    (turned T axis theta j c).vertices = c.vertices ∧
    (turned T axis theta j c).faces = c.faces ∧
    (turned T axis theta j c).scale = c.scale := by
  unfold turned
  split_ifs <;> exact ⟨rfl, rfl, rfl⟩

theorem turned_rotation (T : Trig) (axis : Int) (theta : ℚ) (j : Int) (c : Cube) :
    (turned T axis theta j c).rotation = axisRotation T axis theta := by
  unfold turned axisRotation
  split_ifs <;> rfl

/-- The translation that `RotateFace` sets is the rotation applied to the rest position:
each rotation matrix fixes its own axis. -/
theorem turned_translation (T : Trig) (axis : Int) (theta : ℚ) (j : Int) (c : Cube) :
    (turned T axis theta j c).translation =
      (axisRotation T axis theta).mulVec (restPosition j) := by
  unfold turned axisRotation restPosition
  split_ifs <;>
    simp only [geometry.RotationX, geometry.RotationY, geometry.RotationZ, Matrix3D.mulVec,
      Vec3D.add, Vec3D.smul, Vec3D.ofInts, Vec3D.mk.injEq] <;>
    push_cast <;>
    refine ⟨?_, ?_, ?_⟩ <;> ring

theorem restPosition_eq (j : Int) : restPosition j = restTranslation j :=
  (restTranslation_eq j).symm

theorem axisRotation_zero {T : Trig} {theta : ℚ} (hs : T.sin theta = 0)
    (hc : T.cos theta = 1) (axis : Int) : axisRotation T axis theta = geometry.Identity := by
  unfold axisRotation geometry.RotationX geometry.RotationY geometry.RotationZ
    geometry.Identity
  split_ifs <;> simp only [hs, hc, neg_zero]

theorem Identity_mulVec (v : Vec3D) : geometry.Identity.mulVec v = v := by
  cases v
  simp only [geometry.Identity, Matrix3D.mulVec, Vec3D.mk.injEq]
  refine ⟨?_, ?_, ?_⟩ <;> ring

/-- The exact effect of `RotateFace` on a state with 27 sub-cubes: the call succeeds, the
view transform is kept, and sub-cube `j` becomes `turned` when its grid coordinate along
the axis is the selected one and is kept otherwise. -/
theorem RotateFace_exact (T : Trig) {r : RubiksCube} (hlen : r.cubes.length = 27)
    {x y z axis : Int} (hl : LayerOK x y z axis) (theta : ℚ) :
    ∃ r', r.RotateFace T x y z axis theta = some r' ∧ r'.cubes.length = 27 ∧
      r'.global_rotation = r.global_rotation ∧
      r'.global_translation = r.global_translation ∧
      ∀ j : Int, 0 ≤ j → j < 27 → ∃ c, vecGet r.cubes j = some c ∧
        vecGet r'.cubes j = some
          (if layerCoord axis j = selectedLayer x y z axis then turned T axis theta j c
           else c) := by
  obtain ⟨hnd, hmem, -⟩ := layerIds_spec hl
  have hget : ∀ j : Int, 0 ≤ j → j < 27 → ∃ c, vecGet r.cubes j = some c := by
    intro j h0 h1
    exact ⟨_, vecGet_of_lt r.cubes j h0 (by rw [hlen]; omega)⟩
  obtain ⟨r', e, l, gr, gt, g⟩ := forEach_updateCube_spec
    (fun i c => some (turned T axis theta i c)) (layerIds x y z axis) r hnd
    (by
      intro i hi
      obtain ⟨c, hc⟩ := hget i ((hmem i).1 hi).1.1 ((hmem i).1 hi).1.2
      exact ⟨c, _, hc, rfl⟩)
  refine ⟨r', by rw [RotateFace_flat T r hl, e], by rw [l, hlen], gr, gt, ?_⟩
  intro j h0 h1
  obtain ⟨c, hc⟩ := hget j h0 h1
  refine ⟨c, hc, ?_⟩
  rw [g j, hc]
  by_cases hj : layerCoord axis j = selectedLayer x y z axis
  · rw [if_pos ((hmem j).2 ⟨⟨h0, h1⟩, hj⟩), if_pos hj]
    rfl
  · rw [if_neg (fun h => hj ((hmem j).1 h).2), if_neg hj]

end RubiksCube

end rubiks

namespace rubiks

namespace RubiksCube

/-- C19: on a state with 27 sub-cubes, for every axis in {X, Y, Z}, every layer coordinate
in {0, 1, 2} and every angle, `RotateFace` succeeds and is a transform update of one layer
only. The global rotation and translation and every face colour are unchanged; every
sub-cube keeps its vertex list, its faces and its scale; a sub-cube whose grid coordinate
along the axis differs from the selected one is unchanged altogether; a sub-cube whose grid
coordinate along the axis is the selected one is the old sub-cube with a new rotation and
translation; and exactly 9 of the 27 sub-cubes have the selected coordinate. -/
theorem C19_rotate_face_frame (T : Trig) (r : RubiksCube) (hlen : r.cubes.length = 27)
    (x y z axis : Int) (hl : LayerOK x y z axis) (theta : ℚ) :
    ∃ r', r.RotateFace T x y z axis theta = some r' ∧
      r'.cubes.length = r.cubes.length ∧
      r'.global_rotation = r.global_rotation ∧
      r'.global_translation = r.global_translation ∧
      ColorsEq r r' ∧
      (layerOf axis (selectedLayer x y z axis)).length = 9 ∧
      ∀ j : Int, 0 ≤ j → j < 27 → ∃ c c', vecGet r.cubes j = some c ∧
        vecGet r'.cubes j = some c' ∧
        c'.vertices = c.vertices ∧ c'.faces = c.faces ∧ c'.scale = c.scale ∧
        (layerCoord axis j ≠ selectedLayer x y z axis → c' = c) ∧
        (layerCoord axis j = selectedLayer x y z axis →
          c' = { c with rotation := c'.rotation, translation := c'.translation }) := by
  obtain ⟨r', e, l, gr, gt, g⟩ := RotateFace_exact T hlen hl theta
  have hkeep : ∀ j : Int, 0 ≤ j → j < 27 → ∃ c c', vecGet r.cubes j = some c ∧
      vecGet r'.cubes j = some c' ∧
      c'.vertices = c.vertices ∧ c'.faces = c.faces ∧ c'.scale = c.scale ∧
      (layerCoord axis j ≠ selectedLayer x y z axis → c' = c) ∧
      (layerCoord axis j = selectedLayer x y z axis →
        c' = { c with rotation := c'.rotation, translation := c'.translation }) := by
    intro j h0 h1
    obtain ⟨c, hc, hc'⟩ := g j h0 h1
    refine ⟨c, _, hc, hc', ?_⟩
    by_cases hj : layerCoord axis j = selectedLayer x y z axis
    · rw [if_pos hj]
      obtain ⟨k1, k2, k3⟩ := turned_keeps T axis theta j c
      refine ⟨k1, k2, k3, fun h => absurd hj h, fun _ => ?_⟩
      cases c
      unfold turned
      split_ifs <;> rfl
    · rw [if_neg hj]
      exact ⟨rfl, rfl, rfl, fun _ => rfl, fun h => absurd h hj⟩
  refine ⟨r', e, by rw [l, hlen], gr, gt, ?_, (layerIds_spec hl).2.2, hkeep⟩
  intro j f
  by_cases hj : 0 ≤ j ∧ j < 27
  · obtain ⟨c, c', hc, hc', -, hf, -⟩ := hkeep j hj.1 hj.2
    rw [getColor, getColor, hc, hc', Option.bind_eq_bind, Option.bind_eq_bind,
      Option.some_bind, Option.some_bind, hf]
  · have hn : ∀ l : List Cube, l.length = 27 → vecGet l j = none := by
      intro l hl'
      unfold vecGet
      split_ifs with h
      · rw [List.getElem?_eq_none_iff]
        omega
      · rfl
    rw [getColor, getColor, hn _ hlen, hn _ l]

theorem C19_rotate_face_frame_witness :
    sample.cubes.length = 27 ∧ LayerOK 0 2 0 AXIS_Y ∧
    ∃ r', sample.RotateFace Trig.quarter 0 2 0 AXIS_Y 1 = some r' ∧
      r'.cubes.length = sample.cubes.length ∧
      r'.global_rotation = sample.global_rotation ∧
      r'.global_translation = sample.global_translation ∧
      ColorsEq sample r' ∧
      (layerOf AXIS_Y (selectedLayer 0 2 0 AXIS_Y)).length = 9 ∧
      ∀ j : Int, 0 ≤ j → j < 27 → ∃ c c', vecGet sample.cubes j = some c ∧
        vecGet r'.cubes j = some c' ∧
        c'.vertices = c.vertices ∧ c'.faces = c.faces ∧ c'.scale = c.scale ∧
        (layerCoord AXIS_Y j ≠ selectedLayer 0 2 0 AXIS_Y → c' = c) ∧
        (layerCoord AXIS_Y j = selectedLayer 0 2 0 AXIS_Y →
          c' = { c with rotation := c'.rotation, translation := c'.translation }) :=
  ⟨sample_WF.1, by decide,
    C19_rotate_face_frame Trig.quarter sample sample_WF.1 0 2 0 AXIS_Y (by decide) 1⟩

/-- C20: on a state with 27 sub-cubes, for every axis in {X, Y, Z}, in-range layer and
angle, `RotateFace` succeeds and every sub-cube of the layer, at grid `(x, y, z)`, gets the
rotation `Rotation_a(theta)` of the axis and the translation `Rotation_a(theta)` applied to
its rest position `(x - 1, y - 1, z - 1) * CUBE_DISTANCE`. With `sin 0 = 0` and
`cos 0 = 1`, at `theta = 0` every sub-cube of the layer has the rest transform that
`InitializeFaceRotation` sets: identity rotation and translation
`(x - 1, y - 1, z - 1) * 60`. -/
theorem C20_rotate_face_rigid (T : Trig) (hs : T.sin 0 = 0) (hc : T.cos 0 = 1)
    (r : RubiksCube) (hlen : r.cubes.length = 27)
    (x y z axis : Int) (hl : LayerOK x y z axis) (theta : ℚ) :
    (∃ r', r.RotateFace T x y z axis theta = some r' ∧
      ∀ j : Int, 0 ≤ j → j < 27 → layerCoord axis j = selectedLayer x y z axis →
        ∃ c', vecGet r'.cubes j = some c' ∧
          c'.rotation = axisRotation T axis theta ∧
          c'.translation = (axisRotation T axis theta).mulVec
            ((Vec3D.ofInts ((CubeIdToXYZ j 0).1 - 1) ((CubeIdToXYZ j 0).2.1 - 1)
              ((CubeIdToXYZ j 0).2.2 - 1)).smul CUBE_DISTANCE)) ∧
    (∃ r0, r.RotateFace T x y z axis 0 = some r0 ∧
      ∀ j : Int, 0 ≤ j → j < 27 → layerCoord axis j = selectedLayer x y z axis →
        ∃ c0, vecGet r0.cubes j = some c0 ∧
          c0.rotation = geometry.Identity ∧
          c0.translation = restTranslation j ∧
          c0.translation =
            (Vec3D.ofInts ((CubeIdToXYZ j 0).1 - 1) ((CubeIdToXYZ j 0).2.1 - 1)
              ((CubeIdToXYZ j 0).2.2 - 1)).smul 60) := by
  have key : ∀ th : ℚ, ∃ r', r.RotateFace T x y z axis th = some r' ∧
      ∀ j : Int, 0 ≤ j → j < 27 → layerCoord axis j = selectedLayer x y z axis →
        ∃ c', vecGet r'.cubes j = some c' ∧
          c'.rotation = axisRotation T axis th ∧
          c'.translation = (axisRotation T axis th).mulVec (restPosition j) := by
    intro th
    obtain ⟨r', e, -, -, -, g⟩ := RotateFace_exact T hlen hl th
    refine ⟨r', e, ?_⟩
    intro j h0 h1 hj
    obtain ⟨c, -, hc'⟩ := g j h0 h1
    rw [if_pos hj] at hc'
    exact ⟨_, hc', turned_rotation T axis th j c, turned_translation T axis th j c⟩
  refine ⟨key theta, ?_⟩
  obtain ⟨r0, e0, g0⟩ := key 0
  refine ⟨r0, e0, ?_⟩
  intro j h0 h1 hj
  obtain ⟨c0, hc0, hr, ht⟩ := g0 j h0 h1 hj
  rw [axisRotation_zero hs hc] at hr ht
  rw [Identity_mulVec] at ht
  refine ⟨c0, hc0, hr, ?_, ?_⟩
  · rw [ht, restPosition_eq]
  · rw [ht, restPosition, CUBE_DISTANCE_eq]

theorem C20_rotate_face_rigid_witness :
    Trig.flat.sin 0 = 0 ∧ Trig.flat.cos 0 = 1 ∧ sample.cubes.length = 27 ∧
    LayerOK 2 0 0 AXIS_X ∧
    (∃ r', sample.RotateFace Trig.flat 2 0 0 AXIS_X 1 = some r' ∧
      ∀ j : Int, 0 ≤ j → j < 27 → layerCoord AXIS_X j = selectedLayer 2 0 0 AXIS_X →
        ∃ c', vecGet r'.cubes j = some c' ∧
          c'.rotation = axisRotation Trig.flat AXIS_X 1 ∧
          c'.translation = (axisRotation Trig.flat AXIS_X 1).mulVec
            ((Vec3D.ofInts ((CubeIdToXYZ j 0).1 - 1) ((CubeIdToXYZ j 0).2.1 - 1)
              ((CubeIdToXYZ j 0).2.2 - 1)).smul CUBE_DISTANCE)) ∧
    (∃ r0, sample.RotateFace Trig.flat 2 0 0 AXIS_X 0 = some r0 ∧
      ∀ j : Int, 0 ≤ j → j < 27 → layerCoord AXIS_X j = selectedLayer 2 0 0 AXIS_X →
        ∃ c0, vecGet r0.cubes j = some c0 ∧
          c0.rotation = geometry.Identity ∧
          c0.translation = restTranslation j ∧
          c0.translation =
            (Vec3D.ofInts ((CubeIdToXYZ j 0).1 - 1) ((CubeIdToXYZ j 0).2.1 - 1)
              ((CubeIdToXYZ j 0).2.2 - 1)).smul 60) :=
  ⟨rfl, rfl, sample_WF.1, by decide,
    C20_rotate_face_rigid Trig.flat rfl rfl sample sample_WF.1 2 0 0 AXIS_X (by decide) 1⟩

end RubiksCube

end rubiks

/-! ## `geometry::Zsort` -/

theorem CompDepth_false_iff (a b : Quad) : geometry.CompDepth a b = false ↔ a.z ≤ b.z := by
  unfold geometry.CompDepth
  rw [decide_eq_false_iff_not, not_lt]

theorem CompDepth_true_iff (a b : Quad) : geometry.CompDepth a b = true ↔ b.z < a.z := by
  unfold geometry.CompDepth
  rw [decide_eq_true_iff]

/-- The comparison `CompDepth` meets the requirement of `std::sort`. -/
theorem CompDepth_strictWeakOrder : StrictWeakOrder geometry.CompDepth := by
  refine ⟨fun a => ?_, fun a b c h1 h2 => ?_, fun a b c h1 h2 h3 h4 => ?_⟩
  · rw [CompDepth_false_iff]
  · rw [CompDepth_true_iff] at h1 h2 ⊢
    exact lt_trans h2 h1
  · rw [CompDepth_false_iff] at h1 h2 h3 h4
    exact ⟨(CompDepth_false_iff a c).2 (le_trans h1 h3),
      (CompDepth_false_iff c a).2 (le_trans h4 h2)⟩

/-- A strict weak ordering is asymmetric, and its complement is transitive. -/
theorem StrictWeakOrder.total {α : Type} {comp : α → α → Bool} (h : StrictWeakOrder comp)
    (a b : α) : comp b a = false ∨ comp a b = false := by
  cases hab : comp a b with
  | false => exact Or.inr rfl
  | true =>
    left
    cases hba : comp b a with
    | false => rfl
    | true =>
      have := h.2.1 a b a hab hba
      rw [h.1 a] at this
      cases this

theorem StrictWeakOrder.negTrans {α : Type} {comp : α → α → Bool} (h : StrictWeakOrder comp)
    {a b c : α} (h1 : comp b a = false) (h2 : comp c b = false) : comp c a = false := by
  cases hca : comp c a with
  | false => rfl
  | true =>
    exfalso
    cases hab : comp a b with
    | true =>
      have := h.2.1 c a b hca hab
      rw [h2] at this
      cases this
    | false =>
      cases hbc : comp b c with
      | true =>
        have := h.2.1 b c a hbc hca
        rw [h1] at this
        cases this
      | false =>
        have := (h.2.2 a b c hab h1 hbc h2).2
        rw [hca] at this
        cases this

/-- Insertion sort meets the contract of `std::sort`. -/
theorem insertionStdSort_contract : StdSortContract insertionStdSort := by
  intro comp l h
  refine ⟨List.perm_insertionSort _ l, ?_⟩
  have ht : IsTotal Quad (fun a b => comp b a = false) := ⟨fun a b => h.total a b⟩
  have htr : IsTrans Quad (fun a b => comp b a = false) :=
    ⟨fun a b c h1 h2 => h.negTrans h1 h2⟩
  exact List.sorted_insertionSort (fun a b => comp b a = false) l

/-- C12: for a function `sort` with the contract of `std::sort` and every list of faces,
`geometry::Zsort` leaves a permutation of the input list (the same multiset of faces) in
non-increasing order of depth: every face has a depth at least that of every later face, in
particular of the face after it. When the depths of the input are pairwise distinct the
output is strictly descending by depth. -/
theorem C12_zsort_descending (sort : (Quad → Quad → Bool) → List Quad → List Quad)
    (hs : StdSortContract sort) (faces : List Quad) :
    (geometry.Zsort sort faces).Perm faces ∧
    ((geometry.Zsort sort faces : List Quad) : Multiset Quad) = (faces : Multiset Quad) ∧
    (geometry.Zsort sort faces).Pairwise (fun a b => a.z ≥ b.z) ∧
    (geometry.Zsort sort faces).Chain' (fun a b => a.z ≥ b.z) ∧
    (faces.Pairwise (fun a b => a.z ≠ b.z) →
      (geometry.Zsort sort faces).Pairwise (fun a b => a.z > b.z) ∧
      (geometry.Zsort sort faces).Chain' (fun a b => a.z > b.z)) := by
  obtain ⟨hp, hsorted⟩ := hs geometry.CompDepth faces CompDepth_strictWeakOrder
  have hge : (geometry.Zsort sort faces).Pairwise (fun a b => a.z ≥ b.z) := by
    refine List.Pairwise.imp ?_ hsorted
    intro a b hab
    exact (CompDepth_false_iff b a).1 hab
  refine ⟨hp, Quotient.sound hp, hge, hge.chain', ?_⟩
  intro hd
  have hd' : (geometry.Zsort sort faces).Pairwise (fun a b => a.z ≠ b.z) :=
    (hp.pairwise_iff (fun {a b} (h : a.z ≠ b.z) => h.symm)).2 hd
  have hgt : (geometry.Zsort sort faces).Pairwise (fun a b => a.z > b.z) := by
    refine List.Pairwise.imp ?_ (hge.and hd')
    intro a b hab
    exact lt_of_le_of_ne hab.1 (Ne.symm hab.2)
  exact ⟨hgt, hgt.chain'⟩

theorem sampleFaces_distinct : Quad.sampleFaces.Pairwise (fun a b => a.z ≠ b.z) := by
  simp only [Quad.sampleFaces, List.pairwise_cons, List.mem_cons, List.mem_singleton,
    List.not_mem_nil, forall_eq_or_imp, forall_eq, false_imp_iff, implies_true,
    List.Pairwise.nil, and_true, IsEmpty.forall_iff]
  norm_num

theorem C12_zsort_descending_witness :
    StdSortContract insertionStdSort ∧
    Quad.sampleFaces.Pairwise (fun a b => a.z ≠ b.z) ∧
    (geometry.Zsort insertionStdSort Quad.sampleFaces).Perm Quad.sampleFaces ∧
    (geometry.Zsort insertionStdSort Quad.sampleFaces).Pairwise (fun a b => a.z ≥ b.z) ∧
    (geometry.Zsort insertionStdSort Quad.sampleFaces).Pairwise (fun a b => a.z > b.z) ∧
    (geometry.Zsort insertionStdSort Quad.sampleFaces).Chain' (fun a b => a.z > b.z) :=
  ⟨insertionStdSort_contract, sampleFaces_distinct,
    (C12_zsort_descending insertionStdSort insertionStdSort_contract Quad.sampleFaces).1,
    (C12_zsort_descending insertionStdSort insertionStdSort_contract Quad.sampleFaces).2.2.1,
    ((C12_zsort_descending insertionStdSort insertionStdSort_contract
      Quad.sampleFaces).2.2.2.2 sampleFaces_distinct).1,
    ((C12_zsort_descending insertionStdSort insertionStdSort_contract
      Quad.sampleFaces).2.2.2.2 sampleFaces_distinct).2⟩

namespace rubiks

namespace RubiksCube

/-! ## The geometry that `Initialize` sets up -/

theorem mem_of_vecGet {α : Type} {l : List α} {j : Int} {a : α} (h : vecGet l j = some a) :
    a ∈ l := by
  unfold vecGet at h
  split_ifs at h
  exact List.getElem?_mem h

theorem GeomWF_of_vecGet {r : RubiksCube} (hlen : r.cubes.length = 27)
    (h : ∀ (j : Int) (c : Cube), vecGet r.cubes j = some c →
      c.vertices.length = 8 ∧ QuadModel.ValidFaces c) : r.GeomWF := by
  refine ⟨hlen, ?_⟩
  intro c hc
  obtain ⟨n, hn, rfl⟩ := List.mem_iff_getElem.1 hc
  apply h (n : Int)
  rw [vecGet_of_lt _ _ (by omega) (by simpa using hn)]
  simp

theorem setColorsFrom_valid (colors : Colors6) (n : Nat) :
    ∀ (l : List Quad) (i : Nat), (∀ f ∈ l, QuadModel.ValidFace n f) →
      ∀ g ∈ setColorsFrom colors i l, QuadModel.ValidFace n g := by
  intro l
  induction l with
  | nil =>
    intro i _ g hg
    rw [setColorsFrom] at hg
    exact absurd hg (List.not_mem_nil g)
  | cons q qs ih =>
    intro i h g hg
    rw [setColorsFrom] at hg
    rcases List.mem_cons.1 hg with rfl | hg
    · exact h q (List.mem_cons_self _ _)
    · exact ih (i + 1) (fun f hf => h f (List.mem_cons_of_mem _ hf)) g hg

/-- `Cube::SetColors` keeps the vertices and the validity of the face indices. -/
theorem SetColors_geom {c c' : Cube} {colors : Colors6} (e : c.SetColors colors = some c')
    (h : c.vertices.length = 8 ∧ QuadModel.ValidFaces c) :
    c'.vertices.length = 8 ∧ QuadModel.ValidFaces c' := by
  unfold Cube.SetColors at e
  split_ifs at e
  rw [Option.some.injEq] at e
  subst e
  refine ⟨h.1, ?_⟩
  intro g hg
  rcases List.mem_append.1 hg with hg | hg
  · exact setColorsFrom_valid colors _ _ 0
      (fun f hf => h.2 f (List.mem_of_mem_take hf)) g hg
  · exact h.2 g (List.mem_of_mem_drop hg)

/-- `InitializeColors` keeps a well-formed geometry. -/
theorem InitializeColors_GeomWF {r r' : RubiksCube} (hw : r.WF) (h : r.GeomWF)
    (e : r.InitializeColors = some r') : r'.GeomWF := by
  obtain ⟨r2, e2, l2, -, -, g2⟩ := forEach_updateCube_spec
    (fun i c => c.SetColors (initialColors i)) (loopRange (CUBE_NUM * CUBE_NUM * CUBE_NUM)) r
    (loopRange_nodup _)
    (by
      intro i hi
      obtain ⟨h0, h1⟩ := mem_loopRange_iff.1 hi
      obtain ⟨c, hc, hlen⟩ := hw.cube h0 h1
      obtain ⟨c', hc', -⟩ := SetColors_spec c (initialColors i) hlen
      exact ⟨c, c', hc, hc'⟩)
  have e2' : r.InitializeColors = some r2 := e2
  rw [e2', Option.some.injEq] at e
  subst e
  apply GeomWF_of_vecGet (l2.trans h.1)
  intro j c' hj
  obtain ⟨h0, h1⟩ := vecGet_some_bounds hj
  have h1' : j < 27 := by
    have : r2.cubes.length = 27 := l2.trans h.1
    omega
  have hc := vecGet_of_lt r.cubes j h0 (by rw [h.1]; omega)
  rw [g2 j, if_pos (mem_loopRange (n := CUBE_NUM * CUBE_NUM * CUBE_NUM) h0 h1'), hc,
    Option.some_bind] at hj
  exact SetColors_geom hj (h.2 _ (mem_of_vecGet hc))

/-- `Initialize` on a freshly constructed object returns a state with a well-formed
geometry: 27 sub-cubes with 8 vertices and valid faces each. -/
theorem Initialize_GeomWF (T : Trig) :
    ∃ r', Initialize T RubiksCube.empty = some r' ∧ r'.GeomWF := by
  have hlen0 : (List.replicate 27 Cube.empty).length = 27 := List.length_replicate _ _
  have hget0 : ∀ i : Int, 0 ≤ i → i < 27 →
      vecGet (List.replicate 27 Cube.empty) i = some Cube.empty := by
    intro i h0 h1
    rw [vecGet_of_lt _ _ h0 (by rw [hlen0]; omega)]
    simp only [List.get_eq_getElem, List.getElem_replicate]
  obtain ⟨r1, e1, l1, -, -, g1⟩ := forEach_updateCube_spec
    (fun i c => some
      { c.Initialize with rotation := geometry.Identity,
                          translation := restTranslation i,
                          scale := CUBE_SCALE })
    (loopRange (CUBE_NUM * CUBE_NUM * CUBE_NUM))
    { RubiksCube.empty with cubes := List.replicate 27 Cube.empty }
    (loopRange_nodup _)
    (by
      intro i hi
      obtain ⟨h0, h1⟩ := mem_loopRange_iff.1 hi
      exact ⟨Cube.empty, _, hget0 i h0 h1, rfl⟩)
  have hcube : ∀ (j : Int) (c : Cube), vecGet r1.cubes j = some c →
      c.faces.length = 6 ∧ c.vertices.length = 8 ∧ QuadModel.ValidFaces c := by
    intro j c hj
    obtain ⟨h0, h1⟩ := vecGet_some_bounds hj
    have h1' : j < 27 := by
      have : r1.cubes.length = 27 := l1.trans hlen0
      omega
    rw [g1 j, if_pos (mem_loopRange (n := CUBE_NUM * CUBE_NUM * CUBE_NUM) h0 h1'),
      hget0 j h0 h1'] at hj
    simp only [Option.some_bind, Option.some.injEq] at hj
    rw [← hj]
    have hv : QuadModel.ValidFaces Cube.empty.Initialize := by decide
    exact ⟨rfl, rfl, hv⟩
  have w1 : r1.WF := WF_of_vecGet (l1.trans hlen0) (fun j c hj => (hcube j c hj).1)
  have q1 : r1.GeomWF := GeomWF_of_vecGet (l1.trans hlen0) (fun j c hj => (hcube j c hj).2)
  obtain ⟨r2, e2, -⟩ := InitializeColors_spec w1
  have q2 : r2.GeomWF := InitializeColors_GeomWF w1 q1 e2
  refine ⟨{ (r2.InitializeGlobalRotation T) with
      global_translation := ⟨180, 180, RUBIKS_SIZE * 2⟩ }, ?_, ⟨q2.1, q2.2⟩⟩
  have hresize : (RubiksCube.empty.cubes.take (CUBE_NUM * CUBE_NUM * CUBE_NUM).toNat ++
      List.replicate ((CUBE_NUM * CUBE_NUM * CUBE_NUM).toNat - RubiksCube.empty.cubes.length)
        Cube.empty) = List.replicate 27 Cube.empty := rfl
  simp only [Initialize, hresize, Option.bind_eq_bind, e1, Option.some_bind, e2]
  rfl

end RubiksCube

end rubiks

namespace QuadModel

/-! ## `Project` appends, and keeps the indices valid -/

/-- The result of `Project` on a model whose faces have valid indices. -/
theorem Project_spec (m : QuadModel) (global_rotation : Matrix3D) (global_translation : Vec3D)
    (projected_vertices : List Vec3D) (visible_faces : List Quad) (h : m.ValidFaces) :
    m.Project global_rotation global_translation projected_vertices visible_faces =
      some (projected_vertices ++ m.projectedVertices global_rotation global_translation,
        visible_faces ++
          (m.faces.filter (fun f => decide (0 <
            windingZ (m.projectedVertices global_rotation global_translation) f))).map
            (emittedFace (m.projectedVertices global_rotation global_translation)
              projected_vertices.length)) := by
  have hvalid : ∀ f ∈ m.faces,
      ValidFace (m.projectedVertices global_rotation global_translation).length f := by
    intro f hf
    rw [projectedVertices, List.length_map]
    exact h f hf
  have hcv := collectVisible_spec (m.projectedVertices global_rotation global_translation)
    (projected_vertices.length : Int) m.faces hvalid
  show ((collectVisible (m.projectedVertices global_rotation global_translation)
      (projected_vertices.length : Int) m.faces).bind fun nvf =>
      some (projected_vertices ++ m.projectedVertices global_rotation global_translation,
            visible_faces ++ nvf)) = _
  rw [hcv, Option.some_bind]

theorem projectedVertices_length (m : QuadModel) (global_rotation : Matrix3D)
    (global_translation : Vec3D) :
    (m.projectedVertices global_rotation global_translation).length = m.vertices.length := by
  rw [projectedVertices, List.length_map]

theorem vecGet_append_right {α : Type} (l1 l2 : List α) {i : Int} (h0 : 0 ≤ i) :
    vecGet (l1 ++ l2) (i + (l1.length : Int)) = vecGet l2 i := by
  have h1 : 0 ≤ i + (l1.length : Int) := by omega
  rw [vecGet, vecGet, if_pos h1, if_pos h0,
    List.getElem?_append_right (by omega)]
  congr 1
  omega

theorem ValidFace.mono {n k : Nat} (h : n ≤ k) {f : Quad} (hf : ValidFace n f) :
    ValidFace k f := by
  unfold ValidFace at hf ⊢
  omega

/-- A face with valid indices, rebased by `size`, has valid indices into a list that is
`size` entries longer. -/
theorem emittedFace_valid (npv : List Vec3D) (size : Nat) {n : Nat} {f : Quad}
    (hf : ValidFace n f) : ValidFace (size + n) (emittedFace npv size f) := by
  unfold ValidFace at hf ⊢
  simp only [emittedFace]
  push_cast
  omega

end QuadModel

namespace rubiks

namespace RubiksCube

/-- The loop of `RubiksCube::Project` over sub-cubes with 8 vertices and valid faces
succeeds, appends 8 vertices for each sub-cube and keeps every face index valid. -/
theorem projectLoop_spec (global_rotation : Matrix3D) (global_translation : Vec3D) :
    ∀ (cs : List Cube) (pv : List Vec3D) (vf : List Quad),
      (∀ c ∈ cs, c.vertices.length = 8 ∧ QuadModel.ValidFaces c) →
      (∀ f ∈ vf, QuadModel.ValidFace pv.length f) →
      ∃ pv' vf', projectLoop global_rotation global_translation cs pv vf = some (pv', vf') ∧
        pv'.length = pv.length + 8 * cs.length ∧
        ∀ f ∈ vf', QuadModel.ValidFace pv'.length f := by
  intro cs
  induction cs with
  | nil =>
    intro pv vf _ hvf
    exact ⟨pv, vf, rfl, rfl, hvf⟩
  | cons c cs ih =>
    intro pv vf hcs hvf
    obtain ⟨hc8, hcv⟩ := hcs c (List.mem_cons_self _ _)
    have hlen : (pv ++ QuadModel.projectedVertices c global_rotation global_translation).length
        = pv.length + 8 := by
      rw [List.length_append, QuadModel.projectedVertices_length, hc8]
    obtain ⟨pv', vf', e, l, v⟩ := ih
      (pv ++ QuadModel.projectedVertices c global_rotation global_translation)
      (vf ++ (c.faces.filter (fun f => decide (0 <
          QuadModel.windingZ (QuadModel.projectedVertices c global_rotation
            global_translation) f))).map
          (QuadModel.emittedFace
            (QuadModel.projectedVertices c global_rotation global_translation) pv.length))
      (fun d hd => hcs d (List.mem_cons_of_mem _ hd))
      (by
        intro f hf
        rw [hlen]
        rcases List.mem_append.1 hf with hf | hf
        · exact (hvf f hf).mono (by omega)
        · obtain ⟨g, hg, rfl⟩ := List.mem_map.1 hf
          have hgv := hcv g (List.mem_of_mem_filter hg)
          rw [hc8] at hgv
          exact QuadModel.emittedFace_valid _ pv.length hgv)
    refine ⟨pv', vf', ?_, ?_, v⟩
    · rw [projectLoop, QuadModel.Project_spec c global_rotation global_translation pv vf hcv,
        Option.some_bind]
      exact e
    · rw [l, hlen, List.length_cons]
      ring

end RubiksCube

end rubiks

namespace QuadModel

/-- C11: `QuadModel::Project` is append-only and keeps face indices valid. If every face of
the model has its four indices in `[0, m)`, with `m` the number of vertices of the model,
and `projected_vertices` has length `L` before the call, then the call succeeds, and after
it `projected_vertices` has length `L + m` with its first `L` entries unchanged, the faces
already in `visible_faces` are unchanged, and every appended face has the indices of a face
of the model plus `L`, which lie in `[L, L + m)`, and its depth is the mean of the z
components of the four projected vertices found at its indices. Consequently, for a
function `sort` with the contract of `std::sort` and a cube state of 27 sub-cubes with 8
vertices and valid faces each, `RubiksCube::Project` on empty lists succeeds with 216
projected vertices, and every emitted face has its four indices in `[0, 216)`; the state
that `RubiksCube::Initialize` returns for a fresh object is such a state. -/
theorem C11_project_append_only (m : QuadModel) (global_rotation : Matrix3D)
    (global_translation : Vec3D) (projected_vertices : List Vec3D) (visible_faces : List Quad)
    (h : m.ValidFaces)
    (sort : (Quad → Quad → Bool) → List Quad → List Quad) (hs : StdSortContract sort)
    (r : rubiks.RubiksCube) (hr : r.GeomWF) (T : Trig) :
    (∃ pv vf,
      m.Project global_rotation global_translation projected_vertices visible_faces =
        some (pv, vf) ∧
      pv.length = projected_vertices.length + m.vertices.length ∧
      pv.take projected_vertices.length = projected_vertices ∧
      vf.take visible_faces.length = visible_faces ∧
      ∀ g ∈ vf.drop visible_faces.length, ∃ f ∈ m.faces,
        g.v1 = f.v1 + projected_vertices.length ∧ g.v2 = f.v2 + projected_vertices.length ∧
        g.v3 = f.v3 + projected_vertices.length ∧ g.v4 = f.v4 + projected_vertices.length ∧
        ((projected_vertices.length : Int) ≤ g.v1 ∧
          g.v1 < (projected_vertices.length + m.vertices.length : Nat)) ∧
        ((projected_vertices.length : Int) ≤ g.v2 ∧
          g.v2 < (projected_vertices.length + m.vertices.length : Nat)) ∧
        ((projected_vertices.length : Int) ≤ g.v3 ∧
          g.v3 < (projected_vertices.length + m.vertices.length : Nat)) ∧
        ((projected_vertices.length : Int) ≤ g.v4 ∧
          g.v4 < (projected_vertices.length + m.vertices.length : Nat)) ∧
        ∃ p1 p2 p3 p4, vecGet pv g.v1 = some p1 ∧ vecGet pv g.v2 = some p2 ∧
          vecGet pv g.v3 = some p3 ∧ vecGet pv g.v4 = some p4 ∧
          g.z = (p1.z + p2.z + p3.z + p4.z) / 4) ∧
    (∃ pv vf, r.Project sort [] [] = some (pv, vf) ∧ pv.length = 216 ∧
      ∀ f ∈ vf, ValidFace 216 f) ∧
    (∃ r0 pv vf, rubiks.RubiksCube.Initialize T rubiks.RubiksCube.empty = some r0 ∧
      r0.Project sort [] [] = some (pv, vf) ∧ pv.length = 216 ∧
      ∀ f ∈ vf, ValidFace 216 f) := by
  have hproj : ∀ s : rubiks.RubiksCube, s.GeomWF →
      ∃ pv vf, s.Project sort [] [] = some (pv, vf) ∧ pv.length = 216 ∧
        ∀ f ∈ vf, ValidFace 216 f := by
    intro s hsg
    obtain ⟨pv, vf, e, l, v⟩ := rubiks.RubiksCube.projectLoop_spec s.global_rotation
      s.global_translation s.cubes [] [] hsg.2 (fun f hf => absurd hf (List.not_mem_nil f))
    have hl : pv.length = 216 := by
      rw [l, hsg.1]
      rfl
    refine ⟨pv, geometry.Zsort sort vf, ?_, hl, ?_⟩
    · rw [rubiks.RubiksCube.Project, e, Option.some_bind]
    · intro f hf
      have hp := (hs geometry.CompDepth vf CompDepth_strictWeakOrder).1
      rw [← hl]
      exact v f (hp.subset hf)
  refine ⟨?_, hproj r hr, ?_⟩
  swap
  · obtain ⟨r0, e0, g0⟩ := rubiks.RubiksCube.Initialize_GeomWF T
    obtain ⟨pv, vf, e, l, v⟩ := hproj r0 g0
    exact ⟨r0, pv, vf, e0, e, l, v⟩
  · refine ⟨_, _, Project_spec m global_rotation global_translation projected_vertices
      visible_faces h, ?_, ?_, ?_, ?_⟩
    · rw [List.length_append, projectedVertices_length]
    · rw [List.take_left]
    · rw [List.take_left]
    · intro g hg
      rw [List.drop_left] at hg
      obtain ⟨f, hf, rfl⟩ := List.mem_map.1 hg
      have hfv := h f (List.mem_of_mem_filter hf)
      have hfv' : ValidFace (m.projectedVertices global_rotation global_translation).length
          f := by
        rw [projectedVertices_length]
        exact hfv
      have e1 := vecGet_projectedAt hfv'.1.1 hfv'.1.2
      have e2 := vecGet_projectedAt hfv'.2.1.1 hfv'.2.1.2
      have e3 := vecGet_projectedAt hfv'.2.2.1.1 hfv'.2.2.1.2
      have e4 := vecGet_projectedAt hfv'.2.2.2.1 hfv'.2.2.2.2
      unfold ValidFace at hfv
      refine ⟨f, List.mem_of_mem_filter hf, rfl, rfl, rfl, rfl, ?_, ?_, ?_, ?_,
        _, _, _, _, ?_, ?_, ?_, ?_, rfl⟩
      · simp only [emittedFace]; push_cast; omega
      · simp only [emittedFace]; push_cast; omega
      · simp only [emittedFace]; push_cast; omega
      · simp only [emittedFace]; push_cast; omega
      · exact (vecGet_append_right _ _ hfv.1.1).trans e1
      · exact (vecGet_append_right _ _ hfv.2.1.1).trans e2
      · exact (vecGet_append_right _ _ hfv.2.2.1.1).trans e3
      · exact (vecGet_append_right _ _ hfv.2.2.2.1).trans e4

end QuadModel

namespace rubiks

namespace RubiksCube

theorem sample_GeomWF : sample.GeomWF := by
  decide

end RubiksCube

end rubiks

namespace QuadModel

theorem C11_project_append_only_witness :
    rubiks.Cube.sample.ValidFaces ∧ StdSortContract insertionStdSort ∧
    rubiks.RubiksCube.sample.GeomWF ∧
    (∃ pv vf,
      rubiks.Cube.sample.Project geometry.Identity ⟨0, 0, 0⟩ [⟨0, 0, 0⟩]
        [rubiks.quadOf 0 0 0 0] = some (pv, vf) ∧
      pv.length = [(⟨0, 0, 0⟩ : Vec3D)].length + rubiks.Cube.sample.vertices.length ∧
      pv.take [(⟨0, 0, 0⟩ : Vec3D)].length = [⟨0, 0, 0⟩] ∧
      vf.take [rubiks.quadOf 0 0 0 0].length = [rubiks.quadOf 0 0 0 0] ∧
      ∀ g ∈ vf.drop [rubiks.quadOf 0 0 0 0].length, ∃ f ∈ rubiks.Cube.sample.faces,
        g.v1 = f.v1 + [(⟨0, 0, 0⟩ : Vec3D)].length ∧
        g.v2 = f.v2 + [(⟨0, 0, 0⟩ : Vec3D)].length ∧
        g.v3 = f.v3 + [(⟨0, 0, 0⟩ : Vec3D)].length ∧
        g.v4 = f.v4 + [(⟨0, 0, 0⟩ : Vec3D)].length ∧
        (([(⟨0, 0, 0⟩ : Vec3D)].length : Int) ≤ g.v1 ∧
          g.v1 < ([(⟨0, 0, 0⟩ : Vec3D)].length + rubiks.Cube.sample.vertices.length : Nat)) ∧
        (([(⟨0, 0, 0⟩ : Vec3D)].length : Int) ≤ g.v2 ∧
          g.v2 < ([(⟨0, 0, 0⟩ : Vec3D)].length + rubiks.Cube.sample.vertices.length : Nat)) ∧
        (([(⟨0, 0, 0⟩ : Vec3D)].length : Int) ≤ g.v3 ∧
          g.v3 < ([(⟨0, 0, 0⟩ : Vec3D)].length + rubiks.Cube.sample.vertices.length : Nat)) ∧
        (([(⟨0, 0, 0⟩ : Vec3D)].length : Int) ≤ g.v4 ∧
          g.v4 < ([(⟨0, 0, 0⟩ : Vec3D)].length + rubiks.Cube.sample.vertices.length : Nat)) ∧
        ∃ p1 p2 p3 p4, vecGet pv g.v1 = some p1 ∧ vecGet pv g.v2 = some p2 ∧
          vecGet pv g.v3 = some p3 ∧ vecGet pv g.v4 = some p4 ∧
          g.z = (p1.z + p2.z + p3.z + p4.z) / 4) ∧
    (∃ pv vf, rubiks.RubiksCube.sample.Project insertionStdSort [] [] = some (pv, vf) ∧
      pv.length = 216 ∧ ∀ f ∈ vf, ValidFace 216 f) ∧
    (∃ r0 pv vf,
      rubiks.RubiksCube.Initialize rubiks.Trig.flat rubiks.RubiksCube.empty = some r0 ∧
      r0.Project insertionStdSort [] [] = some (pv, vf) ∧ pv.length = 216 ∧
      ∀ f ∈ vf, ValidFace 216 f) :=
  ⟨by decide, insertionStdSort_contract, rubiks.RubiksCube.sample_GeomWF,
    C11_project_append_only rubiks.Cube.sample geometry.Identity ⟨0, 0, 0⟩ [⟨0, 0, 0⟩]
      [rubiks.quadOf 0 0 0 0] (by decide) insertionStdSort insertionStdSort_contract
      rubiks.RubiksCube.sample rubiks.RubiksCube.sample_GeomWF rubiks.Trig.flat⟩

end QuadModel

namespace rubiks

/-! ## `MouseHandler::Click` -/

theorem Sign_pos {x : ℚ} (h : 0 < x) : Sign x = 1 := by
  unfold Sign
  rw [if_pos h, if_neg (not_lt.2 h.le)]
  norm_num

theorem Sign_neg {x : ℚ} (h : x < 0) : Sign x = -1 := by
  unfold Sign
  rw [if_neg (not_lt.2 h.le), if_pos h]
  norm_num

theorem truncate_of_nonneg {x : ℚ} (h : 0 ≤ x) : truncate x = ⌊x⌋ := by
  unfold truncate
  rw [if_pos h]

theorem truncate_intCast (n : Int) : truncate (n : ℚ) = n := by
  unfold truncate
  split_ifs
  · exact Int.floor_intCast n
  · exact Int.ceil_intCast n

/-- The grid coordinate across the clicked face: 0 or 2. -/
theorem truncate_sign {v : ℚ} (h : |v| > RUBIKS_SIZE) :
    (v < 0 ∧ truncate (Sign v + 1) = 0) ∨ (0 < v ∧ truncate (Sign v + 1) = 2) := by
  rw [RubiksCube.RUBIKS_SIZE_eq] at h
  rcases lt_or_le v 0 with hv | hv
  · left
    refine ⟨hv, ?_⟩
    rw [Sign_neg hv]
    have : ((-1 : ℚ) + 1) = ((0 : Int) : ℚ) := by norm_num
    rw [this, truncate_intCast]
  · right
    have hpos : 0 < v := by
      rw [abs_of_nonneg hv] at h
      linarith
    refine ⟨hpos, ?_⟩
    rw [Sign_pos hpos]
    have : ((1 : ℚ) + 1) = ((2 : Int) : ℚ) := by norm_num
    rw [this, truncate_intCast]

/-- The grid coordinate along the clicked face: the bucket of width `CUBE_DISTANCE` that
holds the intersection, one of 0, 1, 2. -/
theorem truncate_bucket {v : ℚ} (h : |v| < RUBIKS_SIZE) :
    truncate ((v + RUBIKS_SIZE) / CUBE_DISTANCE) = ⌊(v + 90) / 60⌋ ∧
    0 ≤ ⌊(v + 90) / 60⌋ ∧ ⌊(v + 90) / 60⌋ < 3 := by
  rw [RubiksCube.RUBIKS_SIZE_eq] at h
  rw [RubiksCube.RUBIKS_SIZE_eq, RubiksCube.CUBE_DISTANCE_eq]
  obtain ⟨h1, h2⟩ := abs_lt.1 h
  have h0 : 0 ≤ (v + 90) / 60 := by
    apply div_nonneg <;> linarith
  refine ⟨truncate_of_nonneg h0, Int.floor_nonneg.2 h0, ?_⟩
  rw [Int.floor_lt]
  rw [div_lt_iff₀ (by norm_num)]
  push_cast
  linarith

namespace MouseHandler

theorem clickX_zero (m : MouseHandler) (o : Vec3D) {d : Vec3D} (h : d.x = 0) :
    clickX m o d = none := by
  unfold clickX
  split_ifs
  · simp only [divDouble, h, if_true]
  · rfl

theorem clickY_zero (m : MouseHandler) (o : Vec3D) {d : Vec3D} (h : d.y = 0) :
    clickY m o d = none := by
  unfold clickY
  split_ifs
  · simp only [divDouble, h, if_true]
  · rfl

theorem clickZ_zero (m : MouseHandler) (o : Vec3D) {d : Vec3D} (h : d.z = 0) :
    clickZ m o d = none := by
  unfold clickZ
  split_ifs
  · simp only [divDouble, h, if_true]
  · rfl

/-- A hit of the X test: what the block of `Click` for the X faces returns. -/
theorem clickX_hit (m : MouseHandler) {o d : Vec3D} (h1 : |o.x| > RUBIKS_SIZE)
    (h2 : d.x ≠ 0)
    (hu : |(hitX o d).y| < RUBIKS_SIZE)
    (hv : |(hitX o d).z| < RUBIKS_SIZE) :
    clickX m o d = some
      { m with
        m_clicked_cube := truncate (Sign o.x + 1) +
          truncate (((hitX o d).y + RUBIKS_SIZE) / CUBE_DISTANCE) * CUBE_NUM +
          truncate (((hitX o d).z + RUBIKS_SIZE) / CUBE_DISTANCE) * CUBE_NUM * CUBE_NUM,
        m_clicked_axis := AXIS_X,
        m_clicked_pos := (hitX o d),
        m_state := MOUSE_STATE_SELECE_AXIS } := by
  unfold hitX at hu hv ⊢
  unfold clickX
  rw [if_pos h1]
  simp only [divDouble, if_neg h2]
  rw [if_pos ⟨hu, hv⟩]

/-- What holds when the X test returns a state. -/
theorem clickX_spec {m m' : MouseHandler} {o d : Vec3D} (h : clickX m o d = some m') :
    |o.x| > RUBIKS_SIZE ∧ d.x ≠ 0 ∧
    |(hitX o d).y| < RUBIKS_SIZE ∧
    |(hitX o d).z| < RUBIKS_SIZE := by
  by_cases h1 : |o.x| > RUBIKS_SIZE
  · by_cases h2 : d.x = 0
    · rw [clickX_zero m o h2] at h
      cases h
    · by_cases huv : |(hitX o d).y| < RUBIKS_SIZE ∧ |(hitX o d).z| < RUBIKS_SIZE
      · exact ⟨h1, h2, huv.1, huv.2⟩
      · exfalso
        unfold hitX at huv
        unfold clickX at h
        rw [if_pos h1] at h
        simp only [divDouble, if_neg h2] at h
        rw [if_neg huv] at h
        cases h
  · exfalso
    unfold clickX at h
    rw [if_neg h1] at h
    cases h

/-- A hit of the Y test: what the block of `Click` for the Y faces returns. -/
theorem clickY_hit (m : MouseHandler) {o d : Vec3D} (h1 : |o.y| > RUBIKS_SIZE)
    (h2 : d.y ≠ 0)
    (hu : |(hitY o d).x| < RUBIKS_SIZE)
    (hv : |(hitY o d).z| < RUBIKS_SIZE) :
    clickY m o d = some
      { m with
        m_clicked_cube := truncate (((hitY o d).x + RUBIKS_SIZE) / CUBE_DISTANCE) +
          truncate (Sign o.y + 1) * CUBE_NUM +
          truncate (((hitY o d).z + RUBIKS_SIZE) / CUBE_DISTANCE) * CUBE_NUM * CUBE_NUM,
        m_clicked_axis := AXIS_Y,
        m_clicked_pos := (hitY o d),
        m_state := MOUSE_STATE_SELECE_AXIS } := by
  unfold hitY at hu hv ⊢
  unfold clickY
  rw [if_pos h1]
  simp only [divDouble, if_neg h2]
  rw [if_pos ⟨hu, hv⟩]

/-- What holds when the Y test returns a state. -/
theorem clickY_spec {m m' : MouseHandler} {o d : Vec3D} (h : clickY m o d = some m') :
    |o.y| > RUBIKS_SIZE ∧ d.y ≠ 0 ∧
    |(hitY o d).x| < RUBIKS_SIZE ∧
    |(hitY o d).z| < RUBIKS_SIZE := by
  by_cases h1 : |o.y| > RUBIKS_SIZE
  · by_cases h2 : d.y = 0
    · rw [clickY_zero m o h2] at h
      cases h
    · by_cases huv : |(hitY o d).x| < RUBIKS_SIZE ∧ |(hitY o d).z| < RUBIKS_SIZE
      · exact ⟨h1, h2, huv.1, huv.2⟩
      · exfalso
        unfold hitY at huv
        unfold clickY at h
        rw [if_pos h1] at h
        simp only [divDouble, if_neg h2] at h
        rw [if_neg huv] at h
        cases h
  · exfalso
    unfold clickY at h
    rw [if_neg h1] at h
    cases h

/-- A hit of the Z test: what the block of `Click` for the Z faces returns. -/
theorem clickZ_hit (m : MouseHandler) {o d : Vec3D} (h1 : |o.z| > RUBIKS_SIZE)
    (h2 : d.z ≠ 0)
    (hu : |(hitZ o d).x| < RUBIKS_SIZE)
    (hv : |(hitZ o d).y| < RUBIKS_SIZE) :
    clickZ m o d = some
      { m with
        m_clicked_cube := truncate (((hitZ o d).x + RUBIKS_SIZE) / CUBE_DISTANCE) +
          truncate (((hitZ o d).y + RUBIKS_SIZE) / CUBE_DISTANCE) * CUBE_NUM +
          truncate (Sign o.z + 1) * CUBE_NUM * CUBE_NUM,
        m_clicked_axis := AXIS_Z,
        m_clicked_pos := (hitZ o d),
        m_state := MOUSE_STATE_SELECE_AXIS } := by
  unfold hitZ at hu hv ⊢
  unfold clickZ
  rw [if_pos h1]
  simp only [divDouble, if_neg h2]
  rw [if_pos ⟨hu, hv⟩]

/-- What holds when the Z test returns a state. -/
theorem clickZ_spec {m m' : MouseHandler} {o d : Vec3D} (h : clickZ m o d = some m') :
    |o.z| > RUBIKS_SIZE ∧ d.z ≠ 0 ∧
    |(hitZ o d).x| < RUBIKS_SIZE ∧
    |(hitZ o d).y| < RUBIKS_SIZE := by
  by_cases h1 : |o.z| > RUBIKS_SIZE
  · by_cases h2 : d.z = 0
    · rw [clickZ_zero m o h2] at h
      cases h
    · by_cases huv : |(hitZ o d).x| < RUBIKS_SIZE ∧ |(hitZ o d).y| < RUBIKS_SIZE
      · exact ⟨h1, h2, huv.1, huv.2⟩
      · exfalso
        unfold hitZ at huv
        unfold clickZ at h
        rw [if_pos h1] at h
        simp only [divDouble, if_neg h2] at h
        rw [if_neg huv] at h
        cases h
  · exfalso
    unfold clickZ at h
    rw [if_neg h1] at h
    cases h

end MouseHandler

end rubiks

namespace rubiks

namespace MouseHandler

/-- `Click` is the first of the three tests that returns a state, and the state
`MOUSE_STATE_ROTATE_VIEW` when none does. -/
theorem Click_eq (m : MouseHandler) (mouse_pos : Vec3D) :
    m.Click mouse_pos =
      (clickX m (m.rayPos mouse_pos) m.rayVec).getD
        ((clickY m (m.rayPos mouse_pos) m.rayVec).getD
          ((clickZ m (m.rayPos mouse_pos) m.rayVec).getD
            { m with m_state := MOUSE_STATE_ROTATE_VIEW })) := by
  unfold Click
  dsimp only
  cases clickX m (m.rayPos mouse_pos) m.rayVec with
  | some a => rfl
  | none =>
    cases clickY m (m.rayPos mouse_pos) m.rayVec with
    | some a => rfl
    | none =>
      cases clickZ m (m.rayPos mouse_pos) m.rayVec with
      | some a => rfl
      | none => rfl

/-- A hit of the X test on the side `x = +RUBIKS_SIZE`, in the terms of the ray. -/
theorem Click_plus_x (m : MouseHandler) (mouse_pos o d q : Vec3D)
    (ho : o = m.m_rubiks.global_rotation.Transpose.mulVec
      (mouse_pos.sub m.m_rubiks.global_translation))
    (hd : d = m.m_rubiks.global_rotation.Transpose.mulVec ⟨0, 0, 1⟩)
    (hox : o.x > 90) (hdx : d.x ≠ 0)
    (hq : q = o.add (d.smul ((90 - o.x) / d.x)))
    (hy : |q.y| < 90) (hz : |q.z| < 90) :
    RUBIKS_SIZE = 90 ∧
    m.Click mouse_pos =
      { m with m_clicked_cube := 2 + 3 * ⌊(q.y + 90) / 60⌋ + 9 * ⌊(q.z + 90) / 60⌋,
               m_clicked_axis := AXIS_X,
               m_clicked_pos := q,
               m_state := MOUSE_STATE_SELECE_AXIS } ∧
    (m.Click mouse_pos).m_state = MOUSE_STATE_SELECE_AXIS ∧
    (m.Click mouse_pos).m_clicked_axis = AXIS_X ∧
    (m.Click mouse_pos).m_clicked_pos = q ∧
    (m.Click mouse_pos).m_clicked_cube =
      2 + 3 * ⌊(q.y + 90) / 60⌋ + 9 * ⌊(q.z + 90) / 60⌋ := by
  have ho' : m.rayPos mouse_pos = o := ho.symm
  have hd' : m.rayVec = d := hd.symm
  have hpos : (0 : ℚ) < o.x := by linarith
  have hq' : hitX o d = q := by
    rw [hq, hitX, Sign_pos hpos, RubiksCube.RUBIKS_SIZE_eq, one_mul]
  have h1 : |o.x| > RUBIKS_SIZE := by
    rw [RubiksCube.RUBIKS_SIZE_eq, abs_of_pos hpos]
    exact hox
  have hy' : |(hitX o d).y| < RUBIKS_SIZE := by
    rw [hq', RubiksCube.RUBIKS_SIZE_eq]
    exact hy
  have hz' : |(hitX o d).z| < RUBIKS_SIZE := by
    rw [hq', RubiksCube.RUBIKS_SIZE_eq]
    exact hz
  have hx2 : truncate (Sign o.x + 1) = 2 := by
    rcases truncate_sign h1 with ⟨hneg, -⟩ | ⟨-, h2⟩
    · exact absurd hneg (not_lt.2 hpos.le)
    · exact h2
  have key : m.Click mouse_pos =
      { m with m_clicked_cube := 2 + 3 * ⌊(q.y + 90) / 60⌋ + 9 * ⌊(q.z + 90) / 60⌋,
               m_clicked_axis := AXIS_X,
               m_clicked_pos := q,
               m_state := MOUSE_STATE_SELECE_AXIS } := by
    rw [Click_eq, ho', hd', clickX_hit m h1 hdx hy' hz', Option.getD_some, hx2,
      (truncate_bucket hy').1, (truncate_bucket hz').1, hq']
    congr 1
    ring
  refine ⟨RubiksCube.RUBIKS_SIZE_eq, key, ?_, ?_, ?_, ?_⟩ <;> rw [key]

theorem sampleSide_rayPos :
    sampleSide.m_rubiks.global_rotation.Transpose.mulVec
      ((⟨200, 150, 0⟩ : Vec3D).sub sampleSide.m_rubiks.global_translation) =
      ⟨180, -30, 20⟩ := by
  simp only [sampleSide, m_rubiks, MouseHandler.new, InitializeState, AnimationHandler.new,
    RubiksCube.sample, geometry.RotationY, Trig.quarter, Matrix3D.Transpose, Matrix3D.mulVec,
    Vec3D.sub, Vec3D.mk.injEq]
  norm_num

theorem sampleSide_rayVec :
    sampleSide.m_rubiks.global_rotation.Transpose.mulVec ⟨0, 0, 1⟩ = ⟨-1, 0, 0⟩ := by
  simp only [sampleSide, m_rubiks, MouseHandler.new, InitializeState, AnimationHandler.new,
    RubiksCube.sample, geometry.RotationY, Trig.quarter, Matrix3D.Transpose, Matrix3D.mulVec,
    Vec3D.mk.injEq]
  norm_num

theorem sampleSide_click :
    sampleSide.Click ⟨200, 150, 0⟩ =
      { sampleSide with m_clicked_cube := 14,
                        m_clicked_axis := AXIS_X,
                        m_clicked_pos := ⟨90, -30, 20⟩,
                        m_state := MOUSE_STATE_SELECE_AXIS } := by
  have h := (Click_plus_x sampleSide ⟨200, 150, 0⟩ ⟨180, -30, 20⟩ ⟨-1, 0, 0⟩ ⟨90, -30, 20⟩
    sampleSide_rayPos.symm sampleSide_rayVec.symm (by norm_num) (by norm_num)
    (by simp only [Vec3D.add, Vec3D.smul, Vec3D.mk.injEq]; norm_num)
    (by norm_num [abs_lt]) (by norm_num [abs_lt])).2.1
  rw [h]
  have e1 : ⌊((-30 : ℚ) + 90) / 60⌋ = 1 := by
    rw [Int.floor_eq_iff]
    norm_num
  have e2 : ⌊((20 : ℚ) + 90) / 60⌋ = 1 := by
    rw [Int.floor_eq_iff]
    norm_num
  rw [e1, e2]
  rfl

end MouseHandler

end rubiks

namespace rubiks

namespace MouseHandler

/-- The state after a `Click` that ends in `MOUSE_STATE_SELECE_AXIS`: one of the three
tests returned it, with the clicked sub-cube given by a coordinate 0 or 2 across the clicked
face and two bucket coordinates in `[0, 3)` along it. -/
theorem Click_select {m : MouseHandler} {mouse_pos : Vec3D}
    (h : (m.Click mouse_pos).m_state = MOUSE_STATE_SELECE_AXIS) :
    ∃ x y z : Int, (0 ≤ x ∧ x < 3) ∧ (0 ≤ y ∧ y < 3) ∧ (0 ≤ z ∧ z < 3) ∧
      (m.Click mouse_pos).m_clicked_cube = x + y * CUBE_NUM + z * CUBE_NUM * CUBE_NUM ∧
      (((m.Click mouse_pos).m_clicked_axis = AXIS_X ∧ (x = 0 ∨ x = 2)) ∨
       ((m.Click mouse_pos).m_clicked_axis = AXIS_Y ∧ (y = 0 ∨ y = 2)) ∨
       ((m.Click mouse_pos).m_clicked_axis = AXIS_Z ∧ (z = 0 ∨ z = 2))) := by
  have hs : ∀ {v : ℚ}, |v| > RUBIKS_SIZE →
      (0 ≤ truncate (Sign v + 1) ∧ truncate (Sign v + 1) < 3) ∧
      (truncate (Sign v + 1) = 0 ∨ truncate (Sign v + 1) = 2) := by
    intro v hv
    rcases truncate_sign hv with ⟨-, e⟩ | ⟨-, e⟩
    · rw [e]; exact ⟨by decide, Or.inl rfl⟩
    · rw [e]; exact ⟨by decide, Or.inr rfl⟩
  have hb : ∀ {v : ℚ}, |v| < RUBIKS_SIZE →
      0 ≤ truncate ((v + RUBIKS_SIZE) / CUBE_DISTANCE) ∧
      truncate ((v + RUBIKS_SIZE) / CUBE_DISTANCE) < 3 := by
    intro v hv
    obtain ⟨e, h0, h3⟩ := truncate_bucket hv
    rw [e]
    exact ⟨h0, h3⟩
  rw [Click_eq] at h ⊢
  cases hX : clickX m (m.rayPos mouse_pos) m.rayVec with
  | some a =>
    obtain ⟨h1, h2, hu, hv⟩ := clickX_spec hX
    have ha := clickX_hit m h1 h2 hu hv
    rw [hX, Option.some.injEq] at ha
    rw [Option.getD_some, ha]
    exact ⟨_, _, _, (hs h1).1, hb hu, hb hv, rfl, Or.inl ⟨rfl, (hs h1).2⟩⟩
  | none =>
    rw [hX, Option.getD_none] at h
    rw [Option.getD_none]
    cases hY : clickY m (m.rayPos mouse_pos) m.rayVec with
    | some a =>
      obtain ⟨h1, h2, hu, hv⟩ := clickY_spec hY
      have ha := clickY_hit m h1 h2 hu hv
      rw [hY, Option.some.injEq] at ha
      rw [Option.getD_some, ha]
      exact ⟨_, _, _, hb hu, (hs h1).1, hb hv, rfl, Or.inr (Or.inl ⟨rfl, (hs h1).2⟩)⟩
    | none =>
      rw [hY, Option.getD_none] at h
      rw [Option.getD_none]
      cases hZ : clickZ m (m.rayPos mouse_pos) m.rayVec with
      | some a =>
        obtain ⟨h1, h2, hu, hv⟩ := clickZ_spec hZ
        have ha := clickZ_hit m h1 h2 hu hv
        rw [hZ, Option.some.injEq] at ha
        rw [Option.getD_some, ha]
        exact ⟨_, _, _, hb hu, hb hv, (hs h1).1, rfl, Or.inr (Or.inr ⟨rfl, (hs h1).2⟩)⟩
      | none =>
        rw [hZ, Option.getD_none] at h
        have h' : (MOUSE_STATE_ROTATE_VIEW : Int) = MOUSE_STATE_SELECE_AXIS := h
        exact absurd h' (by decide)

/-- C15: the degenerate ray cast. When the component of the ray direction along a tested
axis is zero, the test of `Click` for that axis returns no state, `Click` is what the
remaining tests give in their order, and a `Click` that ends in `MOUSE_STATE_SELECE_AXIS`
has not recorded that axis. When no test returns a state, in particular when all three
components are zero, the state becomes `MOUSE_STATE_ROTATE_VIEW` and no other field
changes: no clicked sub-cube index, axis or position is recorded. -/
theorem C15_click_degenerate_ray (m : MouseHandler) (mouse_pos : Vec3D) :
    (m.rayVec = m.m_rubiks.global_rotation.Transpose.mulVec ⟨0, 0, 1⟩) ∧
    (m.rayVec.x = 0 →
      clickX m (m.rayPos mouse_pos) m.rayVec = none ∧
      m.Click mouse_pos =
        (clickY m (m.rayPos mouse_pos) m.rayVec).getD
          ((clickZ m (m.rayPos mouse_pos) m.rayVec).getD
            { m with m_state := MOUSE_STATE_ROTATE_VIEW }) ∧
      ((m.Click mouse_pos).m_state = MOUSE_STATE_SELECE_AXIS →
        (m.Click mouse_pos).m_clicked_axis ≠ AXIS_X)) ∧
    (m.rayVec.y = 0 →
      clickY m (m.rayPos mouse_pos) m.rayVec = none ∧
      m.Click mouse_pos =
        (clickX m (m.rayPos mouse_pos) m.rayVec).getD
          ((clickZ m (m.rayPos mouse_pos) m.rayVec).getD
            { m with m_state := MOUSE_STATE_ROTATE_VIEW }) ∧
      ((m.Click mouse_pos).m_state = MOUSE_STATE_SELECE_AXIS →
        (m.Click mouse_pos).m_clicked_axis ≠ AXIS_Y)) ∧
    (m.rayVec.z = 0 →
      clickZ m (m.rayPos mouse_pos) m.rayVec = none ∧
      m.Click mouse_pos =
        (clickX m (m.rayPos mouse_pos) m.rayVec).getD
          ((clickY m (m.rayPos mouse_pos) m.rayVec).getD
            { m with m_state := MOUSE_STATE_ROTATE_VIEW }) ∧
      ((m.Click mouse_pos).m_state = MOUSE_STATE_SELECE_AXIS →
        (m.Click mouse_pos).m_clicked_axis ≠ AXIS_Z)) ∧
    (clickX m (m.rayPos mouse_pos) m.rayVec = none →
      clickY m (m.rayPos mouse_pos) m.rayVec = none →
      clickZ m (m.rayPos mouse_pos) m.rayVec = none →
      m.Click mouse_pos = { m with m_state := MOUSE_STATE_ROTATE_VIEW }) ∧
    (m.rayVec.x = 0 → m.rayVec.y = 0 → m.rayVec.z = 0 →
      m.Click mouse_pos = { m with m_state := MOUSE_STATE_ROTATE_VIEW }) := by
  have hY : ∀ a, clickY m (m.rayPos mouse_pos) m.rayVec = some a →
      a.m_clicked_axis = AXIS_Y := by
    intro a ha
    obtain ⟨h1, h2, hu, hv⟩ := clickY_spec ha
    rw [clickY_hit m h1 h2 hu hv, Option.some.injEq] at ha
    rw [← ha]
  have hX : ∀ a, clickX m (m.rayPos mouse_pos) m.rayVec = some a →
      a.m_clicked_axis = AXIS_X := by
    intro a ha
    obtain ⟨h1, h2, hu, hv⟩ := clickX_spec ha
    rw [clickX_hit m h1 h2 hu hv, Option.some.injEq] at ha
    rw [← ha]
  have hZ : ∀ a, clickZ m (m.rayPos mouse_pos) m.rayVec = some a →
      a.m_clicked_axis = AXIS_Z := by
    intro a ha
    obtain ⟨h1, h2, hu, hv⟩ := clickZ_spec ha
    rw [clickZ_hit m h1 h2 hu hv, Option.some.injEq] at ha
    rw [← ha]
  have hnone : ∀ {a b c : Option MouseHandler} {ax : Int},
      (∀ s, a = some s → s.m_clicked_axis ≠ ax) → (∀ s, b = some s → s.m_clicked_axis ≠ ax) →
      (∀ s, c = some s → s.m_clicked_axis ≠ ax) →
      (a.getD (b.getD (c.getD { m with m_state := MOUSE_STATE_ROTATE_VIEW }))).m_state =
        MOUSE_STATE_SELECE_AXIS →
      (a.getD (b.getD (c.getD { m with m_state := MOUSE_STATE_ROTATE_VIEW }))).m_clicked_axis
        ≠ ax := by
    intro a b c ax ha hb hc hst
    cases a with
    | some s => exact ha s rfl
    | none =>
      cases b with
      | some s => exact hb s rfl
      | none =>
        cases c with
        | some s => exact hc s rfl
        | none =>
          have h' : (MOUSE_STATE_ROTATE_VIEW : Int) = MOUSE_STATE_SELECE_AXIS := hst
          exact absurd h' (by decide)
  refine ⟨rfl, ?_, ?_, ?_, ?_, ?_⟩
  · intro h0
    have e := clickX_zero m (m.rayPos mouse_pos) h0
    refine ⟨e, by rw [Click_eq, e, Option.getD_none], ?_⟩
    rw [Click_eq]
    apply hnone
    · intro s hs; rw [e] at hs; cases hs
    · intro s hs; rw [hY s hs]; decide
    · intro s hs; rw [hZ s hs]; decide
  · intro h0
    have e := clickY_zero m (m.rayPos mouse_pos) h0
    refine ⟨e, by rw [Click_eq, e, Option.getD_none], ?_⟩
    rw [Click_eq]
    apply hnone
    · intro s hs; rw [hX s hs]; decide
    · intro s hs; rw [e] at hs; cases hs
    · intro s hs; rw [hZ s hs]; decide
  · intro h0
    have e := clickZ_zero m (m.rayPos mouse_pos) h0
    refine ⟨e, by rw [Click_eq, e, Option.getD_none], ?_⟩
    rw [Click_eq]
    apply hnone
    · intro s hs; rw [hX s hs]; decide
    · intro s hs; rw [hY s hs]; decide
    · intro s hs; rw [e] at hs; cases hs
  · intro e1 e2 e3
    rw [Click_eq, e1, e2, e3]
    rfl
  · intro h1 h2 h3
    rw [Click_eq, clickX_zero m _ h1, clickY_zero m _ h2, clickZ_zero m _ h3]
    rfl

end MouseHandler

end rubiks

namespace rubiks

namespace MouseHandler

theorem sample_rayVec : sample.rayVec = ⟨0, 0, 1⟩ := by
  simp only [rayVec, sample, m_rubiks, MouseHandler.new, InitializeState, AnimationHandler.new,
    RubiksCube.sample, geometry.Identity, Matrix3D.Transpose, Matrix3D.mulVec,
    Vec3D.mk.injEq]
  norm_num

theorem C15_click_degenerate_ray_witness :
    sample.rayVec.x = 0 ∧
    clickX sample (sample.rayPos ⟨260, 180, 0⟩) sample.rayVec = none ∧
    sample.Click ⟨260, 180, 0⟩ =
      (clickY sample (sample.rayPos ⟨260, 180, 0⟩) sample.rayVec).getD
        ((clickZ sample (sample.rayPos ⟨260, 180, 0⟩) sample.rayVec).getD
          { sample with m_state := MOUSE_STATE_ROTATE_VIEW }) ∧
    ((sample.Click ⟨260, 180, 0⟩).m_state = MOUSE_STATE_SELECE_AXIS →
      (sample.Click ⟨260, 180, 0⟩).m_clicked_axis ≠ AXIS_X) :=
  ⟨by rw [sample_rayVec],
    (C15_click_degenerate_ray sample ⟨260, 180, 0⟩).2.1 (by rw [sample_rayVec])⟩

end MouseHandler

end rubiks

namespace rubiks

/-! ## `MouseHandler::UnClick` -/

theorem fmod_of_nonneg {x y : ℚ} (hy : 0 < y) (hx : 0 ≤ x) :
    0 ≤ fmod x y ∧ fmod x y < y := by
  have hq : 0 ≤ x / y := div_nonneg hx hy.le
  have h1 : (⌊x / y⌋ : ℚ) ≤ x / y := Int.floor_le _
  have h2 : x / y < (⌊x / y⌋ : ℚ) + 1 := Int.lt_floor_add_one _
  rw [le_div_iff₀ hy] at h1
  rw [div_lt_iff₀ hy] at h2
  rw [fmod, truncate_of_nonneg hq]
  constructor <;> linarith

theorem fmod_abs_lt {x y : ℚ} (hy : 0 < y) : -y < fmod x y ∧ fmod x y < y := by
  rcases le_or_lt 0 x with hx | hx
  · obtain ⟨h1, h2⟩ := fmod_of_nonneg hy hx
    constructor <;> linarith
  · have hq : ¬ 0 ≤ x / y := not_le.2 (div_neg_of_neg_of_pos hx hy)
    have h1 : x / y ≤ (⌈x / y⌉ : ℚ) := Int.le_ceil _
    have h2 : (⌈x / y⌉ : ℚ) < x / y + 1 := Int.ceil_lt_add_one _
    rw [div_le_iff₀ hy] at h1
    have h3 : ((⌈x / y⌉ : ℚ) - 1) * y < x := by
      have : (⌈x / y⌉ : ℚ) - 1 < x / y := by linarith
      exact (lt_div_iff₀ hy).1 this
    have h4 : (⌈x / y⌉ : ℚ) ≤ 0 := by
      have : ⌈x / y⌉ ≤ 0 := Int.ceil_le.2 (by push_cast; exact (div_neg_of_neg_of_pos hx hy).le)
      exact_mod_cast this
    rw [fmod, truncate, if_neg hq]
    constructor <;> nlinarith

/-- The value of `fmod` for a non-negative argument in the `k`-th period. -/
theorem fmod_eq {x y : ℚ} (hy : 0 < y) (k : Int) (h0 : 0 ≤ k) (h1 : (k : ℚ) * y ≤ x)
    (h2 : x < ((k : ℚ) + 1) * y) : fmod x y = x - (k : ℚ) * y := by
  have hk : (0 : ℚ) ≤ (k : ℚ) := by exact_mod_cast h0
  have hx : 0 ≤ x := le_trans (mul_nonneg hk hy.le) h1
  have hq : 0 ≤ x / y := div_nonneg hx hy.le
  have hf : ⌊x / y⌋ = k := by
    rw [Int.floor_eq_iff]
    exact ⟨(le_div_iff₀ hy).2 h1, (div_lt_iff₀ hy).2 h2⟩
  rw [fmod, truncate_of_nonneg hq, hf]

theorem RUBIKS_PI_pos : 0 < RUBIKS_PI := by
  norm_num [RUBIKS_PI]

namespace MouseHandler

/-- The normalised angle lies in `[0, 360)` and differs from the angle in degrees by a
multiple of 360. -/
theorem normalizedTheta_spec (theta : ℚ) :
    0 ≤ normalizedTheta theta ∧ normalizedTheta theta < 360 ∧
    ∃ k : Int, normalizedTheta theta = theta * (180 / RUBIKS_PI) + 360 * (k : ℚ) := by
  have h360 : (0 : ℚ) < 360 := by norm_num
  obtain ⟨a1, a2⟩ := fmod_abs_lt (x := theta * (180 / RUBIKS_PI)) h360
  obtain ⟨b1, b2⟩ := fmod_of_nonneg (x := fmod (theta * (180 / RUBIKS_PI)) 360 + 360) h360
    (by linarith)
  refine ⟨b1, b2, ?_⟩
  refine ⟨1 - truncate ((fmod (theta * (180 / RUBIKS_PI)) 360 + 360) / 360) -
    truncate (theta * (180 / RUBIKS_PI) / 360), ?_⟩
  unfold normalizedTheta
  rw [fmod, fmod]
  push_cast
  ring

/-- An angle of `t` degrees with `0 <= t < 360` is its own normal form. -/
theorem normalizedTheta_of_range {theta t : ℚ} (ht : theta * (180 / RUBIKS_PI) = t)
    (h0 : 0 ≤ t) (h1 : t < 360) : normalizedTheta theta = t := by
  have h360 : (0 : ℚ) < 360 := by norm_num
  have e1 : fmod t 360 = t := by
    rw [fmod_eq h360 0 (le_refl 0) (by push_cast; linarith) (by push_cast; linarith)]
    push_cast
    ring
  have e2 : fmod (t + 360) 360 = t := by
    rw [fmod_eq h360 1 (by decide) (by push_cast; linarith) (by push_cast; linarith)]
    push_cast
    ring
  rw [normalizedTheta, ht, e1, e2]

theorem degrees_to_radians (t : ℚ) : t * RUBIKS_PI / 180 * (180 / RUBIKS_PI) = t := by
  have := RUBIKS_PI_pos.ne'
  field_simp

end MouseHandler

end rubiks

namespace rubiks

namespace MouseHandler

/-- The animation handler after `UnClick`: the entry is pushed exactly when the state is
`MOUSE_STATE_ROTATE_FACE` and the speed of the entry is not zero. -/
theorem UnClick_handler (m : MouseHandler) :
    m.UnClick.m_animation_handler =
      if m.m_state = MOUSE_STATE_ROTATE_FACE ∧ (unclickQueue m).speed ≠ 0 then
        m.m_animation_handler.Push (unclickQueue m)
      else m.m_animation_handler := by
  by_cases h1 : m.m_state = MOUSE_STATE_ROTATE_FACE
  · by_cases h2 : (unclickQueue m).speed ≠ 0
    · rw [if_pos ⟨h1, h2⟩]
      simp only [UnClick, InitializeState, if_pos h1, if_pos h2]
    · rw [if_neg (fun h => h2 h.2)]
      simp only [UnClick, InitializeState, if_pos h1, if_neg h2]
  · rw [if_neg (fun h => h1 h.1)]
    simp only [UnClick, InitializeState, if_neg h1]

/-- After `UnClick` the mouse state is idle, with clicked sub-cube -1 and angle 0. -/
theorem UnClick_state (m : MouseHandler) :
    m.UnClick.m_state = MOUSE_STATE_IDLE ∧ m.UnClick.m_clicked_cube = -1 ∧
    m.UnClick.m_rotation_theta = 0 := by
  unfold UnClick
  exact ⟨rfl, rfl, rfl⟩

theorem snapType_table (d : ℚ) :
    (snapType d = DEGREE_90 ↔ 45 < d ∧ d ≤ 135) ∧
    (snapType d = DEGREE_180 ↔ 135 < d ∧ d ≤ 225) ∧
    (snapType d = DEGREE_270 ↔ 225 < d ∧ d ≤ 315) ∧
    (snapType d = DEGREE_0 ↔ d ≤ 45 ∨ 315 < d) := by
  unfold snapType
  by_cases h1 : d > 45 ∧ d ≤ 135
  · rw [if_pos h1]
    obtain ⟨a, b⟩ := h1
    refine ⟨⟨fun _ => ⟨a, b⟩, fun _ => rfl⟩, ⟨fun h => absurd h (by decide), fun h => ?_⟩,
      ⟨fun h => absurd h (by decide), fun h => ?_⟩, ⟨fun h => absurd h (by decide), fun h => ?_⟩⟩
    · linarith [h.1]
    · linarith [h.1]
    · rcases h with h | h <;> linarith
  · rw [if_neg h1]
    by_cases h2 : d > 135 ∧ d ≤ 225
    · rw [if_pos h2]
      obtain ⟨a, b⟩ := h2
      refine ⟨⟨fun h => absurd h (by decide), fun h => absurd h h1⟩, ⟨fun _ => ⟨a, b⟩, fun _ => rfl⟩,
        ⟨fun h => absurd h (by decide), fun h => ?_⟩, ⟨fun h => absurd h (by decide), fun h => ?_⟩⟩
      · linarith [h.1]
      · rcases h with h | h <;> linarith
    · rw [if_neg h2]
      by_cases h3 : d > 225 ∧ d ≤ 315
      · rw [if_pos h3]
        obtain ⟨a, b⟩ := h3
        refine ⟨⟨fun h => absurd h (by decide), fun h => absurd h h1⟩,
          ⟨fun h => absurd h (by decide), fun h => absurd h h2⟩, ⟨fun _ => ⟨a, b⟩, fun _ => rfl⟩,
          ⟨fun h => absurd h (by decide), fun h => ?_⟩⟩
        rcases h with h | h <;> linarith
      · rw [if_neg h3]
        refine ⟨⟨fun h => absurd h (by decide), fun h => absurd h h1⟩,
          ⟨fun h => absurd h (by decide), fun h => absurd h h2⟩,
          ⟨fun h => absurd h (by decide), fun h => absurd h h3⟩, ⟨fun _ => ?_, fun _ => rfl⟩⟩
        by_contra hc
        rw [not_or, not_le, not_lt] at hc
        rcases le_or_lt d 135 with h | h
        · exact h1 ⟨hc.1, h⟩
        · rcases le_or_lt d 225 with h' | h'
          · exact h2 ⟨h, h'⟩
          · exact h3 ⟨h', hc.2⟩

theorem snapType_cases (d : ℚ) :
    (snapType d = 0 ∧ (d ≤ 45 ∨ 315 < d)) ∨ (snapType d = 1 ∧ 45 < d ∧ d ≤ 135) ∨
    (snapType d = 2 ∧ 135 < d ∧ d ≤ 225) ∨ (snapType d = 3 ∧ 225 < d ∧ d ≤ 315) := by
  obtain ⟨t1, t2, t3, t0⟩ := snapType_table d
  by_cases h1 : 45 < d ∧ d ≤ 135
  · exact Or.inr (Or.inl ⟨t1.2 h1, h1⟩)
  · by_cases h2 : 135 < d ∧ d ≤ 225
    · exact Or.inr (Or.inr (Or.inl ⟨t2.2 h2, h2⟩))
    · by_cases h3 : 225 < d ∧ d ≤ 315
      · exact Or.inr (Or.inr (Or.inr ⟨t3.2 h3, h3⟩))
      · left
        have : d ≤ 45 ∨ 315 < d := by
          by_contra hc
          rw [not_or, not_le, not_lt] at hc
          rcases le_or_lt d 135 with h | h
          · exact h1 ⟨hc.1, h⟩
          · rcases le_or_lt d 225 with h' | h'
            · exact h2 ⟨h, h'⟩
            · exact h3 ⟨h', hc.2⟩
        exact ⟨t0.2 this, this⟩

/-- The snapped target is a multiple of 90 nearest to the angle on the circle. -/
theorem snapType_nearest {d : ℚ} (h0 : 0 ≤ d) (h1 : d < 360) :
    circDist d (((snapType d * 90 : Int) : ℚ)) ≤ 45 ∧
    ∀ k : Int, 0 ≤ k → k ≤ 3 →
      circDist d (((snapType d * 90 : Int) : ℚ)) ≤ circDist d (((k * 90 : Int) : ℚ)) := by
  have hle : circDist d (((snapType d * 90 : Int) : ℚ)) ≤ 45 := by
    rcases snapType_cases d with ⟨e, h⟩ | ⟨e, h⟩ | ⟨e, h⟩ | ⟨e, h⟩ <;>
      rw [e] <;> simp only [circDist] <;> push_cast <;> norm_num
    · rcases h with h | h
      · left; rw [abs_le]; constructor <;> linarith
      · right; rw [abs_of_nonneg h0]; linarith
    · left; rw [abs_le]; constructor <;> linarith
    · left; rw [abs_le]; constructor <;> linarith
    · left; rw [abs_le]; constructor <;> linarith
  refine ⟨hle, ?_⟩
  intro k hk0 hk3
  by_cases hk : k = snapType d
  · rw [hk]
  · refine le_trans hle ?_
    have hge : ∀ t : ℚ, (45 ≤ |d - t| ∧ |d - t| ≤ 315) → 45 ≤ circDist d t := by
      intro t ht
      simp only [circDist]
      rw [le_min_iff]
      constructor <;> linarith [ht.1, ht.2]
    apply hge
    rcases snapType_cases d with ⟨e, h⟩ | ⟨e, h⟩ | ⟨e, h⟩ | ⟨e, h⟩ <;>
      rw [e] at hk <;> interval_cases k <;> first
        | exact absurd rfl hk
        | (push_cast
           rcases h with h | h <;>
             (rw [le_abs, abs_le]; constructor
              · first
                | (left; linarith)
                | (right; linarith)
              · constructor <;> linarith))
        | (push_cast
           rw [le_abs, abs_le]; constructor
           · first
             | (left; linarith)
             | (right; linarith)
           · constructor <;> linarith)

end MouseHandler

end rubiks

namespace rubiks

namespace AnimationHandler

/-- The last step on a single pushed entry: after the `n` steps of `ConsumedAt` the queue is
empty, the handler is idle, every sub-cube is at rest, and the colours are those of one
`RotateColors` with the entry's rotation type applied to the initial cube state. -/
theorem stepN_consumed (T : Trig) (h0 : AnimationHandler) (q : AnimationQueue) (n : Nat)
    (hq0 : h0.m_animation_queues = []) (hidle : h0.IsAnimating = false)
    (hwf : h0.m_rubiks.WF) (hco : q.CoordsOK) (hn : ConsumedAt q n) :
    ∃ hlast rc, stepN T n (h0.Push q) = some hlast ∧ hlast.m_animation_queues = [] ∧
      hlast.IsAnimating = false ∧ hlast.m_rubiks.AtRest ∧
      h0.m_rubiks.RotateColors q.x q.y q.z q.axis q.rotation_type = some rc ∧
      RubiksCube.ColorsEq rc hlast.m_rubiks := by
  obtain ⟨s, e, hqs, ws, cs, as⟩ :=
    stepN_running T h0 q n hq0 hidle hwf hco hn (n - 1) (by have := hn.1; omega)
  have hn1 : n - 1 + 1 = n := by have := hn.1; omega
  rw [hn1] at as
  have hterm : Terminal q (s.advanced q) := by
    rw [as]
    exact hn.terminal
  obtain ⟨a, b, ea, eb, wa, wb, cab⟩ := RubiksCube.RotateColors_congr hwf ws cs hco.1
    hco.2.1 hco.2.2 q.axis q.rotation_type
  have hrc : (if q.rotation_type ≠ DEGREE_0 then
      s.m_rubiks.RotateColors q.x q.y q.z q.axis q.rotation_type
    else some s.m_rubiks) = some b := by
    split_ifs with hrt
    · exact eb
    · rw [not_not.1 hrt, RubiksCube.RotateColors_zero] at eb
      exact eb
  obtain ⟨r', er, -, cr, -, -, hrest⟩ := RubiksCube.InitializeFaceRotation_spec wb
  have hstep := Step_terminal_last T s q hqs hterm b r' hrc er
  refine ⟨{ m_animation_queues := [], m_degree := s.advanced q, m_rubiks := r',
            m_is_animating := false }, a, ?_, rfl, rfl, hrest, ea, cab.trans cr⟩
  rw [← hn1, stepN_succ, e, Option.some_bind, hstep]
  rfl

end AnimationHandler

namespace MouseHandler

/-- The entry that `UnClick` builds, by the range of the normalised angle `d`: it starts at
`d` and ends at the snapped target, which is 360 when `d > 315`. -/
theorem unclickQueue_degrees (m : MouseHandler) :
    (unclickQueue m).degree_start = normalizedTheta m.m_rotation_theta ∧
    (normalizedTheta m.m_rotation_theta ≤ 315 →
      (unclickQueue m).degree_end =
        (((snapType (normalizedTheta m.m_rotation_theta)) * 90 : Int) : ℚ)) ∧
    (315 < normalizedTheta m.m_rotation_theta →
      snapType (normalizedTheta m.m_rotation_theta) = DEGREE_0 ∧
      (unclickQueue m).degree_end = 360) ∧
    |(unclickQueue m).degree_end - (unclickQueue m).degree_start| ≤ 45 ∧
    (unclickQueue m).speed =
      ((unclickQueue m).degree_end - (unclickQueue m).degree_start) / 5 := by
  obtain ⟨h0, h1, -⟩ := normalizedTheta_spec m.m_rotation_theta
  generalize hd : normalizedTheta m.m_rotation_theta = d at h0 h1
  have key : ∀ t : Int, snapType d = t →
      ((t = 0 ∧ (d ≤ 45 ∨ 315 < d)) ∨ (t = 1 ∧ 45 < d ∧ d ≤ 135) ∨
       (t = 2 ∧ 135 < d ∧ d ≤ 225) ∨ (t = 3 ∧ 225 < d ∧ d ≤ 315)) := by
    intro t ht
    rw [← ht]
    exact snapType_cases d
  simp only [unclickQueue, hd]
  rcases key _ rfl with ⟨e, h⟩ | ⟨e, h⟩ | ⟨e, h⟩ | ⟨e, h⟩
  · rcases h with h | h
    · rw [e]
      have c1 : ¬ ((((0 : Int) * 90 : Int) : ℚ) - d > 180) := by push_cast; linarith
      have c2 : ¬ (d - (((0 : Int) * 90 : Int) : ℚ) > 180) := by push_cast; linarith
      rw [if_neg c1, if_neg c1, if_neg c2]
      refine ⟨rfl, fun _ => rfl, fun h' => absurd h' (by linarith), ?_, trivial⟩
      push_cast
      rw [abs_le]
      constructor <;> linarith
    · rw [e]
      have c1 : ¬ ((((0 : Int) * 90 : Int) : ℚ) - d > 180) := by push_cast; linarith
      have c2 : d - (((0 : Int) * 90 : Int) : ℚ) > 180 := by push_cast; linarith
      rw [if_neg c1, if_neg c1, if_pos c2]
      refine ⟨rfl, fun h' => absurd h (by linarith), fun _ => ⟨rfl, by push_cast; ring⟩, ?_,
        trivial⟩
      push_cast
      rw [abs_le]
      constructor <;> linarith
  · rw [e]
    have c1 : ¬ ((((1 : Int) * 90 : Int) : ℚ) - d > 180) := by push_cast; linarith
    have c2 : ¬ (d - (((1 : Int) * 90 : Int) : ℚ) > 180) := by push_cast; linarith
    rw [if_neg c1, if_neg c1, if_neg c2]
    refine ⟨rfl, fun _ => rfl, fun h' => absurd h' (by linarith), ?_, trivial⟩
    push_cast
    rw [abs_le]
    constructor <;> linarith
  · rw [e]
    have c1 : ¬ ((((2 : Int) * 90 : Int) : ℚ) - d > 180) := by push_cast; linarith
    have c2 : ¬ (d - (((2 : Int) * 90 : Int) : ℚ) > 180) := by push_cast; linarith
    rw [if_neg c1, if_neg c1, if_neg c2]
    refine ⟨rfl, fun _ => rfl, fun h' => absurd h' (by linarith), ?_, trivial⟩
    push_cast
    rw [abs_le]
    constructor <;> linarith
  · rw [e]
    have c1 : ¬ ((((3 : Int) * 90 : Int) : ℚ) - d > 180) := by push_cast; linarith
    have c2 : ¬ (d - (((3 : Int) * 90 : Int) : ℚ) > 180) := by push_cast; linarith
    rw [if_neg c1, if_neg c1, if_neg c2]
    refine ⟨rfl, fun _ => rfl, fun h' => absurd h' (by linarith), ?_, trivial⟩
    push_cast
    rw [abs_le]
    constructor <;> linarith

/-- An entry built by `UnClick` with a nonzero speed is consumed on its fifth step. -/
theorem unclickQueue_consumed (m : MouseHandler) (hsp : (unclickQueue m).speed ≠ 0) :
    AnimationHandler.ConsumedAt (unclickQueue m) 5 := by
  obtain ⟨-, -, -, -, hs⟩ := unclickQueue_degrees m
  generalize unclickQueue m = q at hsp hs
  have h5 : q.degree_start + ((5 : Nat) : ℚ) * q.speed = q.degree_end := by
    rw [hs]
    push_cast
    ring
  refine ⟨by decide, ?_⟩
  rcases lt_trichotomy q.speed 0 with hneg | hz | hpos
  · right; right
    refine ⟨hneg, h5.le, ?_⟩
    intro k hk _ hle
    have hk' : (k : ℚ) ≤ 4 := by
      have : k ≤ 4 := by omega
      exact_mod_cast this
    have : q.degree_start + (k : ℚ) * q.speed > q.degree_end := by
      rw [← h5]
      push_cast
      nlinarith
    linarith
  · exact absurd hz hsp
  · right; left
    refine ⟨hpos, h5.ge, ?_⟩
    intro k hk _ hge
    have hk' : (k : ℚ) ≤ 4 := by
      have : k ≤ 4 := by omega
      exact_mod_cast this
    have : q.degree_start + (k : ℚ) * q.speed < q.degree_end := by
      rw [← h5]
      push_cast
      nlinarith
    linarith

theorem CubeIdToXYZ_range_fin :
    ∀ i ∈ loopRange 27, (0 ≤ (CubeIdToXYZ i 0).1 ∧ (CubeIdToXYZ i 0).1 < 3) ∧
      (0 ≤ (CubeIdToXYZ i 0).2.1 ∧ (CubeIdToXYZ i 0).2.1 < 3) ∧
      (0 ≤ (CubeIdToXYZ i 0).2.2 ∧ (CubeIdToXYZ i 0).2.2 < 3) := by
  decide

theorem unclickQueue_coords (m : MouseHandler)
    (hc : 0 ≤ m.m_clicked_cube ∧ m.m_clicked_cube < 27) : (unclickQueue m).CoordsOK :=
  CubeIdToXYZ_range_fin m.m_clicked_cube (RubiksCube.mem_loopRange_iff.2 hc)

end MouseHandler

end rubiks

namespace rubiks

namespace MouseHandler

/-- C16: the snap of `UnClick` from state `MOUSE_STATE_ROTATE_FACE`. For every accumulated
angle (in radians) the normalised angle `d` lies in `[0, 360)` and differs from the angle in
degrees, `theta * (180 / RUBIKS_PI)`, by a multiple of 360; the rotation type of the entry
that `UnClick` builds, and pushes when its speed is not zero, is `DEGREE_90` if
`45 < d <= 135`, `DEGREE_180` if `135 < d <= 225`, `DEGREE_270` if `225 < d <= 315`, and
`DEGREE_0` otherwise; the target `90 * type` is at circular distance at most 45 from `d`,
and no multiple of 90 is nearer. An accumulated angle of 50 degrees snaps to 90. -/
theorem C16_unclick_snap (m : MouseHandler) :
    (0 ≤ normalizedTheta m.m_rotation_theta ∧ normalizedTheta m.m_rotation_theta < 360 ∧
      ∃ k : Int, normalizedTheta m.m_rotation_theta =
        m.m_rotation_theta * (180 / RUBIKS_PI) + 360 * (k : ℚ)) ∧
    (unclickQueue m).rotation_type = snapType (normalizedTheta m.m_rotation_theta) ∧
    (m.UnClick.m_animation_handler =
      if m.m_state = MOUSE_STATE_ROTATE_FACE ∧ (unclickQueue m).speed ≠ 0 then
        m.m_animation_handler.Push (unclickQueue m)
      else m.m_animation_handler) ∧
    ((snapType (normalizedTheta m.m_rotation_theta) = DEGREE_90 ↔
        45 < normalizedTheta m.m_rotation_theta ∧ normalizedTheta m.m_rotation_theta ≤ 135) ∧
      (snapType (normalizedTheta m.m_rotation_theta) = DEGREE_180 ↔
        135 < normalizedTheta m.m_rotation_theta ∧ normalizedTheta m.m_rotation_theta ≤ 225) ∧
      (snapType (normalizedTheta m.m_rotation_theta) = DEGREE_270 ↔
        225 < normalizedTheta m.m_rotation_theta ∧ normalizedTheta m.m_rotation_theta ≤ 315) ∧
      (snapType (normalizedTheta m.m_rotation_theta) = DEGREE_0 ↔
        normalizedTheta m.m_rotation_theta ≤ 45 ∨ 315 < normalizedTheta m.m_rotation_theta)) ∧
    (circDist (normalizedTheta m.m_rotation_theta)
        (((snapType (normalizedTheta m.m_rotation_theta) * 90 : Int) : ℚ)) ≤ 45 ∧
      ∀ k : Int, 0 ≤ k → k ≤ 3 →
        circDist (normalizedTheta m.m_rotation_theta)
            (((snapType (normalizedTheta m.m_rotation_theta) * 90 : Int) : ℚ)) ≤
          circDist (normalizedTheta m.m_rotation_theta) (((k * 90 : Int) : ℚ))) ∧
    (normalizedTheta (50 * RUBIKS_PI / 180) = 50 ∧
      snapType (normalizedTheta (50 * RUBIKS_PI / 180)) = DEGREE_90 ∧
      ((snapType (normalizedTheta (50 * RUBIKS_PI / 180)) * 90 : Int) : ℚ) = 90) := by
  obtain ⟨h0, h1, hk⟩ := normalizedTheta_spec m.m_rotation_theta
  have e50 : normalizedTheta (50 * RUBIKS_PI / 180) = 50 :=
    normalizedTheta_of_range (degrees_to_radians 50) (by norm_num) (by norm_num)
  have s50 : snapType 50 = DEGREE_90 := ((snapType_table 50).1).2 (by norm_num)
  refine ⟨⟨h0, h1, hk⟩, rfl, UnClick_handler m, snapType_table _, snapType_nearest h0 h1,
    e50, ?_, ?_⟩
  · rw [e50, s50]
  · rw [e50, s50]
    norm_num

theorem sampleDrag_theta : normalizedTheta sampleDrag.m_rotation_theta = 50 :=
  normalizedTheta_of_range (degrees_to_radians 50) (by norm_num) (by norm_num)

theorem sampleDrag_queue :
    unclickQueue sampleDrag =
      { x := 2, y := 1, z := 1, axis := AXIS_Z, rotation_type := DEGREE_90,
        degree_start := 50, degree_end := 90, speed := 8 } := by
  have s50 : snapType 50 = DEGREE_90 := ((snapType_table 50).1).2 (by norm_num)
  simp only [unclickQueue, sampleDrag_theta, s50]
  simp only [sampleDrag, CubeIdToXYZ, AnimationQueue.mk.injEq]
  norm_num
  decide

end MouseHandler

end rubiks

namespace rubiks

namespace MouseHandler

/-! ## A drag of exactly a quarter turn -/

theorem sample_rayPos (x y : ℚ) : sample.rayPos ⟨x, y, 0⟩ = ⟨x - 180, y - 180, -180⟩ := by
  simp only [rayPos, sample, m_rubiks, MouseHandler.new, InitializeState, AnimationHandler.new,
    RubiksCube.sample, geometry.Identity, Matrix3D.Transpose, Matrix3D.mulVec, Vec3D.sub,
    Vec3D.mk.injEq]
  norm_num

theorem sampleClicked_eq :
    sampleClicked =
      { sample with m_clicked_cube := 5, m_clicked_axis := AXIS_Z,
                    m_clicked_pos := ⟨80, 0, -90⟩,
                    m_state := MOUSE_STATE_SELECE_AXIS } := by
  have hv := sample_rayVec
  have hp := sample_rayPos 260 180
  have hq : hitZ (sample.rayPos ⟨260, 180, 0⟩) sample.rayVec = ⟨80, 0, -90⟩ := by
    rw [hv, hp]
    have hs : Sign (-180 : ℚ) = -1 := Sign_neg (by norm_num)
    simp only [hitZ, hs, RubiksCube.RUBIKS_SIZE_eq, Vec3D.add, Vec3D.smul, Vec3D.mk.injEq]
    norm_num
  have h1 : |(sample.rayPos ⟨260, 180, 0⟩).z| > RUBIKS_SIZE := by
    rw [hp, RubiksCube.RUBIKS_SIZE_eq]
    norm_num [abs_of_neg]
  have h2 : sample.rayVec.z ≠ 0 := by
    rw [hv]
    norm_num
  have hu : |(hitZ (sample.rayPos ⟨260, 180, 0⟩) sample.rayVec).x| < RUBIKS_SIZE := by
    rw [hq, RubiksCube.RUBIKS_SIZE_eq]
    norm_num [abs_lt]
  have hw : |(hitZ (sample.rayPos ⟨260, 180, 0⟩) sample.rayVec).y| < RUBIKS_SIZE := by
    rw [hq, RubiksCube.RUBIKS_SIZE_eq]
    norm_num [abs_lt]
  have e1 : ⌊((80 : ℚ) + 90) / 60⌋ = 2 := by
    rw [Int.floor_eq_iff]
    norm_num
  have e2 : ⌊((0 : ℚ) + 90) / 60⌋ = 1 := by
    rw [Int.floor_eq_iff]
    norm_num
  have e3 : truncate (Sign (sample.rayPos ⟨260, 180, 0⟩).z + 1) = 0 := by
    rcases truncate_sign h1 with ⟨-, e⟩ | ⟨hpos, -⟩
    · exact e
    · rw [hp] at hpos
      norm_num at hpos
  rw [sampleClicked, Click_eq, clickX_zero sample _ (by rw [hv]), Option.getD_none,
    clickY_zero sample _ (by rw [hv]), Option.getD_none, clickZ_hit sample h1 h2 hu hw,
    Option.getD_some, e3, (truncate_bucket hu).1, (truncate_bucket hw).1, hq]
  simp only [e1, e2]
  rfl

end MouseHandler

end rubiks

namespace rubiks

namespace MouseHandler

theorem sampleClicked_rayPos (x y : ℚ) :
    sampleClicked.rayPos ⟨x, y, 0⟩ = ⟨x - 180, y - 180, -180⟩ := by
  rw [sampleClicked_eq]
  exact sample_rayPos x y

theorem sampleClicked_rayVec : sampleClicked.rayVec = ⟨0, 0, 1⟩ := by
  rw [sampleClicked_eq]
  exact sample_rayVec

theorem sampleSelected_eq (T : Trig) :
    sampleClicked.RotateFace T ⟨240, 180, 0⟩ = some sampleSelected := by
  have hv := sampleClicked_rayVec
  have hp := sampleClicked_rayPos 240 180
  have hs : Sign (((0 : Int) - 1 : Int) : ℚ) = -1 := Sign_neg (by norm_num)
  have hxyz : CubeIdToXYZ 5 0 = (2, 1, 0) := by decide
  unfold RotateFace
  rw [hv, hp]
  simp only [sampleClicked_eq, hxyz, hs, RubiksCube.RUBIKS_SIZE_eq, divDouble]
  norm_num [Vec3D.add, Vec3D.smul, Vec3D.sub, Vec3D.Abs, DRAG_THRESHOLD, sampleSelected]

theorem sampleSelected_rayPos (x y : ℚ) :
    sampleSelected.rayPos ⟨x, y, 0⟩ = ⟨x - 180, y - 180, -180⟩ :=
  sample_rayPos x y

theorem sampleSelected_rayVec : sampleSelected.rayVec = ⟨0, 0, 1⟩ :=
  sample_rayVec

theorem quarter_theta : (16200 : ℚ) * (GROBAL_ROTATION_SPEED / 90) = RUBIKS_PI / 2 := by
  rw [GROBAL_ROTATION_SPEED]
  ring

set_option maxRecDepth 8000 in
/-- The second pointer move of the concrete drag turns the layer `y = 1` by the angle
`RUBIKS_PI / 2`. -/
theorem sampleSelected_RotateFace (T : Trig) :
    sampleSelected.RotateFace T ⟨80, 180, 0⟩ =
      (RubiksCube.sample.RotateFace T 2 1 0 AXIS_Y (RUBIKS_PI / 2)).bind (fun r =>
        some { sampleSelected with
                 m_rotation_theta := RUBIKS_PI / 2,
                 m_animation_handler := { sampleSelected.m_animation_handler with
                                            m_rubiks := r } }) := by
  have hv := sampleSelected_rayVec
  have hp := sampleSelected_rayPos 80 180
  have hs : Sign (((0 : Int) - 1 : Int) : ℚ) = -1 := Sign_neg (by norm_num)
  have hxyz : CubeIdToXYZ 5 0 = (2, 1, 0) := by decide
  have hr : sampleSelected.m_rubiks = RubiksCube.sample := rfl
  have c1 : sampleSelected.m_clicked_cube = 5 := rfl
  have c2 : sampleSelected.m_clicked_axis = AXIS_Z := rfl
  have c3 : sampleSelected.m_clicked_pos = ⟨80, 0, -90⟩ := rfl
  have c4 : sampleSelected.m_rotation_axis = AXIS_Y := rfl
  have c5 : sampleSelected.m_rotation_center = ⟨0, 0, 0⟩ := rfl
  have c6 : sampleSelected.m_state = MOUSE_STATE_ROTATE_FACE := rfl
  unfold RotateFace
  rw [hv, hp, hr, c1, c2, c3, c4, c5, c6, hxyz]
  simp only [hs, RubiksCube.RUBIKS_SIZE_eq, divDouble]
  norm_num [Vec3D.add, Vec3D.smul, Vec3D.sub, Vec3D.Cross, quarter_theta]
  rw [c1, c2, c3, c4, c5, c6]

theorem sampleDragged_eq (T : Trig) :
    sampleDragged T =
      (RubiksCube.sample.RotateFace T 2 1 0 AXIS_Y (RUBIKS_PI / 2)).bind (fun r =>
        some { sampleSelected with
                 m_rotation_theta := RUBIKS_PI / 2,
                 m_animation_handler := { sampleSelected.m_animation_handler with
                                            m_rubiks := r } }) := by
  rw [sampleDragged, sampleSelected_eq, Option.some_bind, sampleSelected_RotateFace]

end MouseHandler

end rubiks

namespace rubiks

namespace MouseHandler

/-- The speed of the entry that `UnClick` builds is zero exactly when the normalised angle
is 0, 90, 180 or 270. -/
theorem unclickQueue_speed_zero_iff (m : MouseHandler) :
    (unclickQueue m).speed = 0 ↔
      (normalizedTheta m.m_rotation_theta = 0 ∨ normalizedTheta m.m_rotation_theta = 90 ∨
       normalizedTheta m.m_rotation_theta = 180 ∨ normalizedTheta m.m_rotation_theta = 270) := by
  obtain ⟨d1, d2, d3, -, d5⟩ := unclickQueue_degrees m
  obtain ⟨h0, h1, -⟩ := normalizedTheta_spec m.m_rotation_theta
  have hz : (unclickQueue m).speed = 0 ↔
      (unclickQueue m).degree_end = normalizedTheta m.m_rotation_theta := by
    rw [d5, d1]
    constructor
    · intro h
      have := (div_eq_zero_iff.1 h).resolve_right (by norm_num)
      linarith
    · intro h
      rw [h, sub_self, zero_div]
  rw [hz]
  generalize normalizedTheta m.m_rotation_theta = d at *
  rcases snapType_cases d with ⟨e, h⟩ | ⟨e, h⟩ | ⟨e, h⟩ | ⟨e, h⟩
  · rcases h with h | h
    · rw [d2 (by linarith), e]
      push_cast
      constructor
      · intro h'; left; linarith
      · rintro (h' | h' | h' | h') <;> linarith
    · rw [(d3 h).2]
      constructor
      · intro h'; linarith
      · rintro (h' | h' | h' | h') <;> linarith
  · rw [d2 (by linarith), e]
    push_cast
    constructor
    · intro h'; right; left; linarith
    · rintro (h' | h' | h' | h') <;> linarith
  · rw [d2 (by linarith), e]
    push_cast
    constructor
    · intro h'; right; right; left; linarith
    · rintro (h' | h' | h' | h') <;> linarith
  · rw [d2 (by linarith), e]
    push_cast
    constructor
    · intro h'; right; right; right; linarith
    · rintro (h' | h' | h' | h') <;> linarith

theorem normalizedTheta_quarter : normalizedTheta (RUBIKS_PI / 2) = 90 := by
  apply normalizedTheta_of_range _ (by norm_num) (by norm_num)
  have := RUBIKS_PI_pos.ne'
  field_simp
  ring

/-- C18, which does not hold: `UnClick` from state `MOUSE_STATE_ROTATE_FACE` pushes no
entry exactly when the normalised angle is 0, 90, 180 or 270, not only when it is 0. In
the concrete drag on the sample handler, with the button down at `(260, 180)` and the
pointer moved to `(240, 180)` and then to `(80, 180)`, the accumulated angle is
`RUBIKS_PI / 2`: the normalised angle is 90, the snapped rotation type is `DEGREE_90`,
the speed is zero and `UnClick` pushes nothing and leaves the cube state as it is. With
`sin = 1` and `cos = 0` at that angle, the sub-cubes of the dragged layer are then not at
rest (sub-cube 5 keeps the rotation `RotationY`), the queue is empty, and every colour is
the one before the drag: the quarter turn is lost. -/
theorem C18_unclick_drops_exact_quarter_turn :
    (∀ m : MouseHandler,
      ((unclickQueue m).speed = 0 ↔
        (normalizedTheta m.m_rotation_theta = 0 ∨ normalizedTheta m.m_rotation_theta = 90 ∨
         normalizedTheta m.m_rotation_theta = 180 ∨
         normalizedTheta m.m_rotation_theta = 270)) ∧
      (m.m_state = MOUSE_STATE_ROTATE_FACE → (unclickQueue m).speed = 0 →
        m.UnClick.m_animation_handler = m.m_animation_handler)) ∧
    ∃ m3, sampleDragged Trig.quarter = some m3 ∧
      m3.m_state = MOUSE_STATE_ROTATE_FACE ∧
      m3.m_rotation_theta = RUBIKS_PI / 2 ∧
      normalizedTheta m3.m_rotation_theta = 90 ∧
      (unclickQueue m3).rotation_type = DEGREE_90 ∧
      (unclickQueue m3).speed = 0 ∧
      m3.UnClick.m_animation_handler = m3.m_animation_handler ∧
      m3.UnClick.m_animation_handler.m_animation_queues = [] ∧
      m3.UnClick.m_rubiks = m3.m_rubiks ∧
      m3.UnClick.m_state = MOUSE_STATE_IDLE ∧
      ¬ m3.UnClick.m_rubiks.AtRest ∧
      (∃ c, vecGet m3.UnClick.m_rubiks.cubes 5 = some c ∧
        c.rotation = geometry.RotationY Trig.quarter (RUBIKS_PI / 2) ∧
        c.rotation ≠ geometry.Identity) ∧
      RubiksCube.ColorsEq RubiksCube.sample m3.UnClick.m_rubiks := by
  have hno : ∀ m : MouseHandler, (unclickQueue m).speed = 0 →
      m.UnClick.m_animation_handler = m.m_animation_handler := by
    intro m h
    rw [UnClick_handler, if_neg (fun hc => hc.2 h)]
  refine ⟨fun m => ⟨unclickQueue_speed_zero_iff m, fun _ h => hno m h⟩, ?_⟩
  obtain ⟨r3, e3, -, -, -, g3⟩ := RubiksCube.RotateFace_exact Trig.quarter
    RubiksCube.sample_WF.1 (show RubiksCube.LayerOK 2 1 0 AXIS_Y by decide) (RUBIKS_PI / 2)
  obtain ⟨r3', e3', -, hcol, -, -⟩ := RubiksCube.RotateFace_spec Trig.quarter
    RubiksCube.sample_WF (x := 2) (y := 1) (z := 0) (by decide) (by decide) (by decide)
    AXIS_Y (RUBIKS_PI / 2)
  rw [e3, Option.some.injEq] at e3'
  subst e3'
  obtain ⟨c, -, hc⟩ := g3 5 (by decide) (by decide)
  rw [if_pos (by decide)] at hc
  have hrot : (RubiksCube.turned Trig.quarter AXIS_Y (RUBIKS_PI / 2) 5 c).rotation =
      geometry.RotationY Trig.quarter (RUBIKS_PI / 2) := by
    rw [RubiksCube.turned_rotation, RubiksCube.axisRotation, if_neg (by decide), if_pos rfl]
  have hne : geometry.RotationY Trig.quarter (RUBIKS_PI / 2) ≠ geometry.Identity := by
    intro h
    have h11 := congrArg Matrix3D.m11 h
    simp only [geometry.RotationY, geometry.Identity, Trig.quarter] at h11
    norm_num at h11
  have hth : normalizedTheta (RUBIKS_PI / 2) = 90 := normalizedTheta_quarter
  have hsp : (unclickQueue
      { sampleSelected with
          m_rotation_theta := RUBIKS_PI / 2,
          m_animation_handler := { sampleSelected.m_animation_handler with
                                     m_rubiks := r3 } }).speed = 0 :=
    (unclickQueue_speed_zero_iff _).2 (Or.inr (Or.inl hth))
  have hh := hno _ hsp
  refine ⟨{ sampleSelected with
              m_rotation_theta := RUBIKS_PI / 2,
              m_animation_handler := { sampleSelected.m_animation_handler with
                                         m_rubiks := r3 } }, ?_, rfl, rfl, hth, ?_, hsp, hh,
    ?_, ?_, (UnClick_state _).1, ?_, ?_, ?_⟩
  · rw [sampleDragged_eq, e3, Option.some_bind]
  · show snapType (normalizedTheta (RUBIKS_PI / 2)) = DEGREE_90
    rw [hth]
    exact ((snapType_table 90).1).2 (by norm_num)
  · rw [hh]
    rfl
  · rw [m_rubiks, hh]
    rfl
  · rw [m_rubiks, hh]
    intro hrest
    obtain ⟨c', hc', hid, -⟩ := hrest 5 (by decide) (by decide)
    have hc'' : vecGet r3.cubes 5 = some c' := hc'
    rw [hc, Option.some.injEq] at hc''
    rw [← hc'', hrot] at hid
    exact hne hid
  · rw [m_rubiks, hh]
    exact ⟨_, hc, hrot, by rw [hrot]; exact hne⟩
  · rw [m_rubiks, hh]
    exact hcol

end MouseHandler

end rubiks

namespace rubiks

namespace Scrambler

/-! ## `Scrambler::GenerateFaceRotation` -/

/-- The value `(v + 3) % 3 + 1` computed in an unsigned type is 1, 2 or 3. -/
theorem draw3_cases (v w : Nat) :
    (((v + 3) % 2 ^ w % 3 + 1 : Nat) : Int) = 1 ∨ (((v + 3) % 2 ^ w % 3 + 1 : Nat) : Int) = 2 ∨
    (((v + 3) % 2 ^ w % 3 + 1 : Nat) : Int) = 3 := by
  have h : (v + 3) % 2 ^ w % 3 < 3 := Nat.mod_lt _ (by decide)
  omega

theorem mod3_range (v : Nat) : 0 ≤ ((v % 3 : Nat) : Int) ∧ ((v % 3 : Nat) : Int) < 3 := by
  have h : v % 3 < 3 := Nat.mod_lt _ (by decide)
  omega

/-- The entry of `GenerateFaceRotation` by the axis drawn: the coordinate on the axis is a
draw modulo 3 and the two others are 0. -/
theorem GenerateFaceRotation_coords (s : Scrambler) :
    (s.GenerateFaceRotation.1.axis = AXIS_X ∧
      (0 ≤ s.GenerateFaceRotation.1.x ∧ s.GenerateFaceRotation.1.x < 3) ∧
      s.GenerateFaceRotation.1.y = 0 ∧ s.GenerateFaceRotation.1.z = 0) ∨
    (s.GenerateFaceRotation.1.axis = AXIS_Y ∧
      (0 ≤ s.GenerateFaceRotation.1.y ∧ s.GenerateFaceRotation.1.y < 3) ∧
      s.GenerateFaceRotation.1.x = 0 ∧ s.GenerateFaceRotation.1.z = 0) ∨
    (s.GenerateFaceRotation.1.axis = AXIS_Z ∧
      (0 ≤ s.GenerateFaceRotation.1.z ∧ s.GenerateFaceRotation.1.z < 3) ∧
      s.GenerateFaceRotation.1.x = 0 ∧ s.GenerateFaceRotation.1.y = 0) := by
  simp only [GenerateFaceRotation, draw]
  rcases draw3_cases (s.rng 0) s.bits with h | h | h
  · left
    rw [h]
    exact ⟨rfl, by rw [if_pos rfl]; exact mod3_range _, by rw [if_pos rfl],
      by rw [if_pos rfl]⟩
  · right; left
    rw [h]
    exact ⟨rfl, by rw [if_neg (by decide), if_pos rfl]; exact mod3_range _,
      by rw [if_neg (by decide), if_pos rfl], by rw [if_neg (by decide), if_pos rfl]⟩
  · right; right
    rw [h]
    exact ⟨rfl,
      by rw [if_neg (by decide), if_neg (by decide), if_pos rfl]; exact mod3_range _,
      by rw [if_neg (by decide), if_neg (by decide), if_pos rfl],
      by rw [if_neg (by decide), if_neg (by decide), if_pos rfl]⟩

end Scrambler

end rubiks

namespace rubiks

namespace Scrambler

/-- The rotation type of the entry is 1, 2 or 3, and the three degree fields follow it. -/
theorem GenerateFaceRotation_type (s : Scrambler) :
    (s.GenerateFaceRotation.1.rotation_type = DEGREE_90 ∨
      s.GenerateFaceRotation.1.rotation_type = DEGREE_180 ∨
      s.GenerateFaceRotation.1.rotation_type = DEGREE_270) ∧
    s.GenerateFaceRotation.1.degree_end =
      ((s.GenerateFaceRotation.1.rotation_type * 90 : Int) : ℚ) ∧
    s.GenerateFaceRotation.1.degree_start =
      (if s.GenerateFaceRotation.1.rotation_type = DEGREE_270 then 360 else 0) ∧
    s.GenerateFaceRotation.1.speed =
      (if s.GenerateFaceRotation.1.rotation_type = DEGREE_270 then -15 else 15) :=
  ⟨draw3_cases _ _, rfl, rfl, rfl⟩

/-- The degrees of the entry, case by case. -/
theorem GenerateFaceRotation_degrees (s : Scrambler) :
    (s.GenerateFaceRotation.1.rotation_type = DEGREE_90 ∧
      s.GenerateFaceRotation.1.degree_start = 0 ∧ s.GenerateFaceRotation.1.degree_end = 90 ∧
      s.GenerateFaceRotation.1.speed = 15) ∨
    (s.GenerateFaceRotation.1.rotation_type = DEGREE_180 ∧
      s.GenerateFaceRotation.1.degree_start = 0 ∧ s.GenerateFaceRotation.1.degree_end = 180 ∧
      s.GenerateFaceRotation.1.speed = 15) ∨
    (s.GenerateFaceRotation.1.rotation_type = DEGREE_270 ∧
      s.GenerateFaceRotation.1.degree_start = 360 ∧
      s.GenerateFaceRotation.1.degree_end = 270 ∧
      s.GenerateFaceRotation.1.speed = -15) := by
  obtain ⟨ht, he, hs, hv⟩ := GenerateFaceRotation_type s
  rcases ht with h | h | h
  · left
    rw [h] at he hs hv
    rw [if_neg (by decide)] at hs hv
    refine ⟨h, hs, ?_, hv⟩
    rw [he]
    norm_num
  · right; left
    rw [h] at he hs hv
    rw [if_neg (by decide)] at hs hv
    refine ⟨h, hs, ?_, hv⟩
    rw [he]
    norm_num
  · right; right
    rw [h] at he hs hv
    rw [if_pos rfl] at hs hv
    refine ⟨h, hs, ?_, hv⟩
    rw [he]
    norm_num

/-- An entry that runs from `a` to `e` in steps of `v` of the same sign, with `e - a` the
`n`-fold of `v`, is consumed on step `n`. -/
theorem ConsumedAt_of_exact (q : AnimationQueue) (n : Nat) (hn : 1 ≤ n) (hv : q.speed ≠ 0)
    (he : q.degree_start + (n : ℚ) * q.speed = q.degree_end) :
    AnimationHandler.ConsumedAt q n := by
  refine ⟨hn, ?_⟩
  rcases lt_trichotomy q.speed 0 with hneg | hz | hpos
  · right; right
    refine ⟨hneg, he.le, ?_⟩
    intro k hk _ hle
    have hk' : (k : ℚ) + 1 ≤ (n : ℚ) := by exact_mod_cast hk
    have : q.degree_start + (k : ℚ) * q.speed > q.degree_end := by
      rw [← he]
      nlinarith
    linarith
  · exact absurd hz hv
  · right; left
    refine ⟨hpos, he.ge, ?_⟩
    intro k hk _ hge
    have hk' : (k : ℚ) + 1 ≤ (n : ℚ) := by exact_mod_cast hk
    have : q.degree_start + (k : ℚ) * q.speed < q.degree_end := by
      rw [← he]
      nlinarith
    linarith

/-- The number of steps that the claim gives for a rotation type: 12 for `DEGREE_180`, and
6 otherwise. -/
theorem GenerateFaceRotation_consumed (s : Scrambler) :
    AnimationHandler.ConsumedAt s.GenerateFaceRotation.1
      (if s.GenerateFaceRotation.1.rotation_type = DEGREE_180 then 12 else 6) := by
  rcases GenerateFaceRotation_degrees s with ⟨ht, ha, he, hv⟩ | ⟨ht, ha, he, hv⟩ |
      ⟨ht, ha, he, hv⟩
  · rw [ht, if_neg (by decide)]
    apply ConsumedAt_of_exact _ _ (by decide) (by rw [hv]; norm_num)
    rw [ha, he, hv]
    norm_num
  · rw [ht, if_pos rfl]
    apply ConsumedAt_of_exact _ _ (by decide) (by rw [hv]; norm_num)
    rw [ha, he, hv]
    norm_num
  · rw [ht, if_neg (by decide)]
    apply ConsumedAt_of_exact _ _ (by decide) (by rw [hv]; norm_num)
    rw [ha, he, hv]
    norm_num

theorem GenerateFaceRotation_CoordsOK (s : Scrambler) :
    s.GenerateFaceRotation.1.CoordsOK := by
  rcases GenerateFaceRotation_coords s with ⟨-, h1, h2, h3⟩ | ⟨-, h1, h2, h3⟩ |
      ⟨-, h1, h2, h3⟩
  · exact ⟨h1, by rw [h2]; decide, by rw [h3]; decide⟩
  · exact ⟨by rw [h2]; decide, h1, by rw [h3]; decide⟩
  · exact ⟨by rw [h2]; decide, by rw [h3]; decide, h1⟩

/-- C21: every entry that `Scrambler::GenerateFaceRotation` returns, for any values drawn
from the generator and any width of its result type, is a well-formed single-layer turn:
the axis is one of `AXIS_X`, `AXIS_Y`, `AXIS_Z`; the grid coordinate on that axis is in
`[0, 3)` and the other two are 0; the rotation type is one of `DEGREE_90`, `DEGREE_180`,
`DEGREE_270`; `degree_end = 90 * rotation_type`; `(degree_start, speed)` is `(360, -15)`
for `DEGREE_270` and `(0, 15)` otherwise; the speed is not zero. Pushed onto an idle
handler with an empty queue over a well-formed cube state, the entry is consumed by `Step`
in exactly `n` steps, with `n = 12` for `DEGREE_180` and `n = 6` for `DEGREE_90` and
`DEGREE_270`: it is still queued after every smaller number of steps, and after `n` steps
the queue is empty and the handler idle. -/
theorem C21_scramble_entry_well_formed (T : Trig) (s : Scrambler) (h0 : AnimationHandler)
    (hq0 : h0.m_animation_queues = []) (hidle : h0.IsAnimating = false)
    (hwf : h0.m_rubiks.WF) :
    ((s.GenerateFaceRotation.1.axis = AXIS_X ∧
        (0 ≤ s.GenerateFaceRotation.1.x ∧ s.GenerateFaceRotation.1.x < 3) ∧
        s.GenerateFaceRotation.1.y = 0 ∧ s.GenerateFaceRotation.1.z = 0) ∨
      (s.GenerateFaceRotation.1.axis = AXIS_Y ∧
        (0 ≤ s.GenerateFaceRotation.1.y ∧ s.GenerateFaceRotation.1.y < 3) ∧
        s.GenerateFaceRotation.1.x = 0 ∧ s.GenerateFaceRotation.1.z = 0) ∨
      (s.GenerateFaceRotation.1.axis = AXIS_Z ∧
        (0 ≤ s.GenerateFaceRotation.1.z ∧ s.GenerateFaceRotation.1.z < 3) ∧
        s.GenerateFaceRotation.1.x = 0 ∧ s.GenerateFaceRotation.1.y = 0)) ∧
    (s.GenerateFaceRotation.1.rotation_type = DEGREE_90 ∨
      s.GenerateFaceRotation.1.rotation_type = DEGREE_180 ∨
      s.GenerateFaceRotation.1.rotation_type = DEGREE_270) ∧
    s.GenerateFaceRotation.1.degree_end =
      ((90 * s.GenerateFaceRotation.1.rotation_type : Int) : ℚ) ∧
    (s.GenerateFaceRotation.1.rotation_type = DEGREE_270 →
      s.GenerateFaceRotation.1.degree_start = 360 ∧ s.GenerateFaceRotation.1.speed = -15) ∧
    (s.GenerateFaceRotation.1.rotation_type ≠ DEGREE_270 →
      s.GenerateFaceRotation.1.degree_start = 0 ∧ s.GenerateFaceRotation.1.speed = 15) ∧
    s.GenerateFaceRotation.1.speed ≠ 0 ∧
    (∀ n : Nat, n = (if s.GenerateFaceRotation.1.rotation_type = DEGREE_180 then 12 else 6) →
      AnimationHandler.ConsumedAt s.GenerateFaceRotation.1 n ∧
      (∀ k, k < n → ∃ hk,
        AnimationHandler.stepN T k (h0.Push s.GenerateFaceRotation.1) = some hk ∧
        hk.m_animation_queues = [s.GenerateFaceRotation.1]) ∧
      ∃ hlast, AnimationHandler.stepN T n (h0.Push s.GenerateFaceRotation.1) = some hlast ∧
        hlast.m_animation_queues = [] ∧ hlast.IsAnimating = false) := by
  obtain ⟨ht, he, hs, hv⟩ := GenerateFaceRotation_type s
  have hco := GenerateFaceRotation_CoordsOK s
  have hcons := GenerateFaceRotation_consumed s
  refine ⟨GenerateFaceRotation_coords s, ht, ?_, ?_, ?_, ?_, ?_⟩
  · rw [he, mul_comm]
  · intro h
    rw [hs, hv, if_pos h, if_pos h]
    exact ⟨rfl, rfl⟩
  · intro h
    rw [hs, hv, if_neg h, if_neg h]
    exact ⟨rfl, rfl⟩
  · rw [hv]
    split_ifs <;> norm_num
  · intro n hn
    subst hn
    refine ⟨hcons, ?_, ?_⟩
    · intro k hk
      obtain ⟨a, e, hqa, -⟩ := AnimationHandler.stepN_running T h0 _ _ hq0 hidle hwf hco
        hcons k hk
      exact ⟨a, e, hqa⟩
    · obtain ⟨hlast, -, e, hq, hi, -⟩ := AnimationHandler.stepN_consumed T h0 _ _ hq0 hidle
        hwf hco hcons
      exact ⟨hlast, e, hq, hi⟩

theorem sample_entry :
    sample.GenerateFaceRotation.1 =
      { x := 0, y := 2, z := 0, axis := AXIS_Y, rotation_type := DEGREE_270,
        degree_start := 360, degree_end := 270, speed := -15 } := by
  simp only [GenerateFaceRotation, draw, sample]
  norm_num

theorem C21_scramble_entry_well_formed_witness :
    (AnimationHandler.new RubiksCube.sample).m_animation_queues = [] ∧
    (AnimationHandler.new RubiksCube.sample).IsAnimating = false ∧
    (AnimationHandler.new RubiksCube.sample).m_rubiks.WF ∧
    sample.GenerateFaceRotation.1.rotation_type = DEGREE_270 ∧
    sample.GenerateFaceRotation.1.speed ≠ 0 ∧
    AnimationHandler.ConsumedAt sample.GenerateFaceRotation.1 6 ∧
    ∃ hlast, AnimationHandler.stepN Trig.flat 6
        ((AnimationHandler.new RubiksCube.sample).Push sample.GenerateFaceRotation.1) =
          some hlast ∧
      hlast.m_animation_queues = [] ∧ hlast.IsAnimating = false :=
  have h := C21_scramble_entry_well_formed Trig.flat sample
    (AnimationHandler.new RubiksCube.sample) rfl rfl RubiksCube.sample_WF
  have ht : sample.GenerateFaceRotation.1.rotation_type = DEGREE_270 := by
    rw [sample_entry]
  have h6 : (6 : Nat) =
      (if sample.GenerateFaceRotation.1.rotation_type = DEGREE_180 then 12 else 6) := by
    rw [ht, if_neg (by decide)]
  ⟨rfl, rfl, RubiksCube.sample_WF, ht, h.2.2.2.2.2.1, (h.2.2.2.2.2.2 6 h6).1,
    (h.2.2.2.2.2.2 6 h6).2.2⟩

end Scrambler

end rubiks

/-! ## The view rotation is orthogonal -/

namespace Matrix3D

theorem mul_assoc3 (a b c : Matrix3D) : (a.mul b).mul c = a.mul (b.mul c) := by
  simp only [Matrix3D.mul, Matrix3D.mk.injEq]
  refine ⟨?_, ?_, ?_, ?_, ?_, ?_, ?_, ?_, ?_⟩ <;> ring

theorem Transpose_mul (a b : Matrix3D) :
    (a.mul b).Transpose = b.Transpose.mul a.Transpose := by
  simp only [Matrix3D.mul, Matrix3D.Transpose, Matrix3D.mk.injEq]
  refine ⟨?_, ?_, ?_, ?_, ?_, ?_, ?_, ?_, ?_⟩ <;> ring

theorem mul_Identity (a : Matrix3D) : a.mul geometry.Identity = a := by
  cases a
  simp only [Matrix3D.mul, geometry.Identity, Matrix3D.mk.injEq]
  refine ⟨?_, ?_, ?_, ?_, ?_, ?_, ?_, ?_, ?_⟩ <;> ring

theorem Identity_mul (a : Matrix3D) : geometry.Identity.mul a = a := by
  cases a
  simp only [Matrix3D.mul, geometry.Identity, Matrix3D.mk.injEq]
  refine ⟨?_, ?_, ?_, ?_, ?_, ?_, ?_, ?_, ?_⟩ <;> ring

theorem det_mul (a b : Matrix3D) : (a.mul b).det = a.det * b.det := by
  simp only [Matrix3D.mul, Matrix3D.det]
  ring

/-- A product of orthogonal matrices is orthogonal. -/
theorem Orthogonal.mul {a b : Matrix3D} (ha : a.Orthogonal) (hb : b.Orthogonal) :
    (a.mul b).Orthogonal := by
  constructor
  · rw [Transpose_mul, mul_assoc3, ← mul_assoc3 b, hb.1, Identity_mul, ha.1]
  · rw [Transpose_mul, mul_assoc3, ← mul_assoc3 a.Transpose, ha.2, Identity_mul, hb.2]

end Matrix3D

namespace geometry

theorem RotationX_orthogonal {T : Trig} (hT : T.Pythagorean) (theta : ℚ) :
    (RotationX T theta).Orthogonal ∧ (RotationX T theta).det = 1 := by
  have h := hT theta
  refine ⟨⟨?_, ?_⟩, ?_⟩
  · simp only [RotationX, Matrix3D.mul, Matrix3D.Transpose, Identity, Matrix3D.mk.injEq]
    refine ⟨?_, ?_, ?_, ?_, ?_, ?_, ?_, ?_, ?_⟩ <;> first | ring1 | linear_combination h
  · simp only [RotationX, Matrix3D.mul, Matrix3D.Transpose, Identity, Matrix3D.mk.injEq]
    refine ⟨?_, ?_, ?_, ?_, ?_, ?_, ?_, ?_, ?_⟩ <;> first | ring1 | linear_combination h
  · simp only [RotationX, Matrix3D.det]
    linear_combination h

theorem RotationY_orthogonal {T : Trig} (hT : T.Pythagorean) (theta : ℚ) :
    (RotationY T theta).Orthogonal ∧ (RotationY T theta).det = 1 := by
  have h := hT theta
  refine ⟨⟨?_, ?_⟩, ?_⟩
  · simp only [RotationY, Matrix3D.mul, Matrix3D.Transpose, Identity, Matrix3D.mk.injEq]
    refine ⟨?_, ?_, ?_, ?_, ?_, ?_, ?_, ?_, ?_⟩ <;> first | ring1 | linear_combination h
  · simp only [RotationY, Matrix3D.mul, Matrix3D.Transpose, Identity, Matrix3D.mk.injEq]
    refine ⟨?_, ?_, ?_, ?_, ?_, ?_, ?_, ?_, ?_⟩ <;> first | ring1 | linear_combination h
  · simp only [RotationY, Matrix3D.det]
    linear_combination h

theorem RotationZ_orthogonal {T : Trig} (hT : T.Pythagorean) (theta : ℚ) :
    (RotationZ T theta).Orthogonal ∧ (RotationZ T theta).det = 1 := by
  have h := hT theta
  refine ⟨⟨?_, ?_⟩, ?_⟩
  · simp only [RotationZ, Matrix3D.mul, Matrix3D.Transpose, Identity, Matrix3D.mk.injEq]
    refine ⟨?_, ?_, ?_, ?_, ?_, ?_, ?_, ?_, ?_⟩ <;> first | ring1 | linear_combination h
  · simp only [RotationZ, Matrix3D.mul, Matrix3D.Transpose, Identity, Matrix3D.mk.injEq]
    refine ⟨?_, ?_, ?_, ?_, ?_, ?_, ?_, ?_, ?_⟩ <;> first | ring1 | linear_combination h
  · simp only [RotationZ, Matrix3D.det]
    linear_combination h

end geometry

namespace rubiks

namespace RubiksCube

/-- In exact arithmetic: the view rotation that `InitializeGlobalRotation` sets is
orthogonal, with determinant 1. -/
theorem InitializeGlobalRotation_orthogonal {T : Trig} (hT : T.Pythagorean) (r : RubiksCube) :
    (r.InitializeGlobalRotation T).global_rotation.Orthogonal ∧
    (r.InitializeGlobalRotation T).global_rotation.det = 1 := by
  obtain ⟨ox, dx⟩ := geometry.RotationX_orthogonal hT (RUBIKS_PI / 6)
  obtain ⟨oy, dy⟩ := geometry.RotationY_orthogonal hT (RUBIKS_PI / 4)
  refine ⟨ox.mul oy, ?_⟩
  show ((geometry.RotationX T (RUBIKS_PI / 6)).mul (geometry.RotationY T (RUBIKS_PI / 4))).det
    = 1
  rw [Matrix3D.det_mul, dx, dy, one_mul]

/-- In exact arithmetic: `GlobalRotate` keeps the view rotation orthogonal, with
determinant 1. -/
theorem GlobalRotate_orthogonal {T : Trig} (hT : T.Pythagorean) (r : RubiksCube)
    (delta : Vec3D) (h : r.global_rotation.Orthogonal ∧ r.global_rotation.det = 1) :
    (r.GlobalRotate T delta).global_rotation.Orthogonal ∧
    (r.GlobalRotate T delta).global_rotation.det = 1 := by
  obtain ⟨ox, dx⟩ := geometry.RotationX_orthogonal hT (delta.smul ROTATION_SPEED).y
  obtain ⟨oy, dy⟩ := geometry.RotationY_orthogonal hT (-(delta.smul ROTATION_SPEED).x)
  have e : (r.GlobalRotate T delta).global_rotation =
      (geometry.RotationY T (-(delta.smul ROTATION_SPEED).x)).mul
        ((geometry.RotationX T (delta.smul ROTATION_SPEED).y).mul r.global_rotation) := rfl
  rw [e]
  refine ⟨oy.mul (ox.mul h.1), ?_⟩
  rw [Matrix3D.det_mul, Matrix3D.det_mul, dx, dy, h.2]
  norm_num

/-- In exact arithmetic and on the unit circle, the view rotation is orthogonal in every
reachable state, with determinant 1. -/
theorem ViewReachable_orthogonal {T : Trig} (hT : T.Pythagorean) {r : RubiksCube}
    (h : ViewReachable T r) : r.global_rotation.Orthogonal ∧ r.global_rotation.det = 1 := by
  induction h with
  | init r h =>
    obtain ⟨r', e, -, hg, -⟩ := Initialize_spec T
    rw [e, Option.some.injEq] at h
    subst h
    rw [hg]
    exact InitializeGlobalRotation_orthogonal hT RubiksCube.empty
  | reset r _ _ => exact InitializeGlobalRotation_orthogonal hT r
  | rotate r delta _ ih => exact GlobalRotate_orthogonal hT r delta ih

end RubiksCube

end rubiks

namespace Matrix3D

theorem mulVec_mul (a b : Matrix3D) (v : Vec3D) :
    (a.mul b).mulVec v = a.mulVec (b.mulVec v) := by
  simp only [Matrix3D.mul, Matrix3D.mulVec, Vec3D.mk.injEq]
  refine ⟨?_, ?_, ?_⟩ <;> ring

end Matrix3D

namespace rubiks

namespace RubiksCube

theorem pythagorean_Pythagorean : Trig.pythagorean.Pythagorean := by
  intro theta
  simp only [Trig.pythagorean]
  norm_num

end RubiksCube

end rubiks

namespace rubiks

namespace MouseHandler

/-! ## `MouseHandler::RotateFace` -/

/-- `RotateFace` in a state other than `MOUSE_STATE_ROTATE_FACE`, with a finite
intersection: the axis selection. -/
theorem RotateFace_select (T : Trig) {m : MouseHandler} {mouse_pos i : Vec3D}
    (hst : m.m_state ≠ MOUSE_STATE_ROTATE_FACE) (hi : m.dragPoint mouse_pos = some i) :
    ∃ axis : Int, m.RotateFace T mouse_pos = some
      { m with
        m_rotation_axis := axis,
        m_rotation_center :=
          if axis = AXIS_X then ⟨i.x, 0, 0⟩
          else if axis = AXIS_Y then ⟨0, i.y, 0⟩
          else if axis = AXIS_Z then ⟨0, 0, i.z⟩
          else m.m_rotation_center,
        m_state := if axis ≠ AXIS_NONE then MOUSE_STATE_ROTATE_FACE else m.m_state } ∧
      axis =
        (if m.m_clicked_axis = AXIS_X then
          if (m.m_clicked_pos.sub i).Abs.y > DRAG_THRESHOLD ∧
              (m.m_clicked_pos.sub i).Abs.y > (m.m_clicked_pos.sub i).Abs.z then AXIS_Z
          else if (m.m_clicked_pos.sub i).Abs.z > DRAG_THRESHOLD then AXIS_Y
          else AXIS_NONE
        else if m.m_clicked_axis = AXIS_Y then
          if (m.m_clicked_pos.sub i).Abs.z > DRAG_THRESHOLD ∧
              (m.m_clicked_pos.sub i).Abs.z > (m.m_clicked_pos.sub i).Abs.x then AXIS_X
          else if (m.m_clicked_pos.sub i).Abs.x > DRAG_THRESHOLD then AXIS_Z
          else AXIS_NONE
        else if m.m_clicked_axis = AXIS_Z then
          if (m.m_clicked_pos.sub i).Abs.x > DRAG_THRESHOLD ∧
              (m.m_clicked_pos.sub i).Abs.x > (m.m_clicked_pos.sub i).Abs.y then AXIS_Y
          else if (m.m_clicked_pos.sub i).Abs.y > DRAG_THRESHOLD then AXIS_X
          else AXIS_NONE
        else AXIS_NONE) := by
  refine ⟨_, ?_, rfl⟩
  unfold dragPoint at hi
  cases ht : m.dragT mouse_pos with
  | none => rw [ht] at hi; cases hi
  | some t =>
    rw [ht, Option.some_bind, Option.some.injEq] at hi
    have ht' : (if m.m_clicked_axis = AXIS_X then
        divDouble (Sign (((CubeIdToXYZ m.m_clicked_cube 0).1 - 1 : Int) : ℚ) * RUBIKS_SIZE -
          (m.rayPos mouse_pos).x) m.rayVec.x
      else if m.m_clicked_axis = AXIS_Y then
        divDouble (Sign (((CubeIdToXYZ m.m_clicked_cube 0).2.1 - 1 : Int) : ℚ) * RUBIKS_SIZE -
          (m.rayPos mouse_pos).y) m.rayVec.y
      else
        divDouble (Sign (((CubeIdToXYZ m.m_clicked_cube 0).2.2 - 1 : Int) : ℚ) * RUBIKS_SIZE -
          (m.rayPos mouse_pos).z) m.rayVec.z) = some t := ht
    unfold RotateFace
    dsimp only
    rw [ht', Option.some_bind, if_neg hst, hi]

/-- `RotateFace` in state `MOUSE_STATE_ROTATE_FACE`, with a finite intersection: the live
turn of the layer. -/
theorem RotateFace_drag (T : Trig) {m : MouseHandler} {mouse_pos i : Vec3D}
    (hst : m.m_state = MOUSE_STATE_ROTATE_FACE) (hi : m.dragPoint mouse_pos = some i) :
    m.RotateFace T mouse_pos =
      (m.m_rubiks.RotateFace T (CubeIdToXYZ m.m_clicked_cube 0).1
        (CubeIdToXYZ m.m_clicked_cube 0).2.1 (CubeIdToXYZ m.m_clicked_cube 0).2.2
        m.m_rotation_axis
        ((if m.m_rotation_axis = AXIS_X then
            ((m.m_clicked_pos.sub m.m_rotation_center).Cross (i.sub m.m_rotation_center)).x
          else if m.m_rotation_axis = AXIS_Y then
            ((m.m_clicked_pos.sub m.m_rotation_center).Cross (i.sub m.m_rotation_center)).y
          else if m.m_rotation_axis = AXIS_Z then
            ((m.m_clicked_pos.sub m.m_rotation_center).Cross (i.sub m.m_rotation_center)).z
          else m.m_rotation_theta) * (GROBAL_ROTATION_SPEED / RUBIKS_SIZE))).bind (fun r =>
        some { m with
          m_rotation_theta :=
            (if m.m_rotation_axis = AXIS_X then
              ((m.m_clicked_pos.sub m.m_rotation_center).Cross (i.sub m.m_rotation_center)).x
            else if m.m_rotation_axis = AXIS_Y then
              ((m.m_clicked_pos.sub m.m_rotation_center).Cross (i.sub m.m_rotation_center)).y
            else if m.m_rotation_axis = AXIS_Z then
              ((m.m_clicked_pos.sub m.m_rotation_center).Cross (i.sub m.m_rotation_center)).z
            else m.m_rotation_theta) * (GROBAL_ROTATION_SPEED / RUBIKS_SIZE),
          m_animation_handler := { m.m_animation_handler with m_rubiks := r } }) := by
  unfold dragPoint at hi
  cases ht : m.dragT mouse_pos with
  | none => rw [ht] at hi; cases hi
  | some t =>
    rw [ht, Option.some_bind, Option.some.injEq] at hi
    have ht' : (if m.m_clicked_axis = AXIS_X then
        divDouble (Sign (((CubeIdToXYZ m.m_clicked_cube 0).1 - 1 : Int) : ℚ) * RUBIKS_SIZE -
          (m.rayPos mouse_pos).x) m.rayVec.x
      else if m.m_clicked_axis = AXIS_Y then
        divDouble (Sign (((CubeIdToXYZ m.m_clicked_cube 0).2.1 - 1 : Int) : ℚ) * RUBIKS_SIZE -
          (m.rayPos mouse_pos).y) m.rayVec.y
      else
        divDouble (Sign (((CubeIdToXYZ m.m_clicked_cube 0).2.2 - 1 : Int) : ℚ) * RUBIKS_SIZE -
          (m.rayPos mouse_pos).z) m.rayVec.z) = some t := ht
    unfold RotateFace
    dsimp only
    rw [ht', Option.some_bind, if_pos hst, hi]

/-- `RotateFace` with no finite intersection is not followed by the model. -/
theorem RotateFace_none (T : Trig) {m : MouseHandler} {mouse_pos : Vec3D}
    (hi : m.dragPoint mouse_pos = none) : m.RotateFace T mouse_pos = none := by
  unfold dragPoint at hi
  cases ht : m.dragT mouse_pos with
  | some t => rw [ht] at hi; cases hi
  | none =>
    have ht' : (if m.m_clicked_axis = AXIS_X then
        divDouble (Sign (((CubeIdToXYZ m.m_clicked_cube 0).1 - 1 : Int) : ℚ) * RUBIKS_SIZE -
          (m.rayPos mouse_pos).x) m.rayVec.x
      else if m.m_clicked_axis = AXIS_Y then
        divDouble (Sign (((CubeIdToXYZ m.m_clicked_cube 0).2.1 - 1 : Int) : ℚ) * RUBIKS_SIZE -
          (m.rayPos mouse_pos).y) m.rayVec.y
      else
        divDouble (Sign (((CubeIdToXYZ m.m_clicked_cube 0).2.2 - 1 : Int) : ℚ) * RUBIKS_SIZE -
          (m.rayPos mouse_pos).z) m.rayVec.z) = none := ht
    unfold RotateFace
    dsimp only
    rw [ht']
    rfl

end MouseHandler

end rubiks

namespace rubiks

namespace MouseHandler

/-- The axis that the selection of `RotateFace` picks, in the terms of `dragUV`. -/
theorem select_axis_cases (a : Int) (ha : a = AXIS_X ∨ a = AXIS_Y ∨ a = AXIS_Z) (d : Vec3D) :
    (if a = AXIS_X then
      if d.y > DRAG_THRESHOLD ∧ d.y > d.z then AXIS_Z
      else if d.z > DRAG_THRESHOLD then AXIS_Y
      else AXIS_NONE
    else if a = AXIS_Y then
      if d.z > DRAG_THRESHOLD ∧ d.z > d.x then AXIS_X
      else if d.x > DRAG_THRESHOLD then AXIS_Z
      else AXIS_NONE
    else if a = AXIS_Z then
      if d.x > DRAG_THRESHOLD ∧ d.x > d.y then AXIS_Y
      else if d.y > DRAG_THRESHOLD then AXIS_X
      else AXIS_NONE
    else AXIS_NONE) =
    (if (dragUV a d).1 > DRAG_THRESHOLD ∧ (dragUV a d).1 > (dragUV a d).2 then vAxis a
     else if (dragUV a d).2 > DRAG_THRESHOLD then uAxis a
     else AXIS_NONE) := by
  rcases ha with rfl | rfl | rfl
  · rfl
  · rfl
  · rfl

theorem uvAxis_facts (a : Int) (ha : a = AXIS_X ∨ a = AXIS_Y ∨ a = AXIS_Z) :
    uAxis a ≠ a ∧ vAxis a ≠ a ∧ uAxis a ≠ vAxis a ∧ uAxis a ≠ AXIS_NONE ∧
    vAxis a ≠ AXIS_NONE ∧
    (uAxis a = AXIS_X ∨ uAxis a = AXIS_Y ∨ uAxis a = AXIS_Z) ∧
    (vAxis a = AXIS_X ∨ vAxis a = AXIS_Y ∨ vAxis a = AXIS_Z) := by
  rcases ha with rfl | rfl | rfl <;> decide

/-- C23: axis selection in `MouseHandler::RotateFace` in state `MOUSE_STATE_SELECE_AXIS`,
for a clicked axis X, Y or Z and a finite intersection. With `(du, dv)` the absolute
displacements between the click point and the intersection along the two axes orthogonal
to the normal of the clicked face (`(y, z)` for X, `(z, x)` for Y, `(x, y)` for Z): the
call succeeds; the state becomes `MOUSE_STATE_ROTATE_FACE` if and only if
`max(du, dv) > DRAG_THRESHOLD = 12`; then the rotation axis is the v axis when `du > 12`
and `du > dv`, and the u axis otherwise, and it is never the clicked axis; when
`max(du, dv) <= 12` the state stays `MOUSE_STATE_SELECE_AXIS` with rotation axis
`AXIS_NONE`. In both cases the cube state, the animation handler and the clicked
sub-cube, axis and position are unchanged. -/
theorem C23_rotate_face_axis_selection (T : Trig) (m : MouseHandler) (mouse_pos i : Vec3D)
    (hst : m.m_state = MOUSE_STATE_SELECE_AXIS)
    (ha : m.m_clicked_axis = AXIS_X ∨ m.m_clicked_axis = AXIS_Y ∨ m.m_clicked_axis = AXIS_Z)
    (hi : m.dragPoint mouse_pos = some i) :
    DRAG_THRESHOLD = 12 ∧
    ∃ m', m.RotateFace T mouse_pos = some m' ∧
      (m'.m_state = MOUSE_STATE_ROTATE_FACE ↔
        max (dragUV m.m_clicked_axis (m.m_clicked_pos.sub i).Abs).1
          (dragUV m.m_clicked_axis (m.m_clicked_pos.sub i).Abs).2 > DRAG_THRESHOLD) ∧
      (max (dragUV m.m_clicked_axis (m.m_clicked_pos.sub i).Abs).1
          (dragUV m.m_clicked_axis (m.m_clicked_pos.sub i).Abs).2 > DRAG_THRESHOLD →
        ((dragUV m.m_clicked_axis (m.m_clicked_pos.sub i).Abs).1 > DRAG_THRESHOLD ∧
            (dragUV m.m_clicked_axis (m.m_clicked_pos.sub i).Abs).1 >
              (dragUV m.m_clicked_axis (m.m_clicked_pos.sub i).Abs).2 →
          m'.m_rotation_axis = vAxis m.m_clicked_axis) ∧
        (¬ ((dragUV m.m_clicked_axis (m.m_clicked_pos.sub i).Abs).1 > DRAG_THRESHOLD ∧
            (dragUV m.m_clicked_axis (m.m_clicked_pos.sub i).Abs).1 >
              (dragUV m.m_clicked_axis (m.m_clicked_pos.sub i).Abs).2) →
          m'.m_rotation_axis = uAxis m.m_clicked_axis) ∧
        m'.m_rotation_axis ≠ m.m_clicked_axis ∧
        (m'.m_rotation_axis = AXIS_X ∨ m'.m_rotation_axis = AXIS_Y ∨
          m'.m_rotation_axis = AXIS_Z)) ∧
      (max (dragUV m.m_clicked_axis (m.m_clicked_pos.sub i).Abs).1
          (dragUV m.m_clicked_axis (m.m_clicked_pos.sub i).Abs).2 ≤ DRAG_THRESHOLD →
        m'.m_state = MOUSE_STATE_SELECE_AXIS ∧ m'.m_rotation_axis = AXIS_NONE) ∧
      m'.m_rubiks = m.m_rubiks ∧ m'.m_animation_handler = m.m_animation_handler ∧
      m'.m_clicked_cube = m.m_clicked_cube ∧ m'.m_clicked_axis = m.m_clicked_axis ∧
      m'.m_clicked_pos = m.m_clicked_pos := by
  refine ⟨rfl, ?_⟩
  have hst' : m.m_state ≠ MOUSE_STATE_ROTATE_FACE := by
    rw [hst]
    decide
  obtain ⟨axis, e, hax⟩ := RotateFace_select T hst' hi
  rw [select_axis_cases _ ha] at hax
  obtain ⟨f1, f2, -, f4, f5, f6, f7⟩ := uvAxis_facts _ ha
  generalize (dragUV m.m_clicked_axis (m.m_clicked_pos.sub i).Abs).1 = du at hax ⊢
  generalize (dragUV m.m_clicked_axis (m.m_clicked_pos.sub i).Abs).2 = dv at hax ⊢
  refine ⟨_, e, ?_, ?_, ?_, rfl, rfl, rfl, rfl, rfl⟩
  · show (if axis ≠ AXIS_NONE then MOUSE_STATE_ROTATE_FACE else m.m_state) =
      MOUSE_STATE_ROTATE_FACE ↔ _
    by_cases h1 : du > DRAG_THRESHOLD ∧ du > dv
    · rw [if_pos h1] at hax
      rw [hax, if_pos f5]
      exact ⟨fun _ => lt_max_of_lt_left h1.1, fun _ => rfl⟩
    · rw [if_neg h1] at hax
      by_cases h2 : dv > DRAG_THRESHOLD
      · rw [if_pos h2] at hax
        rw [hax, if_pos f4]
        exact ⟨fun _ => lt_max_of_lt_right h2, fun _ => rfl⟩
      · rw [if_neg h2] at hax
        rw [hax, if_neg (fun h => h rfl), hst]
        constructor
        · intro h
          exact absurd h (by decide)
        · intro h
          exfalso
          rcases lt_max_iff.1 h with h' | h'
          · exact h1 ⟨h', lt_of_le_of_lt (not_lt.1 h2) h'⟩
          · exact h2 h'
  · intro hmax
    show (_ → axis = _) ∧ (_ → axis = _) ∧ axis ≠ _ ∧ (axis = _ ∨ axis = _ ∨ axis = _)
    by_cases h1 : du > DRAG_THRESHOLD ∧ du > dv
    · rw [if_pos h1] at hax
      rw [hax]
      exact ⟨fun _ => rfl, fun h => absurd h1 h, f2, f7⟩
    · rw [if_neg h1] at hax
      have h2 : dv > DRAG_THRESHOLD := by
        rcases lt_max_iff.1 hmax with h' | h'
        · by_contra h2
          exact h1 ⟨h', lt_of_le_of_lt (not_lt.1 h2) h'⟩
        · exact h'
      rw [if_pos h2] at hax
      rw [hax]
      exact ⟨fun h => absurd h h1, fun _ => rfl, f1, f6⟩
  · intro hmax
    show (if axis ≠ AXIS_NONE then MOUSE_STATE_ROTATE_FACE else m.m_state) =
      MOUSE_STATE_SELECE_AXIS ∧ axis = AXIS_NONE
    have h1 : ¬ (du > DRAG_THRESHOLD ∧ du > dv) :=
      fun h => absurd (lt_of_lt_of_le h.1 (le_max_left du dv)) (not_lt.2 hmax)
    have h2 : ¬ dv > DRAG_THRESHOLD :=
      fun h => absurd (lt_of_lt_of_le h (le_max_right du dv)) (not_lt.2 hmax)
    rw [if_neg h1, if_neg h2] at hax
    rw [hax, if_neg (fun h => h rfl)]
    exact ⟨hst, rfl⟩

end MouseHandler

end rubiks

namespace rubiks

namespace MouseHandler

theorem sampleClicked_fields :
    sampleClicked.m_state = MOUSE_STATE_SELECE_AXIS ∧ sampleClicked.m_clicked_cube = 5 ∧
    sampleClicked.m_clicked_axis = AXIS_Z ∧ sampleClicked.m_clicked_pos = ⟨80, 0, -90⟩ := by
  rw [sampleClicked_eq]
  exact ⟨rfl, rfl, rfl, rfl⟩

theorem sampleClicked_dragPoint :
    sampleClicked.dragPoint ⟨240, 180, 0⟩ = some ⟨60, 0, -90⟩ := by
  have hv := sampleClicked_rayVec
  have hp := sampleClicked_rayPos 240 180
  have hs : Sign (((0 : Int) - 1 : Int) : ℚ) = -1 := Sign_neg (by norm_num)
  have hxyz : CubeIdToXYZ 5 0 = (2, 1, 0) := by decide
  obtain ⟨-, c1, c2, -⟩ := sampleClicked_fields
  unfold dragPoint dragT
  rw [hv, hp, c1, c2, hxyz]
  simp only [hs, RubiksCube.RUBIKS_SIZE_eq, divDouble]
  norm_num [Vec3D.add, Vec3D.smul]

theorem C23_rotate_face_axis_selection_witness :
    sampleClicked.m_state = MOUSE_STATE_SELECE_AXIS ∧
    (sampleClicked.m_clicked_axis = AXIS_X ∨ sampleClicked.m_clicked_axis = AXIS_Y ∨
      sampleClicked.m_clicked_axis = AXIS_Z) ∧
    sampleClicked.dragPoint ⟨240, 180, 0⟩ = some ⟨60, 0, -90⟩ ∧
    ∃ m', sampleClicked.RotateFace Trig.flat ⟨240, 180, 0⟩ = some m' ∧
      (m'.m_state = MOUSE_STATE_ROTATE_FACE ↔
        max (dragUV sampleClicked.m_clicked_axis
              (sampleClicked.m_clicked_pos.sub ⟨60, 0, -90⟩).Abs).1
          (dragUV sampleClicked.m_clicked_axis
              (sampleClicked.m_clicked_pos.sub ⟨60, 0, -90⟩).Abs).2 > DRAG_THRESHOLD) ∧
      m'.m_rubiks = sampleClicked.m_rubiks :=
  ⟨sampleClicked_fields.1, Or.inr (Or.inr sampleClicked_fields.2.2.1), sampleClicked_dragPoint,
    (C23_rotate_face_axis_selection Trig.flat sampleClicked ⟨240, 180, 0⟩ ⟨60, 0, -90⟩
      sampleClicked_fields.1 (Or.inr (Or.inr sampleClicked_fields.2.2.1))
      sampleClicked_dragPoint).2.elim
      (fun m' h => ⟨m', h.1, h.2.1, h.2.2.2.2.1⟩)⟩

end MouseHandler

end rubiks

namespace rubiks

namespace MouseHandler

/-- The intersection of `RotateFace` for a clicked X face lies on the plane of that face. -/
theorem dragPoint_x {m : MouseHandler} {mouse_pos i : Vec3D}
    (ha : m.m_clicked_axis = AXIS_X) (hi : m.dragPoint mouse_pos = some i) :
    i.x = Sign (((CubeIdToXYZ m.m_clicked_cube 0).1 - 1 : Int) : ℚ) * RUBIKS_SIZE := by
  unfold dragPoint dragT at hi
  rw [if_pos ha] at hi
  by_cases hd : m.rayVec.x = 0
  · simp only [divDouble, if_pos hd, Option.none_bind] at hi
    cases hi
  · simp only [divDouble, if_neg hd, Option.some_bind, Option.some.injEq] at hi
    rw [← hi]
    simp only [Vec3D.add, Vec3D.smul]
    field_simp

theorem rotation_scale : GROBAL_ROTATION_SPEED / RUBIKS_SIZE = RUBIKS_PI / 360 / 90 := by
  rw [GROBAL_ROTATION_SPEED, RubiksCube.RUBIKS_SIZE_eq]

/-- C25: the live drag angle of `MouseHandler::RotateFace` in state
`MOUSE_STATE_ROTATE_FACE`, for a rotation axis X, Y or Z and a finite intersection. The
call is `RubiksCube::RotateFace` on the layer of the clicked sub-cube about the rotation
axis, with the angle `theta` that is `GROBAL_ROTATION_SPEED / RUBIKS_SIZE`, which is
`(RUBIKS_PI / 360) / 90`, times the component along the rotation axis of
`(click - pivot) x (current - pivot)`; the handler keeps that angle. For a click on the face
`x = s * 90` (`s` the sign `+1` or `-1` of the clicked sub-cube's side) with rotation axis
Z and the pivot on the Z axis, the current intersection lies on that face and the angle is
`s * (RUBIKS_PI / 360) * (current.y - click.y)`, whatever the pivot's z coordinate. -/
theorem C25_live_drag_angle (T : Trig) (m : MouseHandler) (mouse_pos i : Vec3D)
    (hst : m.m_state = MOUSE_STATE_ROTATE_FACE)
    (hax : m.m_rotation_axis = AXIS_X ∨ m.m_rotation_axis = AXIS_Y ∨
      m.m_rotation_axis = AXIS_Z)
    (hi : m.dragPoint mouse_pos = some i) :
    GROBAL_ROTATION_SPEED / RUBIKS_SIZE = RUBIKS_PI / 360 / 90 ∧
    m.RotateFace T mouse_pos =
      (m.m_rubiks.RotateFace T (CubeIdToXYZ m.m_clicked_cube 0).1
        (CubeIdToXYZ m.m_clicked_cube 0).2.1 (CubeIdToXYZ m.m_clicked_cube 0).2.2
        m.m_rotation_axis
        (axisComponent m.m_rotation_axis
            ((m.m_clicked_pos.sub m.m_rotation_center).Cross (i.sub m.m_rotation_center)) *
          (GROBAL_ROTATION_SPEED / RUBIKS_SIZE))).bind (fun r =>
        some { m with
          m_rotation_theta :=
            axisComponent m.m_rotation_axis
                ((m.m_clicked_pos.sub m.m_rotation_center).Cross
                  (i.sub m.m_rotation_center)) *
              (GROBAL_ROTATION_SPEED / RUBIKS_SIZE),
          m_animation_handler := { m.m_animation_handler with m_rubiks := r } }) ∧
    (∀ s : ℚ, m.m_clicked_axis = AXIS_X → m.m_rotation_axis = AXIS_Z →
      Sign (((CubeIdToXYZ m.m_clicked_cube 0).1 - 1 : Int) : ℚ) = s →
      m.m_clicked_pos.x = s * 90 → m.m_rotation_center.x = 0 → m.m_rotation_center.y = 0 →
      i.x = s * 90 ∧
      axisComponent m.m_rotation_axis
          ((m.m_clicked_pos.sub m.m_rotation_center).Cross (i.sub m.m_rotation_center)) *
        (GROBAL_ROTATION_SPEED / RUBIKS_SIZE) =
          s * (RUBIKS_PI / 360) * (i.y - m.m_clicked_pos.y)) := by
  have hcomp : (if m.m_rotation_axis = AXIS_X then
        ((m.m_clicked_pos.sub m.m_rotation_center).Cross (i.sub m.m_rotation_center)).x
      else if m.m_rotation_axis = AXIS_Y then
        ((m.m_clicked_pos.sub m.m_rotation_center).Cross (i.sub m.m_rotation_center)).y
      else if m.m_rotation_axis = AXIS_Z then
        ((m.m_clicked_pos.sub m.m_rotation_center).Cross (i.sub m.m_rotation_center)).z
      else m.m_rotation_theta) =
      axisComponent m.m_rotation_axis
        ((m.m_clicked_pos.sub m.m_rotation_center).Cross (i.sub m.m_rotation_center)) := by
    unfold axisComponent
    rcases hax with h | h | h <;> rw [h] <;> rfl
  refine ⟨rotation_scale, ?_, ?_⟩
  · rw [RotateFace_drag T hst hi, hcomp]
  · intro s hca hra hs hcx hpx hpy
    have hix : i.x = s * 90 := by
      rw [dragPoint_x hca hi, hs, RubiksCube.RUBIKS_SIZE_eq]
    refine ⟨hix, ?_⟩
    rw [rotation_scale, hra, axisComponent, if_neg (by decide), if_neg (by decide)]
    simp only [Vec3D.Cross, Vec3D.sub, hcx, hix, hpx, hpy]
    ring

theorem sampleSideDrag_rayPos : sampleSideDrag.rayPos ⟨200, 100, 0⟩ = ⟨180, -80, 20⟩ := by
  simp only [rayPos, sampleSideDrag, sampleSide, m_rubiks, MouseHandler.new, InitializeState,
    AnimationHandler.new, RubiksCube.sample, geometry.RotationY, Trig.quarter,
    Matrix3D.Transpose, Matrix3D.mulVec, Vec3D.sub, Vec3D.mk.injEq]
  norm_num

theorem sampleSideDrag_rayVec : sampleSideDrag.rayVec = ⟨-1, 0, 0⟩ := by
  simp only [rayVec, sampleSideDrag, sampleSide, m_rubiks, MouseHandler.new, InitializeState,
    AnimationHandler.new, RubiksCube.sample, geometry.RotationY, Trig.quarter,
    Matrix3D.Transpose, Matrix3D.mulVec, Vec3D.mk.injEq]
  norm_num

theorem sampleSideDrag_sign :
    Sign (((CubeIdToXYZ sampleSideDrag.m_clicked_cube 0).1 - 1 : Int) : ℚ) = 1 := by
  have c1 : sampleSideDrag.m_clicked_cube = 14 := rfl
  have hxyz : CubeIdToXYZ 14 0 = (2, 1, 1) := by decide
  rw [c1, hxyz]
  exact Sign_pos (by norm_num)

theorem sampleSideDrag_dragPoint :
    sampleSideDrag.dragPoint ⟨200, 100, 0⟩ = some ⟨90, -80, 20⟩ := by
  have hv := sampleSideDrag_rayVec
  have hp := sampleSideDrag_rayPos
  have hs := sampleSideDrag_sign
  have c2 : sampleSideDrag.m_clicked_axis = AXIS_X := rfl
  unfold dragPoint dragT
  rw [hv, hp, c2, if_pos rfl, hs]
  simp only [RubiksCube.RUBIKS_SIZE_eq, divDouble]
  norm_num [Vec3D.add, Vec3D.smul]

theorem C25_live_drag_angle_witness :
    sampleSideDrag.m_state = MOUSE_STATE_ROTATE_FACE ∧
    (sampleSideDrag.m_rotation_axis = AXIS_X ∨ sampleSideDrag.m_rotation_axis = AXIS_Y ∨
      sampleSideDrag.m_rotation_axis = AXIS_Z) ∧
    sampleSideDrag.dragPoint ⟨200, 100, 0⟩ = some ⟨90, -80, 20⟩ ∧
    GROBAL_ROTATION_SPEED / RUBIKS_SIZE = RUBIKS_PI / 360 / 90 ∧
    (⟨90, -80, 20⟩ : Vec3D).x = 1 * 90 ∧
    axisComponent sampleSideDrag.m_rotation_axis
        ((sampleSideDrag.m_clicked_pos.sub sampleSideDrag.m_rotation_center).Cross
          ((⟨90, -80, 20⟩ : Vec3D).sub sampleSideDrag.m_rotation_center)) *
      (GROBAL_ROTATION_SPEED / RUBIKS_SIZE) =
        1 * (RUBIKS_PI / 360) * ((⟨90, -80, 20⟩ : Vec3D).y - sampleSideDrag.m_clicked_pos.y) :=
  ⟨rfl, Or.inr (Or.inr rfl), sampleSideDrag_dragPoint,
    (C25_live_drag_angle Trig.flat sampleSideDrag ⟨200, 100, 0⟩ ⟨90, -80, 20⟩ rfl
      (Or.inr (Or.inr rfl)) sampleSideDrag_dragPoint).1,
    (C25_live_drag_angle Trig.flat sampleSideDrag ⟨200, 100, 0⟩ ⟨90, -80, 20⟩ rfl
      (Or.inr (Or.inr rfl)) sampleSideDrag_dragPoint).2.2 1 rfl rfl sampleSideDrag_sign
      (by show (90 : ℚ) = 1 * 90; norm_num) rfl rfl⟩

end MouseHandler

end rubiks

namespace rubiks

namespace MouseHandler

/-! ## `MouseHandler::Step` -/

/-- After `Click` the state is `MOUSE_STATE_SELECE_AXIS` or `MOUSE_STATE_ROTATE_VIEW`. -/
theorem Click_state (m : MouseHandler) (mouse_pos : Vec3D) :
    (m.Click mouse_pos).m_state = MOUSE_STATE_SELECE_AXIS ∨
    (m.Click mouse_pos).m_state = MOUSE_STATE_ROTATE_VIEW := by
  rw [Click_eq]
  cases hX : clickX m (m.rayPos mouse_pos) m.rayVec with
  | some a =>
    obtain ⟨h1, h2, hu, hv⟩ := clickX_spec hX
    have ha := clickX_hit m h1 h2 hu hv
    rw [hX, Option.some.injEq] at ha
    rw [Option.getD_some, ha]
    exact Or.inl rfl
  | none =>
    rw [Option.getD_none]
    cases hY : clickY m (m.rayPos mouse_pos) m.rayVec with
    | some a =>
      obtain ⟨h1, h2, hu, hv⟩ := clickY_spec hY
      have ha := clickY_hit m h1 h2 hu hv
      rw [hY, Option.some.injEq] at ha
      rw [Option.getD_some, ha]
      exact Or.inl rfl
    | none =>
      rw [Option.getD_none]
      cases hZ : clickZ m (m.rayPos mouse_pos) m.rayVec with
      | some a =>
        obtain ⟨h1, h2, hu, hv⟩ := clickZ_spec hZ
        have ha := clickZ_hit m h1 h2 hu hv
        rw [hZ, Option.some.injEq] at ha
        rw [Option.getD_some, ha]
        exact Or.inl rfl
      | none =>
        rw [Option.getD_none]
        exact Or.inr rfl

/-- `Click` changes neither the animation handler, and with it the cube, nor the last
pointer position. -/
theorem Click_keeps (m : MouseHandler) (mouse_pos : Vec3D) :
    (m.Click mouse_pos).m_animation_handler = m.m_animation_handler ∧
    (m.Click mouse_pos).m_old_mouse_pos = m.m_old_mouse_pos := by
  rw [Click_eq]
  cases hX : clickX m (m.rayPos mouse_pos) m.rayVec with
  | some a =>
    obtain ⟨h1, h2, hu, hv⟩ := clickX_spec hX
    have ha := clickX_hit m h1 h2 hu hv
    rw [hX, Option.some.injEq] at ha
    rw [Option.getD_some, ha]
    exact ⟨rfl, rfl⟩
  | none =>
    rw [Option.getD_none]
    cases hY : clickY m (m.rayPos mouse_pos) m.rayVec with
    | some a =>
      obtain ⟨h1, h2, hu, hv⟩ := clickY_spec hY
      have ha := clickY_hit m h1 h2 hu hv
      rw [hY, Option.some.injEq] at ha
      rw [Option.getD_some, ha]
      exact ⟨rfl, rfl⟩
    | none =>
      rw [Option.getD_none]
      cases hZ : clickZ m (m.rayPos mouse_pos) m.rayVec with
      | some a =>
        obtain ⟨h1, h2, hu, hv⟩ := clickZ_spec hZ
        have ha := clickZ_hit m h1 h2 hu hv
        rw [hZ, Option.some.injEq] at ha
        rw [Option.getD_some, ha]
        exact ⟨rfl, rfl⟩
      | none =>
        rw [Option.getD_none]
        exact ⟨rfl, rfl⟩

theorem Step_idle_no_down (T : Trig) {m : MouseHandler} (mouse_pos : Vec3D) {down : Int}
    (up : Int) (hst : m.m_state = MOUSE_STATE_IDLE) (hd : down = 0) :
    m.Step T mouse_pos down up = some (0, m) := by
  unfold Step
  rw [if_neg (fun h => h.1 hd), if_neg (fun h => h.2 hst), if_pos hst]

theorem Step_idle_down (T : Trig) {m : MouseHandler} (mouse_pos : Vec3D) {down : Int}
    (up : Int) (hst : m.m_state = MOUSE_STATE_IDLE) (hd : down ≠ 0) :
    m.Step T mouse_pos down up =
      some (1, ({ m with m_old_mouse_pos := mouse_pos }).Click mouse_pos) := by
  unfold Step
  rw [if_pos ⟨hd, hst⟩]

theorem Step_up (T : Trig) {m : MouseHandler} (mouse_pos : Vec3D) (down : Int) {up : Int}
    (hst : m.m_state ≠ MOUSE_STATE_IDLE) (hu : up ≠ 0) :
    m.Step T mouse_pos down up = some (1, m.UnClick) := by
  unfold Step
  rw [if_neg (fun h => hst h.2), if_pos ⟨hu, hst⟩]

theorem Step_view (T : Trig) {m : MouseHandler} (mouse_pos : Vec3D) (down : Int) {up : Int}
    (hst : m.m_state = MOUSE_STATE_ROTATE_VIEW) (hu : up = 0) :
    m.Step T mouse_pos down up =
      if (mouse_pos.sub m.m_old_mouse_pos).LengthLt 1 then some (0, m)
      else some (1, { m with
        m_animation_handler :=
          { m.m_animation_handler with
              m_rubiks := m.m_rubiks.GlobalRotate T (mouse_pos.sub m.m_old_mouse_pos) },
        m_old_mouse_pos := mouse_pos }) := by
  have h1 : m.m_state ≠ MOUSE_STATE_IDLE := by rw [hst]; decide
  have h2 : ¬ (m.m_state = MOUSE_STATE_SELECE_AXIS ∨ m.m_state = MOUSE_STATE_ROTATE_FACE) := by
    rw [hst]
    decide
  unfold Step
  rw [if_neg (fun h => h1 h.2), if_neg (fun h => h.1 hu), if_neg h1, if_neg h2]

theorem Step_drag (T : Trig) {m : MouseHandler} (mouse_pos : Vec3D) (down : Int) {up : Int}
    (hst : m.m_state = MOUSE_STATE_SELECE_AXIS ∨ m.m_state = MOUSE_STATE_ROTATE_FACE)
    (hu : up = 0) :
    m.Step T mouse_pos down up = (m.RotateFace T mouse_pos).bind (fun m' => some (1, m')) := by
  have h1 : m.m_state ≠ MOUSE_STATE_IDLE := by
    rcases hst with h | h <;> rw [h] <;> decide
  unfold Step
  rw [if_neg (fun h => h1 h.2), if_neg (fun h => h.1 hu), if_neg h1, if_pos hst]

end MouseHandler

end rubiks

namespace rubiks

namespace MouseHandler

/-- C24: the transition table of `MouseHandler::Step`. (1) In state `MOUSE_STATE_IDLE` with
`down = 0` it returns 0 and changes nothing: neither the mouse state, the cube nor the
animation queue. (2) In state `MOUSE_STATE_IDLE` with `down != 0` it records the pointer
position, performs `Click` and returns 1; the state is then `MOUSE_STATE_SELECE_AXIS` or
`MOUSE_STATE_ROTATE_VIEW`, never idle, and the animation handler with its cube is
unchanged. (3) In any state other than idle with `up != 0` it performs `UnClick` and
returns 1; the state is then idle with clicked sub-cube -1 and accumulated angle 0, and the
animation handler is changed, by a push, only if the state was
`MOUSE_STATE_ROTATE_FACE`. (4) In state `MOUSE_STATE_ROTATE_VIEW` with `up = 0`: when the
pointer is at least 1 unit away from the last recorded position it calls `GlobalRotate`
with the difference, records the position and returns 1; otherwise it returns 0 and changes
nothing. -/
theorem C24_mouse_step_transitions (T : Trig) (m : MouseHandler) (mouse_pos : Vec3D)
    (down up : Int) :
    (m.m_state = MOUSE_STATE_IDLE → down = 0 →
      m.Step T mouse_pos down up = some (0, m)) ∧
    (m.m_state = MOUSE_STATE_IDLE → down ≠ 0 →
      m.Step T mouse_pos down up =
        some (1, ({ m with m_old_mouse_pos := mouse_pos }).Click mouse_pos) ∧
      ((({ m with m_old_mouse_pos := mouse_pos }).Click mouse_pos).m_state =
          MOUSE_STATE_SELECE_AXIS ∨
        (({ m with m_old_mouse_pos := mouse_pos }).Click mouse_pos).m_state =
          MOUSE_STATE_ROTATE_VIEW) ∧
      (({ m with m_old_mouse_pos := mouse_pos }).Click mouse_pos).m_state ≠
        MOUSE_STATE_IDLE ∧
      (({ m with m_old_mouse_pos := mouse_pos }).Click mouse_pos).m_animation_handler =
        m.m_animation_handler ∧
      (({ m with m_old_mouse_pos := mouse_pos }).Click mouse_pos).m_old_mouse_pos =
        mouse_pos) ∧
    (m.m_state ≠ MOUSE_STATE_IDLE → up ≠ 0 →
      m.Step T mouse_pos down up = some (1, m.UnClick) ∧
      m.UnClick.m_state = MOUSE_STATE_IDLE ∧ m.UnClick.m_clicked_cube = -1 ∧
      m.UnClick.m_rotation_theta = 0 ∧
      (m.m_state ≠ MOUSE_STATE_ROTATE_FACE →
        m.UnClick.m_animation_handler = m.m_animation_handler) ∧
      (m.UnClick.m_animation_handler = m.m_animation_handler ∨
        (m.m_state = MOUSE_STATE_ROTATE_FACE ∧
          m.UnClick.m_animation_handler = m.m_animation_handler.Push (unclickQueue m))) ∧
      m.UnClick.m_rubiks = m.m_rubiks) ∧
    (m.m_state = MOUSE_STATE_ROTATE_VIEW → up = 0 →
      ((mouse_pos.sub m.m_old_mouse_pos).Dot (mouse_pos.sub m.m_old_mouse_pos) ≥ 1 →
        m.Step T mouse_pos down up =
          some (1, { m with
            m_animation_handler :=
              { m.m_animation_handler with
                  m_rubiks := m.m_rubiks.GlobalRotate T (mouse_pos.sub m.m_old_mouse_pos) },
            m_old_mouse_pos := mouse_pos })) ∧
      ((mouse_pos.sub m.m_old_mouse_pos).Dot (mouse_pos.sub m.m_old_mouse_pos) < 1 →
        m.Step T mouse_pos down up = some (0, m))) := by
  refine ⟨fun hst hd => Step_idle_no_down T mouse_pos up hst hd, ?_, ?_, ?_⟩
  · intro hst hd
    have hs := Click_state { m with m_old_mouse_pos := mouse_pos } mouse_pos
    have hk := Click_keeps { m with m_old_mouse_pos := mouse_pos } mouse_pos
    refine ⟨Step_idle_down T mouse_pos up hst hd, hs, ?_, hk.1, hk.2⟩
    rcases hs with h | h <;> rw [h] <;> decide
  · intro hst hu
    obtain ⟨s1, s2, s3⟩ := UnClick_state m
    have hh := UnClick_handler m
    refine ⟨Step_up T mouse_pos down hst hu, s1, s2, s3, ?_, ?_, ?_⟩
    · intro hrf
      rw [hh, if_neg (fun h => hrf h.1)]
    · by_cases hc : m.m_state = MOUSE_STATE_ROTATE_FACE ∧ (unclickQueue m).speed ≠ 0
      · right
        rw [hh, if_pos hc]
        exact ⟨hc.1, rfl⟩
      · left
        rw [hh, if_neg hc]
    · rw [m_rubiks, hh]
      split_ifs <;> rfl
  · intro hst hu
    have hv := Step_view T mouse_pos down hst hu
    constructor
    · intro hge
      rw [hv, if_neg]
      unfold Vec3D.LengthLt
      rw [not_lt]
      norm_num
      exact hge
    · intro hlt
      rw [hv, if_pos]
      unfold Vec3D.LengthLt
      norm_num
      exact hlt

theorem C24_mouse_step_transitions_witness :
    sample.m_state = MOUSE_STATE_IDLE ∧
    sample.Step Trig.flat ⟨260, 180, 0⟩ 0 0 = some (0, sample) ∧
    sample.Step Trig.flat ⟨260, 180, 0⟩ 1 0 =
      some (1, ({ sample with m_old_mouse_pos := ⟨260, 180, 0⟩ }).Click ⟨260, 180, 0⟩) ∧
    sampleDrag.m_state ≠ MOUSE_STATE_IDLE ∧
    sampleDrag.Step Trig.flat ⟨260, 180, 0⟩ 0 1 = some (1, sampleDrag.UnClick) ∧
    sampleView.m_state = MOUSE_STATE_ROTATE_VIEW ∧
    sampleView.Step Trig.flat ⟨10, 10, 0⟩ 0 0 = some (0, sampleView) :=
  ⟨rfl, (C24_mouse_step_transitions Trig.flat sample ⟨260, 180, 0⟩ 0 0).1 rfl rfl,
    ((C24_mouse_step_transitions Trig.flat sample ⟨260, 180, 0⟩ 1 0).2.1 rfl (by decide)).1,
    by decide,
    ((C24_mouse_step_transitions Trig.flat sampleDrag ⟨260, 180, 0⟩ 0 1).2.2.1 (by decide)
      (by decide)).1,
    rfl,
    ((C24_mouse_step_transitions Trig.flat sampleView ⟨10, 10, 0⟩ 0 0).2.2.2 rfl rfl).2
      (by
        have h : sampleView.m_old_mouse_pos = ⟨10, 10, 0⟩ := rfl
        rw [h]
        simp only [Vec3D.sub, Vec3D.Dot]
        norm_num)⟩

end MouseHandler

end rubiks

namespace rubiks

/-! ## The geometry that `Cube::Initialize` builds -/

theorem Initialize_vertices :
    Cube.empty.Initialize.vertices =
      [⟨-1, 1, -1⟩, ⟨-1, -1, -1⟩, ⟨1, -1, -1⟩, ⟨1, 1, -1⟩,
       ⟨-1, 1, 1⟩, ⟨-1, -1, 1⟩, ⟨1, -1, 1⟩, ⟨1, 1, 1⟩] := rfl

theorem Initialize_faces :
    Cube.empty.Initialize.faces =
      [quadOf 0 1 2 3, quadOf 2 6 7 3, quadOf 7 6 5 4, quadOf 4 5 1 0, quadOf 0 3 7 4,
       quadOf 1 5 6 2] := rfl

theorem Initialize_faceVertices :
    Cube.empty.Initialize.faceVertices FACE_Z_MINUS =
      some [⟨-1, 1, -1⟩, ⟨-1, -1, -1⟩, ⟨1, -1, -1⟩, ⟨1, 1, -1⟩] ∧
    Cube.empty.Initialize.faceVertices FACE_X_PLUS =
      some [⟨1, -1, -1⟩, ⟨1, -1, 1⟩, ⟨1, 1, 1⟩, ⟨1, 1, -1⟩] ∧
    Cube.empty.Initialize.faceVertices FACE_Z_PLUS =
      some [⟨1, 1, 1⟩, ⟨1, -1, 1⟩, ⟨-1, -1, 1⟩, ⟨-1, 1, 1⟩] ∧
    Cube.empty.Initialize.faceVertices FACE_X_MINUS =
      some [⟨-1, 1, 1⟩, ⟨-1, -1, 1⟩, ⟨-1, -1, -1⟩, ⟨-1, 1, -1⟩] ∧
    Cube.empty.Initialize.faceVertices FACE_Y_PLUS =
      some [⟨-1, 1, -1⟩, ⟨1, 1, -1⟩, ⟨1, 1, 1⟩, ⟨-1, 1, 1⟩] ∧
    Cube.empty.Initialize.faceVertices FACE_Y_MINUS =
      some [⟨-1, -1, -1⟩, ⟨-1, -1, 1⟩, ⟨1, -1, 1⟩, ⟨1, -1, -1⟩] :=
  ⟨rfl, rfl, rfl, rfl, rfl, rfl⟩

end rubiks

namespace rubiks

/-- C26: after `Cube::Initialize` on a default-constructed cube the model has exactly 8
vertices, which are the 8 sign combinations `(+-1, +-1, +-1)`, each once, and exactly 6
faces whose four vertex indices are all in `[0, 8)`; the four vertices of each face slot
lie on the plane that the `CubeFaceIndices` enumeration names: slot 0 (`FACE_Z_MINUS`) on
`z = -1`, slot 1 (`FACE_X_PLUS`) on `x = 1`, slot 2 (`FACE_Z_PLUS`) on `z = 1`, slot 3
(`FACE_X_MINUS`) on `x = -1`, slot 4 (`FACE_Y_PLUS`) on `y = 1`, slot 5 (`FACE_Y_MINUS`) on
`y = -1`. -/
theorem C26_initialize_geometry :
    Cube.empty.Initialize.vertices.length = 8 ∧
    Cube.empty.Initialize.vertices.Nodup ∧
    (∀ v : Vec3D, v ∈ Cube.empty.Initialize.vertices ↔
      (v.x = 1 ∨ v.x = -1) ∧ (v.y = 1 ∨ v.y = -1) ∧ (v.z = 1 ∨ v.z = -1)) ∧
    Cube.empty.Initialize.faces.length = 6 ∧
    (∀ f ∈ Cube.empty.Initialize.faces,
      (0 ≤ f.v1 ∧ f.v1 < 8) ∧ (0 ≤ f.v2 ∧ f.v2 < 8) ∧ (0 ≤ f.v3 ∧ f.v3 < 8) ∧
      (0 ≤ f.v4 ∧ f.v4 < 8)) ∧
    (FACE_Z_MINUS = 0 ∧ ∃ l, Cube.empty.Initialize.faceVertices FACE_Z_MINUS = some l ∧
      l.length = 4 ∧ ∀ v ∈ l, v.z = -1) ∧
    (FACE_X_PLUS = 1 ∧ ∃ l, Cube.empty.Initialize.faceVertices FACE_X_PLUS = some l ∧
      l.length = 4 ∧ ∀ v ∈ l, v.x = 1) ∧
    (FACE_Z_PLUS = 2 ∧ ∃ l, Cube.empty.Initialize.faceVertices FACE_Z_PLUS = some l ∧
      l.length = 4 ∧ ∀ v ∈ l, v.z = 1) ∧
    (FACE_X_MINUS = 3 ∧ ∃ l, Cube.empty.Initialize.faceVertices FACE_X_MINUS = some l ∧
      l.length = 4 ∧ ∀ v ∈ l, v.x = -1) ∧
    (FACE_Y_PLUS = 4 ∧ ∃ l, Cube.empty.Initialize.faceVertices FACE_Y_PLUS = some l ∧
      l.length = 4 ∧ ∀ v ∈ l, v.y = 1) ∧
    (FACE_Y_MINUS = 5 ∧ ∃ l, Cube.empty.Initialize.faceVertices FACE_Y_MINUS = some l ∧
      l.length = 4 ∧ ∀ v ∈ l, v.y = -1) := by
  obtain ⟨f0, f1, f2, f3, f4, f5⟩ := Initialize_faceVertices
  have hplane : ∀ (l : List Vec3D) (p : Vec3D → Prop) (a b c d : Vec3D),
      l = [a, b, c, d] → p a → p b → p c → p d → l.length = 4 ∧ ∀ v ∈ l, p v := by
    intro l p a b c d hl ha hb hc hd
    subst hl
    refine ⟨rfl, ?_⟩
    intro v hv
    simp only [List.mem_cons, List.mem_singleton, List.not_mem_nil, or_false] at hv
    rcases hv with rfl | rfl | rfl | rfl <;> assumption
  refine ⟨rfl, ?_, ?_, rfl, ?_, ⟨rfl, _, f0, ?_⟩, ⟨rfl, _, f1, ?_⟩, ⟨rfl, _, f2, ?_⟩,
    ⟨rfl, _, f3, ?_⟩, ⟨rfl, _, f4, ?_⟩, ⟨rfl, _, f5, ?_⟩⟩
  · rw [Initialize_vertices]
    simp only [List.nodup_cons, List.mem_cons, List.mem_singleton, Vec3D.mk.injEq,
      List.not_mem_nil, List.nodup_nil]
    norm_num
  · intro v
    rw [Initialize_vertices]
    obtain ⟨x, y, z⟩ := v
    simp only [List.mem_cons, List.mem_singleton, Vec3D.mk.injEq, List.not_mem_nil, or_false]
    constructor
    · intro hv
      rcases hv with h | h | h | h | h | h | h | h <;>
        (obtain ⟨hx, hy, hz⟩ := h
         subst hx hy hz
         simp)
    · rintro ⟨rfl | rfl, rfl | rfl, rfl | rfl⟩ <;> simp
  · have h : QuadModel.ValidFaces Cube.empty.Initialize := by decide
    intro f hf
    exact h f hf
  · exact hplane _ (fun v => v.z = -1) _ _ _ _ rfl rfl rfl rfl rfl
  · exact hplane _ (fun v => v.x = 1) _ _ _ _ rfl rfl rfl rfl rfl
  · exact hplane _ (fun v => v.z = 1) _ _ _ _ rfl rfl rfl rfl rfl
  · exact hplane _ (fun v => v.x = -1) _ _ _ _ rfl rfl rfl rfl rfl
  · exact hplane _ (fun v => v.y = 1) _ _ _ _ rfl rfl rfl rfl rfl
  · exact hplane _ (fun v => v.y = -1) _ _ _ _ rfl rfl rfl rfl rfl

end rubiks

namespace rubiks

namespace RubiksCube

/-! ## Shape of the swap groups of `RotateColors` -/

theorem swap_groups_fin :
    ∀ a ∈ [AXIS_X, AXIS_Y, AXIS_Z], ∀ k ∈ [(0 : Int), 1, 2],
      (swap_queues k k k a).length = 7 ∧ (queueSlots (swap_queues k k k a)).length = 28 ∧
      (∀ e ∈ (swap_queues k k k a).take 3, perimeterGroup a e) ∧
      (∀ e ∈ (swap_queues k k k a).drop 3, lateralGroup a e) ∧
      (∀ f ∈ loopRange 6, lateralFace a f →
        (((swap_queues k k k a).drop 3).map SwapEntry.e1).count f = 2) := by
  decide

theorem swap_groups_shape {x y z axis : Int} (hl : LayerOK x y z axis) :
    (swap_queues x y z axis).length = 7 ∧ (queueSlots (swap_queues x y z axis)).length = 28 ∧
    (∀ e ∈ (swap_queues x y z axis).take 3, perimeterGroup axis e) ∧
    (∀ e ∈ (swap_queues x y z axis).drop 3, lateralGroup axis e) ∧
    (∀ f ∈ loopRange 6, lateralFace axis f →
      (((swap_queues x y z axis).drop 3).map SwapEntry.e1).count f = 2) := by
  obtain ⟨ha, hk, hq⟩ := layer_cases hl
  rw [hq]
  exact swap_groups_fin axis ha _ hk

theorem queueSlots_layer {x y z axis : Int} (hl : LayerOK x y z axis) :
    ∀ s ∈ queueSlots (swap_queues x y z axis),
      layerCoord axis s.1 = selectedLayer x y z axis := by
  obtain ⟨ha, hk, hq⟩ := layer_cases hl
  rw [hq]
  exact queueSlots_layer_fin axis ha _ hk

end RubiksCube

end rubiks

namespace rubiks

namespace RubiksCube

/-- C28: for every axis in {X, Y, Z} and every layer coordinate in {0, 1, 2},
`RotateColors` builds 7 swap groups, the first 3 of them perimeter groups and the last 4
lateral groups, 2 on each of the 2 lateral faces; the groups name 28 pairwise distinct
(sub-cube index, face slot) pairs; every sub-cube index lies in [0, 27) and belongs to the
given layer, every face slot lies in [0, 6); and on a well-formed state the call succeeds
for every degree, so no access `cubes[i].faces[f]` is out of range. -/
theorem C28_swap_groups_well_formed (x y z axis : Int) (hl : LayerOK x y z axis) :
    (swap_queues x y z axis).length = 7 ∧
    (∀ e ∈ (swap_queues x y z axis).take 3, perimeterGroup axis e) ∧
    (∀ e ∈ (swap_queues x y z axis).drop 3, lateralGroup axis e) ∧
    (∀ f ∈ loopRange 6, lateralFace axis f →
      (((swap_queues x y z axis).drop 3).map SwapEntry.e1).count f = 2) ∧
    (queueSlots (swap_queues x y z axis)).length = 28 ∧
    (queueSlots (swap_queues x y z axis)).Nodup ∧
    (∀ s ∈ queueSlots (swap_queues x y z axis),
      (0 ≤ s.1 ∧ s.1 < 27) ∧ layerCoord axis s.1 = selectedLayer x y z axis ∧
      (0 ≤ s.2 ∧ s.2 < 6)) ∧
    (∀ r : RubiksCube, r.WF → ∀ degree : Int,
      ∃ r', r.RotateColors x y z axis degree = some r' ∧ r'.WF) := by
  obtain ⟨h7, h28, hp, hlat, hcount⟩ := swap_groups_shape hl
  refine ⟨h7, hp, hlat, hcount, h28, queueSlots_nodup hl, ?_, ?_⟩
  · intro s hs
    obtain ⟨h0, h1, h2, h3⟩ := queueSlots_inRange (swap_queues_inRange hl) hs
    exact ⟨⟨h0, h1⟩, queueSlots_layer hl s hs, h2, h3⟩
  · intro r hr degree
    obtain ⟨r', e, w, -⟩ := RotateColors_spec hr hl degree
    exact ⟨r', e, w⟩

theorem C28_swap_groups_well_formed_witness :
    LayerOK 0 0 1 AXIS_Z ∧
    (swap_queues 0 0 1 AXIS_Z).length = 7 ∧
    (∀ e ∈ (swap_queues 0 0 1 AXIS_Z).take 3, perimeterGroup AXIS_Z e) ∧
    (∀ e ∈ (swap_queues 0 0 1 AXIS_Z).drop 3, lateralGroup AXIS_Z e) ∧
    (∀ f ∈ loopRange 6, lateralFace AXIS_Z f →
      (((swap_queues 0 0 1 AXIS_Z).drop 3).map SwapEntry.e1).count f = 2) ∧
    (queueSlots (swap_queues 0 0 1 AXIS_Z)).length = 28 ∧
    (queueSlots (swap_queues 0 0 1 AXIS_Z)).Nodup ∧
    (∀ s ∈ queueSlots (swap_queues 0 0 1 AXIS_Z),
      (0 ≤ s.1 ∧ s.1 < 27) ∧ layerCoord AXIS_Z s.1 = selectedLayer 0 0 1 AXIS_Z ∧
      (0 ≤ s.2 ∧ s.2 < 6)) ∧
    (∀ r : RubiksCube, r.WF → ∀ degree : Int,
      ∃ r', r.RotateColors 0 0 1 AXIS_Z degree = some r' ∧ r'.WF) :=
  ⟨by decide, C28_swap_groups_well_formed 0 0 1 AXIS_Z (by decide)⟩

end RubiksCube

end rubiks

namespace rubiks

namespace AnimationHandler

/-! ## The animating flag against the queue -/

/-- After a call of `Step` on a non-empty queue the flag says whether entries are left. -/
theorem Step_cons_flag (T : Trig) (h : AnimationHandler) (q : AnimationQueue)
    (rest : List AnimationQueue) (hq : h.m_animation_queues = q :: rest)
    (ret : Int) (h' : AnimationHandler) (hs : Step T h = some (ret, h')) :
    h'.m_is_animating = true ↔ h'.m_animation_queues ≠ [] := by
  obtain ⟨qs, deg, rb, an⟩ := h
  simp only at hq
  subst hq
  simp only [Step] at hs
  split_ifs at hs
  all_goals
    simp only [Option.bind_eq_bind, Option.bind_eq_some, Option.pure_def, Option.some.injEq,
      Prod.mk.injEq] at hs
  all_goals
    obtain ⟨_, _, _, _, _, rfl⟩ := hs
    cases rest <;> cases an <;> simp_all [IsAnimating]

/-- A call of `Step` on an empty queue changes nothing. -/
theorem Step_nil_eq (T : Trig) (h : AnimationHandler) (hq : h.m_animation_queues = [])
    (ret : Int) (h' : AnimationHandler) (hs : Step T h = some (ret, h')) : h' = h := by
  rw [Step_empty T h hq] at hs
  simp only [Option.some.injEq, Prod.mk.injEq] at hs
  exact hs.2.symm

/-- The invariant of the reachable states: the flag is set only with entries queued. -/
theorem Reachable_flag (T : Trig) (h : AnimationHandler) (hr : Reachable T h) :
    h.m_is_animating = true → h.m_animation_queues ≠ [] := by
  induction hr with
  | fresh rubiks => intro hc; simp [new] at hc
  | push h q _ ih => intro _; simp [Push]
  | step h h' ret _ hs ih =>
    cases hq : h.m_animation_queues with
    | nil =>
      rw [Step_nil_eq T h hq ret h' hs]
      exact ih
    | cons q rest => exact (Step_cons_flag T h q rest hq ret h' hs).1
  | clear h _ ih => intro hc; simp [ClearAnimations] at hc
  | cube h r _ ih => exact ih

theorem Step_flag_iff (T : Trig) (h : AnimationHandler) (hr : Reachable T h)
    (ret : Int) (h' : AnimationHandler) (hs : Step T h = some (ret, h')) :
    h'.IsAnimating = true ↔ h'.m_animation_queues ≠ [] := by
  cases hq : h.m_animation_queues with
  | nil =>
    rw [Step_nil_eq T h hq ret h' hs]
    constructor
    · exact Reachable_flag T h hr
    · intro hc
      exact absurd hq hc
  | cons q rest => exact Step_cons_flag T h q rest hq ret h' hs

end AnimationHandler

end rubiks

namespace rubiks

namespace AnimationHandler

/-- C30: in every state reachable from a freshly constructed `AnimationHandler` by `Push`,
`Step` and `ClearAnimations` calls, `IsAnimating()` being true implies that the queue is
non-empty; right after any `Step` call from such a state `IsAnimating()` is true if and only
if the queue is non-empty; and after `ClearAnimations` the queue is empty and
`IsAnimating()` is false. -/
theorem C30_animating_flag_invariant (T : Trig) (h : AnimationHandler)
    (hr : Reachable T h) :
    (h.IsAnimating = true → h.m_animation_queues ≠ []) ∧
    (∀ (ret : Int) (h' : AnimationHandler), Step T h = some (ret, h') →
      (h'.IsAnimating = true ↔ h'.m_animation_queues ≠ [])) ∧
    h.ClearAnimations.m_animation_queues = [] ∧ h.ClearAnimations.IsAnimating = false :=
  ⟨Reachable_flag T h hr, Step_flag_iff T h hr, rfl, rfl⟩

theorem sample_Reachable : Reachable Trig.flat sample :=
  Reachable.push _ _ (Reachable.fresh _)

theorem C30_animating_flag_invariant_witness :
    Reachable Trig.flat sample ∧
    (sample.IsAnimating = true → sample.m_animation_queues ≠ []) ∧
    (∀ (ret : Int) (h' : AnimationHandler), Step Trig.flat sample = some (ret, h') →
      (h'.IsAnimating = true ↔ h'.m_animation_queues ≠ [])) ∧
    sample.ClearAnimations.m_animation_queues = [] ∧
    sample.ClearAnimations.IsAnimating = false :=
  ⟨sample_Reachable, C30_animating_flag_invariant Trig.flat sample sample_Reachable⟩

end AnimationHandler

end rubiks

namespace rubiks

namespace RubiksCube

/-! ## Shell faces under `RotateColors` -/

theorem entry_shell_fin :
    ∀ a ∈ [AXIS_X, AXIS_Y, AXIS_Z], ∀ k ∈ [(0 : Int), 1, 2],
      ∀ e ∈ swap_queues k k k a, ∀ s ∈ e.slots, ∀ t ∈ e.slots,
        onShellI s.1 s.2 → onShellI t.1 t.2 := by
  decide

theorem shell_spec_fin :
    ∀ i ∈ loopRange 27, ∀ f ∈ loopRange 6, onShellI i f ↔ specOnShell i f := by
  decide

theorem sideColors_count_fin :
    ∀ c ∈ sideColors, (allSlots.map (fun s => specInitialColor s.1 s.2)).count c = 9 := by
  decide

theorem sideColors_ne_black : ∀ c ∈ sideColors, c ≠ COLOR_BLACK := by
  decide

/-- The slot map of a queue whose entries each name four slots that are all on the shell or
all off it keeps a slot on its side of the shell. -/
theorem srcLoop_shell (d : Int) (es : List SwapEntry)
    (hes : ∀ e ∈ es, ∀ s ∈ e.slots, ∀ t ∈ e.slots, onShellI s.1 s.2 → onShellI t.1 t.2)
    (s : Int × Int) :
    onShellI (srcLoop d es s).1 (srcLoop d es s).2 ↔ onShellI s.1 s.2 := by
  induction es with
  | nil => exact Iff.rfl
  | cons e es ih =>
    have ih' := ih (fun e' he' => hes e' (List.mem_cons_of_mem _ he'))
    simp only [srcLoop]
    by_cases ht : srcLoop d es s ∈ e.slots
    · have hm : srcFront d e (srcLoop d es s) ∈ e.slots := srcFront_mem ht
      have he := hes e (List.mem_cons_self _ _)
      exact ⟨fun h => ih'.1 (he _ hm _ ht h), fun h => he _ ht _ hm (ih'.2 h)⟩
    · rw [srcFront_of_not_mem ht]
      exact ih'

theorem rotSrc_shell {x y z axis : Int} (hl : LayerOK x y z axis) (degree : Int)
    (s : Int × Int) :
    onShellI (rotSrc x y z axis degree s).1 (rotSrc x y z axis degree s).2 ↔
      onShellI s.1 s.2 := by
  obtain ⟨ha, hk, hq⟩ := layer_cases hl
  unfold rotSrc
  rw [hq]
  exact srcLoop_shell degree _ (entry_shell_fin axis ha _ hk) s

/-- The face colours after `RotateColors` on a valid layer are a rearrangement of the face
colours before it. -/
theorem RotateColors_faceColors_perm {r r' : RubiksCube} (h : r.WF) (w : r'.WF)
    {x y z axis : Int} (hl : LayerOK x y z axis) (degree : Int)
    (g : ∀ s : Int × Int, r'.getColor s.1 s.2 =
      r.getColor (rotSrc x y z axis degree s).1 (rotSrc x y z axis degree s).2) :
    r'.faceColors.Perm r.faceColors := by
  have hmap : r'.faceColors = (allSlots.map (rotSrc x y z axis degree)).map r.colorAt := by
    rw [faceColors_eq w, List.map_map]
    apply List.map_congr_left
    intro s _
    simp only [colorAt, Function.comp, g s]
  rw [hmap, faceColors_eq h]
  exact (map_rotSrc_perm hl degree).map _

/-- The invariant of the reachable colourings. -/
theorem ColourReachable_inv (r : RubiksCube) (hr : ColourReachable r) :
    r.WF ∧
    (∀ s : Int × Int, InRange s.1 s.2 → ¬ onShellI s.1 s.2 →
      r.getColor s.1 s.2 = some COLOR_BLACK) ∧
    r.faceColors.Perm (allSlots.map (fun s => specInitialColor s.1 s.2)) := by
  induction hr with
  | init r r' h hi =>
    obtain ⟨r'', e, w, -, -, g⟩ := InitializeColors_spec h
    rw [hi, Option.some.injEq] at e
    subst e
    have gc : ∀ s : Int × Int, InRange s.1 s.2 →
        r'.getColor s.1 s.2 = some (specInitialColor s.1 s.2) := by
      intro s hs
      rw [g s.1 s.2 hs, initialColors_fin s.1 (mem_loopRange hs.1 hs.2.1) s.2
        (mem_loopRange hs.2.2.1 hs.2.2.2)]
    refine ⟨w, ?_, ?_⟩
    · intro s hs hns
      rw [gc s hs]
      have hn : ¬ specOnShell s.1 s.2 := fun hc =>
        hns ((shell_spec_fin s.1 (mem_loopRange hs.1 hs.2.1) s.2
          (mem_loopRange hs.2.2.1 hs.2.2.2)).2 hc)
      unfold specInitialColor
      rw [if_neg hn]
    · rw [faceColors_eq w]
      apply List.Perm.of_eq
      apply List.map_congr_left
      intro s hs
      unfold colorAt
      rw [gc s (mem_allSlots.1 hs)]
      rfl
  | rotate r r' x y z axis degree _ hl hrot ih =>
    obtain ⟨r'', e, w, g⟩ := RotateColors_spec ih.1 hl degree
    rw [hrot, Option.some.injEq] at e
    subst e
    refine ⟨w, ?_, ?_⟩
    · intro s hs hns
      rw [g s]
      exact ih.2.1 _ (rotSrc_inRange hl degree hs)
        (fun hc => hns ((rotSrc_shell hl degree s).1 hc))
    · exact (RotateColors_faceColors_perm ih.1 w hl degree g).trans ih.2.2

theorem sampleColoured_eq : sample.InitializeColors = some sampleColoured := by
  obtain ⟨r', e, -⟩ := InitializeColors_spec sample_WF
  unfold sampleColoured
  rw [e]
  rfl

theorem sampleColoured_reachable : ColourReachable sampleColoured :=
  ColourReachable.init sample sampleColoured sample_WF sampleColoured_eq

theorem sampleTurned_eq :
    sampleColoured.RotateColors 0 0 1 AXIS_Z DEGREE_90 = some sampleTurned := by
  obtain ⟨r', e, -⟩ := RotateColors_spec (ColourReachable_inv _ sampleColoured_reachable).1
    (show LayerOK 0 0 1 AXIS_Z by decide) DEGREE_90
  unfold sampleTurned
  rw [e]
  rfl

theorem sampleTurned_reachable : ColourReachable sampleTurned :=
  ColourReachable.rotate sampleColoured sampleTurned 0 0 1 AXIS_Z DEGREE_90
    sampleColoured_reachable (by decide) sampleTurned_eq

end RubiksCube

end rubiks

namespace rubiks

namespace RubiksCube

/-- C27: in every colouring reachable from `InitializeColors` by any sequence of
`RotateColors` calls (any axis in {X, Y, Z}, any layer coordinate in {0, 1, 2}, any degree)
the state is well formed, every sub-cube face that does not lie on the outer shell is
`COLOR_BLACK`, and each of the six side colours (green, red, blue, orange, yellow, white)
occurs on exactly 9 of the 162 faces, all of them shell faces. -/
theorem C27_hidden_faces_stay_black (r : RubiksCube) (hr : ColourReachable r) :
    r.WF ∧
    (∀ i f : Int, InRange i f → ¬ onShell i f → r.getColor i f = some COLOR_BLACK) ∧
    (∀ c ∈ sideColors, r.faceColors.count c = 9 ∧
      ∀ i f : Int, InRange i f → r.getColor i f = some c → onShell i f) := by
  obtain ⟨w, hb, hp⟩ := ColourReachable_inv r hr
  refine ⟨w, ?_, ?_⟩
  · intro i f hin hns
    exact hb (i, f) hin (fun hc => hns ((onShell_iff i f).2 hc))
  · intro c hc
    refine ⟨?_, ?_⟩
    · rw [hp.count_eq]
      exact sideColors_count_fin c hc
    · intro i f hin hcol
      by_contra hns
      have hblack := hb (i, f) hin (fun hs => hns ((onShell_iff i f).2 hs))
      rw [hcol, Option.some.injEq] at hblack
      exact sideColors_ne_black c hc hblack

theorem C27_hidden_faces_stay_black_witness :
    ColourReachable sampleTurned ∧
    sampleTurned.WF ∧
    (∀ i f : Int, InRange i f → ¬ onShell i f →
      sampleTurned.getColor i f = some COLOR_BLACK) ∧
    (∀ c ∈ sideColors, sampleTurned.faceColors.count c = 9 ∧
      ∀ i f : Int, InRange i f → sampleTurned.getColor i f = some c → onShell i f) :=
  ⟨sampleTurned_reachable, C27_hidden_faces_stay_black sampleTurned sampleTurned_reachable⟩

end RubiksCube

end rubiks

namespace rubiks

/-! ## Opposite faces of an initialised cube -/

/-- The faces of an initialised cube, one by one. -/
theorem Cube.Initialised.faces_eq {c : Cube} (hc : c.Initialised) :
    ∃ f0 f1 f2 f3 f4 f5 : Quad, c.faces = [f0, f1, f2, f3, f4, f5] ∧
      f0.indices = (0, 1, 2, 3) ∧ f1.indices = (2, 6, 7, 3) ∧ f2.indices = (7, 6, 5, 4) ∧
      f3.indices = (4, 5, 1, 0) ∧ f4.indices = (0, 3, 7, 4) ∧ f5.indices = (1, 5, 6, 2) := by
  have h := hc.2
  rw [Initialize_faces] at h
  simp only [List.map_cons, List.map_nil, List.map_eq_cons_iff, List.map_eq_nil_iff] at h
  obtain ⟨f0, l0, e0, i0, f1, l1, e1, i1, f2, l2, e2, i2, f3, l3, e3, i3, f4, l4, e4, i4,
    f5, l5, e5, i5, e6⟩ := h
  refine ⟨f0, f1, f2, f3, f4, f5, ?_, i0, i1, i2, i3, i4, i5⟩
  rw [e0, e1, e2, e3, e4, e5, e6]

end rubiks

namespace rubiks

open QuadModel in
theorem projectedAt_list (p0 p1 p2 p3 p4 p5 p6 p7 : Vec3D) :
    projectedAt [p0, p1, p2, p3, p4, p5, p6, p7] 0 = p0 ∧
    projectedAt [p0, p1, p2, p3, p4, p5, p6, p7] 1 = p1 ∧
    projectedAt [p0, p1, p2, p3, p4, p5, p6, p7] 2 = p2 ∧
    projectedAt [p0, p1, p2, p3, p4, p5, p6, p7] 3 = p3 ∧
    projectedAt [p0, p1, p2, p3, p4, p5, p6, p7] 4 = p4 ∧
    projectedAt [p0, p1, p2, p3, p4, p5, p6, p7] 5 = p5 ∧
    projectedAt [p0, p1, p2, p3, p4, p5, p6, p7] 6 = p6 ∧
    projectedAt [p0, p1, p2, p3, p4, p5, p6, p7] 7 = p7 :=
  ⟨rfl, rfl, rfl, rfl, rfl, rfl, rfl, rfl⟩

theorem Cube.Initialised.projectedVertices_eq {c : Cube} (hc : c.Initialised)
    (gr : Matrix3D) (gt : Vec3D) :
    c.projectedVertices gr gt =
      [c.projectVertex gr gt ⟨-1, 1, -1⟩, c.projectVertex gr gt ⟨-1, -1, -1⟩,
       c.projectVertex gr gt ⟨1, -1, -1⟩, c.projectVertex gr gt ⟨1, 1, -1⟩,
       c.projectVertex gr gt ⟨-1, 1, 1⟩, c.projectVertex gr gt ⟨-1, -1, 1⟩,
       c.projectVertex gr gt ⟨1, -1, 1⟩, c.projectVertex gr gt ⟨1, 1, 1⟩] := by
  unfold QuadModel.projectedVertices
  rw [hc.1, Initialize_vertices]
  rfl

/-- The winding reads the first three indices of a face only. -/
theorem windingZ_congr (npv : List Vec3D) {f g : Quad} (h1 : f.v1 = g.v1) (h2 : f.v2 = g.v2)
    (h3 : f.v3 = g.v3) : QuadModel.windingZ npv f = QuadModel.windingZ npv g := by
  unfold QuadModel.windingZ
  rw [h1, h2, h3]

/-- In exact arithmetic the projected windings of two faces of an initialised cube with the
indices of an opposite pair are negatives of each other, whatever the local and the view
transform. -/
theorem Cube.Initialised.winding_neg {c : Cube} (hc : c.Initialised) (gr : Matrix3D)
    (gt : Vec3D) (fa fb : Quad)
    (h : (fa.indices = (0, 1, 2, 3) ∧ fb.indices = (7, 6, 5, 4)) ∨
         (fa.indices = (2, 6, 7, 3) ∧ fb.indices = (4, 5, 1, 0)) ∨
         (fa.indices = (0, 3, 7, 4) ∧ fb.indices = (1, 5, 6, 2))) :
    QuadModel.windingZ (c.projectedVertices gr gt) fb =
      - QuadModel.windingZ (c.projectedVertices gr gt) fa := by
  rw [hc.projectedVertices_eq gr gt]
  obtain ⟨q0, q1, q2, q3, q4, q5, q6, q7⟩ := projectedAt_list
    (c.projectVertex gr gt ⟨-1, 1, -1⟩) (c.projectVertex gr gt ⟨-1, -1, -1⟩)
    (c.projectVertex gr gt ⟨1, -1, -1⟩) (c.projectVertex gr gt ⟨1, 1, -1⟩)
    (c.projectVertex gr gt ⟨-1, 1, 1⟩) (c.projectVertex gr gt ⟨-1, -1, 1⟩)
    (c.projectVertex gr gt ⟨1, -1, 1⟩) (c.projectVertex gr gt ⟨1, 1, 1⟩)
  simp only [Quad.indices, Prod.mk.injEq] at h
  unfold QuadModel.windingZ
  rcases h with ⟨⟨a1, a2, a3, -⟩, b1, b2, b3, -⟩ | ⟨⟨a1, a2, a3, -⟩, b1, b2, b3, -⟩ |
    ⟨⟨a1, a2, a3, -⟩, b1, b2, b3, -⟩
  · rw [a1, a2, a3, b1, b2, b3, q0, q1, q2, q5, q6, q7]
    simp only [QuadModel.projectVertex, Vec3D.sub, Vec3D.Cross, Matrix3D.mulVec, Vec3D.smul,
      Vec3D.add]
    ring
  · rw [a1, a2, a3, b1, b2, b3, q1, q2, q4, q5, q6, q7]
    simp only [QuadModel.projectVertex, Vec3D.sub, Vec3D.Cross, Matrix3D.mulVec, Vec3D.smul,
      Vec3D.add]
    ring
  · rw [a1, a2, a3, b1, b2, b3, q0, q1, q3, q5, q6, q7]
    simp only [QuadModel.projectVertex, Vec3D.sub, Vec3D.Cross, Matrix3D.mulVec, Vec3D.smul,
      Vec3D.add]
    ring

/-- Of six faces in three pairs with opposite quantities, at most three have a positive
one. -/
theorem filter_opposite_le (w : Quad → ℚ) (f0 f1 f2 f3 f4 f5 : Quad)
    (h02 : w f2 = - w f0) (h13 : w f3 = - w f1) (h45 : w f5 = - w f4) :
    ([f0, f1, f2, f3, f4, f5].filter (fun f => decide (0 < w f))).length ≤ 3 := by
  simp only [List.filter_cons, List.filter_nil, decide_eq_true_eq]
  split_ifs <;> first | (exfalso; linarith) | simp

theorem Cube.Initialised.validFaces {c : Cube} (hc : c.Initialised) :
    c.vertices.length = 8 ∧ QuadModel.ValidFaces c := by
  have hlen : c.vertices.length = 8 := by
    rw [hc.1, Initialize_vertices]
    rfl
  refine ⟨hlen, ?_⟩
  obtain ⟨f0, f1, f2, f3, f4, f5, hf, i0, i1, i2, i3, i4, i5⟩ := hc.faces_eq
  intro f hfm
  rw [hf] at hfm
  rw [hlen]
  simp only [Quad.indices, Prod.mk.injEq] at i0 i1 i2 i3 i4 i5
  simp only [List.mem_cons, List.mem_singleton, List.not_mem_nil, or_false] at hfm
  unfold QuadModel.ValidFace
  rcases hfm with rfl | rfl | rfl | rfl | rfl | rfl
  · rw [i0.1, i0.2.1, i0.2.2.1, i0.2.2.2]; decide
  · rw [i1.1, i1.2.1, i1.2.2.1, i1.2.2.2]; decide
  · rw [i2.1, i2.2.1, i2.2.2.1, i2.2.2.2]; decide
  · rw [i3.1, i3.2.1, i3.2.2.1, i3.2.2.2]; decide
  · rw [i4.1, i4.2.1, i4.2.2.1, i4.2.2.2]; decide
  · rw [i5.1, i5.2.1, i5.2.2.1, i5.2.2.2]; decide

end rubiks

namespace rubiks

/-- A face whose emitted copy is among the emitted copies of the kept faces has a positive
winding. -/
theorem emitted_mem_pos (npv : List Vec3D) (size : Int) (fs : List Quad) (fa : Quad)
    (h : QuadModel.emittedFace npv size fa ∈
      (fs.filter (fun f => decide (0 < QuadModel.windingZ npv f))).map
        (QuadModel.emittedFace npv size)) :
    0 < QuadModel.windingZ npv fa := by
  obtain ⟨g, hg, he⟩ := List.mem_map.1 h
  have hpos : 0 < QuadModel.windingZ npv g := by
    simpa using (List.mem_filter.1 hg).2
  simp only [QuadModel.emittedFace, Quad.mk.injEq, add_left_inj] at he
  rw [← windingZ_congr npv he.1 he.2.1 he.2.2.1]
  exact hpos

/-- In exact arithmetic: the faces that `QuadModel::Project` emits for an initialised cube
are at most 3, and never both faces of an opposite pair. -/
theorem Cube.Initialised.Project_le {c : Cube} (hc : c.Initialised) (gr : Matrix3D)
    (gt : Vec3D) (pv : List Vec3D) (vf : List Quad) :
    ∃ new : List Quad,
      c.Project gr gt pv vf = some (pv ++ c.projectedVertices gr gt, vf ++ new) ∧
      new.length ≤ 3 ∧
      ∀ p ∈ oppositePairs, ∀ fa fb : Quad,
        vecGet c.faces p.1 = some fa → vecGet c.faces p.2 = some fb →
        QuadModel.windingZ (c.projectedVertices gr gt) fb =
          - QuadModel.windingZ (c.projectedVertices gr gt) fa ∧
        ¬ (QuadModel.emittedFace (c.projectedVertices gr gt) pv.length fa ∈ new ∧
           QuadModel.emittedFace (c.projectedVertices gr gt) pv.length fb ∈ new) := by
  obtain ⟨f0, f1, f2, f3, f4, f5, hf, i0, i1, i2, i3, i4, i5⟩ := hc.faces_eq
  have h02 := hc.winding_neg gr gt f0 f2 (Or.inl ⟨i0, i2⟩)
  have h13 := hc.winding_neg gr gt f1 f3 (Or.inr (Or.inl ⟨i1, i3⟩))
  have h45 := hc.winding_neg gr gt f4 f5 (Or.inr (Or.inr ⟨i4, i5⟩))
  refine ⟨_, QuadModel.Project_spec c gr gt pv vf hc.validFaces.2, ?_, ?_⟩
  · rw [List.length_map, hf]
    exact filter_opposite_le _ f0 f1 f2 f3 f4 f5 h02 h13 h45
  · have key : ∀ fa fb : Quad,
        QuadModel.windingZ (c.projectedVertices gr gt) fb =
          - QuadModel.windingZ (c.projectedVertices gr gt) fa →
        QuadModel.windingZ (c.projectedVertices gr gt) fb =
          - QuadModel.windingZ (c.projectedVertices gr gt) fa ∧
        ¬ (QuadModel.emittedFace (c.projectedVertices gr gt) pv.length fa ∈
            (c.faces.filter (fun f => decide (0 <
              QuadModel.windingZ (c.projectedVertices gr gt) f))).map
              (QuadModel.emittedFace (c.projectedVertices gr gt) pv.length) ∧
           QuadModel.emittedFace (c.projectedVertices gr gt) pv.length fb ∈
            (c.faces.filter (fun f => decide (0 <
              QuadModel.windingZ (c.projectedVertices gr gt) f))).map
              (QuadModel.emittedFace (c.projectedVertices gr gt) pv.length)) := by
      intro fa fb hn
      refine ⟨hn, ?_⟩
      rintro ⟨ha, hb⟩
      have pa := emitted_mem_pos _ _ _ fa ha
      have pb := emitted_mem_pos _ _ _ fb hb
      linarith
    intro p hp fa fb ga gb
    rw [hf] at ga gb
    simp only [oppositePairs, List.mem_cons, List.mem_singleton, List.not_mem_nil, or_false]
      at hp
    rcases hp with rfl | rfl | rfl
    · have ea : fa = f0 := by
        have : vecGet [f0, f1, f2, f3, f4, f5] FACE_Z_MINUS = some f0 := rfl
        rw [this, Option.some.injEq] at ga
        exact ga.symm
      have eb : fb = f2 := by
        have : vecGet [f0, f1, f2, f3, f4, f5] FACE_Z_PLUS = some f2 := rfl
        rw [this, Option.some.injEq] at gb
        exact gb.symm
      rw [ea, eb]
      exact key f0 f2 h02
    · have ea : fa = f1 := by
        have : vecGet [f0, f1, f2, f3, f4, f5] FACE_X_PLUS = some f1 := rfl
        rw [this, Option.some.injEq] at ga
        exact ga.symm
      have eb : fb = f3 := by
        have : vecGet [f0, f1, f2, f3, f4, f5] FACE_X_MINUS = some f3 := rfl
        rw [this, Option.some.injEq] at gb
        exact gb.symm
      rw [ea, eb]
      exact key f1 f3 h13
    · have ea : fa = f4 := by
        have : vecGet [f0, f1, f2, f3, f4, f5] FACE_Y_PLUS = some f4 := rfl
        rw [this, Option.some.injEq] at ga
        exact ga.symm
      have eb : fb = f5 := by
        have : vecGet [f0, f1, f2, f3, f4, f5] FACE_Y_MINUS = some f5 := rfl
        rw [this, Option.some.injEq] at gb
        exact gb.symm
      rw [ea, eb]
      exact key f4 f5 h45

namespace RubiksCube

/-- In exact arithmetic: the loop of `RubiksCube::Project` over initialised sub-cubes
succeeds and appends at most 3 faces for each sub-cube. -/
theorem projectLoop_length (gr : Matrix3D) (gt : Vec3D) :
    ∀ (cs : List Cube) (pv : List Vec3D) (vf : List Quad),
      (∀ c ∈ cs, c.Initialised) →
      ∃ pv' vf', projectLoop gr gt cs pv vf = some (pv', vf') ∧
        vf'.length ≤ vf.length + 3 * cs.length := by
  intro cs
  induction cs with
  | nil =>
    intro pv vf _
    exact ⟨pv, vf, rfl, by simp⟩
  | cons c cs ih =>
    intro pv vf hcs
    obtain ⟨new, e, hle, -⟩ :=
      (hcs c (List.mem_cons_self _ _)).Project_le gr gt pv vf
    obtain ⟨pv', vf', e', hle'⟩ := ih (pv ++ c.projectedVertices gr gt) (vf ++ new)
      (fun c' hc' => hcs c' (List.mem_cons_of_mem _ hc'))
    refine ⟨pv', vf', ?_, ?_⟩
    · rw [projectLoop, e, Option.some_bind]
      exact e'
    · rw [List.length_append] at hle'
      rw [List.length_cons]
      omega

/-- In exact arithmetic: the method `RubiksCube::Project` on 27 initialised sub-cubes
succeeds and emits at most 81 faces. -/
theorem Project_length (sort : (Quad → Quad → Bool) → List Quad → List Quad)
    (hs : StdSortContract sort) (r : RubiksCube) (h27 : r.cubes.length = 27)
    (hi : ∀ c ∈ r.cubes, c.Initialised) (pv : List Vec3D) (vf : List Quad) :
    ∃ pv' vf', r.Project sort pv vf = some (pv', vf') ∧ vf'.length ≤ vf.length + 81 := by
  obtain ⟨pv', vf', e, hle⟩ :=
    projectLoop_length r.global_rotation r.global_translation r.cubes pv vf hi
  refine ⟨pv', geometry.Zsort sort vf', ?_, ?_⟩
  · rw [Project, e, Option.some_bind]
  · have hp := (hs geometry.CompDepth vf' CompDepth_strictWeakOrder).1
    unfold geometry.Zsort
    rw [hp.length_eq]
    omega

end RubiksCube

end rubiks

namespace rubiks

theorem sampleSheared_Initialised : Cube.sampleSheared.Initialised := ⟨rfl, rfl⟩

theorem sample_Initialised : ∀ c ∈ RubiksCube.sample.cubes, c.Initialised := by
  intro c hc
  simp only [RubiksCube.sample, List.mem_map, List.mem_range] at hc
  obtain ⟨i, -, rfl⟩ := hc
  exact ⟨rfl, rfl⟩

end rubiks

namespace rubiks

namespace MouseHandler

/-! ## The three face tests of `Click` exclude each other -/

/-- Two numbers that lie beyond `u` and `v`, away from zero, do not have the product
`u * v`. -/
theorem excl_core {u v p q : ℚ} (hu : (u < 0 ∧ q < u) ∨ (0 < u ∧ u < q))
    (hv : (v < 0 ∧ p < v) ∨ (0 < v ∧ v < p)) (hpq : p * q = u * v) : False := by
  rcases hu with ⟨hu, hq⟩ | ⟨hu, hq⟩ <;> rcases hv with ⟨hv, hp⟩ | ⟨hv, hp⟩
  · have h1 := mul_pos_of_neg_of_neg (sub_neg.2 hp) (hq.trans hu)
    have h2 := mul_pos_of_neg_of_neg hv (sub_neg.2 hq)
    linarith
  · have h1 := mul_pos (sub_pos.2 hp) (neg_pos.2 (hq.trans hu))
    have h2 := mul_pos hv (sub_pos.2 hq)
    linarith
  · have h1 := mul_pos (neg_pos.2 (hp.trans hv)) (sub_pos.2 hq)
    have h2 := mul_pos hu (sub_pos.2 hp)
    linarith
  · have h1 := mul_pos (sub_pos.2 hp) (hu.trans hq)
    have h2 := mul_pos hv (sub_pos.2 hq)
    linarith

/-- From outside the slab, a point strictly inside it lies beyond the face plane. -/
theorem side_cases {a b : ℚ} (h1 : |a| > 90) (h2 : |a + b| < 90) :
    (Sign a * 90 - a < 0 ∧ b < Sign a * 90 - a) ∨
    (0 < Sign a * 90 - a ∧ Sign a * 90 - a < b) := by
  rw [abs_lt] at h2
  rcases lt_abs.1 h1 with h | h
  · left
    rw [Sign_pos (by linarith)]
    constructor <;> linarith
  · right
    rw [Sign_neg (by linarith)]
    constructor <;> linarith

/-- In the plane of two axes, a line does not meet both face segments that are on the side
of a point outside both slabs. -/
theorem excl_two {oa ob da db : ℚ} (ha : da ≠ 0) (hb : db ≠ 0) (h1 : |oa| > 90)
    (h3 : |ob| > 90) (h2 : |ob + db * ((Sign oa * 90 - oa) / da)| < 90)
    (h4 : |oa + da * ((Sign ob * 90 - ob) / db)| < 90) : False := by
  apply excl_core (side_cases h1 h4) (side_cases h3 h2)
  field_simp
  ring

theorem testX_testY {o d : Vec3D} (hx : d.x ≠ 0) (hy : d.y ≠ 0) :
    ¬ (testX o d ∧ testY o d) := by
  rintro ⟨⟨h1, h2, -⟩, h3, h4, -⟩
  simp only [hitX, hitY, Vec3D.add, Vec3D.smul, RubiksCube.RUBIKS_SIZE_eq] at h1 h2 h3 h4
  exact excl_two hx hy h1 h3 h2 h4

theorem testX_testZ {o d : Vec3D} (hx : d.x ≠ 0) (hz : d.z ≠ 0) :
    ¬ (testX o d ∧ testZ o d) := by
  rintro ⟨⟨h1, -, h2⟩, h3, h4, -⟩
  simp only [hitX, hitZ, Vec3D.add, Vec3D.smul, RubiksCube.RUBIKS_SIZE_eq] at h1 h2 h3 h4
  exact excl_two hx hz h1 h3 h2 h4

theorem testY_testZ {o d : Vec3D} (hy : d.y ≠ 0) (hz : d.z ≠ 0) :
    ¬ (testY o d ∧ testZ o d) := by
  rintro ⟨⟨h1, -, h2⟩, h3, -, h4⟩
  simp only [hitY, hitZ, Vec3D.add, Vec3D.smul, RubiksCube.RUBIKS_SIZE_eq] at h1 h2 h3 h4
  exact excl_two hy hz h1 h3 h2 h4

theorem clickX_isSome_iff (m : MouseHandler) {o d : Vec3D} (hx : d.x ≠ 0) :
    (clickX m o d).isSome = true ↔ testX o d := by
  constructor
  · intro h
    obtain ⟨m', hm'⟩ := Option.isSome_iff_exists.1 h
    obtain ⟨h1, -, h2, h3⟩ := clickX_spec hm'
    exact ⟨h1, h2, h3⟩
  · rintro ⟨h1, h2, h3⟩
    rw [clickX_hit m h1 hx h2 h3]
    rfl

theorem clickY_isSome_iff (m : MouseHandler) {o d : Vec3D} (hy : d.y ≠ 0) :
    (clickY m o d).isSome = true ↔ testY o d := by
  constructor
  · intro h
    obtain ⟨m', hm'⟩ := Option.isSome_iff_exists.1 h
    obtain ⟨h1, -, h2, h3⟩ := clickY_spec hm'
    exact ⟨h1, h2, h3⟩
  · rintro ⟨h1, h2, h3⟩
    rw [clickY_hit m h1 hy h2 h3]
    rfl

theorem clickZ_isSome_iff (m : MouseHandler) {o d : Vec3D} (hz : d.z ≠ 0) :
    (clickZ m o d).isSome = true ↔ testZ o d := by
  constructor
  · intro h
    obtain ⟨m', hm'⟩ := Option.isSome_iff_exists.1 h
    obtain ⟨h1, -, h2, h3⟩ := clickZ_spec hm'
    exact ⟨h1, h2, h3⟩
  · rintro ⟨h1, h2, h3⟩
    rw [clickZ_hit m h1 hz h2 h3]
    rfl

/-- The intersection that a block computes lies on the face plane on the side of the ray
origin. -/
theorem hit_on_plane {o d : Vec3D} (hx : d.x ≠ 0) (hy : d.y ≠ 0) (hz : d.z ≠ 0) :
    (hitX o d).x = Sign o.x * RUBIKS_SIZE ∧ (hitY o d).y = Sign o.y * RUBIKS_SIZE ∧
    (hitZ o d).z = Sign o.z * RUBIKS_SIZE := by
  simp only [hitX, hitY, hitZ, Vec3D.add, Vec3D.smul]
  refine ⟨?_, ?_, ?_⟩ <;> field_simp

end MouseHandler

end rubiks

namespace rubiks

namespace MouseHandler

/-- The lists that are a rearrangement of the three axes. -/
theorem axis_orders {order : List Int} (h : order.Perm [AXIS_X, AXIS_Y, AXIS_Z]) :
    order = [AXIS_X, AXIS_Y, AXIS_Z] ∨ order = [AXIS_X, AXIS_Z, AXIS_Y] ∨
    order = [AXIS_Y, AXIS_X, AXIS_Z] ∨ order = [AXIS_Y, AXIS_Z, AXIS_X] ∨
    order = [AXIS_Z, AXIS_X, AXIS_Y] ∨ order = [AXIS_Z, AXIS_Y, AXIS_X] := by
  have hlen : order.length = 3 := h.length_eq
  have hnd : order.Nodup := h.nodup_iff.2 (by decide)
  match order, hlen, hnd, h with
  | [a, b, c], _, hnd, h =>
    have ha : a ∈ [AXIS_X, AXIS_Y, AXIS_Z] := h.subset (by simp)
    have hb : b ∈ [AXIS_X, AXIS_Y, AXIS_Z] := h.subset (by simp)
    have hc : c ∈ [AXIS_X, AXIS_Y, AXIS_Z] := h.subset (by simp)
    simp only [List.mem_cons, List.mem_singleton, List.not_mem_nil, or_false] at ha hb hc
    rcases ha with rfl | rfl | rfl <;> rcases hb with rfl | rfl | rfl <;>
      rcases hc with rfl | rfl | rfl <;>
      first
      | (exfalso; revert hnd; decide)
      | simp

/-- With at most one of three results present, the first present one is the same in every
order. -/
theorem first_any_order {α : Type} (cx cy cz : Option α) (dflt : α)
    (hxy : ¬ (cx.isSome = true ∧ cy.isSome = true))
    (hxz : ¬ (cx.isSome = true ∧ cz.isSome = true))
    (hyz : ¬ (cy.isSome = true ∧ cz.isSome = true)) :
    (cx.orElse fun _ => cz.orElse fun _ => cy).getD dflt =
      (cx.orElse fun _ => cy.orElse fun _ => cz).getD dflt ∧
    (cy.orElse fun _ => cx.orElse fun _ => cz).getD dflt =
      (cx.orElse fun _ => cy.orElse fun _ => cz).getD dflt ∧
    (cy.orElse fun _ => cz.orElse fun _ => cx).getD dflt =
      (cx.orElse fun _ => cy.orElse fun _ => cz).getD dflt ∧
    (cz.orElse fun _ => cx.orElse fun _ => cy).getD dflt =
      (cx.orElse fun _ => cy.orElse fun _ => cz).getD dflt ∧
    (cz.orElse fun _ => cy.orElse fun _ => cx).getD dflt =
      (cx.orElse fun _ => cy.orElse fun _ => cz).getD dflt := by
  cases cx <;> cases cy <;> cases cz <;> simp_all

/-- The variant of `Click` on a list of three axes, as a chain of alternatives. -/
theorem ClickIn_three (m : MouseHandler) (a b c : Int) (mouse_pos : Vec3D) :
    m.ClickIn [a, b, c] mouse_pos =
      ((clickBlock a m (m.rayPos mouse_pos) m.rayVec).orElse fun _ =>
        (clickBlock b m (m.rayPos mouse_pos) m.rayVec).orElse fun _ =>
          clickBlock c m (m.rayPos mouse_pos) m.rayVec).getD
        { m with m_state := MOUSE_STATE_ROTATE_VIEW } := by
  unfold ClickIn
  cases ha : clickBlock a m (m.rayPos mouse_pos) m.rayVec <;>
    cases hb : clickBlock b m (m.rayPos mouse_pos) m.rayVec <;>
    cases hc : clickBlock c m (m.rayPos mouse_pos) m.rayVec <;>
    simp [List.findSome?, ha, hb, hc]

theorem clickBlock_axes (m : MouseHandler) (o d : Vec3D) :
    clickBlock AXIS_X m o d = clickX m o d ∧ clickBlock AXIS_Y m o d = clickY m o d ∧
    clickBlock AXIS_Z m o d = clickZ m o d :=
  ⟨rfl, rfl, rfl⟩

/-- The source's `Click` is the variant with the order X, Y, Z. -/
theorem Click_eq_ClickIn (m : MouseHandler) (mouse_pos : Vec3D) :
    m.Click mouse_pos = m.ClickIn [AXIS_X, AXIS_Y, AXIS_Z] mouse_pos := by
  rw [Click_eq, ClickIn_three, (clickBlock_axes m _ _).1, (clickBlock_axes m _ _).2.1,
    (clickBlock_axes m _ _).2.2]
  cases clickX m (m.rayPos mouse_pos) m.rayVec <;>
    cases clickY m (m.rayPos mouse_pos) m.rayVec <;>
    cases clickZ m (m.rayPos mouse_pos) m.rayVec <;> rfl

/-- With a ray direction that has no zero component, `Click` gives the same state whatever
the order of its three blocks. -/
theorem ClickIn_any_order (m : MouseHandler) (mouse_pos : Vec3D) (hx : m.rayVec.x ≠ 0)
    (hy : m.rayVec.y ≠ 0) (hz : m.rayVec.z ≠ 0) (order : List Int)
    (h : order.Perm [AXIS_X, AXIS_Y, AXIS_Z]) :
    m.ClickIn order mouse_pos = m.Click mouse_pos := by
  have hxy : ¬ ((clickX m (m.rayPos mouse_pos) m.rayVec).isSome = true ∧
      (clickY m (m.rayPos mouse_pos) m.rayVec).isSome = true) := by
    rw [clickX_isSome_iff m hx, clickY_isSome_iff m hy]
    exact testX_testY hx hy
  have hxz : ¬ ((clickX m (m.rayPos mouse_pos) m.rayVec).isSome = true ∧
      (clickZ m (m.rayPos mouse_pos) m.rayVec).isSome = true) := by
    rw [clickX_isSome_iff m hx, clickZ_isSome_iff m hz]
    exact testX_testZ hx hz
  have hyz : ¬ ((clickY m (m.rayPos mouse_pos) m.rayVec).isSome = true ∧
      (clickZ m (m.rayPos mouse_pos) m.rayVec).isSome = true) := by
    rw [clickY_isSome_iff m hy, clickZ_isSome_iff m hz]
    exact testY_testZ hy hz
  obtain ⟨e1, e2, e3, e4, e5⟩ := first_any_order _ _ _
    { m with m_state := MOUSE_STATE_ROTATE_VIEW } hxy hxz hyz
  obtain ⟨bx, bY, bz⟩ := clickBlock_axes m (m.rayPos mouse_pos) m.rayVec
  rw [Click_eq_ClickIn]
  rcases axis_orders h with rfl | rfl | rfl | rfl | rfl | rfl
  · rfl
  · rw [ClickIn_three, ClickIn_three, bx, bY, bz]
    exact e1
  · rw [ClickIn_three, ClickIn_three, bx, bY, bz]
    exact e2
  · rw [ClickIn_three, ClickIn_three, bx, bY, bz]
    exact e3
  · rw [ClickIn_three, ClickIn_three, bx, bY, bz]
    exact e4
  · rw [ClickIn_three, ClickIn_three, bx, bY, bz]
    exact e5

end MouseHandler

end rubiks

namespace rubiks

namespace MouseHandler

theorem sampleTilted_rayPos :
    sampleTilted.rayPos ⟨200, 180, 0⟩ = ⟨220 / 3, -380 / 3, -320 / 3⟩ := by
  simp only [rayPos, sampleTilted, m_rubiks, MouseHandler.new, InitializeState,
    AnimationHandler.new, RubiksCube.sample, Matrix3D.Transpose, Matrix3D.mulVec, Vec3D.sub,
    Vec3D.mk.injEq]
  norm_num

theorem sampleTilted_rayVec : sampleTilted.rayVec = ⟨-1 / 3, 2 / 3, 2 / 3⟩ := by
  simp only [rayVec, sampleTilted, m_rubiks, MouseHandler.new, InitializeState,
    AnimationHandler.new, RubiksCube.sample, Matrix3D.Transpose, Matrix3D.mulVec,
    Vec3D.mk.injEq]
  norm_num

theorem sampleTilted_testY :
    testY ⟨220 / 3, -380 / 3, -320 / 3⟩ ⟨-1 / 3, 2 / 3, 2 / 3⟩ := by
  have hs : Sign (-380 / 3 : ℚ) = -1 := Sign_neg (by norm_num)
  simp only [testY, hitY, Vec3D.add, Vec3D.smul, RubiksCube.RUBIKS_SIZE_eq, hs]
  norm_num [abs_lt, lt_abs]

end MouseHandler

end rubiks

/-! ## Evaluation of binary64 roundings -/

namespace ieee

theorem roundEven_of_abs_lt {y : ℚ} {m : Int} (h : |y - m| < 1 / 2) : roundEven y = m := by
  rw [abs_lt] at h
  unfold roundEven
  rcases le_or_lt (m : ℚ) y with hm | hm
  · have hf : ⌊y⌋ = m := by
      rw [Int.floor_eq_iff]
      constructor <;> linarith
    rw [hf, if_pos (by linarith)]
  · have hf : ⌊y⌋ = m - 1 := by
      rw [Int.floor_eq_iff]
      push_cast
      constructor <;> linarith
    rw [hf]
    push_cast
    rw [if_neg (by linarith), if_pos (by linarith)]
    ring

theorem roundEven_tie_down {y : ℚ} {m : Int} (h : y = m + 1 / 2) (he : m % 2 = 0) :
    roundEven y = m := by
  have hf : ⌊y⌋ = m := by
    rw [Int.floor_eq_iff]
    constructor <;> linarith
  unfold roundEven
  rw [hf, if_neg (by linarith), if_neg (by linarith), if_pos he]

theorem roundEven_tie_up {y : ℚ} {m : Int} (h : y = m - 1 / 2) (he : m % 2 = 0) :
    roundEven y = m := by
  have hf : ⌊y⌋ = m - 1 := by
    rw [Int.floor_eq_iff]
    push_cast
    constructor <;> linarith
  unfold roundEven
  rw [hf]
  push_cast
  rw [if_neg (by linarith), if_neg (by linarith), if_neg (by omega)]
  ring

theorem ulpExp_eq {x : ℚ} {e : Int} (h1 : (2 : ℚ) ^ (e + 52) ≤ |x|)
    (h2 : |x| < (2 : ℚ) ^ (e + 53)) : ulpExp x = e := by
  have hpos : 0 < |x| := lt_of_lt_of_le (zpow_pos (by norm_num) _) h1
  have hl : Int.log 2 |x| = e + 52 := by
    apply le_antisymm
    · have := (Int.lt_zpow_iff_log_lt (b := 2) (by norm_num) hpos).1 h2
      omega
    · exact (Int.zpow_le_iff_le_log (b := 2) (by norm_num) hpos).1 (by exact_mod_cast h1)
  unfold ulpExp
  rw [hl]
  ring

theorem rnd_of_roundEven {x : ℚ} {e m : Int} (h1 : (2 : ℚ) ^ (e + 52) ≤ |x|)
    (h2 : |x| < (2 : ℚ) ^ (e + 53)) (h3 : roundEven (x / 2 ^ e) = m) :
    rnd x = m * 2 ^ e := by
  have hpos : 0 < |x| := lt_of_lt_of_le (zpow_pos (by norm_num) _) h1
  have hx : x ≠ 0 := abs_pos.1 hpos
  unfold rnd
  rw [if_neg hx, ulpExp_eq h1 h2, h3]

/-- Evaluation of a rounding: `x` lies in the binade with unit `2 ^ e` and `m` is the
nearest multiple. -/
theorem rnd_eq {x : ℚ} (e m : Int) (h1 : (2 : ℚ) ^ (e + 52) ≤ |x|)
    (h2 : |x| < (2 : ℚ) ^ (e + 53)) (h3 : |x / 2 ^ e - m| < 1 / 2) :
    rnd x = m * 2 ^ e :=
  rnd_of_roundEven h1 h2 (roundEven_of_abs_lt h3)

theorem roundEven_of_lt {y : ℚ} {m : Int} (h3 : (m : ℚ) - 1 / 2 < y)
    (h4 : y < (m : ℚ) + 1 / 2) : roundEven y = m := by
  apply roundEven_of_abs_lt
  rw [abs_lt]
  constructor <;> linarith

/-- Evaluation of the rounding of a positive `x` in the binade with unit `2 ^ e`. -/
theorem rnd_pos_eq {x : ℚ} (e m : Int) (h1 : (2 : ℚ) ^ (e + 52) ≤ x)
    (h2 : x < (2 : ℚ) ^ (e + 53)) (h3 : roundEven (x / 2 ^ e) = m) :
    rnd x = m * 2 ^ e := by
  have hx : 0 < x := lt_of_lt_of_le (zpow_pos (by norm_num) _) h1
  apply rnd_of_roundEven _ _ h3
  · rwa [abs_of_pos hx]
  · rwa [abs_of_pos hx]

/-- Evaluation of the rounding of a negative `x` in the binade with unit `2 ^ e`. -/
theorem rnd_neg_eq {x : ℚ} (e m : Int) (h1 : (2 : ℚ) ^ (e + 52) ≤ -x)
    (h2 : -x < (2 : ℚ) ^ (e + 53)) (h3 : roundEven (x / 2 ^ e) = m) :
    rnd x = m * 2 ^ e := by
  have hx : x < 0 := by
    have := lt_of_lt_of_le (zpow_pos (by norm_num : (0 : ℚ) < 2) (e + 52)) h1
    linarith
  apply rnd_of_roundEven _ _ h3
  · rwa [abs_of_neg hx]
  · rwa [abs_of_neg hx]

theorem rnd_zero : rnd 0 = 0 := by
  unfold rnd
  rw [if_pos rfl]

/-- Evaluation of a rounded addition whose exact sum is positive. -/
theorem add_pos_eval {a b c : ℚ} (e m : Int) (h1 : (2 : ℚ) ^ (e + 52) ≤ a + b)
    (h2 : a + b < (2 : ℚ) ^ (e + 53)) (h3 : roundEven ((a + b) / 2 ^ e) = m)
    (hc : (m : ℚ) * 2 ^ e = c) : add a b = c := by
  unfold add
  rw [rnd_pos_eq e m h1 h2 h3, hc]

/-- Evaluation of a rounded addition whose exact sum is negative. -/
theorem add_neg_eval {a b c : ℚ} (e m : Int) (h1 : (2 : ℚ) ^ (e + 52) ≤ -(a + b))
    (h2 : -(a + b) < (2 : ℚ) ^ (e + 53)) (h3 : roundEven ((a + b) / 2 ^ e) = m)
    (hc : (m : ℚ) * 2 ^ e = c) : add a b = c := by
  unfold add
  rw [rnd_neg_eq e m h1 h2 h3, hc]

theorem sub_pos_eval {a b c : ℚ} (e m : Int) (h1 : (2 : ℚ) ^ (e + 52) ≤ a - b)
    (h2 : a - b < (2 : ℚ) ^ (e + 53)) (h3 : roundEven ((a - b) / 2 ^ e) = m)
    (hc : (m : ℚ) * 2 ^ e = c) : sub a b = c := by
  unfold sub
  rw [rnd_pos_eq e m h1 h2 h3, hc]

theorem sub_neg_eval {a b c : ℚ} (e m : Int) (h1 : (2 : ℚ) ^ (e + 52) ≤ -(a - b))
    (h2 : -(a - b) < (2 : ℚ) ^ (e + 53)) (h3 : roundEven ((a - b) / 2 ^ e) = m)
    (hc : (m : ℚ) * 2 ^ e = c) : sub a b = c := by
  unfold sub
  rw [rnd_neg_eq e m h1 h2 h3, hc]

theorem mul_pos_eval {a b c : ℚ} (e m : Int) (h1 : (2 : ℚ) ^ (e + 52) ≤ a * b)
    (h2 : a * b < (2 : ℚ) ^ (e + 53)) (h3 : roundEven (a * b / 2 ^ e) = m)
    (hc : (m : ℚ) * 2 ^ e = c) : mul a b = c := by
  unfold mul
  rw [rnd_pos_eq e m h1 h2 h3, hc]

theorem mul_neg_eval {a b c : ℚ} (e m : Int) (h1 : (2 : ℚ) ^ (e + 52) ≤ -(a * b))
    (h2 : -(a * b) < (2 : ℚ) ^ (e + 53)) (h3 : roundEven (a * b / 2 ^ e) = m)
    (hc : (m : ℚ) * 2 ^ e = c) : mul a b = c := by
  unfold mul
  rw [rnd_neg_eq e m h1 h2 h3, hc]

theorem div_pos_eval {a b c : ℚ} (e m : Int) (h1 : (2 : ℚ) ^ (e + 52) ≤ a / b)
    (h2 : a / b < (2 : ℚ) ^ (e + 53)) (h3 : roundEven (a / b / 2 ^ e) = m)
    (hc : (m : ℚ) * 2 ^ e = c) : div a b = c := by
  unfold div
  rw [rnd_pos_eq e m h1 h2 h3, hc]

theorem div_neg_eval {a b c : ℚ} (e m : Int) (h1 : (2 : ℚ) ^ (e + 52) ≤ -(a / b))
    (h2 : -(a / b) < (2 : ℚ) ^ (e + 53)) (h3 : roundEven (a / b / 2 ^ e) = m)
    (hc : (m : ℚ) * 2 ^ e = c) : div a b = c := by
  unfold div
  rw [rnd_neg_eq e m h1 h2 h3, hc]

end ieee

namespace rubiks

namespace AnimationHandler

/-! ## `Step` in `double` arithmetic -/

theorem stepN64_succ (T : Trig) (k : Nat) :
    ∀ h : AnimationHandler,
      stepN64 T (k + 1) h = (stepN64 T k h).bind (fun h' => (Step64 T h').map Prod.snd) := by
  induction k with
  | zero =>
    intro h
    simp only [stepN64, Option.some_bind]
    cases Step64 T h <;> rfl
  | succ k ih =>
    intro h
    rw [stepN64]
    cases hS : Step64 T h with
    | none => rw [stepN64, hS]; rfl
    | some p =>
      rw [Option.some_bind, ih p.2]
      conv_rhs => rw [stepN64, hS, Option.some_bind]

/-- A terminal step of `Step64` on a queue with a single entry. -/
theorem Step64_terminal_last (T : Trig) (h : AnimationHandler) (q : AnimationQueue)
    (hq : h.m_animation_queues = [q]) (ht : Terminal q (h.advanced64 q))
    (rc r' : RubiksCube)
    (hrc : (if q.rotation_type ≠ DEGREE_0 then
        h.m_rubiks.RotateColors q.x q.y q.z q.axis q.rotation_type
      else some h.m_rubiks) = some rc)
    (hr' : rc.InitializeFaceRotation = some r') :
    Step64 T h = some (1, { m_animation_queues := [], m_degree := h.advanced64 q,
                            m_rubiks := r', m_is_animating := false }) := by
  have ht' := (isTerminal_iff q (h.advanced64 q)).2 ht
  obtain ⟨qs, deg, rb, an⟩ := h
  simp only at hq hrc
  subst hq
  by_cases hrt : q.rotation_type ≠ DEGREE_0
  · rw [if_pos hrt] at hrc
    cases an
    · simp only [advanced64, IsAnimating, Bool.false_eq_true, if_false] at ht' ⊢
      simp only [Step64, IsAnimating, Bool.not_false, if_true, ht']
      rw [if_pos hrt, hrc, Option.bind_eq_bind, Option.some_bind, hr', Option.some_bind]
      rfl
    · simp only [advanced64, IsAnimating, if_true] at ht' ⊢
      simp only [Step64, IsAnimating, Bool.not_true, Bool.false_eq_true, if_false, ht',
        if_true]
      rw [if_pos hrt, hrc, Option.bind_eq_bind, Option.some_bind, hr', Option.some_bind]
      rfl
  · rw [if_neg hrt] at hrc
    cases hrc
    cases an
    · simp only [advanced64, IsAnimating, Bool.false_eq_true, if_false] at ht' ⊢
      simp only [Step64, IsAnimating, Bool.not_false, if_true, ht']
      rw [if_neg hrt, Option.bind_eq_bind, Option.some_bind, hr', Option.some_bind]
      rfl
    · simp only [advanced64, IsAnimating, if_true] at ht' ⊢
      simp only [Step64, IsAnimating, Bool.not_true, Bool.false_eq_true, if_false, ht',
        if_true]
      rw [if_neg hrt, Option.bind_eq_bind, Option.some_bind, hr', Option.some_bind]
      rfl

/-- A step of `Step64` that is not terminal. -/
theorem Step64_running (T : Trig) (h : AnimationHandler) (q : AnimationQueue)
    (rest : List AnimationQueue) (hq : h.m_animation_queues = q :: rest)
    (ht : ¬ Terminal q (h.advanced64 q)) (r' : RubiksCube)
    (hr' : h.m_rubiks.RotateFace T q.x q.y q.z q.axis
      (ieee.div (ieee.mul (h.advanced64 q) RUBIKS_PI64) 180) = some r') :
    Step64 T h = some (1, { m_animation_queues := q :: rest, m_degree := h.advanced64 q,
                            m_rubiks := r', m_is_animating := true }) := by
  have ht' : isTerminal q.speed (h.advanced64 q) q.degree_end = false := by
    rw [← Bool.not_eq_true]
    exact fun hc => ht ((isTerminal_iff q _).1 hc)
  obtain ⟨qs, deg, rb, an⟩ := h
  simp only at hq hr'
  subst hq
  cases an
  · simp only [advanced64, IsAnimating, Bool.false_eq_true, if_false] at ht' hr' ⊢
    simp only [Step64, IsAnimating, Bool.not_false, if_true, ht', Bool.false_eq_true,
      if_false]
    rw [hr', Option.bind_eq_bind, Option.some_bind]
    rfl
  · simp only [advanced64, IsAnimating, if_true] at ht' hr' ⊢
    simp only [Step64, IsAnimating, Bool.not_true, Bool.false_eq_true, if_false, ht']
    rw [hr', Option.bind_eq_bind, Option.some_bind]
    rfl

/-- While the running angle has not passed the terminal test, the calls of `Step64` are
`RotateFace` calls that keep the queue and every colour. -/
theorem stepN64_running (T : Trig) (h0 : AnimationHandler) (q : AnimationQueue) (n : Nat)
    (hq0 : h0.m_animation_queues = []) (hidle : h0.IsAnimating = false)
    (hwf : h0.m_rubiks.WF) (hco : q.CoordsOK)
    (hn : ∀ m : Nat, 1 ≤ m → m < n → ¬ Terminal q (runAngle q m)) :
    ∀ k, k < n → ∃ hk, stepN64 T k (h0.Push q) = some hk ∧ hk.m_animation_queues = [q] ∧
      hk.m_rubiks.WF ∧ RubiksCube.ColorsEq h0.m_rubiks hk.m_rubiks ∧
      hk.advanced64 q = runAngle q (k + 1) := by
  intro k
  induction k with
  | zero =>
    intro _
    refine ⟨h0.Push q, rfl, ?_, hwf, RubiksCube.ColorsEq.refl _, ?_⟩
    · simp only [Push, hq0, List.nil_append]
    · have : (h0.Push q).IsAnimating = false := hidle
      simp only [advanced64, this, Bool.false_eq_true, if_false]
      rfl
  | succ k ih =>
    intro hk1
    obtain ⟨hk, e, hqk, wk, ck, ak⟩ := ih (by omega)
    have hrun : ¬ Terminal q (hk.advanced64 q) := by
      rw [ak]
      exact hn (k + 1) (by omega) hk1
    obtain ⟨r', er, wr, cr, -, -⟩ := RubiksCube.RotateFace_spec T wk hco.1 hco.2.1 hco.2.2
      q.axis (ieee.div (ieee.mul (hk.advanced64 q) RUBIKS_PI64) 180)
    have hstep := Step64_running T hk q [] hqk hrun r' er
    refine ⟨{ m_animation_queues := [q], m_degree := hk.advanced64 q, m_rubiks := r',
              m_is_animating := true }, ?_, rfl, wr, ck.trans cr, ?_⟩
    · rw [stepN64_succ, e, Option.some_bind, hstep]
      rfl
    · simp only [advanced64, IsAnimating, if_true] at ak ⊢
      rw [ak]
      rfl

/-- The call at which the running angle first passes the terminal test consumes the
entry, with the colours of one `RotateColors` on the initial state. -/
theorem stepN64_consumed (T : Trig) (h0 : AnimationHandler) (q : AnimationQueue) (n : Nat)
    (hq0 : h0.m_animation_queues = []) (hidle : h0.IsAnimating = false)
    (hwf : h0.m_rubiks.WF) (hco : q.CoordsOK) (hn : ConsumedAt64 q n) :
    ∃ hlast rc, stepN64 T n (h0.Push q) = some hlast ∧ hlast.m_animation_queues = [] ∧
      hlast.IsAnimating = false ∧ hlast.m_rubiks.AtRest ∧
      h0.m_rubiks.RotateColors q.x q.y q.z q.axis q.rotation_type = some rc ∧
      RubiksCube.ColorsEq rc hlast.m_rubiks := by
  obtain ⟨s, e, hqs, ws, cs, as⟩ :=
    stepN64_running T h0 q n hq0 hidle hwf hco hn.2.2 (n - 1) (by have := hn.1; omega)
  have hn1 : n - 1 + 1 = n := by have := hn.1; omega
  rw [hn1] at as
  have hterm : Terminal q (s.advanced64 q) := by
    rw [as]
    exact hn.2.1
  obtain ⟨a, b, ea, eb, wa, wb, cab⟩ := RubiksCube.RotateColors_congr hwf ws cs hco.1
    hco.2.1 hco.2.2 q.axis q.rotation_type
  have hrc : (if q.rotation_type ≠ DEGREE_0 then
      s.m_rubiks.RotateColors q.x q.y q.z q.axis q.rotation_type
    else some s.m_rubiks) = some b := by
    split_ifs with hrt
    · exact eb
    · rw [not_not.1 hrt, RubiksCube.RotateColors_zero] at eb
      exact eb
  obtain ⟨r', er, -, cr, -, -, hrest⟩ := RubiksCube.InitializeFaceRotation_spec wb
  have hstep := Step64_terminal_last T s q hqs hterm b r' hrc er
  refine ⟨{ m_animation_queues := [], m_degree := s.advanced64 q, m_rubiks := r',
            m_is_animating := false }, a, ?_, rfl, rfl, hrest, ea, cab.trans cr⟩
  rw [← hn1, stepN64_succ, e, Option.some_bind, hstep]
  rfl

end AnimationHandler

end rubiks

namespace rubiks

namespace AnimationHandler

/-! ## The step at which an entry is consumed, in `double` arithmetic -/

theorem sampleBack_run :
    runAngle AnimationQueue.sampleBack 1 = 3602879701896397 / 9007199254740992 ∧
    runAngle AnimationQueue.sampleBack 2 = 1351079888211149 / 4503599627370496 ∧
    runAngle AnimationQueue.sampleBack 3 = 7205759403792795 / 36028797018963968 ∧
    runAngle AnimationQueue.sampleBack 4 = 1801439850948199 / 18014398509481984 ∧
    runAngle AnimationQueue.sampleBack 5 = 1 / 36028797018963968 ∧
    runAngle AnimationQueue.sampleBack 6 = -900719925474099 / 9007199254740992 := by
  have s : AnimationQueue.sampleBack.speed = -3602879701896397 / 36028797018963968 := rfl
  have e0 : runAngle AnimationQueue.sampleBack 0 = 1 / 2 := rfl
  have e1 : runAngle AnimationQueue.sampleBack 1 = 3602879701896397 / 9007199254740992 := by
    rw [runAngle, e0, s]
    exact ieee.add_pos_eval (-54) 7205759403792794 (by norm_num) (by norm_num)
      (ieee.roundEven_tie_up (by norm_num) (by decide)) (by norm_num)
  have e2 : runAngle AnimationQueue.sampleBack 2 = 1351079888211149 / 4503599627370496 := by
    rw [runAngle, e1, s]
    exact ieee.add_pos_eval (-54) 5404319552844596 (by norm_num) (by norm_num)
      (ieee.roundEven_tie_up (by norm_num) (by decide)) (by norm_num)
  have e3 : runAngle AnimationQueue.sampleBack 3 = 7205759403792795 / 36028797018963968 := by
    rw [runAngle, e2, s]
    exact ieee.add_pos_eval (-55) 7205759403792795 (by norm_num) (by norm_num)
      (ieee.roundEven_of_lt (by norm_num) (by norm_num)) (by norm_num)
  have e4 : runAngle AnimationQueue.sampleBack 4 = 1801439850948199 / 18014398509481984 := by
    rw [runAngle, e3, s]
    exact ieee.add_pos_eval (-56) 7205759403792796 (by norm_num) (by norm_num)
      (ieee.roundEven_of_lt (by norm_num) (by norm_num)) (by norm_num)
  have e5 : runAngle AnimationQueue.sampleBack 5 = 1 / 36028797018963968 := by
    rw [runAngle, e4, s]
    exact ieee.add_pos_eval (-107) 4503599627370496 (by norm_num) (by norm_num)
      (ieee.roundEven_of_lt (by norm_num) (by norm_num)) (by norm_num)
  have e6 : runAngle AnimationQueue.sampleBack 6 = -900719925474099 / 9007199254740992 := by
    rw [runAngle, e5, s]
    exact ieee.add_neg_eval (-56) (-7205759403792792) (by norm_num) (by norm_num)
      (ieee.roundEven_of_lt (by norm_num) (by norm_num)) (by norm_num)
  exact ⟨e1, e2, e3, e4, e5, e6⟩

theorem sample_run :
    runAngle AnimationQueue.sample 1 = 15 ∧
    runAngle AnimationQueue.sample 2 = 30 ∧
    runAngle AnimationQueue.sample 3 = 45 ∧
    runAngle AnimationQueue.sample 4 = 60 ∧
    runAngle AnimationQueue.sample 5 = 75 ∧
    runAngle AnimationQueue.sample 6 = 90 := by
  have s : AnimationQueue.sample.speed = 15 := rfl
  have e0 : runAngle AnimationQueue.sample 0 = 0 := rfl
  have e1 : runAngle AnimationQueue.sample 1 = 15 := by
    rw [runAngle, e0, s]
    exact ieee.add_pos_eval (-49) 8444249301319680 (by norm_num) (by norm_num)
      (ieee.roundEven_of_lt (by norm_num) (by norm_num)) (by norm_num)
  have e2 : runAngle AnimationQueue.sample 2 = 30 := by
    rw [runAngle, e1, s]
    exact ieee.add_pos_eval (-48) 8444249301319680 (by norm_num) (by norm_num)
      (ieee.roundEven_of_lt (by norm_num) (by norm_num)) (by norm_num)
  have e3 : runAngle AnimationQueue.sample 3 = 45 := by
    rw [runAngle, e2, s]
    exact ieee.add_pos_eval (-47) 6333186975989760 (by norm_num) (by norm_num)
      (ieee.roundEven_of_lt (by norm_num) (by norm_num)) (by norm_num)
  have e4 : runAngle AnimationQueue.sample 4 = 60 := by
    rw [runAngle, e3, s]
    exact ieee.add_pos_eval (-47) 8444249301319680 (by norm_num) (by norm_num)
      (ieee.roundEven_of_lt (by norm_num) (by norm_num)) (by norm_num)
  have e5 : runAngle AnimationQueue.sample 5 = 75 := by
    rw [runAngle, e4, s]
    exact ieee.add_pos_eval (-46) 5277655813324800 (by norm_num) (by norm_num)
      (ieee.roundEven_of_lt (by norm_num) (by norm_num)) (by norm_num)
  have e6 : runAngle AnimationQueue.sample 6 = 90 := by
    rw [runAngle, e5, s]
    exact ieee.add_pos_eval (-46) 6333186975989760 (by norm_num) (by norm_num)
      (ieee.roundEven_of_lt (by norm_num) (by norm_num)) (by norm_num)
  exact ⟨e1, e2, e3, e4, e5, e6⟩

theorem sample_ConsumedAt64 : ConsumedAt64 AnimationQueue.sample 6 := by
  obtain ⟨e1, e2, e3, e4, e5, e6⟩ := sample_run
  refine ⟨by decide, ?_, ?_⟩
  · rw [e6]
    exact Or.inr (Or.inl ⟨by simp only [AnimationQueue.sample]; norm_num,
      by simp only [AnimationQueue.sample]; norm_num⟩)
  · intro m h1 hm
    have hs : AnimationQueue.sample.speed = 15 := rfl
    have he : AnimationQueue.sample.degree_end = 90 := rfl
    unfold Terminal
    rw [hs, he]
    interval_cases m
    · rw [e1]; norm_num
    · rw [e2]; norm_num
    · rw [e3]; norm_num
    · rw [e4]; norm_num
    · rw [e5]; norm_num

theorem sampleBack_ConsumedAt64 : ConsumedAt64 AnimationQueue.sampleBack 6 := by
  obtain ⟨e1, e2, e3, e4, e5, e6⟩ := sampleBack_run
  have hs : AnimationQueue.sampleBack.speed = -3602879701896397 / 36028797018963968 := rfl
  have he : AnimationQueue.sampleBack.degree_end = 0 := rfl
  refine ⟨by decide, ?_, ?_⟩
  · unfold Terminal
    rw [hs, he, e6]
    norm_num
  · intro m h1 hm
    unfold Terminal
    rw [hs, he]
    interval_cases m
    · rw [e1]; norm_num
    · rw [e2]; norm_num
    · rw [e3]; norm_num
    · rw [e4]; norm_num
    · rw [e5]; norm_num

theorem sampleBack_ConsumedAt : ConsumedAt AnimationQueue.sampleBack 5 := by
  refine ⟨by decide, Or.inr (Or.inr ⟨?_, ?_, ?_⟩)⟩
  · simp only [AnimationQueue.sampleBack]; norm_num
  · simp only [AnimationQueue.sampleBack]; norm_num
  · intro m hm h1
    simp only [AnimationQueue.sampleBack]
    interval_cases m <;> norm_num

/-- With exact additions the first terminal call is the step count of the
specification. -/
theorem ConsumedAt_of_exact_run {q : AnimationQueue} {n : Nat} (hn : ConsumedAt64 q n)
    (hex : ∀ k : Nat, k ≤ n → runAngle q k = q.degree_start + (k : ℚ) * q.speed) :
    ConsumedAt q n := by
  obtain ⟨h1, ht, hmin⟩ := hn
  refine ⟨h1, ?_⟩
  rcases lt_trichotomy q.speed 0 with hs | hs | hs
  · right; right
    refine ⟨hs, ?_, ?_⟩
    · rw [hex n le_rfl] at ht
      rcases ht with h0 | ⟨hp, -⟩ | ⟨-, hle⟩
      · rw [h0] at hs; exact absurd hs (lt_irrefl _)
      · exact absurd hs (lt_asymm hp)
      · exact hle
    · intro m hm hm1 hle
      apply hmin m hm1 hm
      rw [hex m hm.le]
      exact Or.inr (Or.inr ⟨hs, hle⟩)
  · left
    refine ⟨hs, ?_⟩
    by_contra hne
    exact hmin 1 le_rfl (by omega) (Or.inl hs)
  · right; left
    refine ⟨hs, ?_, ?_⟩
    · rw [hex n le_rfl] at ht
      rcases ht with h0 | ⟨-, hge⟩ | ⟨hneg, -⟩
      · rw [h0] at hs; exact absurd hs (lt_irrefl _)
      · exact hge
      · exact absurd hs (lt_asymm hneg)
    · intro m hm hm1 hge
      apply hmin m hm1 hm
      rw [hex m hm.le]
      exact Or.inr (Or.inl ⟨hs, hge⟩)

end AnimationHandler

end rubiks

namespace rubiks

namespace AnimationHandler

/-- C6, amended for `double` arithmetic: let an entry `q` with sub-cube coordinates be
pushed onto an idle handler with an empty queue over a well-formed cube state, and let the
`n`-th call be the first one at which the running angle, `degree_start` advanced by the
rounded additions `m_degree += speed`, passes the terminal test (speed 0, or at or past
`degree_end` in the direction of the speed). Then for every `k < n` the first `k` calls of
`Step` succeed and leave the queue and every colour unchanged, and while `k + 1 < n` the
next call is a `RotateFace` at the running angle (in radians) that returns 1; the `n`-th
call consumes the entry: after `n` calls the queue is empty, the handler is idle, every
sub-cube is at rest, and the colours are those of a single `RotateColors` with the entry's
rotation type applied to the initial cube state. With speed 0 it is the first call; and
when the `n` additions are exact, `n` is the least positive integer with
`degree_start + n * speed` at or past `degree_end`. -/
theorem C6_single_entry_consumed_rounded (T : Trig) (h0 : AnimationHandler)
    (q : AnimationQueue) (n : Nat) (hq0 : h0.m_animation_queues = [])
    (hidle : h0.IsAnimating = false) (hwf : h0.m_rubiks.WF) (hco : q.CoordsOK)
    (hn : ConsumedAt64 q n) :
    (∀ k, k < n → ∃ hk, stepN64 T k (h0.Push q) = some hk ∧ hk.m_animation_queues = [q] ∧
      RubiksCube.ColorsEq h0.m_rubiks hk.m_rubiks ∧
      (k + 1 < n → ∃ r',
        hk.m_rubiks.RotateFace T q.x q.y q.z q.axis
          (ieee.div (ieee.mul (runAngle q (k + 1)) RUBIKS_PI64) 180) = some r' ∧
        Step64 T hk = some (1, { m_animation_queues := [q],
                                 m_degree := runAngle q (k + 1),
                                 m_rubiks := r', m_is_animating := true }))) ∧
    (∃ hlast rc, stepN64 T n (h0.Push q) = some hlast ∧ hlast.m_animation_queues = [] ∧
      hlast.IsAnimating = false ∧ hlast.m_rubiks.AtRest ∧
      h0.m_rubiks.RotateColors q.x q.y q.z q.axis q.rotation_type = some rc ∧
      RubiksCube.ColorsEq rc hlast.m_rubiks) ∧
    (q.speed = 0 → n = 1) ∧
    ((∀ k : Nat, k ≤ n → runAngle q k = q.degree_start + (k : ℚ) * q.speed) →
      ConsumedAt q n) := by
  refine ⟨?_, stepN64_consumed T h0 q n hq0 hidle hwf hco hn, ?_,
    ConsumedAt_of_exact_run hn⟩
  · intro k hk
    obtain ⟨s, e, hqs, ws, cs, as⟩ :=
      stepN64_running T h0 q n hq0 hidle hwf hco hn.2.2 k hk
    refine ⟨s, e, hqs, cs, ?_⟩
    intro hk1
    have hrun : ¬ Terminal q (s.advanced64 q) := by
      rw [as]
      exact hn.2.2 (k + 1) (by omega) hk1
    obtain ⟨r', er, -⟩ := RubiksCube.RotateFace_spec T ws hco.1 hco.2.1 hco.2.2
      q.axis (ieee.div (ieee.mul (s.advanced64 q) RUBIKS_PI64) 180)
    have hstep := Step64_running T s q [] hqs hrun r' er
    rw [as] at er hstep
    exact ⟨r', er, hstep⟩
  · intro hs
    by_contra hne
    exact hn.2.2 1 le_rfl (by have := hn.1; omega) (Or.inl hs)

theorem C6_single_entry_consumed_rounded_witness :
    (AnimationHandler.new RubiksCube.sample).m_animation_queues = [] ∧
    (AnimationHandler.new RubiksCube.sample).IsAnimating = false ∧
    (AnimationHandler.new RubiksCube.sample).m_rubiks.WF ∧
    AnimationQueue.sample.CoordsOK ∧ ConsumedAt64 AnimationQueue.sample 6 ∧
    ∃ hlast rc, stepN64 Trig.flat 6 ((AnimationHandler.new RubiksCube.sample).Push
        AnimationQueue.sample) = some hlast ∧
      hlast.m_animation_queues = [] ∧ hlast.IsAnimating = false ∧ hlast.m_rubiks.AtRest ∧
      RubiksCube.sample.RotateColors 0 0 0 AXIS_X DEGREE_90 = some rc ∧
      RubiksCube.ColorsEq rc hlast.m_rubiks :=
  ⟨rfl, rfl, RubiksCube.sample_WF, by decide, sample_ConsumedAt64,
    (C6_single_entry_consumed_rounded Trig.flat (AnimationHandler.new RubiksCube.sample)
      AnimationQueue.sample 6 rfl rfl RubiksCube.sample_WF (by decide)
      sample_ConsumedAt64).2.1⟩

/-- C6, counterexample: for the entry from 0.5 to 0 degrees with the speed
`double(-0.5) / 5`, the least positive `n` with `degree_start + n * speed <= degree_end` is
5, but after 5 calls of `Step` in `double` arithmetic the entry is still queued, not a
colour has changed and the running angle is `2 ^ -55`; the entry is consumed on the 6th
call. -/
theorem C6_least_step_counterexample :
    ConsumedAt AnimationQueue.sampleBack 5 ∧
    (∃ h5, stepN64 Trig.flat 5 ((AnimationHandler.new RubiksCube.sample).Push
        AnimationQueue.sampleBack) = some h5 ∧
      h5.m_animation_queues = [AnimationQueue.sampleBack] ∧
      h5.m_degree = 1 / 36028797018963968 ∧ h5.IsAnimating = true) ∧
    (∃ h6, stepN64 Trig.flat 6 ((AnimationHandler.new RubiksCube.sample).Push
        AnimationQueue.sampleBack) = some h6 ∧
      h6.m_animation_queues = [] ∧ h6.IsAnimating = false) := by
  refine ⟨sampleBack_ConsumedAt, ?_, ?_⟩
  · obtain ⟨h4, e4, q4, w4, -, a4⟩ := stepN64_running Trig.flat
      (AnimationHandler.new RubiksCube.sample) AnimationQueue.sampleBack 6 rfl rfl
      RubiksCube.sample_WF (by decide) sampleBack_ConsumedAt64.2.2 4 (by decide)
    have hrun : ¬ Terminal AnimationQueue.sampleBack
        (h4.advanced64 AnimationQueue.sampleBack) := by
      rw [a4]
      exact sampleBack_ConsumedAt64.2.2 5 (by decide) (by decide)
    obtain ⟨r', er, -⟩ := RubiksCube.RotateFace_spec Trig.flat w4
      (show (0 : Int) ≤ 2 ∧ (2 : Int) < 3 by decide)
      (show (0 : Int) ≤ 1 ∧ (1 : Int) < 3 by decide)
      (show (0 : Int) ≤ 0 ∧ (0 : Int) < 3 by decide) AXIS_Y
      (ieee.div (ieee.mul (h4.advanced64 AnimationQueue.sampleBack) RUBIKS_PI64) 180)
    have hstep := Step64_running Trig.flat h4 AnimationQueue.sampleBack [] q4 hrun r' er
    refine ⟨{ m_animation_queues := [AnimationQueue.sampleBack],
              m_degree := h4.advanced64 AnimationQueue.sampleBack, m_rubiks := r',
              m_is_animating := true }, ?_, rfl, ?_, rfl⟩
    · rw [stepN64_succ, e4, Option.some_bind, hstep]
      rfl
    · show h4.advanced64 AnimationQueue.sampleBack = _
      rw [a4]
      exact sampleBack_run.2.2.2.2.1
  · obtain ⟨h6, -, e6, q6, i6, -⟩ := stepN64_consumed Trig.flat
      (AnimationHandler.new RubiksCube.sample) AnimationQueue.sampleBack 6 rfl rfl
      RubiksCube.sample_WF (by decide) sampleBack_ConsumedAt64
    exact ⟨h6, e6, q6, i6⟩

end AnimationHandler

end rubiks

namespace ieee

/-! ## General facts about the rounding -/

theorem roundEven_ge_floor (y : ℚ) : ⌊y⌋ ≤ roundEven y := by
  unfold roundEven
  split_ifs <;> omega

theorem roundEven_le_floor_succ (y : ℚ) : roundEven y ≤ ⌊y⌋ + 1 := by
  unfold roundEven
  split_ifs <;> omega

/-- The binade of a nonzero number. -/
theorem ulp_bracket {x : ℚ} (hx : x ≠ 0) :
    (2 : ℚ) ^ (ulpExp x + 52) ≤ |x| ∧ |x| < (2 : ℚ) ^ (ulpExp x + 53) := by
  have hpos : 0 < |x| := abs_pos.2 hx
  have h1 := Int.zpow_log_le_self (b := 2) (by norm_num) hpos
  have h2 := Int.lt_zpow_succ_log_self (b := 2) (by norm_num) |x|
  unfold ulpExp
  constructor
  · have e : Int.log 2 |x| - 52 + 52 = Int.log 2 |x| := by ring
    rw [e]
    exact_mod_cast h1
  · have e : Int.log 2 |x| - 52 + 53 = Int.log 2 |x| + 1 := by ring
    rw [e]
    exact_mod_cast h2

theorem two_pow_split (e : Int) :
    (2 : ℚ) ^ (e + 52) = 4503599627370496 * 2 ^ e ∧
    (2 : ℚ) ^ (e + 53) = 9007199254740992 * 2 ^ e := by
  constructor
  · rw [zpow_add₀ (by norm_num), mul_comm]
    norm_num
  · rw [zpow_add₀ (by norm_num), mul_comm]
    norm_num

/-- A positive result of an exact operation is stored as a number of its binade or as the
next power of two. -/
theorem rnd_bracket_pos {x : ℚ} (hx : 0 < x) :
    (2 : ℚ) ^ (ulpExp x + 52) ≤ rnd x ∧ rnd x ≤ (2 : ℚ) ^ (ulpExp x + 53) := by
  obtain ⟨h1, h2⟩ := ulp_bracket hx.ne'
  rw [abs_of_pos hx] at h1 h2
  have hu : (0 : ℚ) < 2 ^ ulpExp x := zpow_pos (by norm_num) _
  obtain ⟨e52, e53⟩ := two_pow_split (ulpExp x)
  rw [e52] at h1
  rw [e53] at h2
  have hy1 : ((4503599627370496 : Int) : ℚ) ≤ x / 2 ^ ulpExp x := by
    rw [le_div_iff₀ hu]
    exact_mod_cast h1
  have hy2 : x / 2 ^ ulpExp x < ((9007199254740992 : Int) : ℚ) := by
    rw [div_lt_iff₀ hu]
    exact_mod_cast h2
  have f1 : (4503599627370496 : Int) ≤ ⌊x / 2 ^ ulpExp x⌋ := Int.le_floor.2 hy1
  have f2 : ⌊x / 2 ^ ulpExp x⌋ < (9007199254740992 : Int) := Int.floor_lt.2 hy2
  have r1 := roundEven_ge_floor (x / 2 ^ ulpExp x)
  have r2 := roundEven_le_floor_succ (x / 2 ^ ulpExp x)
  have q1 : (4503599627370496 : ℚ) ≤ (roundEven (x / 2 ^ ulpExp x) : ℚ) := by
    exact_mod_cast f1.trans r1
  have q2 : (roundEven (x / 2 ^ ulpExp x) : ℚ) ≤ (9007199254740992 : ℚ) := by
    have : roundEven (x / 2 ^ ulpExp x) ≤ (9007199254740992 : Int) := by omega
    exact_mod_cast this
  unfold rnd
  rw [if_neg hx.ne', e52, e53]
  exact ⟨mul_le_mul_of_nonneg_right q1 hu.le, mul_le_mul_of_nonneg_right q2 hu.le⟩

/-- The rounding does not change the sign. -/
theorem rnd_pos {x : ℚ} (hx : 0 < x) : 0 < rnd x :=
  lt_of_lt_of_le (zpow_pos (by norm_num) _) (rnd_bracket_pos hx).1

/-- A positive result at or above a power of two is stored at or above it. -/
theorem two_pow_le_rnd {x : ℚ} {k : Int} (hx : (2 : ℚ) ^ k ≤ x) : (2 : ℚ) ^ k ≤ rnd x := by
  have hpos : 0 < x := lt_of_lt_of_le (zpow_pos (by norm_num) _) hx
  obtain ⟨-, h2⟩ := ulp_bracket hpos.ne'
  rw [abs_of_pos hpos] at h2
  have hk : k < ulpExp x + 53 :=
    (zpow_lt_zpow_iff_right₀ (by norm_num : (1 : ℚ) < 2)).1 (lt_of_le_of_lt hx h2)
  have hk' : k ≤ ulpExp x + 52 := by omega
  exact le_trans (zpow_le_zpow_right₀ (by norm_num) hk') (rnd_bracket_pos hpos).1

/-- A positive result at or below a power of two is stored at or below it. -/
theorem rnd_le_two_pow {x : ℚ} {k : Int} (hpos : 0 < x) (hx : x ≤ (2 : ℚ) ^ k) :
    rnd x ≤ (2 : ℚ) ^ k := by
  obtain ⟨h1, -⟩ := ulp_bracket hpos.ne'
  rw [abs_of_pos hpos] at h1
  have hk : ulpExp x + 52 ≤ k :=
    (zpow_le_zpow_iff_right₀ (by norm_num : (1 : ℚ) < 2)).1 (le_trans h1 hx)
  rcases hk.lt_or_eq with hlt | heq
  · have hk' : ulpExp x + 53 ≤ k := by omega
    exact le_trans (rnd_bracket_pos hpos).2 (zpow_le_zpow_right₀ (by norm_num) hk')
  · have hxe : x = (2 : ℚ) ^ (ulpExp x + 52) := le_antisymm (heq ▸ hx) h1
    have hu : (0 : ℚ) < 2 ^ ulpExp x := zpow_pos (by norm_num) _
    obtain ⟨e52, -⟩ := two_pow_split (ulpExp x)
    have hy : x / 2 ^ ulpExp x = ((4503599627370496 : Int) : ℚ) := by
      rw [div_eq_iff hu.ne']
      push_cast
      exact hxe.trans e52
    have hr : roundEven (x / 2 ^ ulpExp x) = (4503599627370496 : Int) := by
      apply roundEven_of_abs_lt
      rw [hy]
      norm_num
    unfold rnd
    rw [if_neg hpos.ne', hr, ← heq, e52]
    norm_num

theorem roundEven_neg (y : ℚ) : roundEven (-y) = -roundEven y := by
  by_cases hi : (⌊y⌋ : ℚ) = y
  · have h1 : roundEven y = ⌊y⌋ := by
      apply roundEven_of_abs_lt
      rw [hi]
      norm_num
    have h2 : roundEven (-y) = -⌊y⌋ := by
      apply roundEven_of_abs_lt
      push_cast
      rw [hi]
      norm_num
    rw [h1, h2]
  · have hlt : (⌊y⌋ : ℚ) < y := lt_of_le_of_ne (Int.floor_le y) hi
    have hlt2 : y < (⌊y⌋ : ℚ) + 1 := Int.lt_floor_add_one y
    have hf : ⌊-y⌋ = -⌊y⌋ - 1 := by
      rw [Int.floor_eq_iff]
      push_cast
      constructor <;> linarith
    unfold roundEven
    rw [hf]
    push_cast
    split_ifs <;> first | omega | (exfalso; linarith)

theorem ulpExp_neg (x : ℚ) : ulpExp (-x) = ulpExp x := by
  unfold ulpExp
  rw [abs_neg]

theorem rnd_neg (x : ℚ) : rnd (-x) = -rnd x := by
  unfold rnd
  by_cases hx : x = 0
  · rw [if_pos hx, if_pos (by rw [hx]; norm_num)]
    norm_num
  · rw [if_neg hx, if_neg (neg_ne_zero.2 hx), ulpExp_neg, neg_div, roundEven_neg]
    push_cast
    ring

theorem rnd_neg_of_neg {x : ℚ} (hx : x < 0) : rnd x < 0 := by
  have h := rnd_pos (neg_pos.2 hx)
  rw [rnd_neg] at h
  linarith

theorem rnd_eq_zero_iff (x : ℚ) : rnd x = 0 ↔ x = 0 := by
  constructor
  · intro h
    by_contra hx
    rcases lt_or_gt_of_ne hx with hn | hp
    · have := rnd_neg_of_neg hn
      linarith
    · have := rnd_pos hp
      linarith
  · intro h
    rw [h, rnd_zero]

/-- A result of magnitude at most a power of two is stored with magnitude at most that
power. -/
theorem abs_rnd_le_two_pow {x : ℚ} {k : Int} (hx : |x| ≤ (2 : ℚ) ^ k) :
    |rnd x| ≤ (2 : ℚ) ^ k := by
  rcases lt_trichotomy x 0 with hn | hz | hp
  · have h1 : rnd (-x) ≤ (2 : ℚ) ^ k :=
      rnd_le_two_pow (neg_pos.2 hn) (by rwa [abs_of_neg hn] at hx)
    rw [rnd_neg] at h1
    rw [abs_of_neg (rnd_neg_of_neg hn)]
    exact h1
  · rw [hz, rnd_zero, abs_zero]
    exact (zpow_pos (by norm_num) _).le
  · rw [abs_of_pos (rnd_pos hp)]
    exact rnd_le_two_pow hp (by rwa [abs_of_pos hp] at hx)

end ieee

namespace ieee

theorem rnd_pos_iff (x : ℚ) : 0 < rnd x ↔ 0 < x := by
  constructor
  · intro h
    by_contra hx
    rcases (not_lt.1 hx).lt_or_eq with hn | hz
    · have := rnd_neg_of_neg hn
      linarith
    · rw [hz, rnd_zero] at h
      exact lt_irrefl _ h
  · exact rnd_pos

theorem rnd_neg_iff (x : ℚ) : rnd x < 0 ↔ x < 0 := by
  constructor
  · intro h
    by_contra hx
    rcases (not_lt.1 hx).lt_or_eq with hp | hz
    · have := rnd_pos hp
      linarith
    · rw [← hz, rnd_zero] at h
      exact lt_irrefl _ h
  · exact rnd_neg_of_neg

end ieee

namespace rubiks

namespace MouseHandler

/-! ## `UnClick` in `double` arithmetic -/

theorem normalizedTheta64_range (theta : ℚ) :
    0 ≤ normalizedTheta64 theta ∧ normalizedTheta64 theta < 360 := by
  have h360 : (0 : ℚ) < 360 := by norm_num
  obtain ⟨a1, -⟩ := fmod_abs_lt (x := ieee.mul theta (ieee.div 180 RUBIKS_PI64)) h360
  have hp : 0 < ieee.add (fmod (ieee.mul theta (ieee.div 180 RUBIKS_PI64)) 360) 360 :=
    ieee.rnd_pos (by linarith)
  exact fmod_of_nonneg h360 hp.le

theorem add_zero_360 : ieee.add 0 360 = 360 :=
  ieee.add_pos_eval (-44) 6333186975989760 (by norm_num) (by norm_num)
    (ieee.roundEven_of_lt (by norm_num) (by norm_num)) (by norm_num)

/-- A difference of magnitude at most 45 is not stored as more than 180. -/
theorem sub_not_gt {a b : ℚ} (h : |a - b| ≤ 45) : ¬ (ieee.sub a b > 180) := by
  have h64 : |a - b| ≤ (2 : ℚ) ^ (6 : Int) := by
    have : (2 : ℚ) ^ (6 : Int) = 64 := by norm_num
    rw [this]
    linarith
  have := ieee.abs_rnd_le_two_pow h64
  have e : (2 : ℚ) ^ (6 : Int) = 64 := by norm_num
  rw [e] at this
  intro hc
  have := le_abs_self (ieee.rnd (a - b))
  unfold ieee.sub at hc
  linarith

/-- A difference of more than 315 is stored as more than 180. -/
theorem sub_gt {a b : ℚ} (h : 315 < a - b) : ieee.sub a b > 180 := by
  have h256 : (2 : ℚ) ^ (8 : Int) ≤ a - b := by
    have : (2 : ℚ) ^ (8 : Int) = 256 := by norm_num
    rw [this]
    linarith
  have := ieee.two_pow_le_rnd h256
  have e : (2 : ℚ) ^ (8 : Int) = 256 := by norm_num
  rw [e] at this
  unfold ieee.sub
  linarith

/-- The degrees of the entry of `UnClick` in `double` arithmetic. -/
theorem unclickQueue64_degrees (m : MouseHandler) :
    (unclickQueue64 m).degree_start = normalizedTheta64 m.m_rotation_theta ∧
    (normalizedTheta64 m.m_rotation_theta ≤ 315 →
      (unclickQueue64 m).degree_end =
        (((snapType (normalizedTheta64 m.m_rotation_theta)) * 90 : Int) : ℚ)) ∧
    (315 < normalizedTheta64 m.m_rotation_theta →
      snapType (normalizedTheta64 m.m_rotation_theta) = DEGREE_0 ∧
      (unclickQueue64 m).degree_end = 360) ∧
    |(unclickQueue64 m).degree_end - (unclickQueue64 m).degree_start| ≤ 45 ∧
    (unclickQueue64 m).speed =
      ieee.div (ieee.sub (unclickQueue64 m).degree_end (unclickQueue64 m).degree_start) 5 := by
  obtain ⟨h0, h1⟩ := normalizedTheta64_range m.m_rotation_theta
  generalize hd : normalizedTheta64 m.m_rotation_theta = d at h0 h1
  have key : ∀ t : Int, snapType d = t →
      ((t = 0 ∧ (d ≤ 45 ∨ 315 < d)) ∨ (t = 1 ∧ 45 < d ∧ d ≤ 135) ∨
       (t = 2 ∧ 135 < d ∧ d ≤ 225) ∨ (t = 3 ∧ 225 < d ∧ d ≤ 315)) := by
    intro t ht
    rw [← ht]
    exact snapType_cases d
  have near : ∀ t : Int, |(((t * 90 : Int) : ℚ)) - d| ≤ 45 →
      (if ieee.sub (((t * 90 : Int) : ℚ)) d > 180 then ieee.add d 360 else d) = d ∧
      (if ieee.sub (((t * 90 : Int) : ℚ)) d > 180 then (((t * 90 : Int) : ℚ))
        else if ieee.sub d (((t * 90 : Int) : ℚ)) > 180 then
          ieee.add (((t * 90 : Int) : ℚ)) 360
        else (((t * 90 : Int) : ℚ))) = (((t * 90 : Int) : ℚ)) := by
    intro t ht
    have c1 := sub_not_gt ht
    have c2 : ¬ (ieee.sub d (((t * 90 : Int) : ℚ)) > 180) :=
      sub_not_gt (by rwa [abs_sub_comm] at ht)
    rw [if_neg c1, if_neg c1, if_neg c2]
    exact ⟨rfl, rfl⟩
  simp only [unclickQueue64, hd]
  rcases key _ rfl with ⟨e, h⟩ | ⟨e, h⟩ | ⟨e, h⟩ | ⟨e, h⟩
  · rcases h with h | h
    · have ht : |(((0 * 90 : Int) : ℚ)) - d| ≤ 45 := by
        push_cast
        rw [abs_le]
        constructor <;> linarith
      obtain ⟨n1, n2⟩ := near 0 ht
      rw [e, n1, n2]
      exact ⟨rfl, fun _ => rfl, fun h' => absurd h' (by linarith), ht, trivial⟩
    · rw [e]
      have c1 : ¬ (ieee.sub (((0 * 90 : Int) : ℚ)) d > 180) := by
        have hneg : (((0 * 90 : Int) : ℚ)) - d < 0 := by push_cast; linarith
        have := ieee.rnd_neg_of_neg hneg
        unfold ieee.sub
        linarith
      have c2 : ieee.sub d (((0 * 90 : Int) : ℚ)) > 180 :=
        sub_gt (by push_cast; linarith)
      have e360 : ieee.add (((0 * 90 : Int) : ℚ)) 360 = 360 := by
        have : (((0 * 90 : Int) : ℚ)) = 0 := by norm_num
        rw [this]
        exact add_zero_360
      rw [if_neg c1, if_neg c1, if_pos c2, e360]
      refine ⟨rfl, fun h' => absurd h (by linarith), fun _ => ⟨rfl, rfl⟩, ?_, trivial⟩
      rw [abs_le]
      constructor <;> linarith
  · have ht : |(((1 * 90 : Int) : ℚ)) - d| ≤ 45 := by
      push_cast
      rw [abs_le]
      constructor <;> linarith
    obtain ⟨n1, n2⟩ := near 1 ht
    rw [e, n1, n2]
    exact ⟨rfl, fun _ => rfl, fun h' => absurd h' (by linarith), ht, trivial⟩
  · have ht : |(((2 * 90 : Int) : ℚ)) - d| ≤ 45 := by
      push_cast
      rw [abs_le]
      constructor <;> linarith
    obtain ⟨n1, n2⟩ := near 2 ht
    rw [e, n1, n2]
    exact ⟨rfl, fun _ => rfl, fun h' => absurd h' (by linarith), ht, trivial⟩
  · have ht : |(((3 * 90 : Int) : ℚ)) - d| ≤ 45 := by
      push_cast
      rw [abs_le]
      constructor <;> linarith
    obtain ⟨n1, n2⟩ := near 3 ht
    rw [e, n1, n2]
    exact ⟨rfl, fun _ => rfl, fun h' => absurd h' (by linarith), ht, trivial⟩

/-- The speed of the entry has the sign of the difference of its degrees. -/
theorem unclickQueue64_speed_sign (m : MouseHandler) :
    (0 < (unclickQueue64 m).speed ↔
      0 < (unclickQueue64 m).degree_end - (unclickQueue64 m).degree_start) ∧
    ((unclickQueue64 m).speed < 0 ↔
      (unclickQueue64 m).degree_end - (unclickQueue64 m).degree_start < 0) := by
  obtain ⟨-, -, -, -, hs⟩ := unclickQueue64_degrees m
  have hfive : (0 : ℚ) < 5 := by norm_num
  rw [hs]
  unfold ieee.div ieee.sub
  constructor
  · rw [ieee.rnd_pos_iff, div_pos_iff_of_pos_right hfive, ieee.rnd_pos_iff]
  · rw [ieee.rnd_neg_iff, div_neg_iff, ieee.rnd_neg_iff]
    constructor
    · rintro (⟨-, h⟩ | ⟨h, -⟩)
      · exact absurd h (by norm_num)
      · exact h
    · intro h
      exact Or.inr ⟨h, hfive⟩

theorem UnClick64_handler (m : MouseHandler) :
    m.UnClick64.m_animation_handler =
      if m.m_state = MOUSE_STATE_ROTATE_FACE ∧ (unclickQueue64 m).speed ≠ 0 then
        m.m_animation_handler.Push (unclickQueue64 m)
      else m.m_animation_handler := by
  by_cases h1 : m.m_state = MOUSE_STATE_ROTATE_FACE
  · by_cases h2 : (unclickQueue64 m).speed ≠ 0
    · rw [if_pos ⟨h1, h2⟩]
      simp only [UnClick64, InitializeState, if_pos h1, if_pos h2]
    · rw [if_neg (fun hc => h2 hc.2)]
      simp only [UnClick64, InitializeState, if_pos h1, if_neg h2]
  · rw [if_neg (fun hc => h1 hc.1)]
    simp only [UnClick64, InitializeState, if_neg h1]

theorem unclickQueue64_coords (m : MouseHandler)
    (hc : 0 ≤ m.m_clicked_cube ∧ m.m_clicked_cube < 27) : (unclickQueue64 m).CoordsOK :=
  CubeIdToXYZ_range_fin m.m_clicked_cube (RubiksCube.mem_loopRange_iff.2 hc)

end MouseHandler

end rubiks

namespace rubiks

namespace MouseHandler

/-! ## Two drags in `double` arithmetic -/

theorem RUBIKS_PI64_eq : RUBIKS_PI64 = 884279719003555 / 281474976710656 := by
  unfold RUBIKS_PI64 RUBIKS_PI
  rw [ieee.rnd_pos_eq (-51) 7074237752028440 (by norm_num) (by norm_num)
    (ieee.roundEven_of_lt (by norm_num) (by norm_num))]
  norm_num

theorem div_180_pi : ieee.div 180 (884279719003555 / 281474976710656) = 1007958012753983 /
    17592186044416 :=
  ieee.div_pos_eval (-47) 8063664102031864 (by norm_num) (by norm_num)
    (ieee.roundEven_of_lt (by norm_num) (by norm_num)) (by norm_num)

theorem theta61_degrees : ieee.mul (2397380571520749 / 2251799813685248)
    (1007958012753983 / 17592186044416) = 61 :=
  ieee.mul_pos_eval (-47) 8584986789675008 (by norm_num) (by norm_num)
    (ieee.roundEven_of_lt (by norm_num) (by norm_num)) (by norm_num)

theorem add_61_360 : ieee.add 61 360 = 421 :=
  ieee.add_pos_eval (-44) 7406310324699136 (by norm_num) (by norm_num)
    (ieee.roundEven_of_lt (by norm_num) (by norm_num)) (by norm_num)

theorem sub_90_61 : ieee.sub 90 61 = 29 :=
  ieee.sub_pos_eval (-48) 8162774324609024 (by norm_num) (by norm_num)
    (ieee.roundEven_of_lt (by norm_num) (by norm_num)) (by norm_num)

theorem div_61_5 : ieee.div 29 5 = 6530219459687219 / 1125899906842624 :=
  ieee.div_pos_eval (-50) 6530219459687219 (by norm_num) (by norm_num)
    (ieee.roundEven_of_lt (by norm_num) (by norm_num)) (by norm_num)

/-- The entry from 61 to 90 degrees with the speed `double(29) / 5` is consumed on the sixth
call: after five rounded additions the running angle is still below 90. -/
theorem consumed64_61 {q : AnimationQueue} (hs : q.degree_start = 61)
    (he : q.degree_end = 90) (hv : q.speed = 6530219459687219 / 1125899906842624) :
    AnimationHandler.ConsumedAt64 q 6 ∧
    AnimationHandler.runAngle q 5 = 6333186975989759 / 70368744177664 := by
  have e0 : AnimationHandler.runAngle q 0 = 61 := hs
  have e1 : AnimationHandler.runAngle q 1 = 4700632111067955 / 70368744177664 := by
    rw [AnimationHandler.runAngle, e0, hv]
    exact ieee.add_pos_eval (-46) 4700632111067955 (by norm_num) (by norm_num)
      (ieee.roundEven_of_lt (by norm_num) (by norm_num)) (by norm_num)
  have e2 : AnimationHandler.runAngle q 2 = 2554385413649203 / 35184372088832 := by
    rw [AnimationHandler.runAngle, e1, hv]
    exact ieee.add_pos_eval (-46) 5108770827298406 (by norm_num) (by norm_num)
      (ieee.roundEven_of_lt (by norm_num) (by norm_num)) (by norm_num)
  have e3 : AnimationHandler.runAngle q 3 = 5516909543528857 / 70368744177664 := by
    rw [AnimationHandler.runAngle, e2, hv]
    exact ieee.add_pos_eval (-46) 5516909543528857 (by norm_num) (by norm_num)
      (ieee.roundEven_of_lt (by norm_num) (by norm_num)) (by norm_num)
  have e4 : AnimationHandler.runAngle q 4 = 1481262064939827 / 17592186044416 := by
    rw [AnimationHandler.runAngle, e3, hv]
    exact ieee.add_pos_eval (-46) 5925048259759308 (by norm_num) (by norm_num)
      (ieee.roundEven_of_lt (by norm_num) (by norm_num)) (by norm_num)
  have e5 : AnimationHandler.runAngle q 5 = 6333186975989759 / 70368744177664 := by
    rw [AnimationHandler.runAngle, e4, hv]
    exact ieee.add_pos_eval (-46) 6333186975989759 (by norm_num) (by norm_num)
      (ieee.roundEven_of_lt (by norm_num) (by norm_num)) (by norm_num)
  have e6 : AnimationHandler.runAngle q 6 = 3370662846110105 / 35184372088832 := by
    rw [AnimationHandler.runAngle, e5, hv]
    exact ieee.add_pos_eval (-46) 6741325692220210 (by norm_num) (by norm_num)
      (ieee.roundEven_of_lt (by norm_num) (by norm_num)) (by norm_num)
  refine ⟨⟨by decide, ?_, ?_⟩, e5⟩
  · unfold AnimationHandler.Terminal
    rw [hv, he, e6]
    norm_num
  · intro m h1 hm
    unfold AnimationHandler.Terminal
    rw [hv, he]
    interval_cases m
    · rw [e1]; norm_num
    · rw [e2]; norm_num
    · rw [e3]; norm_num
    · rw [e4]; norm_num
    · rw [e5]; norm_num

theorem theta50_degrees : ieee.mul (7860264168920489 / 9007199254740992)
    (1007958012753983 / 17592186044416) = 50 :=
  ieee.mul_pos_eval (-47) 7036874417766400 (by norm_num) (by norm_num)
    (ieee.roundEven_of_lt (by norm_num) (by norm_num)) (by norm_num)

theorem add_50_360 : ieee.add 50 360 = 410 :=
  ieee.add_pos_eval (-44) 7212796278210560 (by norm_num) (by norm_num)
    (ieee.roundEven_of_lt (by norm_num) (by norm_num)) (by norm_num)

theorem sub_90_50 : ieee.sub 90 50 = 40 :=
  ieee.sub_pos_eval (-47) 5629499534213120 (by norm_num) (by norm_num)
    (ieee.roundEven_of_lt (by norm_num) (by norm_num)) (by norm_num)

theorem div_50_5 : ieee.div 40 5 = 8 :=
  ieee.div_pos_eval (-49) 4503599627370496 (by norm_num) (by norm_num)
    (ieee.roundEven_of_lt (by norm_num) (by norm_num)) (by norm_num)

/-- The entry from 50 to 90 degrees with speed 8 is consumed on the fifth call. -/
theorem consumed64_50 {q : AnimationQueue} (hs : q.degree_start = 50)
    (he : q.degree_end = 90) (hv : q.speed = 8) :
    AnimationHandler.ConsumedAt64 q 5 ∧
    AnimationHandler.runAngle q 4 = 82 := by
  have e0 : AnimationHandler.runAngle q 0 = 50 := hs
  have e1 : AnimationHandler.runAngle q 1 = 58 := by
    rw [AnimationHandler.runAngle, e0, hv]
    exact ieee.add_pos_eval (-47) 8162774324609024 (by norm_num) (by norm_num)
      (ieee.roundEven_of_lt (by norm_num) (by norm_num)) (by norm_num)
  have e2 : AnimationHandler.runAngle q 2 = 66 := by
    rw [AnimationHandler.runAngle, e1, hv]
    exact ieee.add_pos_eval (-46) 4644337115725824 (by norm_num) (by norm_num)
      (ieee.roundEven_of_lt (by norm_num) (by norm_num)) (by norm_num)
  have e3 : AnimationHandler.runAngle q 3 = 74 := by
    rw [AnimationHandler.runAngle, e2, hv]
    exact ieee.add_pos_eval (-46) 5207287069147136 (by norm_num) (by norm_num)
      (ieee.roundEven_of_lt (by norm_num) (by norm_num)) (by norm_num)
  have e4 : AnimationHandler.runAngle q 4 = 82 := by
    rw [AnimationHandler.runAngle, e3, hv]
    exact ieee.add_pos_eval (-46) 5770237022568448 (by norm_num) (by norm_num)
      (ieee.roundEven_of_lt (by norm_num) (by norm_num)) (by norm_num)
  have e5 : AnimationHandler.runAngle q 5 = 90 := by
    rw [AnimationHandler.runAngle, e4, hv]
    exact ieee.add_pos_eval (-46) 6333186975989760 (by norm_num) (by norm_num)
      (ieee.roundEven_of_lt (by norm_num) (by norm_num)) (by norm_num)
  refine ⟨⟨by decide, ?_, ?_⟩, e4⟩
  · unfold AnimationHandler.Terminal
    rw [hv, he, e5]
    norm_num
  · intro m h1 hm
    unfold AnimationHandler.Terminal
    rw [hv, he]
    interval_cases m
    · rw [e1]; norm_num
    · rw [e2]; norm_num
    · rw [e3]; norm_num
    · rw [e4]; norm_num

theorem normalizedTheta64_eq {theta t : ℚ}
    (ht : ieee.mul theta (1007958012753983 / 17592186044416) = t) (h0 : 0 ≤ t)
    (h1 : t < 360) {u : ℚ} (hu : ieee.add t 360 = u) (hu1 : u = t + 360) :
    normalizedTheta64 theta = t := by
  have h360 : (0 : ℚ) < 360 := by norm_num
  have e1 : fmod t 360 = t := by
    rw [fmod_eq h360 0 (le_refl 0) (by push_cast; linarith) (by push_cast; linarith)]
    push_cast
    ring
  have e2 : fmod (t + 360) 360 = t := by
    rw [fmod_eq h360 1 (by decide) (by push_cast; linarith) (by push_cast; linarith)]
    push_cast
    ring
  rw [normalizedTheta64, RUBIKS_PI64_eq, div_180_pi, ht, e1, hu, hu1, e2]

theorem sampleDrag61_theta : normalizedTheta64 sampleDrag61.m_rotation_theta = 61 :=
  normalizedTheta64_eq theta61_degrees (by norm_num) (by norm_num) add_61_360 (by norm_num)

theorem sampleDrag50_theta : normalizedTheta64 sampleDrag50.m_rotation_theta = 50 :=
  normalizedTheta64_eq theta50_degrees (by norm_num) (by norm_num) add_50_360 (by norm_num)

/-- The entry that `UnClick` builds from a normalised angle of 61 degrees. -/
theorem unclickQueue64_61 {m : MouseHandler}
    (hd : normalizedTheta64 m.m_rotation_theta = 61) :
    (unclickQueue64 m).degree_start = 61 ∧ (unclickQueue64 m).degree_end = 90 ∧
    (unclickQueue64 m).speed = 6530219459687219 / 1125899906842624 := by
  obtain ⟨d1, d2, -, -, d5⟩ := unclickQueue64_degrees m
  have s61 : snapType 61 = DEGREE_90 := ((snapType_table 61).1).2 (by norm_num)
  have hend : (unclickQueue64 m).degree_end = 90 := by
    rw [d2 (by rw [hd]; norm_num), hd, s61]
    norm_num
  refine ⟨d1.trans hd, hend, ?_⟩
  rw [d5, hend, d1, hd, sub_90_61, div_61_5]

/-- The entry that `UnClick` builds from a normalised angle of 50 degrees. -/
theorem unclickQueue64_50 {m : MouseHandler}
    (hd : normalizedTheta64 m.m_rotation_theta = 50) :
    (unclickQueue64 m).degree_start = 50 ∧ (unclickQueue64 m).degree_end = 90 ∧
    (unclickQueue64 m).speed = 8 := by
  obtain ⟨d1, d2, -, -, d5⟩ := unclickQueue64_degrees m
  have s50 : snapType 50 = DEGREE_90 := ((snapType_table 50).1).2 (by norm_num)
  have hend : (unclickQueue64 m).degree_end = 90 := by
    rw [d2 (by rw [hd]; norm_num), hd, s50]
    norm_num
  refine ⟨d1.trans hd, hend, ?_⟩
  rw [d5, hend, d1, hd, sub_90_50, div_50_5]

end MouseHandler

end rubiks

namespace rubiks

namespace MouseHandler

theorem sampleDrag50_speed : (unclickQueue64 sampleDrag50).speed ≠ 0 := by
  rw [(unclickQueue64_50 sampleDrag50_theta).2.2]
  norm_num

theorem sampleDrag61_speed : (unclickQueue64 sampleDrag61).speed ≠ 0 := by
  rw [(unclickQueue64_61 sampleDrag61_theta).2.2]
  norm_num

end MouseHandler

end rubiks

namespace ieee

theorem add_zero_eval {a b : ℚ} (h : a + b = 0) : add a b = 0 := by
  unfold add
  rw [h, rnd_zero]

theorem sub_zero_eval {a b : ℚ} (h : a - b = 0) : sub a b = 0 := by
  unfold sub
  rw [h, rnd_zero]

theorem mul_zero_eval {a b : ℚ} (h : a * b = 0) : mul a b = 0 := by
  unfold mul
  rw [h, rnd_zero]

theorem div_zero_eval {a b : ℚ} (h : a / b = 0) : div a b = 0 := by
  unfold div
  rw [h, rnd_zero]

end ieee

namespace QuadModel

/-- The second loop of `Project64` on faces with valid indices: it keeps, in order, the
faces whose rounded winding is strictly positive, each rebased and given its depth. -/
theorem collectVisible64_spec (npv : List Vec3D) (size : Int) (fs : List Quad)
    (h : ∀ f ∈ fs, ValidFace npv.length f) :
    collectVisible64 npv size fs =
      some ((fs.filter (fun f => decide (0 < windingZ64 npv f))).map
        (emittedFace64 npv size)) := by
  induction fs with
  | nil => rfl
  | cons f fs ih =>
    have hf := h f (List.mem_cons_self _ _)
    have ih' := ih (fun g hg => h g (List.mem_cons_of_mem _ hg))
    have e1 := vecGet_projectedAt hf.1.1 hf.1.2
    have e2 := vecGet_projectedAt hf.2.1.1 hf.2.1.2
    have e3 := vecGet_projectedAt hf.2.2.1.1 hf.2.2.1.2
    have e4 := vecGet_projectedAt hf.2.2.2.1 hf.2.2.2.2
    rw [collectVisible64, e1, e2, e3, Option.bind_eq_bind, Option.some_bind, Option.some_bind,
      Option.some_bind]
    by_cases hw : 0 < windingZ64 npv f
    · have hnot : ¬ (((projectedAt npv f.v2).sub64 (projectedAt npv f.v1)).Cross64
          ((projectedAt npv f.v3).sub64 (projectedAt npv f.v2))).z ≤ 0 := not_le.2 hw
      rw [if_neg hnot, e4, Option.bind_eq_bind, Option.some_bind, ih', Option.some_bind,
        List.filter_cons_of_pos (by simpa using hw), List.map_cons]
      rfl
    · have hle : (((projectedAt npv f.v2).sub64 (projectedAt npv f.v1)).Cross64
          ((projectedAt npv f.v3).sub64 (projectedAt npv f.v2))).z ≤ 0 := not_lt.1 hw
      rw [if_pos hle, ih', List.filter_cons_of_neg (by simpa using hw)]

/-- The method `Project64` on a model with valid faces: it appends the projected vertices
and the copies of the faces whose rounded winding is strictly positive. -/
theorem Project64_spec (m : QuadModel) (gr : Matrix3D) (gt : Vec3D) (pv : List Vec3D)
    (vf : List Quad) (h : m.ValidFaces) :
    m.Project64 gr gt pv vf =
      some (pv ++ m.projectedVertices64 gr gt,
        vf ++ (m.faces.filter (fun f =>
            decide (0 < windingZ64 (m.projectedVertices64 gr gt) f))).map
          (emittedFace64 (m.projectedVertices64 gr gt) pv.length)) := by
  have hv : ∀ f ∈ m.faces, ValidFace (m.projectedVertices64 gr gt).length f := by
    intro f hf
    rw [projectedVertices64, List.length_map]
    exact h f hf
  have hcv := collectVisible64_spec (m.projectedVertices64 gr gt) (pv.length : Int) m.faces hv
  show ((collectVisible64 (m.projectedVertices64 gr gt) (pv.length : Int) m.faces).bind
      fun nvf => some (pv ++ m.projectedVertices64 gr gt, vf ++ nvf)) = _
  rw [hcv, Option.some_bind]

end QuadModel

namespace rubiks

theorem sample_projected64 :
    Cube.sample.projectedVertices64 RubiksCube.edgeOnView RubiksCube.edgeOnShift =
      RubiksCube.edgeOnProjected := by
  have f0 : ieee.mul 1 (-1) = -1 :=
    ieee.mul_neg_eval (-52) (-4503599627370496) (by norm_num) (by norm_num)
      (ieee.roundEven_of_lt (by norm_num) (by norm_num)) (by norm_num)
  have f1 : ieee.mul 0 1 = 0 :=
    ieee.mul_zero_eval (by norm_num)
  have f2 : ieee.add (-1) 0 = -1 :=
    ieee.add_neg_eval (-52) (-4503599627370496) (by norm_num) (by norm_num)
      (ieee.roundEven_of_lt (by norm_num) (by norm_num)) (by norm_num)
  have f3 : ieee.mul 0 (-1) = 0 :=
    ieee.mul_zero_eval (by norm_num)
  have f4 : ieee.mul 1 1 = 1 :=
    ieee.mul_pos_eval (-52) 4503599627370496 (by norm_num) (by norm_num)
      (ieee.roundEven_of_lt (by norm_num) (by norm_num)) (by norm_num)
  have f5 : ieee.add 0 1 = 1 :=
    ieee.add_pos_eval (-52) 4503599627370496 (by norm_num) (by norm_num)
      (ieee.roundEven_of_lt (by norm_num) (by norm_num)) (by norm_num)
  have f6 : ieee.add 1 0 = 1 :=
    ieee.add_pos_eval (-52) 4503599627370496 (by norm_num) (by norm_num)
      (ieee.roundEven_of_lt (by norm_num) (by norm_num)) (by norm_num)
  have f7 : ieee.add 0 0 = 0 :=
    ieee.add_zero_eval (by norm_num)
  have f8 : ieee.add 0 (-1) = -1 :=
    ieee.add_neg_eval (-52) (-4503599627370496) (by norm_num) (by norm_num)
      (ieee.roundEven_of_lt (by norm_num) (by norm_num)) (by norm_num)
  have f9 : ieee.mul (-1) 1 = -1 :=
    ieee.mul_neg_eval (-52) (-4503599627370496) (by norm_num) (by norm_num)
      (ieee.roundEven_of_lt (by norm_num) (by norm_num)) (by norm_num)
  have f10 : ieee.add (-1) (-1) = -2 :=
    ieee.add_neg_eval (-51) (-4503599627370496) (by norm_num) (by norm_num)
      (ieee.roundEven_of_lt (by norm_num) (by norm_num)) (by norm_num)
  have f11 : ieee.add (-1) 1 = 0 :=
    ieee.add_zero_eval (by norm_num)
  have f12 : ieee.add (-2) (5404319552844595 / 18014398509481984) = -7656119366529843 /
    4503599627370496 :=
    ieee.add_neg_eval (-52) (-7656119366529843) (by norm_num) (by norm_num)
      (ieee.roundEven_of_lt (by norm_num) (by norm_num)) (by norm_num)
  have f13 : ieee.add (-2) (-1) = -3 :=
    ieee.add_neg_eval (-51) (-6755399441055744) (by norm_num) (by norm_num)
      (ieee.roundEven_of_lt (by norm_num) (by norm_num)) (by norm_num)
  have f14 : ieee.add (-3) 0 = -3 :=
    ieee.add_neg_eval (-51) (-6755399441055744) (by norm_num) (by norm_num)
      (ieee.roundEven_of_lt (by norm_num) (by norm_num)) (by norm_num)
  have f15 : ieee.add 1 (-1) = 0 :=
    ieee.add_zero_eval (by norm_num)
  have f16 : ieee.add 0 (5404319552844595 / 18014398509481984) = 5404319552844595 /
    18014398509481984 :=
    ieee.add_pos_eval (-54) 5404319552844595 (by norm_num) (by norm_num)
      (ieee.roundEven_of_lt (by norm_num) (by norm_num)) (by norm_num)
  have f17 : ieee.add 1 1 = 2 :=
    ieee.add_pos_eval (-51) 4503599627370496 (by norm_num) (by norm_num)
      (ieee.roundEven_of_lt (by norm_num) (by norm_num)) (by norm_num)
  have f18 : ieee.add 2 (-1) = 1 :=
    ieee.add_pos_eval (-52) 4503599627370496 (by norm_num) (by norm_num)
      (ieee.roundEven_of_lt (by norm_num) (by norm_num)) (by norm_num)
  have f19 : ieee.add (-2) 1 = -1 :=
    ieee.add_neg_eval (-52) (-4503599627370496) (by norm_num) (by norm_num)
      (ieee.roundEven_of_lt (by norm_num) (by norm_num)) (by norm_num)
  have f20 : ieee.add 2 (5404319552844595 / 18014398509481984) = 2589569785738035 /
    1125899906842624 :=
    ieee.add_pos_eval (-51) 5179139571476070 (by norm_num) (by norm_num)
      (ieee.roundEven_of_lt (by norm_num) (by norm_num)) (by norm_num)
  have f21 : ieee.add 2 1 = 3 :=
    ieee.add_pos_eval (-51) 6755399441055744 (by norm_num) (by norm_num)
      (ieee.roundEven_of_lt (by norm_num) (by norm_num)) (by norm_num)
  have f22 : ieee.add 3 0 = 3 :=
    ieee.add_pos_eval (-51) 6755399441055744 (by norm_num) (by norm_num)
      (ieee.roundEven_of_lt (by norm_num) (by norm_num)) (by norm_num)
  simp only [QuadModel.projectedVertices64, QuadModel.projectVertex64, Matrix3D.mulVec64,
    Vec3D.smul64, Vec3D.add64, Cube.sample, Cube.placed, Cube.Initialize, Cube.empty,
    QuadModel.AddVertex, QuadModel.AddFace, geometry.Identity, RubiksCube.edgeOnView,
    RubiksCube.edgeOnShift, RubiksCube.edgeOnProjected, List.map, List.nil_append,
    List.cons_append,
    f0, f1, f2, f3, f4, f5, f6, f7, f8, f9, f10, f11,
    f12, f13, f14, f15, f16, f17, f18, f19, f20, f21, f22]

/-- The rounded windings of the six faces of `Cube.sample` under `edgeOnView` and
`edgeOnShift`. -/
theorem sample_windings64 :
    QuadModel.windingZ64 RubiksCube.edgeOnProjected ⟨0, 1, 2, 3, 1, 0⟩ = 4 ∧
    QuadModel.windingZ64 RubiksCube.edgeOnProjected ⟨2, 6, 7, 3, 2, 0⟩ = 9007199254740991 / 2251799813685248 ∧
    QuadModel.windingZ64 RubiksCube.edgeOnProjected ⟨7, 6, 5, 4, 3, 0⟩ = -9007199254740991 / 2251799813685248 ∧
    QuadModel.windingZ64 RubiksCube.edgeOnProjected ⟨4, 5, 1, 0, 4, 0⟩ = -4 ∧
    QuadModel.windingZ64 RubiksCube.edgeOnProjected ⟨0, 3, 7, 4, 5, 0⟩ = 1 / 2251799813685248 ∧
    QuadModel.windingZ64 RubiksCube.edgeOnProjected ⟨1, 5, 6, 2, 6, 0⟩ = 1 / 2251799813685248 := by
  have g0 : ieee.sub (-7656119366529843 / 4503599627370496)
    (-7656119366529843 / 4503599627370496) = 0 :=
    ieee.sub_zero_eval (by norm_num)
  have g1 : ieee.sub (-3) (-1) = -2 :=
    ieee.sub_neg_eval (-51) (-4503599627370496) (by norm_num) (by norm_num)
      (ieee.roundEven_of_lt (by norm_num) (by norm_num)) (by norm_num)
  have g2 : ieee.sub (-1) (-1) = 0 :=
    ieee.sub_zero_eval (by norm_num)
  have g3 : ieee.sub (5404319552844595 / 18014398509481984)
    (-7656119366529843 / 4503599627370496) = 2 :=
    ieee.sub_pos_eval (-52) 9007199254740992 (by norm_num) (by norm_num)
      (ieee.roundEven_of_lt (by norm_num) (by norm_num)) (by norm_num)
  have g4 : ieee.sub (-1) (-3) = 2 :=
    ieee.sub_pos_eval (-51) 4503599627370496 (by norm_num) (by norm_num)
      (ieee.roundEven_of_lt (by norm_num) (by norm_num)) (by norm_num)
  have g5 : ieee.mul (-2) 0 = 0 :=
    ieee.mul_zero_eval (by norm_num)
  have g6 : ieee.mul 0 2 = 0 :=
    ieee.mul_zero_eval (by norm_num)
  have g7 : ieee.sub 0 0 = 0 :=
    ieee.sub_zero_eval (by norm_num)
  have g8 : ieee.mul 0 0 = 0 :=
    ieee.mul_zero_eval (by norm_num)
  have g9 : ieee.mul (-2) 2 = -4 :=
    ieee.mul_neg_eval (-50) (-4503599627370496) (by norm_num) (by norm_num)
      (ieee.roundEven_of_lt (by norm_num) (by norm_num)) (by norm_num)
  have g10 : ieee.sub 0 (-4) = 4 :=
    ieee.sub_pos_eval (-50) 4503599627370496 (by norm_num) (by norm_num)
      (ieee.roundEven_of_lt (by norm_num) (by norm_num)) (by norm_num)
  have g11 : ieee.sub (2589569785738035 / 1125899906842624)
    (5404319552844595 / 18014398509481984) = 9007199254740991 / 4503599627370496 :=
    ieee.sub_pos_eval (-52) 9007199254740991 (by norm_num) (by norm_num)
      (ieee.roundEven_of_lt (by norm_num) (by norm_num)) (by norm_num)
  have g12 : ieee.sub 1 (-1) = 2 :=
    ieee.sub_pos_eval (-51) 4503599627370496 (by norm_num) (by norm_num)
      (ieee.roundEven_of_lt (by norm_num) (by norm_num)) (by norm_num)
  have g13 : ieee.sub (2589569785738035 / 1125899906842624) (2589569785738035 / 1125899906842624)
    = 0 :=
    ieee.sub_zero_eval (by norm_num)
  have g14 : ieee.sub 3 1 = 2 :=
    ieee.sub_pos_eval (-51) 4503599627370496 (by norm_num) (by norm_num)
      (ieee.roundEven_of_lt (by norm_num) (by norm_num)) (by norm_num)
  have g15 : ieee.sub 1 1 = 0 :=
    ieee.sub_zero_eval (by norm_num)
  have g16 : ieee.mul 2 0 = 0 :=
    ieee.mul_zero_eval (by norm_num)
  have g17 : ieee.mul 2 2 = 4 :=
    ieee.mul_pos_eval (-50) 4503599627370496 (by norm_num) (by norm_num)
      (ieee.roundEven_of_lt (by norm_num) (by norm_num)) (by norm_num)
  have g18 : ieee.sub 0 4 = -4 :=
    ieee.sub_neg_eval (-50) (-4503599627370496) (by norm_num) (by norm_num)
      (ieee.roundEven_of_lt (by norm_num) (by norm_num)) (by norm_num)
  have g19 : ieee.mul (9007199254740991 / 4503599627370496) 0 = 0 :=
    ieee.mul_zero_eval (by norm_num)
  have g20 : ieee.mul (9007199254740991 / 4503599627370496) 2 = 9007199254740991 /
    2251799813685248 :=
    ieee.mul_pos_eval (-51) 9007199254740991 (by norm_num) (by norm_num)
      (ieee.roundEven_of_lt (by norm_num) (by norm_num)) (by norm_num)
  have g21 : ieee.sub (9007199254740991 / 2251799813685248) 0 = 9007199254740991 /
    2251799813685248 :=
    ieee.sub_pos_eval (-51) 9007199254740991 (by norm_num) (by norm_num)
      (ieee.roundEven_of_lt (by norm_num) (by norm_num)) (by norm_num)
  have g22 : ieee.sub 1 3 = -2 :=
    ieee.sub_neg_eval (-51) (-4503599627370496) (by norm_num) (by norm_num)
      (ieee.roundEven_of_lt (by norm_num) (by norm_num)) (by norm_num)
  have g23 : ieee.sub (5404319552844595 / 18014398509481984)
    (2589569785738035 / 1125899906842624) = -9007199254740991 / 4503599627370496 :=
    ieee.sub_neg_eval (-52) (-9007199254740991) (by norm_num) (by norm_num)
      (ieee.roundEven_of_lt (by norm_num) (by norm_num)) (by norm_num)
  have g24 : ieee.sub (-1) 1 = -2 :=
    ieee.sub_neg_eval (-51) (-4503599627370496) (by norm_num) (by norm_num)
      (ieee.roundEven_of_lt (by norm_num) (by norm_num)) (by norm_num)
  have g25 : ieee.mul 0 (-2) = 0 :=
    ieee.mul_zero_eval (by norm_num)
  have g26 : ieee.mul 0 (-9007199254740991 / 4503599627370496) = 0 :=
    ieee.mul_zero_eval (by norm_num)
  have g27 : ieee.mul (-2) (-9007199254740991 / 4503599627370496) = 9007199254740991 /
    2251799813685248 :=
    ieee.mul_pos_eval (-51) 9007199254740991 (by norm_num) (by norm_num)
      (ieee.roundEven_of_lt (by norm_num) (by norm_num)) (by norm_num)
  have g28 : ieee.sub 0 (9007199254740991 / 2251799813685248) = -9007199254740991 /
    2251799813685248 :=
    ieee.sub_neg_eval (-51) (-9007199254740991) (by norm_num) (by norm_num)
      (ieee.roundEven_of_lt (by norm_num) (by norm_num)) (by norm_num)
  have g29 : ieee.sub (5404319552844595 / 18014398509481984)
    (5404319552844595 / 18014398509481984) = 0 :=
    ieee.sub_zero_eval (by norm_num)
  have g30 : ieee.sub (-7656119366529843 / 4503599627370496)
    (5404319552844595 / 18014398509481984) = -2 :=
    ieee.sub_neg_eval (-52) (-9007199254740992) (by norm_num) (by norm_num)
      (ieee.roundEven_of_lt (by norm_num) (by norm_num)) (by norm_num)
  have g31 : ieee.mul (-2) (-2) = 4 :=
    ieee.mul_pos_eval (-50) 4503599627370496 (by norm_num) (by norm_num)
      (ieee.roundEven_of_lt (by norm_num) (by norm_num)) (by norm_num)
  have g32 : ieee.sub 4 0 = 4 :=
    ieee.sub_pos_eval (-50) 4503599627370496 (by norm_num) (by norm_num)
      (ieee.roundEven_of_lt (by norm_num) (by norm_num)) (by norm_num)
  have g33 : ieee.mul 0 (9007199254740991 / 4503599627370496) = 0 :=
    ieee.mul_zero_eval (by norm_num)
  have g34 : ieee.mul 2 (9007199254740991 / 4503599627370496) = 9007199254740991 /
    2251799813685248 :=
    ieee.mul_pos_eval (-51) 9007199254740991 (by norm_num) (by norm_num)
      (ieee.roundEven_of_lt (by norm_num) (by norm_num)) (by norm_num)
  have g35 : ieee.sub 4 (9007199254740991 / 2251799813685248) = 1 / 2251799813685248 :=
    ieee.sub_pos_eval (-103) 4503599627370496 (by norm_num) (by norm_num)
      (ieee.roundEven_of_lt (by norm_num) (by norm_num)) (by norm_num)
  obtain ⟨q0, q1, q2, q3, q4, q5, q6, q7⟩ := projectedAt_list
    ⟨-7656119366529843 / 4503599627370496, -1, -1⟩
    ⟨-7656119366529843 / 4503599627370496, -3, -1⟩
    ⟨5404319552844595 / 18014398509481984, -1, -1⟩
    ⟨5404319552844595 / 18014398509481984, 1, -1⟩
    ⟨5404319552844595 / 18014398509481984, 1, 1⟩
    ⟨5404319552844595 / 18014398509481984, -1, 1⟩
    ⟨2589569785738035 / 1125899906842624, 1, 1⟩
    ⟨2589569785738035 / 1125899906842624, 3, 1⟩
  unfold RubiksCube.edgeOnProjected
  refine ⟨?_, ?_, ?_, ?_, ?_, ?_⟩ <;>
  simp only [QuadModel.windingZ64, q0, q1, q2, q3, q4, q5, q6, q7, Vec3D.sub64,
    Vec3D.Cross64,
    g0, g1, g2, g3, g4, g5, g6, g7, g8, g9, g10, g11,
    g12, g13, g14, g15, g16, g17, g18, g19, g20, g21, g22, g23,
    g24, g25, g26, g27, g28, g29, g30, g31, g32, g33, g34, g35]

end rubiks

namespace rubiks

/-- An initialised cube has six faces. -/
theorem Cube.Initialised.faces_length {c : Cube} (hc : c.Initialised) : c.faces.length = 6 := by
  obtain ⟨f0, f1, f2, f3, f4, f5, hf, -⟩ := hc.faces_eq
  rw [hf]
  rfl

/-- The faces that `Project64` emits for an initialised cube: the faces with a strictly
positive rounded winding, at most 6. -/
theorem Cube.Initialised.Project64_le {c : Cube} (hc : c.Initialised) (gr : Matrix3D)
    (gt : Vec3D) (pv : List Vec3D) (vf : List Quad) :
    ∃ new : List Quad,
      c.Project64 gr gt pv vf = some (pv ++ c.projectedVertices64 gr gt, vf ++ new) ∧
      new = (c.faces.filter (fun f =>
          decide (0 < QuadModel.windingZ64 (c.projectedVertices64 gr gt) f))).map
        (QuadModel.emittedFace64 (c.projectedVertices64 gr gt) pv.length) ∧
      new.length ≤ 6 := by
  refine ⟨_, QuadModel.Project64_spec c gr gt pv vf hc.validFaces.2, rfl, ?_⟩
  rw [List.length_map, ← hc.faces_length]
  exact List.length_filter_le _ _

namespace RubiksCube

/-- The loop of `Project64` over initialised sub-cubes succeeds and appends at most 6 faces
for each sub-cube. -/
theorem projectLoop64_length (gr : Matrix3D) (gt : Vec3D) :
    ∀ (cs : List Cube) (pv : List Vec3D) (vf : List Quad),
      (∀ c ∈ cs, c.Initialised) →
      ∃ pv' vf', projectLoop64 gr gt cs pv vf = some (pv', vf') ∧
        vf'.length ≤ vf.length + 6 * cs.length := by
  intro cs
  induction cs with
  | nil =>
    intro pv vf _
    exact ⟨pv, vf, rfl, by simp⟩
  | cons c cs ih =>
    intro pv vf hcs
    obtain ⟨new, e, -, hle⟩ :=
      (hcs c (List.mem_cons_self _ _)).Project64_le gr gt pv vf
    obtain ⟨pv', vf', e', hle'⟩ := ih (pv ++ c.projectedVertices64 gr gt) (vf ++ new)
      (fun c' hc' => hcs c' (List.mem_cons_of_mem _ hc'))
    refine ⟨pv', vf', ?_, ?_⟩
    · rw [projectLoop64, e, Option.some_bind]
      exact e'
    · rw [List.length_append] at hle'
      rw [List.length_cons]
      omega

/-- The method `Project64` on 27 initialised sub-cubes succeeds and emits at most 162
faces. -/
theorem Project64_length (sort : (Quad → Quad → Bool) → List Quad → List Quad)
    (hs : StdSortContract sort) (r : RubiksCube) (h27 : r.cubes.length = 27)
    (hi : ∀ c ∈ r.cubes, c.Initialised) (pv : List Vec3D) (vf : List Quad) :
    ∃ pv' vf', r.Project64 sort pv vf = some (pv', vf') ∧ vf'.length ≤ vf.length + 162 := by
  obtain ⟨pv', vf', e, hle⟩ :=
    projectLoop64_length r.global_rotation r.global_translation r.cubes pv vf hi
  refine ⟨pv', geometry.Zsort sort vf', ?_, ?_⟩
  · rw [Project64, e, Option.some_bind]
  · have hp := (hs geometry.CompDepth vf' CompDepth_strictWeakOrder).1
    unfold geometry.Zsort
    rw [hp.length_eq]
    omega

/-- The loop of `Project64` over `n` copies of one sub-cube that emits `k` faces appends
`n * k` faces. -/
theorem projectLoop64_replicate (gr : Matrix3D) (gt : Vec3D) (c : Cube) (k : Nat)
    (hv : QuadModel.ValidFaces c)
    (hk : (c.faces.filter (fun f =>
      decide (0 < QuadModel.windingZ64 (c.projectedVertices64 gr gt) f))).length = k) :
    ∀ (n : Nat) (pv : List Vec3D) (vf : List Quad),
      ∃ pv' vf', projectLoop64 gr gt (List.replicate n c) pv vf = some (pv', vf') ∧
        vf'.length = vf.length + n * k := by
  intro n
  induction n with
  | zero =>
    intro pv vf
    exact ⟨pv, vf, rfl, by simp⟩
  | succ n ih =>
    intro pv vf
    obtain ⟨pv', vf', e', hl⟩ := ih (pv ++ c.projectedVertices64 gr gt)
      (vf ++ (c.faces.filter (fun f =>
          decide (0 < QuadModel.windingZ64 (c.projectedVertices64 gr gt) f))).map
        (QuadModel.emittedFace64 (c.projectedVertices64 gr gt) pv.length))
    refine ⟨pv', vf', ?_, ?_⟩
    · rw [List.replicate_succ, projectLoop64, QuadModel.Project64_spec c gr gt pv vf hv,
        Option.some_bind]
      exact e'
    · rw [List.length_append, List.length_map, hk] at hl
      rw [hl]
      ring

end RubiksCube

theorem sample_faces :
    Cube.sample.faces =
      [⟨0, 1, 2, 3, 1, 0⟩, ⟨2, 6, 7, 3, 2, 0⟩, ⟨7, 6, 5, 4, 3, 0⟩, ⟨4, 5, 1, 0, 4, 0⟩,
       ⟨0, 3, 7, 4, 5, 0⟩, ⟨1, 5, 6, 2, 6, 0⟩] := rfl

theorem cube_sample_Initialised : Cube.sample.Initialised := ⟨rfl, rfl⟩

/-- Under `edgeOnView` and `edgeOnShift` the faces of `Cube.sample` with a strictly positive
rounded winding are Z-, X+, Y+ and Y-. -/
theorem sample_kept64 :
    Cube.sample.faces.filter (fun f => decide (0 < QuadModel.windingZ64
        (Cube.sample.projectedVertices64 RubiksCube.edgeOnView RubiksCube.edgeOnShift) f)) =
      [⟨0, 1, 2, 3, 1, 0⟩, ⟨2, 6, 7, 3, 2, 0⟩, ⟨0, 3, 7, 4, 5, 0⟩, ⟨1, 5, 6, 2, 6, 0⟩] := by
  obtain ⟨w0, w1, w2, w3, w4, w5⟩ := sample_windings64
  rw [sample_projected64, sample_faces]
  simp only [List.filter_cons, List.filter_nil, w0, w1, w2, w3, w4, w5]
  norm_num

/-- C29: for an initialised cube under any local rotation matrix, translation and scale and
any view matrix and translation, with every operation on `double` rounded,
`QuadModel::Project` succeeds and emits, each once and in order, exactly the faces whose
rounded winding cross product is strictly positive, hence at most 6 faces; and
`RubiksCube::Project` on 27 such cubes succeeds and emits at most 162 faces. -/
theorem C29_rounded_winding_decides_faces
    (sort : (Quad → Quad → Bool) → List Quad → List Quad) (hs : StdSortContract sort)
    (c : Cube) (hc : c.Initialised) (gr : Matrix3D) (gt : Vec3D)
    (r : RubiksCube) (h27 : r.cubes.length = 27) (hi : ∀ c ∈ r.cubes, c.Initialised)
    (pv : List Vec3D) (vf : List Quad) :
    (∃ new : List Quad,
      c.Project64 gr gt pv vf = some (pv ++ c.projectedVertices64 gr gt, vf ++ new) ∧
      new = (c.faces.filter (fun f =>
          decide (0 < QuadModel.windingZ64 (c.projectedVertices64 gr gt) f))).map
        (QuadModel.emittedFace64 (c.projectedVertices64 gr gt) pv.length) ∧
      new.length ≤ 6) ∧
    (∃ pv' vf', r.Project64 sort pv vf = some (pv', vf') ∧ vf'.length ≤ vf.length + 162) :=
  ⟨hc.Project64_le gr gt pv vf, RubiksCube.Project64_length sort hs r h27 hi pv vf⟩

theorem sampleEdgeOn_Initialised : ∀ c ∈ RubiksCube.sampleEdgeOn.cubes, c.Initialised := by
  intro c hc
  rw [List.eq_of_mem_replicate hc]
  exact cube_sample_Initialised

theorem C29_rounded_winding_decides_faces_witness :
    StdSortContract insertionStdSort ∧ Cube.sample.Initialised ∧
    RubiksCube.sampleEdgeOn.cubes.length = 27 ∧
    (∀ c ∈ RubiksCube.sampleEdgeOn.cubes, c.Initialised) ∧
    (∃ new : List Quad,
      Cube.sample.Project64 RubiksCube.edgeOnView RubiksCube.edgeOnShift [] [] =
        some ([] ++ Cube.sample.projectedVertices64 RubiksCube.edgeOnView
          RubiksCube.edgeOnShift, [] ++ new) ∧
      new = (Cube.sample.faces.filter (fun f =>
          decide (0 < QuadModel.windingZ64 (Cube.sample.projectedVertices64
            RubiksCube.edgeOnView RubiksCube.edgeOnShift) f))).map
        (QuadModel.emittedFace64 (Cube.sample.projectedVertices64 RubiksCube.edgeOnView
          RubiksCube.edgeOnShift) ([] : List Vec3D).length) ∧
      new.length ≤ 6) ∧
    (∃ pv' vf', RubiksCube.sampleEdgeOn.Project64 insertionStdSort [] [] = some (pv', vf') ∧
      vf'.length ≤ ([] : List Quad).length + 162) :=
  ⟨insertionStdSort_contract, cube_sample_Initialised, rfl, sampleEdgeOn_Initialised,
    C29_rounded_winding_decides_faces insertionStdSort insertionStdSort_contract
      Cube.sample cube_sample_Initialised RubiksCube.edgeOnView RubiksCube.edgeOnShift
      RubiksCube.sampleEdgeOn rfl sampleEdgeOn_Initialised [] []⟩

/-- C29, the claim fails in rounded arithmetic: under the view matrix `edgeOnView`, which
sends the local x and z axes to the same screen direction, and the view translation
`(0.3, 0, 0)`, the rounded windings of the faces Y+ and Y- of the initialised cube
`Cube.sample` are both `2 ^ (-51)`, not negatives of each other; `QuadModel::Project` emits
both faces of this opposite pair and 4 faces in all, and `RubiksCube::Project` on 27 such
cubes emits 108 faces, more than 81. -/
theorem C29_opposite_pair_counterexample :
    Cube.sample.Initialised ∧
    RubiksCube.sampleEdgeOn.cubes.length = 27 ∧
    (∀ c ∈ RubiksCube.sampleEdgeOn.cubes, c.Initialised) ∧
    (FACE_Y_PLUS, FACE_Y_MINUS) ∈ oppositePairs ∧
    (∃ (new : List Quad) (fa fb : Quad),
      vecGet Cube.sample.faces FACE_Y_PLUS = some fa ∧
      vecGet Cube.sample.faces FACE_Y_MINUS = some fb ∧
      Cube.sample.Project64 RubiksCube.edgeOnView RubiksCube.edgeOnShift [] [] =
        some (RubiksCube.edgeOnProjected, new) ∧
      QuadModel.windingZ64 RubiksCube.edgeOnProjected fa = 1 / 2251799813685248 ∧
      QuadModel.windingZ64 RubiksCube.edgeOnProjected fb = 1 / 2251799813685248 ∧
      QuadModel.emittedFace64 RubiksCube.edgeOnProjected 0 fa ∈ new ∧
      QuadModel.emittedFace64 RubiksCube.edgeOnProjected 0 fb ∈ new ∧
      new.length = 4) ∧
    (∃ pv' vf', RubiksCube.sampleEdgeOn.Project64 insertionStdSort [] [] = some (pv', vf') ∧
      vf'.length = 108) := by
  obtain ⟨w0, w1, w2, w3, w4, w5⟩ := sample_windings64
  have hv := cube_sample_Initialised.validFaces.2
  refine ⟨cube_sample_Initialised, rfl, sampleEdgeOn_Initialised, by decide, ?_, ?_⟩
  · refine ⟨([⟨0, 1, 2, 3, 1, 0⟩, ⟨2, 6, 7, 3, 2, 0⟩, ⟨0, 3, 7, 4, 5, 0⟩,
        ⟨1, 5, 6, 2, 6, 0⟩] : List Quad).map
        (QuadModel.emittedFace64 RubiksCube.edgeOnProjected 0),
      ⟨0, 3, 7, 4, 5, 0⟩, ⟨1, 5, 6, 2, 6, 0⟩, rfl, rfl, ?_, w4, w5, ?_, ?_, ?_⟩
    · rw [QuadModel.Project64_spec _ _ _ _ _ hv, sample_kept64, sample_projected64]
      rfl
    · exact List.mem_map_of_mem _ (by simp)
    · exact List.mem_map_of_mem _ (by simp)
    · rfl
  · obtain ⟨pv', vf', e, hl⟩ := RubiksCube.projectLoop64_replicate RubiksCube.edgeOnView
      RubiksCube.edgeOnShift Cube.sample 4 hv (by rw [sample_kept64]; rfl) 27 [] []
    refine ⟨pv', geometry.Zsort insertionStdSort vf', ?_, ?_⟩
    · show (RubiksCube.projectLoop64 RubiksCube.edgeOnView RubiksCube.edgeOnShift
        (List.replicate 27 Cube.sample) [] []).bind _ = _
      rw [e, Option.some_bind]
    · have hp := (insertionStdSort_contract geometry.CompDepth vf'
        CompDepth_strictWeakOrder).1
      unfold geometry.Zsort
      rw [hp.length_eq, hl]
      rfl

end rubiks

namespace rubiks

namespace RubiksCube

theorem sampleDefaultView_rotation :
    sampleDefaultView.global_rotation = defaultView64 := by
  have a0 : ieee.div (884279719003555 / 281474976710656) 6 = 4716158501352293 / 9007199254740992
    :=
    ieee.div_pos_eval (-53) 4716158501352293 (by norm_num) (by norm_num)
      (ieee.roundEven_of_lt (by norm_num) (by norm_num)) (by norm_num)
  have a1 : ieee.div (884279719003555 / 281474976710656) 4 = 884279719003555 / 1125899906842624
    :=
    ieee.div_pos_eval (-53) 7074237752028440 (by norm_num) (by norm_num)
      (ieee.roundEven_of_lt (by norm_num) (by norm_num)) (by norm_num)
  have a2 : ieee.mul 1 (6369051672525773 / 9007199254740992) = 6369051672525773 /
    9007199254740992 :=
    ieee.mul_pos_eval (-53) 6369051672525773 (by norm_num) (by norm_num)
      (ieee.roundEven_of_lt (by norm_num) (by norm_num)) (by norm_num)
  have a3 : ieee.mul 0 0 = 0 :=
    ieee.mul_zero_eval (by norm_num)
  have a4 : ieee.add (6369051672525773 / 9007199254740992) 0 = 6369051672525773 /
    9007199254740992 :=
    ieee.add_pos_eval (-53) 6369051672525773 (by norm_num) (by norm_num)
      (ieee.roundEven_of_lt (by norm_num) (by norm_num)) (by norm_num)
  have a5 : ieee.mul 0 (-1592262918131443 / 2251799813685248) = 0 :=
    ieee.mul_zero_eval (by norm_num)
  have a6 : ieee.mul 1 0 = 0 :=
    ieee.mul_zero_eval (by norm_num)
  have a7 : ieee.mul 0 1 = 0 :=
    ieee.mul_zero_eval (by norm_num)
  have a8 : ieee.add 0 0 = 0 :=
    ieee.add_zero_eval (by norm_num)
  have a9 : ieee.mul 1 (1592262918131443 / 2251799813685248) = 1592262918131443 /
    2251799813685248 :=
    ieee.mul_pos_eval (-53) 6369051672525772 (by norm_num) (by norm_num)
      (ieee.roundEven_of_lt (by norm_num) (by norm_num)) (by norm_num)
  have a10 : ieee.add (1592262918131443 / 2251799813685248) 0 = 1592262918131443 /
    2251799813685248 :=
    ieee.add_pos_eval (-53) 6369051672525772 (by norm_num) (by norm_num)
      (ieee.roundEven_of_lt (by norm_num) (by norm_num)) (by norm_num)
  have a11 : ieee.mul 0 (6369051672525773 / 9007199254740992) = 0 :=
    ieee.mul_zero_eval (by norm_num)
  have a12 : ieee.mul (7800463371553963 / 9007199254740992) 0 = 0 :=
    ieee.mul_zero_eval (by norm_num)
  have a13 : ieee.mul (-9007199254740991 / 18014398509481984)
    (-1592262918131443 / 2251799813685248) = 6369051672525771 / 18014398509481984 :=
    ieee.mul_pos_eval (-54) 6369051672525771 (by norm_num) (by norm_num)
      (ieee.roundEven_of_lt (by norm_num) (by norm_num)) (by norm_num)
  have a14 : ieee.add 0 (6369051672525771 / 18014398509481984) = 6369051672525771 /
    18014398509481984 :=
    ieee.add_pos_eval (-54) 6369051672525771 (by norm_num) (by norm_num)
      (ieee.roundEven_of_lt (by norm_num) (by norm_num)) (by norm_num)
  have a15 : ieee.mul (7800463371553963 / 9007199254740992) 1 = 7800463371553963 /
    9007199254740992 :=
    ieee.mul_pos_eval (-53) 7800463371553963 (by norm_num) (by norm_num)
      (ieee.roundEven_of_lt (by norm_num) (by norm_num)) (by norm_num)
  have a16 : ieee.add 0 (7800463371553963 / 9007199254740992) = 7800463371553963 /
    9007199254740992 :=
    ieee.add_pos_eval (-53) 7800463371553963 (by norm_num) (by norm_num)
      (ieee.roundEven_of_lt (by norm_num) (by norm_num)) (by norm_num)
  have a17 : ieee.mul (-9007199254740991 / 18014398509481984) 0 = 0 :=
    ieee.mul_zero_eval (by norm_num)
  have a18 : ieee.add (7800463371553963 / 9007199254740992) 0 = 7800463371553963 /
    9007199254740992 :=
    ieee.add_pos_eval (-53) 7800463371553963 (by norm_num) (by norm_num)
      (ieee.roundEven_of_lt (by norm_num) (by norm_num)) (by norm_num)
  have a19 : ieee.mul 0 (1592262918131443 / 2251799813685248) = 0 :=
    ieee.mul_zero_eval (by norm_num)
  have a20 : ieee.mul (-9007199254740991 / 18014398509481984)
    (6369051672525773 / 9007199254740992) = -1592262918131443 / 4503599627370496 :=
    ieee.mul_neg_eval (-54) (-6369051672525772) (by norm_num) (by norm_num)
      (ieee.roundEven_of_lt (by norm_num) (by norm_num)) (by norm_num)
  have a21 : ieee.add 0 (-1592262918131443 / 4503599627370496) = -1592262918131443 /
    4503599627370496 :=
    ieee.add_neg_eval (-54) (-6369051672525772) (by norm_num) (by norm_num)
      (ieee.roundEven_of_lt (by norm_num) (by norm_num)) (by norm_num)
  have a22 : ieee.mul (9007199254740991 / 18014398509481984) 0 = 0 :=
    ieee.mul_zero_eval (by norm_num)
  have a23 : ieee.mul (7800463371553963 / 9007199254740992)
    (-1592262918131443 / 2251799813685248) = -2757880273211543 / 4503599627370496 :=
    ieee.mul_neg_eval (-53) (-5515760546423086) (by norm_num) (by norm_num)
      (ieee.roundEven_of_lt (by norm_num) (by norm_num)) (by norm_num)
  have a24 : ieee.add 0 (-2757880273211543 / 4503599627370496) = -2757880273211543 /
    4503599627370496 :=
    ieee.add_neg_eval (-53) (-5515760546423086) (by norm_num) (by norm_num)
      (ieee.roundEven_of_lt (by norm_num) (by norm_num)) (by norm_num)
  have a25 : ieee.mul (9007199254740991 / 18014398509481984) 1 = 9007199254740991 /
    18014398509481984 :=
    ieee.mul_pos_eval (-54) 9007199254740991 (by norm_num) (by norm_num)
      (ieee.roundEven_of_lt (by norm_num) (by norm_num)) (by norm_num)
  have a26 : ieee.add 0 (9007199254740991 / 18014398509481984) = 9007199254740991 /
    18014398509481984 :=
    ieee.add_pos_eval (-54) 9007199254740991 (by norm_num) (by norm_num)
      (ieee.roundEven_of_lt (by norm_num) (by norm_num)) (by norm_num)
  have a27 : ieee.add (9007199254740991 / 18014398509481984) 0 = 9007199254740991 /
    18014398509481984 :=
    ieee.add_pos_eval (-54) 9007199254740991 (by norm_num) (by norm_num)
      (ieee.roundEven_of_lt (by norm_num) (by norm_num)) (by norm_num)
  have a28 : ieee.mul (7800463371553963 / 9007199254740992) (6369051672525773 / 9007199254740992)
    = 5515760546423087 / 9007199254740992 :=
    ieee.mul_pos_eval (-53) 5515760546423087 (by norm_num) (by norm_num)
      (ieee.roundEven_of_lt (by norm_num) (by norm_num)) (by norm_num)
  have a29 : ieee.add 0 (5515760546423087 / 9007199254740992) = 5515760546423087 /
    9007199254740992 :=
    ieee.add_pos_eval (-53) 5515760546423087 (by norm_num) (by norm_num)
      (ieee.roundEven_of_lt (by norm_num) (by norm_num)) (by norm_num)
  have ax0 : Trig.nearest.sin (4716158501352293 / 9007199254740992) = 9007199254740991 /
    18014398509481984 := by norm_num [Trig.nearest]
  have ax1 : Trig.nearest.cos (4716158501352293 / 9007199254740992) = 7800463371553963 /
    9007199254740992 := by norm_num [Trig.nearest]
  have ax2 : (-(9007199254740991 / 18014398509481984) : ℚ) = -9007199254740991 /
    18014398509481984 := by norm_num
  have ax3 : Trig.nearest.sin (884279719003555 / 1125899906842624) = 1592262918131443 /
    2251799813685248 := by norm_num [Trig.nearest]
  have ax4 : Trig.nearest.cos (884279719003555 / 1125899906842624) = 6369051672525773 /
    9007199254740992 := by norm_num [Trig.nearest]
  have ax5 : (-(1592262918131443 / 2251799813685248) : ℚ) = -1592262918131443 / 2251799813685248
    := by norm_num
  simp only [sampleDefaultView, InitializeGlobalRotation64, MouseHandler.RUBIKS_PI64_eq,
    geometry.RotationX,
    geometry.RotationY, Matrix3D.mul64, defaultView64,
    a0, a1, a2, a3, a4, a5, a6, a7, a8, a9, a10, a11,
    a12, a13, a14, a15, a16, a17, a18, a19, a20, a21, a22, a23,
    a24, a25, a26, a27, a28, a29, ax0, ax1, ax2, ax3, ax4, ax5]

theorem sampleDraggedView_rotation :
    sampleDraggedView.global_rotation = draggedView64 := by
  have b0 : ieee.div (884279719003555 / 281474976710656) 360 = 5030569068109113 /
    576460752303423488 :=
    ieee.div_pos_eval (-59) 5030569068109113 (by norm_num) (by norm_num)
      (ieee.roundEven_of_lt (by norm_num) (by norm_num)) (by norm_num)
  have b1 : ieee.mul (-90) (5030569068109113 / 576460752303423488) = -884279719003555 /
    1125899906842624 :=
    ieee.mul_neg_eval (-53) (-7074237752028440) (by norm_num) (by norm_num)
      (ieee.roundEven_of_lt (by norm_num) (by norm_num)) (by norm_num)
  have b2 : ieee.mul 0 (5030569068109113 / 576460752303423488) = 0 :=
    ieee.mul_zero_eval (by norm_num)
  have b3 : ieee.mul 1 (6369051672525773 / 9007199254740992) = 6369051672525773 /
    9007199254740992 :=
    ieee.mul_pos_eval (-53) 6369051672525773 (by norm_num) (by norm_num)
      (ieee.roundEven_of_lt (by norm_num) (by norm_num)) (by norm_num)
  have b4 : ieee.mul 0 (6369051672525771 / 18014398509481984) = 0 :=
    ieee.mul_zero_eval (by norm_num)
  have b5 : ieee.add (6369051672525773 / 9007199254740992) 0 = 6369051672525773 /
    9007199254740992 :=
    ieee.add_pos_eval (-53) 6369051672525773 (by norm_num) (by norm_num)
      (ieee.roundEven_of_lt (by norm_num) (by norm_num)) (by norm_num)
  have b6 : ieee.mul 0 (-2757880273211543 / 4503599627370496) = 0 :=
    ieee.mul_zero_eval (by norm_num)
  have b7 : ieee.mul 1 0 = 0 :=
    ieee.mul_zero_eval (by norm_num)
  have b8 : ieee.mul 0 (7800463371553963 / 9007199254740992) = 0 :=
    ieee.mul_zero_eval (by norm_num)
  have b9 : ieee.add 0 0 = 0 :=
    ieee.add_zero_eval (by norm_num)
  have b10 : ieee.mul 0 (9007199254740991 / 18014398509481984) = 0 :=
    ieee.mul_zero_eval (by norm_num)
  have b11 : ieee.mul 1 (1592262918131443 / 2251799813685248) = 1592262918131443 /
    2251799813685248 :=
    ieee.mul_pos_eval (-53) 6369051672525772 (by norm_num) (by norm_num)
      (ieee.roundEven_of_lt (by norm_num) (by norm_num)) (by norm_num)
  have b12 : ieee.mul 0 (-1592262918131443 / 4503599627370496) = 0 :=
    ieee.mul_zero_eval (by norm_num)
  have b13 : ieee.add (1592262918131443 / 2251799813685248) 0 = 1592262918131443 /
    2251799813685248 :=
    ieee.add_pos_eval (-53) 6369051672525772 (by norm_num) (by norm_num)
      (ieee.roundEven_of_lt (by norm_num) (by norm_num)) (by norm_num)
  have b14 : ieee.mul 0 (5515760546423087 / 9007199254740992) = 0 :=
    ieee.mul_zero_eval (by norm_num)
  have b15 : ieee.mul 0 (6369051672525773 / 9007199254740992) = 0 :=
    ieee.mul_zero_eval (by norm_num)
  have b16 : ieee.mul 1 (6369051672525771 / 18014398509481984) = 6369051672525771 /
    18014398509481984 :=
    ieee.mul_pos_eval (-54) 6369051672525771 (by norm_num) (by norm_num)
      (ieee.roundEven_of_lt (by norm_num) (by norm_num)) (by norm_num)
  have b17 : ieee.add 0 (6369051672525771 / 18014398509481984) = 6369051672525771 /
    18014398509481984 :=
    ieee.add_pos_eval (-54) 6369051672525771 (by norm_num) (by norm_num)
      (ieee.roundEven_of_lt (by norm_num) (by norm_num)) (by norm_num)
  have b18 : ieee.add (6369051672525771 / 18014398509481984) 0 = 6369051672525771 /
    18014398509481984 :=
    ieee.add_pos_eval (-54) 6369051672525771 (by norm_num) (by norm_num)
      (ieee.roundEven_of_lt (by norm_num) (by norm_num)) (by norm_num)
  have b19 : ieee.mul 0 0 = 0 :=
    ieee.mul_zero_eval (by norm_num)
  have b20 : ieee.mul 1 (7800463371553963 / 9007199254740992) = 7800463371553963 /
    9007199254740992 :=
    ieee.mul_pos_eval (-53) 7800463371553963 (by norm_num) (by norm_num)
      (ieee.roundEven_of_lt (by norm_num) (by norm_num)) (by norm_num)
  have b21 : ieee.add 0 (7800463371553963 / 9007199254740992) = 7800463371553963 /
    9007199254740992 :=
    ieee.add_pos_eval (-53) 7800463371553963 (by norm_num) (by norm_num)
      (ieee.roundEven_of_lt (by norm_num) (by norm_num)) (by norm_num)
  have b22 : ieee.add (7800463371553963 / 9007199254740992) 0 = 7800463371553963 /
    9007199254740992 :=
    ieee.add_pos_eval (-53) 7800463371553963 (by norm_num) (by norm_num)
      (ieee.roundEven_of_lt (by norm_num) (by norm_num)) (by norm_num)
  have b23 : ieee.mul 0 (1592262918131443 / 2251799813685248) = 0 :=
    ieee.mul_zero_eval (by norm_num)
  have b24 : ieee.mul 1 (-1592262918131443 / 4503599627370496) = -1592262918131443 /
    4503599627370496 :=
    ieee.mul_neg_eval (-54) (-6369051672525772) (by norm_num) (by norm_num)
      (ieee.roundEven_of_lt (by norm_num) (by norm_num)) (by norm_num)
  have b25 : ieee.add 0 (-1592262918131443 / 4503599627370496) = -1592262918131443 /
    4503599627370496 :=
    ieee.add_neg_eval (-54) (-6369051672525772) (by norm_num) (by norm_num)
      (ieee.roundEven_of_lt (by norm_num) (by norm_num)) (by norm_num)
  have b26 : ieee.add (-1592262918131443 / 4503599627370496) 0 = -1592262918131443 /
    4503599627370496 :=
    ieee.add_neg_eval (-54) (-6369051672525772) (by norm_num) (by norm_num)
      (ieee.roundEven_of_lt (by norm_num) (by norm_num)) (by norm_num)
  have b27 : ieee.mul 1 (-2757880273211543 / 4503599627370496) = -2757880273211543 /
    4503599627370496 :=
    ieee.mul_neg_eval (-53) (-5515760546423086) (by norm_num) (by norm_num)
      (ieee.roundEven_of_lt (by norm_num) (by norm_num)) (by norm_num)
  have b28 : ieee.add 0 (-2757880273211543 / 4503599627370496) = -2757880273211543 /
    4503599627370496 :=
    ieee.add_neg_eval (-53) (-5515760546423086) (by norm_num) (by norm_num)
      (ieee.roundEven_of_lt (by norm_num) (by norm_num)) (by norm_num)
  have b29 : ieee.mul 1 (9007199254740991 / 18014398509481984) = 9007199254740991 /
    18014398509481984 :=
    ieee.mul_pos_eval (-54) 9007199254740991 (by norm_num) (by norm_num)
      (ieee.roundEven_of_lt (by norm_num) (by norm_num)) (by norm_num)
  have b30 : ieee.add 0 (9007199254740991 / 18014398509481984) = 9007199254740991 /
    18014398509481984 :=
    ieee.add_pos_eval (-54) 9007199254740991 (by norm_num) (by norm_num)
      (ieee.roundEven_of_lt (by norm_num) (by norm_num)) (by norm_num)
  have b31 : ieee.mul 1 (5515760546423087 / 9007199254740992) = 5515760546423087 /
    9007199254740992 :=
    ieee.mul_pos_eval (-53) 5515760546423087 (by norm_num) (by norm_num)
      (ieee.roundEven_of_lt (by norm_num) (by norm_num)) (by norm_num)
  have b32 : ieee.add 0 (5515760546423087 / 9007199254740992) = 5515760546423087 /
    9007199254740992 :=
    ieee.add_pos_eval (-53) 5515760546423087 (by norm_num) (by norm_num)
      (ieee.roundEven_of_lt (by norm_num) (by norm_num)) (by norm_num)
  have b33 : ieee.mul (6369051672525773 / 9007199254740992) (6369051672525773 / 9007199254740992)
    = 4503599627370497 / 9007199254740992 :=
    ieee.mul_pos_eval (-53) 4503599627370497 (by norm_num) (by norm_num)
      (ieee.roundEven_of_lt (by norm_num) (by norm_num)) (by norm_num)
  have b34 : ieee.add (4503599627370497 / 9007199254740992) 0 = 4503599627370497 /
    9007199254740992 :=
    ieee.add_pos_eval (-53) 4503599627370497 (by norm_num) (by norm_num)
      (ieee.roundEven_of_lt (by norm_num) (by norm_num)) (by norm_num)
  have b35 : ieee.mul (1592262918131443 / 2251799813685248)
    (-2757880273211543 / 4503599627370496) = -7800463371553961 / 18014398509481984 :=
    ieee.mul_neg_eval (-54) (-7800463371553961) (by norm_num) (by norm_num)
      (ieee.roundEven_of_lt (by norm_num) (by norm_num)) (by norm_num)
  have b36 : ieee.add (4503599627370497 / 9007199254740992)
    (-7800463371553961 / 18014398509481984) = 1206735883187033 / 18014398509481984 :=
    ieee.add_pos_eval (-56) 4826943532748132 (by norm_num) (by norm_num)
      (ieee.roundEven_of_lt (by norm_num) (by norm_num)) (by norm_num)
  have b37 : ieee.mul (6369051672525773 / 9007199254740992) 0 = 0 :=
    ieee.mul_zero_eval (by norm_num)
  have b38 : ieee.mul (1592262918131443 / 2251799813685248)
    (9007199254740991 / 18014398509481984) = 6369051672525771 / 18014398509481984 :=
    ieee.mul_pos_eval (-54) 6369051672525771 (by norm_num) (by norm_num)
      (ieee.roundEven_of_lt (by norm_num) (by norm_num)) (by norm_num)
  have b39 : ieee.mul (6369051672525773 / 9007199254740992) (1592262918131443 / 2251799813685248)
    = 1 / 2 :=
    ieee.mul_pos_eval (-54) 9007199254740992 (by norm_num) (by norm_num)
      (ieee.roundEven_of_lt (by norm_num) (by norm_num)) (by norm_num)
  have b40 : ieee.add (1 / 2) 0 = 1 / 2 :=
    ieee.add_pos_eval (-53) 4503599627370496 (by norm_num) (by norm_num)
      (ieee.roundEven_of_lt (by norm_num) (by norm_num)) (by norm_num)
  have b41 : ieee.mul (1592262918131443 / 2251799813685248) (5515760546423087 / 9007199254740992)
    = 3900231685776981 / 9007199254740992 :=
    ieee.mul_pos_eval (-54) 7800463371553962 (by norm_num) (by norm_num)
      (ieee.roundEven_of_lt (by norm_num) (by norm_num)) (by norm_num)
  have b42 : ieee.add (1 / 2) (3900231685776981 / 9007199254740992) = 8403831313147477 /
    9007199254740992 :=
    ieee.add_pos_eval (-53) 8403831313147477 (by norm_num) (by norm_num)
      (ieee.roundEven_of_lt (by norm_num) (by norm_num)) (by norm_num)
  have b43 : ieee.mul (-1592262918131443 / 2251799813685248)
    (6369051672525773 / 9007199254740992) = -1 / 2 :=
    ieee.mul_neg_eval (-54) (-9007199254740992) (by norm_num) (by norm_num)
      (ieee.roundEven_of_lt (by norm_num) (by norm_num)) (by norm_num)
  have b44 : ieee.add (-1 / 2) 0 = -1 / 2 :=
    ieee.add_neg_eval (-53) (-4503599627370496) (by norm_num) (by norm_num)
      (ieee.roundEven_of_lt (by norm_num) (by norm_num)) (by norm_num)
  have b45 : ieee.mul (6369051672525773 / 9007199254740992)
    (-2757880273211543 / 4503599627370496) = -3900231685776981 / 9007199254740992 :=
    ieee.mul_neg_eval (-54) (-7800463371553962) (by norm_num) (by norm_num)
      (ieee.roundEven_of_lt (by norm_num) (by norm_num)) (by norm_num)
  have b46 : ieee.add (-1 / 2) (-3900231685776981 / 9007199254740992) = -8403831313147477 /
    9007199254740992 :=
    ieee.add_neg_eval (-53) (-8403831313147477) (by norm_num) (by norm_num)
      (ieee.roundEven_of_lt (by norm_num) (by norm_num)) (by norm_num)
  have b47 : ieee.mul (-1592262918131443 / 2251799813685248) 0 = 0 :=
    ieee.mul_zero_eval (by norm_num)
  have b48 : ieee.mul (6369051672525773 / 9007199254740992)
    (9007199254740991 / 18014398509481984) = 1592262918131443 / 4503599627370496 :=
    ieee.mul_pos_eval (-54) 6369051672525772 (by norm_num) (by norm_num)
      (ieee.roundEven_of_lt (by norm_num) (by norm_num)) (by norm_num)
  have b49 : ieee.add 0 (1592262918131443 / 4503599627370496) = 1592262918131443 /
    4503599627370496 :=
    ieee.add_pos_eval (-54) 6369051672525772 (by norm_num) (by norm_num)
      (ieee.roundEven_of_lt (by norm_num) (by norm_num)) (by norm_num)
  have b50 : ieee.mul (-1592262918131443 / 2251799813685248)
    (1592262918131443 / 2251799813685248) = -4503599627370495 / 9007199254740992 :=
    ieee.mul_neg_eval (-54) (-9007199254740990) (by norm_num) (by norm_num)
      (ieee.roundEven_of_lt (by norm_num) (by norm_num)) (by norm_num)
  have b51 : ieee.add (-4503599627370495 / 9007199254740992) 0 = -4503599627370495 /
    9007199254740992 :=
    ieee.add_neg_eval (-54) (-9007199254740990) (by norm_num) (by norm_num)
      (ieee.roundEven_of_lt (by norm_num) (by norm_num)) (by norm_num)
  have b52 : ieee.mul (6369051672525773 / 9007199254740992) (5515760546423087 / 9007199254740992)
    = 1950115842888491 / 4503599627370496 :=
    ieee.mul_pos_eval (-54) 7800463371553964 (by norm_num) (by norm_num)
      (ieee.roundEven_of_lt (by norm_num) (by norm_num)) (by norm_num)
  have b53 : ieee.add (-4503599627370495 / 9007199254740992)
    (1950115842888491 / 4503599627370496) = -603367941593513 / 9007199254740992 :=
    ieee.add_neg_eval (-56) (-4826943532748104) (by norm_num) (by norm_num)
      (ieee.roundEven_of_lt (by norm_num) (by norm_num)) (by norm_num)
  have bx0 : Trig.nearest.sin 0 = 0 := by norm_num [Trig.nearest]
  have bx1 : Trig.nearest.cos 0 = 1 := by norm_num [Trig.nearest]
  have bx2 : (-0 : ℚ) = 0 := by norm_num
  have bx3 : (-(-884279719003555 / 1125899906842624) : ℚ) = 884279719003555 / 1125899906842624 :=
    by norm_num
  have bx4 : Trig.nearest.sin (884279719003555 / 1125899906842624) = 1592262918131443 /
    2251799813685248 := by norm_num [Trig.nearest]
  have bx5 : Trig.nearest.cos (884279719003555 / 1125899906842624) = 6369051672525773 /
    9007199254740992 := by norm_num [Trig.nearest]
  have bx6 : (-(1592262918131443 / 2251799813685248) : ℚ) = -1592262918131443 / 2251799813685248
    := by norm_num
  have hx : (-(0 : ℚ)) = 0 := neg_zero
  simp only [sampleDraggedView, GlobalRotate64, sampleDefaultView_rotation, ROTATION_SPEED64,
    MouseHandler.RUBIKS_PI64_eq, Vec3D.smul64, geometry.RotationX, geometry.RotationY,
    Matrix3D.mul64,
    defaultView64, draggedView64, hx,
    b0, b1, b2, b3, b4, b5, b6, b7, b8, b9, b10, b11,
    b12, b13, b14, b15, b16, b17, b18, b19, b20, b21, b22, b23,
    b24, b25, b26, b27, b28, b29, b30, b31, b32, b33, b34, b35,
    b36, b37, b38, b39, b40, b41, b42, b43, b44, b45, b46, b47,
    b48, b49, b50, b51, b52, b53, bx0, bx1, bx2, bx3, bx4, bx5,
    bx6]

end RubiksCube

namespace MouseHandler

theorem default_rayPos : sampleDefault64.rayPos64 ⟨180, 320, 0⟩ = defaultRayPos := by
  have p0 : ieee.sub 180 180 = 0 :=
    ieee.sub_zero_eval (by norm_num)
  have p1 : ieee.sub 320 180 = 140 :=
    ieee.sub_pos_eval (-45) 4925812092436480 (by norm_num) (by norm_num)
      (ieee.roundEven_of_lt (by norm_num) (by norm_num)) (by norm_num)
  have p2 : ieee.sub 0 180 = -180 :=
    ieee.sub_neg_eval (-45) (-6333186975989760) (by norm_num) (by norm_num)
      (ieee.roundEven_of_lt (by norm_num) (by norm_num)) (by norm_num)
  have p3 : ieee.mul (6369051672525773 / 9007199254740992) 0 = 0 :=
    ieee.mul_zero_eval (by norm_num)
  have p4 : ieee.mul (6369051672525771 / 18014398509481984) 140 = 3483075133412531 /
    70368744177664 :=
    ieee.mul_pos_eval (-47) 6966150266825062 (by norm_num) (by norm_num)
      (ieee.roundEven_of_lt (by norm_num) (by norm_num)) (by norm_num)
  have p5 : ieee.add 0 (3483075133412531 / 70368744177664) = 3483075133412531 / 70368744177664 :=
    ieee.add_pos_eval (-47) 6966150266825062 (by norm_num) (by norm_num)
      (ieee.roundEven_of_lt (by norm_num) (by norm_num)) (by norm_num)
  have p6 : ieee.mul (-2757880273211543 / 4503599627370496) (-180) = 7756538268407465 /
    70368744177664 :=
    ieee.mul_pos_eval (-46) 7756538268407465 (by norm_num) (by norm_num)
      (ieee.roundEven_of_lt (by norm_num) (by norm_num)) (by norm_num)
  have p7 : ieee.add (3483075133412531 / 70368744177664) (7756538268407465 / 70368744177664) =
    2809903350454999 / 17592186044416 :=
    ieee.add_pos_eval (-45) 5619806700909998 (by norm_num) (by norm_num)
      (ieee.roundEven_of_lt (by norm_num) (by norm_num)) (by norm_num)
  have p8 : ieee.mul 0 0 = 0 :=
    ieee.mul_zero_eval (by norm_num)
  have p9 : ieee.mul (7800463371553963 / 9007199254740992) 140 = 8531756812637147 /
    70368744177664 :=
    ieee.mul_pos_eval (-46) 8531756812637147 (by norm_num) (by norm_num)
      (ieee.roundEven_of_lt (by norm_num) (by norm_num)) (by norm_num)
  have p10 : ieee.add 0 (8531756812637147 / 70368744177664) = 8531756812637147 / 70368744177664
    :=
    ieee.add_pos_eval (-46) 8531756812637147 (by norm_num) (by norm_num)
      (ieee.roundEven_of_lt (by norm_num) (by norm_num)) (by norm_num)
  have p11 : ieee.mul (9007199254740991 / 18014398509481984) (-180) = -6333186975989759 /
    70368744177664 :=
    ieee.mul_neg_eval (-46) (-6333186975989759) (by norm_num) (by norm_num)
      (ieee.roundEven_of_lt (by norm_num) (by norm_num)) (by norm_num)
  have p12 : ieee.add (8531756812637147 / 70368744177664) (-6333186975989759 / 70368744177664) =
    549642459161847 / 17592186044416 :=
    ieee.add_pos_eval (-48) 8794279346589552 (by norm_num) (by norm_num)
      (ieee.roundEven_of_lt (by norm_num) (by norm_num)) (by norm_num)
  have p13 : ieee.mul (1592262918131443 / 2251799813685248) 0 = 0 :=
    ieee.mul_zero_eval (by norm_num)
  have p14 : ieee.mul (-1592262918131443 / 4503599627370496) 140 = -6966150266825063 /
    140737488355328 :=
    ieee.mul_neg_eval (-47) (-6966150266825063) (by norm_num) (by norm_num)
      (ieee.roundEven_of_lt (by norm_num) (by norm_num)) (by norm_num)
  have p15 : ieee.add 0 (-6966150266825063 / 140737488355328) = -6966150266825063 /
    140737488355328 :=
    ieee.add_neg_eval (-47) (-6966150266825063) (by norm_num) (by norm_num)
      (ieee.roundEven_of_lt (by norm_num) (by norm_num)) (by norm_num)
  have p16 : ieee.mul (5515760546423087 / 9007199254740992) (-180) = -3878269134203733 /
    35184372088832 :=
    ieee.mul_neg_eval (-46) (-7756538268407466) (by norm_num) (by norm_num)
      (ieee.roundEven_of_lt (by norm_num) (by norm_num)) (by norm_num)
  have p17 : ieee.add (-6966150266825063 / 140737488355328) (-3878269134203733 / 35184372088832)
    = -5619806700909999 / 35184372088832 :=
    ieee.add_neg_eval (-45) (-5619806700909999) (by norm_num) (by norm_num)
      (ieee.roundEven_of_lt (by norm_num) (by norm_num)) (by norm_num)
  have p18 : ieee.mul (6369051672525771 / 18014398509481984) 0 = 0 :=
    ieee.mul_zero_eval (by norm_num)
  have p19 : ieee.add 0 0 = 0 :=
    ieee.add_zero_eval (by norm_num)
  have p20 : ieee.mul (-2757880273211543 / 4503599627370496) 1 = -2757880273211543 /
    4503599627370496 :=
    ieee.mul_neg_eval (-53) (-5515760546423086) (by norm_num) (by norm_num)
      (ieee.roundEven_of_lt (by norm_num) (by norm_num)) (by norm_num)
  have p21 : ieee.add 0 (-2757880273211543 / 4503599627370496) = -2757880273211543 /
    4503599627370496 :=
    ieee.add_neg_eval (-53) (-5515760546423086) (by norm_num) (by norm_num)
      (ieee.roundEven_of_lt (by norm_num) (by norm_num)) (by norm_num)
  have p22 : ieee.mul (7800463371553963 / 9007199254740992) 0 = 0 :=
    ieee.mul_zero_eval (by norm_num)
  have p23 : ieee.mul (9007199254740991 / 18014398509481984) 1 = 9007199254740991 /
    18014398509481984 :=
    ieee.mul_pos_eval (-54) 9007199254740991 (by norm_num) (by norm_num)
      (ieee.roundEven_of_lt (by norm_num) (by norm_num)) (by norm_num)
  have p24 : ieee.add 0 (9007199254740991 / 18014398509481984) = 9007199254740991 /
    18014398509481984 :=
    ieee.add_pos_eval (-54) 9007199254740991 (by norm_num) (by norm_num)
      (ieee.roundEven_of_lt (by norm_num) (by norm_num)) (by norm_num)
  have p25 : ieee.mul (-1592262918131443 / 4503599627370496) 0 = 0 :=
    ieee.mul_zero_eval (by norm_num)
  have p26 : ieee.mul (5515760546423087 / 9007199254740992) 1 = 5515760546423087 /
    9007199254740992 :=
    ieee.mul_pos_eval (-53) 5515760546423087 (by norm_num) (by norm_num)
      (ieee.roundEven_of_lt (by norm_num) (by norm_num)) (by norm_num)
  have p27 : ieee.add 0 (5515760546423087 / 9007199254740992) = 5515760546423087 /
    9007199254740992 :=
    ieee.add_pos_eval (-53) 5515760546423087 (by norm_num) (by norm_num)
      (ieee.roundEven_of_lt (by norm_num) (by norm_num)) (by norm_num)
  have hr : sampleDefault64.m_rubiks.global_rotation = RubiksCube.defaultView64 :=
    RubiksCube.sampleDefaultView_rotation
  have ht : sampleDefault64.m_rubiks.global_translation = ⟨180, 180, 180⟩ := rfl
  simp only [rayPos64, defaultRayPos, hr, ht, RubiksCube.defaultView64, Matrix3D.Transpose,
    Matrix3D.mulVec64, Vec3D.sub64,
    p0, p1, p2, p3, p4, p5, p6, p7, p8, p9, p10, p11,
    p12, p13, p14, p15, p16, p17, p18, p19, p20, p21, p22, p23,
    p24, p25, p26, p27]

theorem default_rayVec : sampleDefault64.rayVec64 = defaultRayVec := by
  have p0 : ieee.sub 180 180 = 0 :=
    ieee.sub_zero_eval (by norm_num)
  have p1 : ieee.sub 320 180 = 140 :=
    ieee.sub_pos_eval (-45) 4925812092436480 (by norm_num) (by norm_num)
      (ieee.roundEven_of_lt (by norm_num) (by norm_num)) (by norm_num)
  have p2 : ieee.sub 0 180 = -180 :=
    ieee.sub_neg_eval (-45) (-6333186975989760) (by norm_num) (by norm_num)
      (ieee.roundEven_of_lt (by norm_num) (by norm_num)) (by norm_num)
  have p3 : ieee.mul (6369051672525773 / 9007199254740992) 0 = 0 :=
    ieee.mul_zero_eval (by norm_num)
  have p4 : ieee.mul (6369051672525771 / 18014398509481984) 140 = 3483075133412531 /
    70368744177664 :=
    ieee.mul_pos_eval (-47) 6966150266825062 (by norm_num) (by norm_num)
      (ieee.roundEven_of_lt (by norm_num) (by norm_num)) (by norm_num)
  have p5 : ieee.add 0 (3483075133412531 / 70368744177664) = 3483075133412531 / 70368744177664 :=
    ieee.add_pos_eval (-47) 6966150266825062 (by norm_num) (by norm_num)
      (ieee.roundEven_of_lt (by norm_num) (by norm_num)) (by norm_num)
  have p6 : ieee.mul (-2757880273211543 / 4503599627370496) (-180) = 7756538268407465 /
    70368744177664 :=
    ieee.mul_pos_eval (-46) 7756538268407465 (by norm_num) (by norm_num)
      (ieee.roundEven_of_lt (by norm_num) (by norm_num)) (by norm_num)
  have p7 : ieee.add (3483075133412531 / 70368744177664) (7756538268407465 / 70368744177664) =
    2809903350454999 / 17592186044416 :=
    ieee.add_pos_eval (-45) 5619806700909998 (by norm_num) (by norm_num)
      (ieee.roundEven_of_lt (by norm_num) (by norm_num)) (by norm_num)
  have p8 : ieee.mul 0 0 = 0 :=
    ieee.mul_zero_eval (by norm_num)
  have p9 : ieee.mul (7800463371553963 / 9007199254740992) 140 = 8531756812637147 /
    70368744177664 :=
    ieee.mul_pos_eval (-46) 8531756812637147 (by norm_num) (by norm_num)
      (ieee.roundEven_of_lt (by norm_num) (by norm_num)) (by norm_num)
  have p10 : ieee.add 0 (8531756812637147 / 70368744177664) = 8531756812637147 / 70368744177664
    :=
    ieee.add_pos_eval (-46) 8531756812637147 (by norm_num) (by norm_num)
      (ieee.roundEven_of_lt (by norm_num) (by norm_num)) (by norm_num)
  have p11 : ieee.mul (9007199254740991 / 18014398509481984) (-180) = -6333186975989759 /
    70368744177664 :=
    ieee.mul_neg_eval (-46) (-6333186975989759) (by norm_num) (by norm_num)
      (ieee.roundEven_of_lt (by norm_num) (by norm_num)) (by norm_num)
  have p12 : ieee.add (8531756812637147 / 70368744177664) (-6333186975989759 / 70368744177664) =
    549642459161847 / 17592186044416 :=
    ieee.add_pos_eval (-48) 8794279346589552 (by norm_num) (by norm_num)
      (ieee.roundEven_of_lt (by norm_num) (by norm_num)) (by norm_num)
  have p13 : ieee.mul (1592262918131443 / 2251799813685248) 0 = 0 :=
    ieee.mul_zero_eval (by norm_num)
  have p14 : ieee.mul (-1592262918131443 / 4503599627370496) 140 = -6966150266825063 /
    140737488355328 :=
    ieee.mul_neg_eval (-47) (-6966150266825063) (by norm_num) (by norm_num)
      (ieee.roundEven_of_lt (by norm_num) (by norm_num)) (by norm_num)
  have p15 : ieee.add 0 (-6966150266825063 / 140737488355328) = -6966150266825063 /
    140737488355328 :=
    ieee.add_neg_eval (-47) (-6966150266825063) (by norm_num) (by norm_num)
      (ieee.roundEven_of_lt (by norm_num) (by norm_num)) (by norm_num)
  have p16 : ieee.mul (5515760546423087 / 9007199254740992) (-180) = -3878269134203733 /
    35184372088832 :=
    ieee.mul_neg_eval (-46) (-7756538268407466) (by norm_num) (by norm_num)
      (ieee.roundEven_of_lt (by norm_num) (by norm_num)) (by norm_num)
  have p17 : ieee.add (-6966150266825063 / 140737488355328) (-3878269134203733 / 35184372088832)
    = -5619806700909999 / 35184372088832 :=
    ieee.add_neg_eval (-45) (-5619806700909999) (by norm_num) (by norm_num)
      (ieee.roundEven_of_lt (by norm_num) (by norm_num)) (by norm_num)
  have p18 : ieee.mul (6369051672525771 / 18014398509481984) 0 = 0 :=
    ieee.mul_zero_eval (by norm_num)
  have p19 : ieee.add 0 0 = 0 :=
    ieee.add_zero_eval (by norm_num)
  have p20 : ieee.mul (-2757880273211543 / 4503599627370496) 1 = -2757880273211543 /
    4503599627370496 :=
    ieee.mul_neg_eval (-53) (-5515760546423086) (by norm_num) (by norm_num)
      (ieee.roundEven_of_lt (by norm_num) (by norm_num)) (by norm_num)
  have p21 : ieee.add 0 (-2757880273211543 / 4503599627370496) = -2757880273211543 /
    4503599627370496 :=
    ieee.add_neg_eval (-53) (-5515760546423086) (by norm_num) (by norm_num)
      (ieee.roundEven_of_lt (by norm_num) (by norm_num)) (by norm_num)
  have p22 : ieee.mul (7800463371553963 / 9007199254740992) 0 = 0 :=
    ieee.mul_zero_eval (by norm_num)
  have p23 : ieee.mul (9007199254740991 / 18014398509481984) 1 = 9007199254740991 /
    18014398509481984 :=
    ieee.mul_pos_eval (-54) 9007199254740991 (by norm_num) (by norm_num)
      (ieee.roundEven_of_lt (by norm_num) (by norm_num)) (by norm_num)
  have p24 : ieee.add 0 (9007199254740991 / 18014398509481984) = 9007199254740991 /
    18014398509481984 :=
    ieee.add_pos_eval (-54) 9007199254740991 (by norm_num) (by norm_num)
      (ieee.roundEven_of_lt (by norm_num) (by norm_num)) (by norm_num)
  have p25 : ieee.mul (-1592262918131443 / 4503599627370496) 0 = 0 :=
    ieee.mul_zero_eval (by norm_num)
  have p26 : ieee.mul (5515760546423087 / 9007199254740992) 1 = 5515760546423087 /
    9007199254740992 :=
    ieee.mul_pos_eval (-53) 5515760546423087 (by norm_num) (by norm_num)
      (ieee.roundEven_of_lt (by norm_num) (by norm_num)) (by norm_num)
  have p27 : ieee.add 0 (5515760546423087 / 9007199254740992) = 5515760546423087 /
    9007199254740992 :=
    ieee.add_pos_eval (-53) 5515760546423087 (by norm_num) (by norm_num)
      (ieee.roundEven_of_lt (by norm_num) (by norm_num)) (by norm_num)
  have hr : sampleDefault64.m_rubiks.global_rotation = RubiksCube.defaultView64 :=
    RubiksCube.sampleDefaultView_rotation
  simp only [rayVec64, defaultRayVec, hr, RubiksCube.defaultView64, Matrix3D.Transpose,
    Matrix3D.mulVec64,
    p0, p1, p2, p3, p4, p5, p6, p7, p8, p9, p10, p11,
    p12, p13, p14, p15, p16, p17, p18, p19, p20, p21, p22, p23,
    p24, p25, p26, p27]

theorem default_clickX :
    clickX64 sampleDefault64 defaultRayPos defaultRayVec = none := by
  have px0 : ieee.mul 1 90 = 90 :=
    ieee.mul_pos_eval (-46) 6333186975989760 (by norm_num) (by norm_num)
      (ieee.roundEven_of_lt (by norm_num) (by norm_num)) (by norm_num)
  have px1 : ieee.sub 90 (2809903350454999 / 17592186044416) = -1226606606457559 / 17592186044416
    :=
    ieee.sub_neg_eval (-46) (-4906426425830236) (by norm_num) (by norm_num)
      (ieee.roundEven_of_lt (by norm_num) (by norm_num)) (by norm_num)
  have px2 : ieee.div (-1226606606457559 / 17592186044416) (-2757880273211543 / 4503599627370496)
    = 4006080401263831 / 35184372088832 :=
    ieee.div_pos_eval (-46) 8012160802527662 (by norm_num) (by norm_num)
      (ieee.roundEven_of_lt (by norm_num) (by norm_num)) (by norm_num)
  have px3 : ieee.mul (-2757880273211543 / 4503599627370496) (4006080401263831 / 35184372088832)
    = -1226606606457559 / 17592186044416 :=
    ieee.mul_neg_eval (-46) (-4906426425830236) (by norm_num) (by norm_num)
      (ieee.roundEven_of_lt (by norm_num) (by norm_num)) (by norm_num)
  have px4 : ieee.mul (9007199254740991 / 18014398509481984) (4006080401263831 / 35184372088832)
    = 8012160802527661 / 140737488355328 :=
    ieee.mul_pos_eval (-47) 8012160802527661 (by norm_num) (by norm_num)
      (ieee.roundEven_of_lt (by norm_num) (by norm_num)) (by norm_num)
  have px5 : ieee.mul (5515760546423087 / 9007199254740992) (4006080401263831 / 35184372088832) =
    4906426425830237 / 70368744177664 :=
    ieee.mul_pos_eval (-46) 4906426425830237 (by norm_num) (by norm_num)
      (ieee.roundEven_of_lt (by norm_num) (by norm_num)) (by norm_num)
  have px6 : ieee.add (2809903350454999 / 17592186044416) (-1226606606457559 / 17592186044416) =
    90 :=
    ieee.add_pos_eval (-46) 6333186975989760 (by norm_num) (by norm_num)
      (ieee.roundEven_of_lt (by norm_num) (by norm_num)) (by norm_num)
  have px7 : ieee.add (549642459161847 / 17592186044416) (8012160802527661 / 140737488355328) =
    3102325118955609 / 35184372088832 :=
    ieee.add_pos_eval (-46) 6204650237911218 (by norm_num) (by norm_num)
      (ieee.roundEven_tie_down (by norm_num) (by decide)) (by norm_num)
  have px8 : ieee.add (-5619806700909999 / 35184372088832) (4906426425830237 / 70368744177664) =
    -6333186975989761 / 70368744177664 :=
    ieee.add_neg_eval (-46) (-6333186975989761) (by norm_num) (by norm_num)
      (ieee.roundEven_of_lt (by norm_num) (by norm_num)) (by norm_num)
  have pxx0 : |(2809903350454999 / 17592186044416 : ℚ)| = 2809903350454999 / 17592186044416 :=
    abs_of_pos (by norm_num)
  have pxx1 : Sign (2809903350454999 / 17592186044416) = 1 := by norm_num [Sign]
  have pxx2 : divDouble64 (-1226606606457559 / 17592186044416)
    (-2757880273211543 / 4503599627370496) = some (4006080401263831 / 35184372088832) := by
    rw [divDouble64, if_neg (by norm_num), px2]
  have pxx3 : |(3102325118955609 / 35184372088832 : ℚ)| = 3102325118955609 / 35184372088832 :=
    abs_of_pos (by norm_num)
  have pxx4 : |(-6333186975989761 / 70368744177664 : ℚ)| = 6333186975989761 / 70368744177664 :=
    by
    rw [abs_of_neg (by norm_num)]
    norm_num
  simp only [clickX64, defaultRayPos, defaultRayVec, RubiksCube.RUBIKS_SIZE_eq,
    RubiksCube.CUBE_DISTANCE_eq,
    Vec3D.add64, Vec3D.smul64,
    px0, px1, px2, px3, px4, px5, px6, px7, px8, pxx0, pxx1, pxx2,
    pxx3, pxx4]
  norm_num

theorem default_clickY :
    clickY64 sampleDefault64 defaultRayPos defaultRayVec = none := by
  have pyx0 : |(549642459161847 / 17592186044416 : ℚ)| = 549642459161847 / 17592186044416 :=
    abs_of_pos (by norm_num)
  simp only [clickY64, defaultRayPos, defaultRayVec, RubiksCube.RUBIKS_SIZE_eq,
    pyx0]
  norm_num

theorem default_clickZ :
    clickZ64 sampleDefault64 defaultRayPos defaultRayVec =
      some { sampleDefault64 with
        m_clicked_cube := 9,
        m_clicked_axis := AXIS_Z,
        m_clicked_pos :=
          ⟨6333186975989759 / 70368744177664,
           1551162559477805 / 17592186044416,
           -90⟩,
        m_state := MOUSE_STATE_SELECE_AXIS } := by
  have pz0 : ieee.mul (-1) 90 = -90 :=
    ieee.mul_neg_eval (-46) (-6333186975989760) (by norm_num) (by norm_num)
      (ieee.roundEven_of_lt (by norm_num) (by norm_num)) (by norm_num)
  have pz1 : ieee.sub (-90) (-5619806700909999 / 35184372088832) = 2453213212915119 /
    35184372088832 :=
    ieee.sub_pos_eval (-46) 4906426425830238 (by norm_num) (by norm_num)
      (ieee.roundEven_of_lt (by norm_num) (by norm_num)) (by norm_num)
  have pz2 : ieee.div (2453213212915119 / 35184372088832) (5515760546423087 / 9007199254740992) =
    500760050157979 / 4398046511104 :=
    ieee.div_pos_eval (-46) 8012160802527664 (by norm_num) (by norm_num)
      (ieee.roundEven_of_lt (by norm_num) (by norm_num)) (by norm_num)
  have pz3 : ieee.mul (-2757880273211543 / 4503599627370496) (500760050157979 / 4398046511104) =
    -4906426425830237 / 70368744177664 :=
    ieee.mul_neg_eval (-46) (-4906426425830237) (by norm_num) (by norm_num)
      (ieee.roundEven_of_lt (by norm_num) (by norm_num)) (by norm_num)
  have pz4 : ieee.mul (9007199254740991 / 18014398509481984) (500760050157979 / 4398046511104) =
    8012160802527663 / 140737488355328 :=
    ieee.mul_pos_eval (-47) 8012160802527663 (by norm_num) (by norm_num)
      (ieee.roundEven_of_lt (by norm_num) (by norm_num)) (by norm_num)
  have pz5 : ieee.mul (5515760546423087 / 9007199254740992) (500760050157979 / 4398046511104) =
    2453213212915119 / 35184372088832 :=
    ieee.mul_pos_eval (-46) 4906426425830238 (by norm_num) (by norm_num)
      (ieee.roundEven_of_lt (by norm_num) (by norm_num)) (by norm_num)
  have pz6 : ieee.add (2809903350454999 / 17592186044416) (-4906426425830237 / 70368744177664) =
    6333186975989759 / 70368744177664 :=
    ieee.add_pos_eval (-46) 6333186975989759 (by norm_num) (by norm_num)
      (ieee.roundEven_of_lt (by norm_num) (by norm_num)) (by norm_num)
  have pz7 : ieee.add (549642459161847 / 17592186044416) (8012160802527663 / 140737488355328) =
    1551162559477805 / 17592186044416 :=
    ieee.add_pos_eval (-46) 6204650237911220 (by norm_num) (by norm_num)
      (ieee.roundEven_tie_up (by norm_num) (by decide)) (by norm_num)
  have pz8 : ieee.add (-5619806700909999 / 35184372088832) (2453213212915119 / 35184372088832) =
    -90 :=
    ieee.add_neg_eval (-46) (-6333186975989760) (by norm_num) (by norm_num)
      (ieee.roundEven_of_lt (by norm_num) (by norm_num)) (by norm_num)
  have pz9 : ieee.add (-1) 1 = 0 :=
    ieee.add_zero_eval (by norm_num)
  have pz10 : ieee.add (6333186975989759 / 70368744177664) 90 = 180 :=
    ieee.add_pos_eval (-45) 6333186975989760 (by norm_num) (by norm_num)
      (ieee.roundEven_tie_up (by norm_num) (by decide)) (by norm_num)
  have pz11 : ieee.div 180 60 = 3 :=
    ieee.div_pos_eval (-51) 6755399441055744 (by norm_num) (by norm_num)
      (ieee.roundEven_of_lt (by norm_num) (by norm_num)) (by norm_num)
  have pz12 : ieee.add (1551162559477805 / 17592186044416) 90 = 3134459303475245 / 17592186044416
    :=
    ieee.add_pos_eval (-45) 6268918606950490 (by norm_num) (by norm_num)
      (ieee.roundEven_of_lt (by norm_num) (by norm_num)) (by norm_num)
  have pz13 : ieee.div (3134459303475245 / 17592186044416) 60 = 6686846514080523 /
    2251799813685248 :=
    ieee.div_pos_eval (-51) 6686846514080523 (by norm_num) (by norm_num)
      (ieee.roundEven_of_lt (by norm_num) (by norm_num)) (by norm_num)
  have pzx0 : |(-5619806700909999 / 35184372088832 : ℚ)| = 5619806700909999 / 35184372088832 :=
    by
    rw [abs_of_neg (by norm_num)]
    norm_num
  have pzx1 : Sign (-5619806700909999 / 35184372088832) = -1 := by norm_num [Sign]
  have pzx2 : divDouble64 (2453213212915119 / 35184372088832)
    (5515760546423087 / 9007199254740992) = some (500760050157979 / 4398046511104) := by
    rw [divDouble64, if_neg (by norm_num), pz2]
  have pzx3 : |(6333186975989759 / 70368744177664 : ℚ)| = 6333186975989759 / 70368744177664 :=
    abs_of_pos (by norm_num)
  have pzx4 : |(1551162559477805 / 17592186044416 : ℚ)| = 1551162559477805 / 17592186044416 :=
    abs_of_pos (by norm_num)
  have pzx5 : truncate 0 = 0 := by
    rw [truncate, if_pos (by norm_num), Int.floor_eq_iff]
    constructor <;> norm_num
  have pzx6 : truncate 3 = 3 := by
    rw [truncate, if_pos (by norm_num), Int.floor_eq_iff]
    constructor <;> norm_num
  have pzx7 : truncate (6686846514080523 / 2251799813685248) = 2 := by
    rw [truncate, if_pos (by norm_num), Int.floor_eq_iff]
    constructor <;> norm_num
  simp only [clickZ64, defaultRayPos, defaultRayVec, RubiksCube.RUBIKS_SIZE_eq,
    RubiksCube.CUBE_DISTANCE_eq,
    Vec3D.add64, Vec3D.smul64,
    pz0, pz1, pz2, pz3, pz4, pz5, pz6, pz7, pz8, pz9, pz10, pz11,
    pz12, pz13, pzx0, pzx1, pzx2, pzx3, pzx4, pzx5, pzx6, pzx7]
  norm_num

theorem dragged_rayPos : sampleDragged64.rayPos64 ⟨270, 180, 0⟩ = draggedRayPos := by
  have r0 : ieee.sub 270 180 = 90 :=
    ieee.sub_pos_eval (-46) 6333186975989760 (by norm_num) (by norm_num)
      (ieee.roundEven_of_lt (by norm_num) (by norm_num)) (by norm_num)
  have r1 : ieee.sub 180 180 = 0 :=
    ieee.sub_zero_eval (by norm_num)
  have r2 : ieee.sub 0 180 = -180 :=
    ieee.sub_neg_eval (-45) (-6333186975989760) (by norm_num) (by norm_num)
      (ieee.roundEven_of_lt (by norm_num) (by norm_num)) (by norm_num)
  have r3 : ieee.mul (1206735883187033 / 18014398509481984) 90 = 6787889342927061 /
    1125899906842624 :=
    ieee.mul_pos_eval (-50) 6787889342927061 (by norm_num) (by norm_num)
      (ieee.roundEven_of_lt (by norm_num) (by norm_num)) (by norm_num)
  have r4 : ieee.mul (6369051672525771 / 18014398509481984) 0 = 0 :=
    ieee.mul_zero_eval (by norm_num)
  have r5 : ieee.add (6787889342927061 / 1125899906842624) 0 = 6787889342927061 /
    1125899906842624 :=
    ieee.add_pos_eval (-50) 6787889342927061 (by norm_num) (by norm_num)
      (ieee.roundEven_of_lt (by norm_num) (by norm_num)) (by norm_num)
  have r6 : ieee.mul (-8403831313147477 / 9007199254740992) (-180) = 1477235973014205 /
    8796093022208 :=
    ieee.mul_pos_eval (-45) 5908943892056820 (by norm_num) (by norm_num)
      (ieee.roundEven_of_lt (by norm_num) (by norm_num)) (by norm_num)
  have r7 : ieee.add (6787889342927061 / 1125899906842624) (1477235973014205 / 8796093022208) =
    6121065434023291 / 35184372088832 :=
    ieee.add_pos_eval (-45) 6121065434023291 (by norm_num) (by norm_num)
      (ieee.roundEven_of_lt (by norm_num) (by norm_num)) (by norm_num)
  have r8 : ieee.mul (6369051672525771 / 18014398509481984) 90 = 8956478914489365 /
    281474976710656 :=
    ieee.mul_pos_eval (-48) 8956478914489365 (by norm_num) (by norm_num)
      (ieee.roundEven_of_lt (by norm_num) (by norm_num)) (by norm_num)
  have r9 : ieee.mul (7800463371553963 / 9007199254740992) 0 = 0 :=
    ieee.mul_zero_eval (by norm_num)
  have r10 : ieee.add (8956478914489365 / 281474976710656) 0 = 8956478914489365 / 281474976710656
    :=
    ieee.add_pos_eval (-48) 8956478914489365 (by norm_num) (by norm_num)
      (ieee.roundEven_of_lt (by norm_num) (by norm_num)) (by norm_num)
  have r11 : ieee.mul (1592262918131443 / 4503599627370496) (-180) = -8956478914489367 /
    140737488355328 :=
    ieee.mul_neg_eval (-47) (-8956478914489367) (by norm_num) (by norm_num)
      (ieee.roundEven_of_lt (by norm_num) (by norm_num)) (by norm_num)
  have r12 : ieee.add (8956478914489365 / 281474976710656) (-8956478914489367 / 140737488355328)
    = -8956478914489369 / 281474976710656 :=
    ieee.add_neg_eval (-48) (-8956478914489369) (by norm_num) (by norm_num)
      (ieee.roundEven_of_lt (by norm_num) (by norm_num)) (by norm_num)
  have r13 : ieee.mul (8403831313147477 / 9007199254740992) 90 = 1477235973014205 /
    17592186044416 :=
    ieee.mul_pos_eval (-46) 5908943892056820 (by norm_num) (by norm_num)
      (ieee.roundEven_of_lt (by norm_num) (by norm_num)) (by norm_num)
  have r14 : ieee.mul (-1592262918131443 / 4503599627370496) 0 = 0 :=
    ieee.mul_zero_eval (by norm_num)
  have r15 : ieee.add (1477235973014205 / 17592186044416) 0 = 1477235973014205 / 17592186044416
    :=
    ieee.add_pos_eval (-46) 5908943892056820 (by norm_num) (by norm_num)
      (ieee.roundEven_of_lt (by norm_num) (by norm_num)) (by norm_num)
  have r16 : ieee.mul (-603367941593513 / 9007199254740992) (-180) = 6787889342927021 /
    562949953421312 :=
    ieee.mul_pos_eval (-49) 6787889342927021 (by norm_num) (by norm_num)
      (ieee.roundEven_of_lt (by norm_num) (by norm_num)) (by norm_num)
  have r17 : ieee.add (1477235973014205 / 17592186044416) (6787889342927021 / 562949953421312) =
    3378715029961349 / 35184372088832 :=
    ieee.add_pos_eval (-46) 6757430059922698 (by norm_num) (by norm_num)
      (ieee.roundEven_of_lt (by norm_num) (by norm_num)) (by norm_num)
  have r18 : ieee.mul (1206735883187033 / 18014398509481984) 0 = 0 :=
    ieee.mul_zero_eval (by norm_num)
  have r19 : ieee.add 0 0 = 0 :=
    ieee.add_zero_eval (by norm_num)
  have r20 : ieee.mul (-8403831313147477 / 9007199254740992) 1 = -8403831313147477 /
    9007199254740992 :=
    ieee.mul_neg_eval (-53) (-8403831313147477) (by norm_num) (by norm_num)
      (ieee.roundEven_of_lt (by norm_num) (by norm_num)) (by norm_num)
  have r21 : ieee.add 0 (-8403831313147477 / 9007199254740992) = -8403831313147477 /
    9007199254740992 :=
    ieee.add_neg_eval (-53) (-8403831313147477) (by norm_num) (by norm_num)
      (ieee.roundEven_of_lt (by norm_num) (by norm_num)) (by norm_num)
  have r22 : ieee.mul (1592262918131443 / 4503599627370496) 1 = 1592262918131443 /
    4503599627370496 :=
    ieee.mul_pos_eval (-54) 6369051672525772 (by norm_num) (by norm_num)
      (ieee.roundEven_of_lt (by norm_num) (by norm_num)) (by norm_num)
  have r23 : ieee.add 0 (1592262918131443 / 4503599627370496) = 1592262918131443 /
    4503599627370496 :=
    ieee.add_pos_eval (-54) 6369051672525772 (by norm_num) (by norm_num)
      (ieee.roundEven_of_lt (by norm_num) (by norm_num)) (by norm_num)
  have r24 : ieee.mul (8403831313147477 / 9007199254740992) 0 = 0 :=
    ieee.mul_zero_eval (by norm_num)
  have r25 : ieee.mul (-603367941593513 / 9007199254740992) 1 = -603367941593513 /
    9007199254740992 :=
    ieee.mul_neg_eval (-56) (-4826943532748104) (by norm_num) (by norm_num)
      (ieee.roundEven_of_lt (by norm_num) (by norm_num)) (by norm_num)
  have r26 : ieee.add 0 (-603367941593513 / 9007199254740992) = -603367941593513 /
    9007199254740992 :=
    ieee.add_neg_eval (-56) (-4826943532748104) (by norm_num) (by norm_num)
      (ieee.roundEven_of_lt (by norm_num) (by norm_num)) (by norm_num)
  have hr : sampleDragged64.m_rubiks.global_rotation = RubiksCube.draggedView64 :=
    RubiksCube.sampleDraggedView_rotation
  have ht : sampleDragged64.m_rubiks.global_translation = ⟨180, 180, 180⟩ := rfl
  simp only [rayPos64, draggedRayPos, hr, ht, RubiksCube.draggedView64, Matrix3D.Transpose,
    Matrix3D.mulVec64, Vec3D.sub64,
    r0, r1, r2, r3, r4, r5, r6, r7, r8, r9, r10, r11,
    r12, r13, r14, r15, r16, r17, r18, r19, r20, r21, r22, r23,
    r24, r25, r26]

theorem dragged_rayVec : sampleDragged64.rayVec64 = draggedRayVec := by
  have r0 : ieee.sub 270 180 = 90 :=
    ieee.sub_pos_eval (-46) 6333186975989760 (by norm_num) (by norm_num)
      (ieee.roundEven_of_lt (by norm_num) (by norm_num)) (by norm_num)
  have r1 : ieee.sub 180 180 = 0 :=
    ieee.sub_zero_eval (by norm_num)
  have r2 : ieee.sub 0 180 = -180 :=
    ieee.sub_neg_eval (-45) (-6333186975989760) (by norm_num) (by norm_num)
      (ieee.roundEven_of_lt (by norm_num) (by norm_num)) (by norm_num)
  have r3 : ieee.mul (1206735883187033 / 18014398509481984) 90 = 6787889342927061 /
    1125899906842624 :=
    ieee.mul_pos_eval (-50) 6787889342927061 (by norm_num) (by norm_num)
      (ieee.roundEven_of_lt (by norm_num) (by norm_num)) (by norm_num)
  have r4 : ieee.mul (6369051672525771 / 18014398509481984) 0 = 0 :=
    ieee.mul_zero_eval (by norm_num)
  have r5 : ieee.add (6787889342927061 / 1125899906842624) 0 = 6787889342927061 /
    1125899906842624 :=
    ieee.add_pos_eval (-50) 6787889342927061 (by norm_num) (by norm_num)
      (ieee.roundEven_of_lt (by norm_num) (by norm_num)) (by norm_num)
  have r6 : ieee.mul (-8403831313147477 / 9007199254740992) (-180) = 1477235973014205 /
    8796093022208 :=
    ieee.mul_pos_eval (-45) 5908943892056820 (by norm_num) (by norm_num)
      (ieee.roundEven_of_lt (by norm_num) (by norm_num)) (by norm_num)
  have r7 : ieee.add (6787889342927061 / 1125899906842624) (1477235973014205 / 8796093022208) =
    6121065434023291 / 35184372088832 :=
    ieee.add_pos_eval (-45) 6121065434023291 (by norm_num) (by norm_num)
      (ieee.roundEven_of_lt (by norm_num) (by norm_num)) (by norm_num)
  have r8 : ieee.mul (6369051672525771 / 18014398509481984) 90 = 8956478914489365 /
    281474976710656 :=
    ieee.mul_pos_eval (-48) 8956478914489365 (by norm_num) (by norm_num)
      (ieee.roundEven_of_lt (by norm_num) (by norm_num)) (by norm_num)
  have r9 : ieee.mul (7800463371553963 / 9007199254740992) 0 = 0 :=
    ieee.mul_zero_eval (by norm_num)
  have r10 : ieee.add (8956478914489365 / 281474976710656) 0 = 8956478914489365 / 281474976710656
    :=
    ieee.add_pos_eval (-48) 8956478914489365 (by norm_num) (by norm_num)
      (ieee.roundEven_of_lt (by norm_num) (by norm_num)) (by norm_num)
  have r11 : ieee.mul (1592262918131443 / 4503599627370496) (-180) = -8956478914489367 /
    140737488355328 :=
    ieee.mul_neg_eval (-47) (-8956478914489367) (by norm_num) (by norm_num)
      (ieee.roundEven_of_lt (by norm_num) (by norm_num)) (by norm_num)
  have r12 : ieee.add (8956478914489365 / 281474976710656) (-8956478914489367 / 140737488355328)
    = -8956478914489369 / 281474976710656 :=
    ieee.add_neg_eval (-48) (-8956478914489369) (by norm_num) (by norm_num)
      (ieee.roundEven_of_lt (by norm_num) (by norm_num)) (by norm_num)
  have r13 : ieee.mul (8403831313147477 / 9007199254740992) 90 = 1477235973014205 /
    17592186044416 :=
    ieee.mul_pos_eval (-46) 5908943892056820 (by norm_num) (by norm_num)
      (ieee.roundEven_of_lt (by norm_num) (by norm_num)) (by norm_num)
  have r14 : ieee.mul (-1592262918131443 / 4503599627370496) 0 = 0 :=
    ieee.mul_zero_eval (by norm_num)
  have r15 : ieee.add (1477235973014205 / 17592186044416) 0 = 1477235973014205 / 17592186044416
    :=
    ieee.add_pos_eval (-46) 5908943892056820 (by norm_num) (by norm_num)
      (ieee.roundEven_of_lt (by norm_num) (by norm_num)) (by norm_num)
  have r16 : ieee.mul (-603367941593513 / 9007199254740992) (-180) = 6787889342927021 /
    562949953421312 :=
    ieee.mul_pos_eval (-49) 6787889342927021 (by norm_num) (by norm_num)
      (ieee.roundEven_of_lt (by norm_num) (by norm_num)) (by norm_num)
  have r17 : ieee.add (1477235973014205 / 17592186044416) (6787889342927021 / 562949953421312) =
    3378715029961349 / 35184372088832 :=
    ieee.add_pos_eval (-46) 6757430059922698 (by norm_num) (by norm_num)
      (ieee.roundEven_of_lt (by norm_num) (by norm_num)) (by norm_num)
  have r18 : ieee.mul (1206735883187033 / 18014398509481984) 0 = 0 :=
    ieee.mul_zero_eval (by norm_num)
  have r19 : ieee.add 0 0 = 0 :=
    ieee.add_zero_eval (by norm_num)
  have r20 : ieee.mul (-8403831313147477 / 9007199254740992) 1 = -8403831313147477 /
    9007199254740992 :=
    ieee.mul_neg_eval (-53) (-8403831313147477) (by norm_num) (by norm_num)
      (ieee.roundEven_of_lt (by norm_num) (by norm_num)) (by norm_num)
  have r21 : ieee.add 0 (-8403831313147477 / 9007199254740992) = -8403831313147477 /
    9007199254740992 :=
    ieee.add_neg_eval (-53) (-8403831313147477) (by norm_num) (by norm_num)
      (ieee.roundEven_of_lt (by norm_num) (by norm_num)) (by norm_num)
  have r22 : ieee.mul (1592262918131443 / 4503599627370496) 1 = 1592262918131443 /
    4503599627370496 :=
    ieee.mul_pos_eval (-54) 6369051672525772 (by norm_num) (by norm_num)
      (ieee.roundEven_of_lt (by norm_num) (by norm_num)) (by norm_num)
  have r23 : ieee.add 0 (1592262918131443 / 4503599627370496) = 1592262918131443 /
    4503599627370496 :=
    ieee.add_pos_eval (-54) 6369051672525772 (by norm_num) (by norm_num)
      (ieee.roundEven_of_lt (by norm_num) (by norm_num)) (by norm_num)
  have r24 : ieee.mul (8403831313147477 / 9007199254740992) 0 = 0 :=
    ieee.mul_zero_eval (by norm_num)
  have r25 : ieee.mul (-603367941593513 / 9007199254740992) 1 = -603367941593513 /
    9007199254740992 :=
    ieee.mul_neg_eval (-56) (-4826943532748104) (by norm_num) (by norm_num)
      (ieee.roundEven_of_lt (by norm_num) (by norm_num)) (by norm_num)
  have r26 : ieee.add 0 (-603367941593513 / 9007199254740992) = -603367941593513 /
    9007199254740992 :=
    ieee.add_neg_eval (-56) (-4826943532748104) (by norm_num) (by norm_num)
      (ieee.roundEven_of_lt (by norm_num) (by norm_num)) (by norm_num)
  have hr : sampleDragged64.m_rubiks.global_rotation = RubiksCube.draggedView64 :=
    RubiksCube.sampleDraggedView_rotation
  simp only [rayVec64, draggedRayVec, hr, RubiksCube.draggedView64, Matrix3D.Transpose,
    Matrix3D.mulVec64,
    r0, r1, r2, r3, r4, r5, r6, r7, r8, r9, r10, r11,
    r12, r13, r14, r15, r16, r17, r18, r19, r20, r21, r22, r23,
    r24, r25, r26]

theorem dragged_clickX :
    clickX64 sampleDragged64 draggedRayPos draggedRayVec =
      some { sampleDragged64 with
        m_clicked_cube := 32,
        m_clicked_axis := AXIS_X,
        m_clicked_pos :=
          ⟨90,
           1 / 281474976710656,
           6333186975989759 / 70368744177664⟩,
        m_state := MOUSE_STATE_SELECE_AXIS } := by
  have rx0 : ieee.mul 1 90 = 90 :=
    ieee.mul_pos_eval (-46) 6333186975989760 (by norm_num) (by norm_num)
      (ieee.roundEven_of_lt (by norm_num) (by norm_num)) (by norm_num)
  have rx1 : ieee.sub 90 (6121065434023291 / 35184372088832) = -2954471946028411 / 35184372088832
    :=
    ieee.sub_neg_eval (-46) (-5908943892056822) (by norm_num) (by norm_num)
      (ieee.roundEven_of_lt (by norm_num) (by norm_num)) (by norm_num)
  have rx2 : ieee.div (-2954471946028411 / 35184372088832) (-8403831313147477 / 9007199254740992)
    = 3166593487994881 / 35184372088832 :=
    ieee.div_pos_eval (-46) 6333186975989762 (by norm_num) (by norm_num)
      (ieee.roundEven_of_lt (by norm_num) (by norm_num)) (by norm_num)
  have rx3 : ieee.mul (-8403831313147477 / 9007199254740992) (3166593487994881 / 35184372088832)
    = -2954471946028411 / 35184372088832 :=
    ieee.mul_neg_eval (-46) (-5908943892056822) (by norm_num) (by norm_num)
      (ieee.roundEven_of_lt (by norm_num) (by norm_num)) (by norm_num)
  have rx4 : ieee.mul (1592262918131443 / 4503599627370496) (3166593487994881 / 35184372088832) =
    4478239457244685 / 140737488355328 :=
    ieee.mul_pos_eval (-48) 8956478914489370 (by norm_num) (by norm_num)
      (ieee.roundEven_of_lt (by norm_num) (by norm_num)) (by norm_num)
  have rx5 : ieee.mul (-603367941593513 / 9007199254740992) (3166593487994881 / 35184372088832) =
    -6787889342927023 / 1125899906842624 :=
    ieee.mul_neg_eval (-50) (-6787889342927023) (by norm_num) (by norm_num)
      (ieee.roundEven_of_lt (by norm_num) (by norm_num)) (by norm_num)
  have rx6 : ieee.add (6121065434023291 / 35184372088832) (-2954471946028411 / 35184372088832) =
    90 :=
    ieee.add_pos_eval (-46) 6333186975989760 (by norm_num) (by norm_num)
      (ieee.roundEven_of_lt (by norm_num) (by norm_num)) (by norm_num)
  have rx7 : ieee.add (-8956478914489369 / 281474976710656) (4478239457244685 / 140737488355328)
    = 1 / 281474976710656 :=
    ieee.add_pos_eval (-100) 4503599627370496 (by norm_num) (by norm_num)
      (ieee.roundEven_of_lt (by norm_num) (by norm_num)) (by norm_num)
  have rx8 : ieee.add (3378715029961349 / 35184372088832) (-6787889342927023 / 1125899906842624)
    = 6333186975989759 / 70368744177664 :=
    ieee.add_pos_eval (-46) 6333186975989759 (by norm_num) (by norm_num)
      (ieee.roundEven_of_lt (by norm_num) (by norm_num)) (by norm_num)
  have rx9 : ieee.add 1 1 = 2 :=
    ieee.add_pos_eval (-51) 4503599627370496 (by norm_num) (by norm_num)
      (ieee.roundEven_of_lt (by norm_num) (by norm_num)) (by norm_num)
  have rx10 : ieee.add (1 / 281474976710656) 90 = 90 :=
    ieee.add_pos_eval (-46) 6333186975989760 (by norm_num) (by norm_num)
      (ieee.roundEven_of_lt (by norm_num) (by norm_num)) (by norm_num)
  have rx11 : ieee.div 90 60 = 3 / 2 :=
    ieee.div_pos_eval (-52) 6755399441055744 (by norm_num) (by norm_num)
      (ieee.roundEven_of_lt (by norm_num) (by norm_num)) (by norm_num)
  have rx12 : ieee.add (6333186975989759 / 70368744177664) 90 = 180 :=
    ieee.add_pos_eval (-45) 6333186975989760 (by norm_num) (by norm_num)
      (ieee.roundEven_tie_up (by norm_num) (by decide)) (by norm_num)
  have rx13 : ieee.div 180 60 = 3 :=
    ieee.div_pos_eval (-51) 6755399441055744 (by norm_num) (by norm_num)
      (ieee.roundEven_of_lt (by norm_num) (by norm_num)) (by norm_num)
  have rxx0 : |(6121065434023291 / 35184372088832 : ℚ)| = 6121065434023291 / 35184372088832 :=
    abs_of_pos (by norm_num)
  have rxx1 : Sign (6121065434023291 / 35184372088832) = 1 := by norm_num [Sign]
  have rxx2 : divDouble64 (-2954471946028411 / 35184372088832)
    (-8403831313147477 / 9007199254740992) = some (3166593487994881 / 35184372088832) := by
    rw [divDouble64, if_neg (by norm_num), rx2]
  have rxx3 : |(1 / 281474976710656 : ℚ)| = 1 / 281474976710656 := abs_of_pos (by norm_num)
  have rxx4 : |(6333186975989759 / 70368744177664 : ℚ)| = 6333186975989759 / 70368744177664 :=
    abs_of_pos (by norm_num)
  have rxx5 : truncate 2 = 2 := by
    rw [truncate, if_pos (by norm_num), Int.floor_eq_iff]
    constructor <;> norm_num
  have rxx6 : truncate (3 / 2) = 1 := by
    rw [truncate, if_pos (by norm_num), Int.floor_eq_iff]
    constructor <;> norm_num
  have rxx7 : truncate 3 = 3 := by
    rw [truncate, if_pos (by norm_num), Int.floor_eq_iff]
    constructor <;> norm_num
  simp only [clickX64, draggedRayPos, draggedRayVec, RubiksCube.RUBIKS_SIZE_eq,
    RubiksCube.CUBE_DISTANCE_eq,
    Vec3D.add64, Vec3D.smul64,
    rx0, rx1, rx2, rx3, rx4, rx5, rx6, rx7, rx8, rx9, rx10, rx11,
    rx12, rx13, rxx0, rxx1, rxx2, rxx3, rxx4, rxx5, rxx6, rxx7]
  norm_num

end MouseHandler

end rubiks

namespace rubiks

namespace MouseHandler

/-- `Click64` returns the state of the X block when that block hits. -/
theorem Click64_of_X (m : MouseHandler) (mouse_pos : Vec3D) (m' : MouseHandler)
    (hx : clickX64 m (m.rayPos64 mouse_pos) m.rayVec64 = some m') :
    m.Click64 mouse_pos = m' := by
  unfold Click64
  simp only [hx]

/-- `Click64` returns the state of the Z block when the X and Y blocks miss and the Z block
hits. -/
theorem Click64_of_Z (m : MouseHandler) (mouse_pos : Vec3D) (m' : MouseHandler)
    (hx : clickX64 m (m.rayPos64 mouse_pos) m.rayVec64 = none)
    (hy : clickY64 m (m.rayPos64 mouse_pos) m.rayVec64 = none)
    (hz : clickZ64 m (m.rayPos64 mouse_pos) m.rayVec64 = some m') :
    m.Click64 mouse_pos = m' := by
  unfold Click64
  simp only [hx, hy, hz]

/-- `Click` at the default view and the pointer position `(180, 320, 0)`, in rounded
arithmetic: the X block and the Y block return nothing and the Z block records sub-cube 9 on
the Z axis. -/
theorem default_Click64 :
    sampleDefault64.Click64 ⟨180, 320, 0⟩ =
      { sampleDefault64 with
        m_clicked_cube := 9,
        m_clicked_axis := AXIS_Z,
        m_clicked_pos := ⟨6333186975989759 / 70368744177664, 1551162559477805 / 17592186044416,
          -90⟩,
        m_state := MOUSE_STATE_SELECE_AXIS } := by
  refine Click64_of_Z _ _ _ ?_ ?_ ?_
  · rw [default_rayPos, default_rayVec]
    exact default_clickX
  · rw [default_rayPos, default_rayVec]
    exact default_clickY
  · rw [default_rayPos, default_rayVec]
    exact default_clickZ

/-- `Click` after the view drag and at the pointer position `(270, 180, 0)`, in rounded
arithmetic: the X block records sub-cube 32 on the X axis. -/
theorem dragged_Click64 :
    sampleDragged64.Click64 ⟨270, 180, 0⟩ =
      { sampleDragged64 with
        m_clicked_cube := 32,
        m_clicked_axis := AXIS_X,
        m_clicked_pos := ⟨90, 1 / 281474976710656, 6333186975989759 / 70368744177664⟩,
        m_state := MOUSE_STATE_SELECE_AXIS } := by
  refine Click64_of_X _ _ _ ?_
  rw [dragged_rayPos, dragged_rayVec]
  exact dragged_clickX

/-- The bucket of the coordinate `89.99999999999999`, the largest `double` below 90: the
rounded sum with 90 is 180 and the quotient by 60 is 3. -/
theorem bucket_below_90 :
    ieee.add (6333186975989759 / 70368744177664) RUBIKS_SIZE = 180 ∧
    truncate (ieee.div (ieee.add (6333186975989759 / 70368744177664) RUBIKS_SIZE)
      CUBE_DISTANCE) = 3 := by
  have h1 : ieee.add (6333186975989759 / 70368744177664) 90 = 180 :=
    ieee.add_pos_eval (-45) 6333186975989760 (by norm_num) (by norm_num)
      (ieee.roundEven_tie_up (by norm_num) (by decide)) (by norm_num)
  have h2 : ieee.div 180 60 = 3 :=
    ieee.div_pos_eval (-51) 6755399441055744 (by norm_num) (by norm_num)
      (ieee.roundEven_of_lt (by norm_num) (by norm_num)) (by norm_num)
  rw [RubiksCube.RUBIKS_SIZE_eq, RubiksCube.CUBE_DISTANCE_eq, h1, h2]
  exact ⟨rfl, truncate_intCast 3⟩

/-- C13: at the view that `InitializeGlobalRotation` followed by
`GlobalRotate(Vec3D(-90, 0, 0))` produces, with every operation on `double` rounded, the
pointer position `(270, 180, 0)` satisfies the conditions of a hit on the +X face:
`o.x > 90`, `d.x != 0`, and the point `q = o + d * ((90 - o.x) / d.x)` has `|q.y| < 90` and
`|q.z| < 90`. `Click` ends in state SelectingAxis with clicked axis `AXIS_X`, and the
sub-cube index of the claim, `2 + 3 * floor((q.y + 90) / 60) + 9 * floor((q.z + 90) / 60)`,
is 23, both for this `q` and for the recorded clicked position; but the code records the
index 32, because the rounded sum of the z coordinate `89.99999999999999` and 90 is 180,
whose bucket is 3. -/
theorem C13_plus_x_click_records_32 :
    sampleDragged64.m_rubiks =
      (RubiksCube.sample.InitializeGlobalRotation64 Trig.nearest).GlobalRotate64 Trig.nearest
        ⟨-90, 0, 0⟩ ∧
    sampleDragged64.rayPos64 ⟨270, 180, 0⟩ = draggedRayPos ∧
    sampleDragged64.rayVec64 = draggedRayVec ∧
    draggedRayPos.x > RUBIKS_SIZE ∧ draggedRayVec.x ≠ 0 ∧
    |(draggedRayPos.add (draggedRayVec.smul
      ((RUBIKS_SIZE - draggedRayPos.x) / draggedRayVec.x))).y| < RUBIKS_SIZE ∧
    |(draggedRayPos.add (draggedRayVec.smul
      ((RUBIKS_SIZE - draggedRayPos.x) / draggedRayVec.x))).z| < RUBIKS_SIZE ∧
    2 + 3 * ⌊((draggedRayPos.add (draggedRayVec.smul
        ((RUBIKS_SIZE - draggedRayPos.x) / draggedRayVec.x))).y + RUBIKS_SIZE) /
          CUBE_DISTANCE⌋ +
      9 * ⌊((draggedRayPos.add (draggedRayVec.smul
        ((RUBIKS_SIZE - draggedRayPos.x) / draggedRayVec.x))).z + RUBIKS_SIZE) /
          CUBE_DISTANCE⌋ = 23 ∧
    (sampleDragged64.Click64 ⟨270, 180, 0⟩).m_state = MOUSE_STATE_SELECE_AXIS ∧
    (sampleDragged64.Click64 ⟨270, 180, 0⟩).m_clicked_axis = AXIS_X ∧
    (sampleDragged64.Click64 ⟨270, 180, 0⟩).m_clicked_pos =
      ⟨90, 1 / 281474976710656, 6333186975989759 / 70368744177664⟩ ∧
    2 + 3 * ⌊((sampleDragged64.Click64 ⟨270, 180, 0⟩).m_clicked_pos.y + RUBIKS_SIZE) /
          CUBE_DISTANCE⌋ +
      9 * ⌊((sampleDragged64.Click64 ⟨270, 180, 0⟩).m_clicked_pos.z + RUBIKS_SIZE) /
          CUBE_DISTANCE⌋ = 23 ∧
    (sampleDragged64.Click64 ⟨270, 180, 0⟩).m_clicked_cube = 32 := by
  have hy : ⌊((1 / 281474976710656 : ℚ) + 90) / 60⌋ = 1 := by
    rw [Int.floor_eq_iff]
    constructor <;> norm_num
  have hz : ⌊((6333186975989759 / 70368744177664 : ℚ) + 90) / 60⌋ = 2 := by
    rw [Int.floor_eq_iff]
    constructor <;> norm_num
  have hqy : ⌊((draggedRayPos.add (draggedRayVec.smul
      ((RUBIKS_SIZE - draggedRayPos.x) / draggedRayVec.x))).y + RUBIKS_SIZE) /
        CUBE_DISTANCE⌋ = 1 := by
    rw [Int.floor_eq_iff]
    simp only [draggedRayPos, draggedRayVec, Vec3D.add, Vec3D.smul,
      RubiksCube.RUBIKS_SIZE_eq, RubiksCube.CUBE_DISTANCE_eq]
    constructor <;> norm_num
  have hqz : ⌊((draggedRayPos.add (draggedRayVec.smul
      ((RUBIKS_SIZE - draggedRayPos.x) / draggedRayVec.x))).z + RUBIKS_SIZE) /
        CUBE_DISTANCE⌋ = 2 := by
    rw [Int.floor_eq_iff]
    simp only [draggedRayPos, draggedRayVec, Vec3D.add, Vec3D.smul,
      RubiksCube.RUBIKS_SIZE_eq, RubiksCube.CUBE_DISTANCE_eq]
    constructor <;> norm_num
  refine ⟨rfl, dragged_rayPos, dragged_rayVec, ?_, ?_, ?_, ?_, ?_, ?_, ?_, ?_, ?_, ?_⟩
  · simp only [draggedRayPos, RubiksCube.RUBIKS_SIZE_eq]
    norm_num
  · simp only [draggedRayVec]
    norm_num
  · simp only [draggedRayPos, draggedRayVec, Vec3D.add, Vec3D.smul,
      RubiksCube.RUBIKS_SIZE_eq]
    rw [abs_lt]
    constructor <;> norm_num
  · simp only [draggedRayPos, draggedRayVec, Vec3D.add, Vec3D.smul,
      RubiksCube.RUBIKS_SIZE_eq]
    rw [abs_lt]
    constructor <;> norm_num
  · rw [hqy, hqz]
    rfl
  · rw [dragged_Click64]
  · rw [dragged_Click64]
  · rw [dragged_Click64]
  · rw [dragged_Click64, RubiksCube.RUBIKS_SIZE_eq, RubiksCube.CUBE_DISTANCE_eq]
    show 2 + 3 * ⌊((1 / 281474976710656 : ℚ) + 90) / 60⌋ +
      9 * ⌊((6333186975989759 / 70368744177664 : ℚ) + 90) / 60⌋ = 23
    rw [hy, hz]
    rfl
  · rw [dragged_Click64]

/-- C14: with every operation on `double` rounded, `Click` ends in state SelectingAxis with
an index that is out of range. At the view of `InitializeGlobalRotation` and the pointer
position `(180, 320, 0)` the Z block records the index 9 from the grid coordinates
`(3, 2, 0)`: the x coordinate is 3, outside `[0, 3)`, and `CubeIdToXYZ` decodes 9 as
`(0, 0, 1)`, whose coordinate along the clicked Z axis is 1, an inner layer. After
`GlobalRotate(Vec3D(-90, 0, 0))` and at the pointer position `(270, 180, 0)` the X block
records the index 32, outside `[0, 27)`, at which `cubes` has no element. -/
theorem C14_click_index_leaves_range :
    (sampleDefault64.Click64 ⟨180, 320, 0⟩).m_state = MOUSE_STATE_SELECE_AXIS ∧
    (sampleDefault64.Click64 ⟨180, 320, 0⟩).m_clicked_axis = AXIS_Z ∧
    (sampleDefault64.Click64 ⟨180, 320, 0⟩).m_clicked_pos =
      ⟨6333186975989759 / 70368744177664, 1551162559477805 / 17592186044416, -90⟩ ∧
    truncate (ieee.div (ieee.add (sampleDefault64.Click64 ⟨180, 320, 0⟩).m_clicked_pos.x
      RUBIKS_SIZE) CUBE_DISTANCE) = 3 ∧
    (sampleDefault64.Click64 ⟨180, 320, 0⟩).m_clicked_cube = 9 ∧
    CubeIdToXYZ (sampleDefault64.Click64 ⟨180, 320, 0⟩).m_clicked_cube 0 = (0, 0, 1) ∧
    (sampleDragged64.Click64 ⟨270, 180, 0⟩).m_state = MOUSE_STATE_SELECE_AXIS ∧
    (sampleDragged64.Click64 ⟨270, 180, 0⟩).m_clicked_cube = 32 ∧
    sampleDragged64.m_rubiks.cubes.length = 27 ∧
    vecGet sampleDragged64.m_rubiks.cubes
      (sampleDragged64.Click64 ⟨270, 180, 0⟩).m_clicked_cube = none := by
  refine ⟨?_, ?_, ?_, ?_, ?_, ?_, ?_, ?_, rfl, ?_⟩
  · rw [default_Click64]
  · rw [default_Click64]
  · rw [default_Click64]
  · rw [default_Click64]
    exact bucket_below_90.2
  · rw [default_Click64]
  · rw [default_Click64]
    rfl
  · rw [dragged_Click64]
  · rw [dragged_Click64]
  · rw [dragged_Click64]
    rfl

end MouseHandler

end rubiks

namespace ieee

/-- Rounding to the nearest integer moves a number by at most one half. -/
theorem roundEven_err (y : ℚ) : |(roundEven y : ℚ) - y| ≤ 1 / 2 := by
  have h1 := Int.floor_le y
  have h2 := Int.lt_floor_add_one y
  unfold roundEven
  split_ifs with a b c <;> push_neg at * <;> push_cast <;> rw [abs_le] <;>
    constructor <;> linarith

/-- The relative error of one rounding is at most `2 ^ (-53)`. -/
theorem rnd_err (x : ℚ) : |rnd x - x| ≤ |x| / 2 ^ 53 := by
  by_cases hx : x = 0
  · rw [hx, rnd_zero]
    norm_num
  · obtain ⟨h1, -⟩ := ulp_bracket hx
    have hu : (0 : ℚ) < 2 ^ ulpExp x := zpow_pos (by norm_num) _
    have hr := roundEven_err (x / 2 ^ ulpExp x)
    have e52 := (two_pow_split (ulpExp x)).1
    rw [e52] at h1
    have hd : rnd x - x = ((roundEven (x / 2 ^ ulpExp x) : ℚ) - x / 2 ^ ulpExp x) *
        2 ^ ulpExp x := by
      unfold rnd
      rw [if_neg hx]
      field_simp
    rw [hd, abs_mul, abs_of_pos hu]
    have h3 : |(roundEven (x / 2 ^ ulpExp x) : ℚ) - x / 2 ^ ulpExp x| * 2 ^ ulpExp x ≤
        1 / 2 * 2 ^ ulpExp x := mul_le_mul_of_nonneg_right hr hu.le
    have h4 : (1 / 2 : ℚ) * 2 ^ ulpExp x ≤ |x| / 2 ^ 53 := by
      rw [le_div_iff₀ (by norm_num)]
      norm_num
      linarith
    exact h3.trans h4

/-- The stored value of a result is at most `1 + 2 ^ (-53)` times the result in size. -/
theorem abs_rnd_le (x : ℚ) : |rnd x| ≤ |x| + |x| / 2 ^ 53 := by
  have h := rnd_err x
  have t := abs_sub_abs_le_abs_sub (rnd x) x
  linarith

/-- The error of a rounded sum of three rounded products, as in one entry of a matrix
product: at most `2 ^ (-51)` times the sum of the sizes of the three products. -/
theorem dot3_err (a1 b1 a2 b2 a3 b3 : ℚ) :
    |add (add (mul a1 b1) (mul a2 b2)) (mul a3 b3) - (a1 * b1 + a2 * b2 + a3 * b3)| ≤
      (|a1 * b1| + |a2 * b2| + |a3 * b3|) / 2 ^ 51 := by
  unfold add mul
  have e1 := rnd_err (a1 * b1)
  have e2 := rnd_err (a2 * b2)
  have e3 := rnd_err (a3 * b3)
  have e4 := rnd_err (rnd (a1 * b1) + rnd (a2 * b2))
  have e5 := rnd_err (rnd (rnd (a1 * b1) + rnd (a2 * b2)) + rnd (a3 * b3))
  have q1 := abs_rnd_le (a1 * b1)
  have q2 := abs_rnd_le (a2 * b2)
  have q3 := abs_rnd_le (a3 * b3)
  have q4 := abs_rnd_le (rnd (a1 * b1) + rnd (a2 * b2))
  have t4 := abs_add (rnd (a1 * b1)) (rnd (a2 * b2))
  have t5 := abs_add (rnd (rnd (a1 * b1) + rnd (a2 * b2))) (rnd (a3 * b3))
  have n1 := abs_nonneg (a1 * b1)
  have n2 := abs_nonneg (a2 * b2)
  have n3 := abs_nonneg (a3 * b3)
  rw [abs_le] at e1 e2 e3 e4 e5 ⊢
  constructor <;> linarith [e1.1, e1.2, e2.1, e2.2, e3.1, e3.2, e4.1, e4.2, e5.1, e5.2]

end ieee

namespace Matrix3D

theorem mulVec_add (a b : Matrix3D) (v : Vec3D) :
    (a.add b).mulVec v = (a.mulVec v).add (b.mulVec v) := by
  simp only [add, mulVec, Vec3D.add, Vec3D.mk.injEq]
  refine ⟨?_, ?_, ?_⟩ <;> ring

/-- The inequality of Cauchy and Schwarz for three components. -/
theorem dot_sq_le (x1 x2 x3 y1 y2 y3 : ℚ) :
    (x1 * y1 + x2 * y2 + x3 * y3) ^ 2 ≤
      (x1 ^ 2 + x2 ^ 2 + x3 ^ 2) * (y1 ^ 2 + y2 ^ 2 + y3 ^ 2) := by
  nlinarith [sq_nonneg (x1 * y2 - x2 * y1), sq_nonneg (x1 * y3 - x3 * y1),
    sq_nonneg (x2 * y3 - x3 * y2)]

theorem Dot_self (v : Vec3D) : v.Dot v = v.x ^ 2 + v.y ^ 2 + v.z ^ 2 := by
  unfold Vec3D.Dot
  ring

theorem Dot_self_nonneg (v : Vec3D) : 0 ≤ v.Dot v := by
  rw [Dot_self]
  positivity

/-- A bound on the product of two numbers from bounds on their squares. -/
theorem le_of_sq_le_mul {t p q a b s : ℚ} (ht : t ^ 2 ≤ p * q) (hp : p ≤ a ^ 2 * s)
    (hq : q ≤ b ^ 2 * s) (ha : 0 ≤ a) (hb : 0 ≤ b) (hs : 0 ≤ s) (hp0 : 0 ≤ p)
    (hq0 : 0 ≤ q) : t ≤ a * b * s := by
  have h1 : p * q ≤ (a ^ 2 * s) * (b ^ 2 * s) :=
    mul_le_mul hp hq hq0 (le_trans hp0 hp)
  have h2 : t ^ 2 ≤ (a * b * s) ^ 2 := by
    calc t ^ 2 ≤ p * q := ht
      _ ≤ (a ^ 2 * s) * (b ^ 2 * s) := h1
      _ = (a * b * s) ^ 2 := by ring
  have h3 : 0 ≤ a * b * s := by positivity
  exact (abs_le_of_sq_le_sq' h2 h3).2

theorem OpLe.relax {a : Matrix3D} {c c' : ℚ} (h : a.OpLe c) (hc : c ≤ c') : a.OpLe c' := by
  refine ⟨le_trans h.1 hc, fun v => le_trans (h.2 v) ?_⟩
  have hv := Dot_self_nonneg v
  have : c ^ 2 ≤ c' ^ 2 := by nlinarith [h.1]
  exact mul_le_mul_of_nonneg_right this hv

theorem OpLe.add {a b : Matrix3D} {c d : ℚ} (ha : a.OpLe c) (hb : b.OpLe d) :
    (a.add b).OpLe (c + d) := by
  refine ⟨add_nonneg ha.1 hb.1, fun v => ?_⟩
  rw [mulVec_add]
  have h1 := ha.2 v
  have h2 := hb.2 v
  have hv := Dot_self_nonneg v
  have hcs := dot_sq_le (a.mulVec v).x (a.mulVec v).y (a.mulVec v).z (b.mulVec v).x
    (b.mulVec v).y (b.mulVec v).z
  rw [← Dot_self, ← Dot_self] at hcs
  have h3 := le_of_sq_le_mul hcs h1 h2 ha.1 hb.1 hv (Dot_self_nonneg _) (Dot_self_nonneg _)
  have e : ((a.mulVec v).add (b.mulVec v)).Dot ((a.mulVec v).add (b.mulVec v)) =
      (a.mulVec v).Dot (a.mulVec v) + 2 * ((a.mulVec v).x * (b.mulVec v).x +
        (a.mulVec v).y * (b.mulVec v).y + (a.mulVec v).z * (b.mulVec v).z) +
      (b.mulVec v).Dot (b.mulVec v) := by
    simp only [Vec3D.add, Vec3D.Dot]
    ring
  rw [e]
  nlinarith

theorem OpLe.comp {a b : Matrix3D} {c d : ℚ} (ha : a.OpLe c) (hb : b.OpLe d) :
    (a.mul b).OpLe (c * d) := by
  refine ⟨mul_nonneg ha.1 hb.1, fun v => ?_⟩
  rw [mulVec_mul]
  have h1 := ha.2 (b.mulVec v)
  have h2 := hb.2 v
  have hc : 0 ≤ c ^ 2 := sq_nonneg c
  calc (a.mulVec (b.mulVec v)).Dot (a.mulVec (b.mulVec v))
      ≤ c ^ 2 * (b.mulVec v).Dot (b.mulVec v) := h1
    _ ≤ c ^ 2 * (d ^ 2 * v.Dot v) := mul_le_mul_of_nonneg_left h2 hc
    _ = (c * d) ^ 2 * v.Dot v := by ring

theorem sq_le_of_abs_le {x e : ℚ} (h : |x| ≤ e) : x ^ 2 ≤ e ^ 2 := by
  have := abs_nonneg x
  rw [← sq_abs]
  nlinarith

/-- A matrix with entries of size at most `e` stretches no vector by more than `3 * e`. -/
theorem OpLe.of_entries {a : Matrix3D} {e : ℚ} (h : a.EntriesLe e) (he : 0 ≤ e) :
    a.OpLe (3 * e) := by
  obtain ⟨h11, h12, h13, h21, h22, h23, h31, h32, h33⟩ := h
  refine ⟨by positivity, fun v => ?_⟩
  have c1 := dot_sq_le a.m11 a.m12 a.m13 v.x v.y v.z
  have c2 := dot_sq_le a.m21 a.m22 a.m23 v.x v.y v.z
  have c3 := dot_sq_le a.m31 a.m32 a.m33 v.x v.y v.z
  have s11 := sq_le_of_abs_le h11
  have s12 := sq_le_of_abs_le h12
  have s13 := sq_le_of_abs_le h13
  have s21 := sq_le_of_abs_le h21
  have s22 := sq_le_of_abs_le h22
  have s23 := sq_le_of_abs_le h23
  have s31 := sq_le_of_abs_le h31
  have s32 := sq_le_of_abs_le h32
  have s33 := sq_le_of_abs_le h33
  have hv : 0 ≤ v.x ^ 2 + v.y ^ 2 + v.z ^ 2 := by positivity
  have r1 : (a.m11 ^ 2 + a.m12 ^ 2 + a.m13 ^ 2) * (v.x ^ 2 + v.y ^ 2 + v.z ^ 2) ≤
      3 * e ^ 2 * (v.x ^ 2 + v.y ^ 2 + v.z ^ 2) :=
    mul_le_mul_of_nonneg_right (by linarith) hv
  have r2 : (a.m21 ^ 2 + a.m22 ^ 2 + a.m23 ^ 2) * (v.x ^ 2 + v.y ^ 2 + v.z ^ 2) ≤
      3 * e ^ 2 * (v.x ^ 2 + v.y ^ 2 + v.z ^ 2) :=
    mul_le_mul_of_nonneg_right (by linarith) hv
  have r3 : (a.m31 ^ 2 + a.m32 ^ 2 + a.m33 ^ 2) * (v.x ^ 2 + v.y ^ 2 + v.z ^ 2) ≤
      3 * e ^ 2 * (v.x ^ 2 + v.y ^ 2 + v.z ^ 2) :=
    mul_le_mul_of_nonneg_right (by linarith) hv
  rw [Dot_self, Dot_self]
  simp only [mulVec]
  nlinarith

/-- A matrix that stretches no vector by more than `c` has entries of size at most `c`. -/
theorem OpLe.entries {a : Matrix3D} {c : ℚ} (h : a.OpLe c) : a.EntriesLe c := by
  have h1 := h.2 ⟨1, 0, 0⟩
  have h2 := h.2 ⟨0, 1, 0⟩
  have h3 := h.2 ⟨0, 0, 1⟩
  simp only [mulVec, Vec3D.Dot, mul_one, mul_zero, add_zero, zero_add] at h1 h2 h3
  have k : ∀ x : ℚ, x * x ≤ c ^ 2 → |x| ≤ c := fun x hx =>
    abs_le_of_sq_le_sq (by rw [sq]; exact hx) h.1
  have n11 := mul_self_nonneg a.m11
  have n12 := mul_self_nonneg a.m12
  have n13 := mul_self_nonneg a.m13
  have n21 := mul_self_nonneg a.m21
  have n22 := mul_self_nonneg a.m22
  have n23 := mul_self_nonneg a.m23
  have n31 := mul_self_nonneg a.m31
  have n32 := mul_self_nonneg a.m32
  have n33 := mul_self_nonneg a.m33
  exact ⟨k _ (by linarith), k _ (by linarith), k _ (by linarith), k _ (by linarith),
    k _ (by linarith), k _ (by linarith), k _ (by linarith), k _ (by linarith),
    k _ (by linarith)⟩

end Matrix3D

namespace Matrix3D

theorem abs_mul_le {a b α ρ : ℚ} (ha : |a| ≤ α) (hb : |b| ≤ ρ) : |a * b| ≤ α * ρ := by
  rw [abs_mul]
  exact mul_le_mul ha hb (abs_nonneg b) (le_trans (abs_nonneg a) ha)

/-- One entry of a rounded matrix product against the exact one. -/
theorem entry_err {a1 a2 a3 b1 b2 b3 α ρ : ℚ} (h1 : |a1| ≤ α) (h2 : |a2| ≤ α)
    (h3 : |a3| ≤ α) (k1 : |b1| ≤ ρ) (k2 : |b2| ≤ ρ) (k3 : |b3| ≤ ρ) :
    |ieee.add (ieee.add (ieee.mul a1 b1) (ieee.mul a2 b2)) (ieee.mul a3 b3) -
      (a1 * b1 + a2 * b2 + a3 * b3)| ≤ 3 * α * ρ / 2 ^ 51 := by
  have h := ieee.dot3_err a1 b1 a2 b2 a3 b3
  have p1 := abs_mul_le h1 k1
  have p2 := abs_mul_le h2 k2
  have p3 := abs_mul_le h3 k3
  exact le_trans h (div_le_div_of_nonneg_right (by linarith) (by norm_num))

/-- The rounded product of two matrices differs from the exact product by at most
`3 * α * ρ / 2 ^ 51` in each entry, for entries of size at most `α` and `ρ`. -/
theorem mul64_err {a b : Matrix3D} {α ρ : ℚ} (ha : a.EntriesLe α) (hb : b.EntriesLe ρ) :
    ((a.mul64 b).sub (a.mul b)).EntriesLe (3 * α * ρ / 2 ^ 51) := by
  obtain ⟨a11, a12, a13, a21, a22, a23, a31, a32, a33⟩ := ha
  obtain ⟨b11, b12, b13, b21, b22, b23, b31, b32, b33⟩ := hb
  simp only [EntriesLe, sub, mul64, mul]
  exact ⟨entry_err a11 a12 a13 b11 b21 b31, entry_err a11 a12 a13 b12 b22 b32,
    entry_err a11 a12 a13 b13 b23 b33, entry_err a21 a22 a23 b11 b21 b31,
    entry_err a21 a22 a23 b12 b22 b32, entry_err a21 a22 a23 b13 b23 b33,
    entry_err a31 a32 a33 b11 b21 b31, entry_err a31 a32 a33 b12 b22 b32,
    entry_err a31 a32 a33 b13 b23 b33⟩

theorem sub_add_cancel3 (a b : Matrix3D) : b.add (a.sub b) = a := by
  cases a
  cases b
  simp only [add, sub, Matrix3D.mk.injEq]
  refine ⟨?_, ?_, ?_, ?_, ?_, ?_, ?_, ?_, ?_⟩ <;> ring

theorem EntriesLe.weaken {a : Matrix3D} {e e' : ℚ} (h : a.EntriesLe e) (he : e ≤ e') :
    a.EntriesLe e' := by
  obtain ⟨h11, h12, h13, h21, h22, h23, h31, h32, h33⟩ := h
  exact ⟨h11.trans he, h12.trans he, h13.trans he, h21.trans he, h22.trans he,
    h23.trans he, h31.trans he, h32.trans he, h33.trans he⟩

theorem EntriesLe.nonneg {a : Matrix3D} {e : ℚ} (h : a.EntriesLe e) : 0 ≤ e :=
  le_trans (abs_nonneg _) h.1

theorem EntriesLe.transpose {a : Matrix3D} {e : ℚ} (h : a.EntriesLe e) :
    a.Transpose.EntriesLe e := by
  obtain ⟨h11, h12, h13, h21, h22, h23, h31, h32, h33⟩ := h
  exact ⟨h11, h21, h31, h12, h22, h32, h13, h23, h33⟩

theorem abs_dot3_le {a1 a2 a3 b1 b2 b3 α ρ : ℚ} (h1 : |a1| ≤ α) (h2 : |a2| ≤ α)
    (h3 : |a3| ≤ α) (k1 : |b1| ≤ ρ) (k2 : |b2| ≤ ρ) (k3 : |b3| ≤ ρ) :
    |a1 * b1 + a2 * b2 + a3 * b3| ≤ 3 * (α * ρ) := by
  have p1 := abs_mul_le h1 k1
  have p2 := abs_mul_le h2 k2
  have p3 := abs_mul_le h3 k3
  have t1 := abs_add (a1 * b1 + a2 * b2) (a3 * b3)
  have t2 := abs_add (a1 * b1) (a2 * b2)
  linarith

/-- The entries of an exact product are at most three times the product of the bounds. -/
theorem EntriesLe.prod {a b : Matrix3D} {α ρ : ℚ} (ha : a.EntriesLe α) (hb : b.EntriesLe ρ) :
    (a.mul b).EntriesLe (3 * (α * ρ)) := by
  obtain ⟨a11, a12, a13, a21, a22, a23, a31, a32, a33⟩ := ha
  obtain ⟨b11, b12, b13, b21, b22, b23, b31, b32, b33⟩ := hb
  simp only [EntriesLe, Matrix3D.mul]
  exact ⟨abs_dot3_le a11 a12 a13 b11 b21 b31, abs_dot3_le a11 a12 a13 b12 b22 b32,
    abs_dot3_le a11 a12 a13 b13 b23 b33, abs_dot3_le a21 a22 a23 b11 b21 b31,
    abs_dot3_le a21 a22 a23 b12 b22 b32, abs_dot3_le a21 a22 a23 b13 b23 b33,
    abs_dot3_le a31 a32 a33 b11 b21 b31, abs_dot3_le a31 a32 a33 b12 b22 b32,
    abs_dot3_le a31 a32 a33 b13 b23 b33⟩

/-- The rows of a matrix with a defect of orthogonality of at most `d` have entries of size
at most `1 + d`. -/
theorem entries_of_defect {a : Matrix3D} {d : ℚ} (h : a.defect.EntriesLe d) :
    a.EntriesLe (1 + d) := by
  have hd : 0 ≤ d := h.nonneg
  obtain ⟨h11, -, -, -, h22, -, -, -, h33⟩ := h
  simp only [defect, sub, Matrix3D.mul, Transpose, geometry.Identity] at h11 h22 h33
  have r1 := (abs_le.1 h11).2
  have r2 := (abs_le.1 h22).2
  have r3 := (abs_le.1 h33).2
  have k : ∀ x : ℚ, x * x ≤ 1 + d → |x| ≤ 1 + d := fun x hx =>
    abs_le_of_sq_le_sq (by nlinarith) (by linarith)
  have n11 := mul_self_nonneg a.m11
  have n12 := mul_self_nonneg a.m12
  have n13 := mul_self_nonneg a.m13
  have n21 := mul_self_nonneg a.m21
  have n22 := mul_self_nonneg a.m22
  have n23 := mul_self_nonneg a.m23
  have n31 := mul_self_nonneg a.m31
  have n32 := mul_self_nonneg a.m32
  have n33 := mul_self_nonneg a.m33
  exact ⟨k _ (by linarith), k _ (by linarith), k _ (by linarith), k _ (by linarith),
    k _ (by linarith), k _ (by linarith), k _ (by linarith), k _ (by linarith),
    k _ (by linarith)⟩

/-- The defect of orthogonality of `a * r + e`, split into the defect of `a`, the
transported defect of `r`, and the terms with the perturbation `e`. -/
theorem defect_perturbed (a r e : Matrix3D) :
    ((a.mul r).add e).defect =
      ((a.defect.add (a.mul (r.defect.mul a.Transpose))).add
        ((a.mul (r.mul e.Transpose)).add ((e.mul r.Transpose).mul a.Transpose))).add
        (e.mul e.Transpose) := by
  cases a
  cases r
  cases e
  simp only [defect, add, sub, Matrix3D.mul, Transpose, geometry.Identity, Matrix3D.mk.injEq]
  refine ⟨?_, ?_, ?_, ?_, ?_, ?_, ?_, ?_, ?_⟩ <;> ring

end Matrix3D

namespace geometry

/-- A rotation about the X axis built from values near the unit circle stretches no vector
by more than `1 + 2 ^ (-50)`, neither does its transpose, and its defect of orthogonality
stretches no vector by more than `2 ^ (-50)`. -/
theorem RotationX_near {T : Trig} (hT : T.NearPythagorean) (theta : ℚ) :
    (RotationX T theta).OpLe (1 + 1 / 2 ^ 50) ∧
    (RotationX T theta).Transpose.OpLe (1 + 1 / 2 ^ 50) ∧
    (RotationX T theta).defect.OpLe (1 / 2 ^ 50) := by
  have h := abs_le.1 (hT theta)
  have hs := sq_nonneg (T.sin theta)
  have hc := sq_nonneg (T.cos theta)
  refine ⟨⟨by norm_num, fun v => ?_⟩, ⟨by norm_num, fun v => ?_⟩, ⟨by norm_num, fun v => ?_⟩⟩
  · have e : ((RotationX T theta).mulVec v).Dot ((RotationX T theta).mulVec v) =
        v.x ^ 2 + (T.sin theta ^ 2 + T.cos theta ^ 2) * (v.y ^ 2 + v.z ^ 2) := by
      simp only [RotationX, Matrix3D.mulVec, Vec3D.Dot]
      ring
    rw [e, Matrix3D.Dot_self]
    nlinarith [sq_nonneg v.x, sq_nonneg v.y, sq_nonneg v.z]
  · have e : ((RotationX T theta).Transpose.mulVec v).Dot
        ((RotationX T theta).Transpose.mulVec v) =
        v.x ^ 2 + (T.sin theta ^ 2 + T.cos theta ^ 2) * (v.y ^ 2 + v.z ^ 2) := by
      simp only [RotationX, Matrix3D.Transpose, Matrix3D.mulVec, Vec3D.Dot]
      ring
    rw [e, Matrix3D.Dot_self]
    nlinarith [sq_nonneg v.x, sq_nonneg v.y, sq_nonneg v.z]
  · have e : ((RotationX T theta).defect.mulVec v).Dot ((RotationX T theta).defect.mulVec v) =
        (T.sin theta ^ 2 + T.cos theta ^ 2 - 1) ^ 2 * (v.y ^ 2 + v.z ^ 2) := by
      simp only [RotationX, Matrix3D.defect, Matrix3D.sub, Matrix3D.mul, Matrix3D.Transpose,
        Identity, Matrix3D.mulVec, Vec3D.Dot]
      ring
    have hq : (T.sin theta ^ 2 + T.cos theta ^ 2 - 1) ^ 2 ≤ (1 / 2 ^ 50) ^ 2 :=
      Matrix3D.sq_le_of_abs_le (hT theta)
    rw [e, Matrix3D.Dot_self]
    nlinarith [sq_nonneg v.x, sq_nonneg v.y, sq_nonneg v.z,
      mul_le_mul_of_nonneg_right hq (add_nonneg (sq_nonneg v.y) (sq_nonneg v.z))]

/-- The same for a rotation about the Y axis. -/
theorem RotationY_near {T : Trig} (hT : T.NearPythagorean) (theta : ℚ) :
    (RotationY T theta).OpLe (1 + 1 / 2 ^ 50) ∧
    (RotationY T theta).Transpose.OpLe (1 + 1 / 2 ^ 50) ∧
    (RotationY T theta).defect.OpLe (1 / 2 ^ 50) := by
  have h := abs_le.1 (hT theta)
  have hs := sq_nonneg (T.sin theta)
  have hc := sq_nonneg (T.cos theta)
  refine ⟨⟨by norm_num, fun v => ?_⟩, ⟨by norm_num, fun v => ?_⟩, ⟨by norm_num, fun v => ?_⟩⟩
  · have e : ((RotationY T theta).mulVec v).Dot ((RotationY T theta).mulVec v) =
        v.y ^ 2 + (T.sin theta ^ 2 + T.cos theta ^ 2) * (v.x ^ 2 + v.z ^ 2) := by
      simp only [RotationY, Matrix3D.mulVec, Vec3D.Dot]
      ring
    rw [e, Matrix3D.Dot_self]
    nlinarith [sq_nonneg v.x, sq_nonneg v.y, sq_nonneg v.z]
  · have e : ((RotationY T theta).Transpose.mulVec v).Dot
        ((RotationY T theta).Transpose.mulVec v) =
        v.y ^ 2 + (T.sin theta ^ 2 + T.cos theta ^ 2) * (v.x ^ 2 + v.z ^ 2) := by
      simp only [RotationY, Matrix3D.Transpose, Matrix3D.mulVec, Vec3D.Dot]
      ring
    rw [e, Matrix3D.Dot_self]
    nlinarith [sq_nonneg v.x, sq_nonneg v.y, sq_nonneg v.z]
  · have e : ((RotationY T theta).defect.mulVec v).Dot ((RotationY T theta).defect.mulVec v) =
        (T.sin theta ^ 2 + T.cos theta ^ 2 - 1) ^ 2 * (v.x ^ 2 + v.z ^ 2) := by
      simp only [RotationY, Matrix3D.defect, Matrix3D.sub, Matrix3D.mul, Matrix3D.Transpose,
        Identity, Matrix3D.mulVec, Vec3D.Dot]
      ring
    have hq : (T.sin theta ^ 2 + T.cos theta ^ 2 - 1) ^ 2 ≤ (1 / 2 ^ 50) ^ 2 :=
      Matrix3D.sq_le_of_abs_le (hT theta)
    rw [e, Matrix3D.Dot_self]
    nlinarith [sq_nonneg v.x, sq_nonneg v.y, sq_nonneg v.z,
      mul_le_mul_of_nonneg_right hq (add_nonneg (sq_nonneg v.x) (sq_nonneg v.z))]

end geometry

namespace Matrix3D

/-- One rounded multiplication by a matrix near a rotation adds at most `2 ^ (-43)` to the
defect of orthogonality, as long as the defect is at most `2 ^ (-20)`. -/
theorem mul64_defect {a r : Matrix3D} {d : ℚ} (ha : a.OpLe (1 + 1 / 2 ^ 50))
    (hat : a.Transpose.OpLe (1 + 1 / 2 ^ 50)) (had : a.defect.OpLe (1 / 2 ^ 50))
    (hr : r.defect.OpLe d) (hd : d ≤ 1 / 2 ^ 20) :
    (a.mul64 r).defect.OpLe (d + 1 / 2 ^ 43) := by
  have hd0 : 0 ≤ d := hr.1
  have hre : r.EntriesLe (1 + 1 / 2 ^ 20) :=
    (entries_of_defect hr.entries).weaken (by linarith)
  have hae : a.EntriesLe (1 + 1 / 2 ^ 50) := ha.entries
  have hE : ((a.mul64 r).sub (a.mul r)).EntriesLe (1 / 2 ^ 49) :=
    (mul64_err hae hre).weaken (by norm_num)
  have h3e : (r.mul ((a.mul64 r).sub (a.mul r)).Transpose).EntriesLe (1 / 2 ^ 47) :=
    (hre.prod hE.transpose).weaken (by norm_num)
  have h4e : (((a.mul64 r).sub (a.mul r)).mul r.Transpose).EntriesLe (1 / 2 ^ 47) :=
    (hE.prod hre.transpose).weaken (by norm_num)
  have h5e : (((a.mul64 r).sub (a.mul r)).mul
      ((a.mul64 r).sub (a.mul r)).Transpose).EntriesLe (1 / 2 ^ 96) :=
    (hE.prod hE.transpose).weaken (by norm_num)
  have t2 : (a.mul (r.defect.mul a.Transpose)).OpLe (d + 1 / 2 ^ 50) :=
    (ha.comp (hr.comp hat)).relax (by nlinarith)
  have t3 : (a.mul (r.mul ((a.mul64 r).sub (a.mul r)).Transpose)).OpLe (1 / 2 ^ 45) :=
    (ha.comp (OpLe.of_entries h3e (by norm_num))).relax (by norm_num)
  have t4 : ((((a.mul64 r).sub (a.mul r)).mul r.Transpose).mul a.Transpose).OpLe
      (1 / 2 ^ 45) :=
    ((OpLe.of_entries h4e (by norm_num)).comp hat).relax (by norm_num)
  have t5 : (((a.mul64 r).sub (a.mul r)).mul
      ((a.mul64 r).sub (a.mul r)).Transpose).OpLe (1 / 2 ^ 50) :=
    (OpLe.of_entries h5e (by norm_num)).relax (by norm_num)
  have e : a.mul64 r = (a.mul r).add ((a.mul64 r).sub (a.mul r)) :=
    (sub_add_cancel3 _ _).symm
  rw [e, defect_perturbed]
  exact (((had.add t2).add (t3.add t4)).add t5).relax (by linarith)

end Matrix3D

namespace rubiks

namespace RubiksCube

/-- In a state reached by `n` calls of `GlobalRotate` since the last
`InitializeGlobalRotation`, with `n < 2 ^ 20`, the defect of orthogonality of the view
matrix stretches no vector by more than `(n + 1) / 2 ^ 42`. -/
theorem ViewReachable64_defect {T : Trig} (hT : T.NearPythagorean) {n : Nat}
    {r : RubiksCube} (h : ViewReachable64 T n r) (hn : n < 2 ^ 20) :
    r.global_rotation.defect.OpLe (((n : ℚ) + 1) / 2 ^ 42) := by
  induction h with
  | init r =>
    obtain ⟨x1, x2, x3⟩ := geometry.RotationX_near hT (ieee.div RUBIKS_PI64 6)
    obtain ⟨-, -, y3⟩ := geometry.RotationY_near hT (ieee.div RUBIKS_PI64 4)
    exact (Matrix3D.mul64_defect x1 x2 x3 y3 (by norm_num)).relax (by norm_num)
  | keep n r r' _ hr ih =>
    rw [hr]
    exact ih hn
  | rotate n r delta _ ih =>
    have hn' : n < 2 ^ 20 := by omega
    have ihn := ih hn'
    have hq : ((n : ℚ) + 1) ≤ 2 ^ 20 := by
      have : ((n + 1 : Nat) : ℚ) ≤ ((2 ^ 20 : Nat) : ℚ) := by exact_mod_cast hn.le
      push_cast at this
      linarith
    obtain ⟨x1, x2, x3⟩ :=
      geometry.RotationX_near hT (delta.smul64 ROTATION_SPEED64).y
    obtain ⟨y1, y2, y3⟩ :=
      geometry.RotationY_near hT (-(delta.smul64 ROTATION_SPEED64).x)
    have s1 := Matrix3D.mul64_defect x1 x2 x3 ihn
      (by
        have : ((n : ℚ) + 1) / 2 ^ 42 ≤ 2 ^ 20 / 2 ^ 42 :=
          div_le_div_of_nonneg_right hq (by norm_num)
        norm_num at this ⊢
        linarith)
    have s2 := Matrix3D.mul64_defect y1 y2 y3 s1
      (by
        have : ((n : ℚ) + 1) / 2 ^ 42 ≤ 2 ^ 20 / 2 ^ 42 :=
          div_le_div_of_nonneg_right hq (by norm_num)
        norm_num at this ⊢
        linarith)
    refine s2.relax (le_of_eq ?_)
    push_cast
    ring

end RubiksCube

end rubiks

namespace Matrix3D

theorem det_Transpose (a : Matrix3D) : a.Transpose.det = a.det := by
  simp only [Transpose, det]
  ring

theorem abs_mul3_le {a b c α β γ : ℚ} (ha : |a| ≤ α) (hb : |b| ≤ β) (hc : |c| ≤ γ) :
    |a * b * c| ≤ α * β * γ := by
  rw [abs_mul]
  exact mul_le_mul (abs_mul_le ha hb) hc (abs_nonneg c)
    (mul_nonneg (le_trans (abs_nonneg a) ha) (le_trans (abs_nonneg b) hb))

/-- The determinant of a matrix whose rows have entries of size at most `α`, `β` and `γ`. -/
theorem abs_det_le {x11 x12 x13 x21 x22 x23 x31 x32 x33 α β γ : ℚ}
    (h11 : |x11| ≤ α) (h12 : |x12| ≤ α) (h13 : |x13| ≤ α)
    (h21 : |x21| ≤ β) (h22 : |x22| ≤ β) (h23 : |x23| ≤ β)
    (h31 : |x31| ≤ γ) (h32 : |x32| ≤ γ) (h33 : |x33| ≤ γ) :
    |det ⟨x11, x12, x13, x21, x22, x23, x31, x32, x33⟩| ≤ 6 * (α * β * γ) := by
  have p1 := abs_le.1 (abs_mul3_le h11 h22 h33)
  have p2 := abs_le.1 (abs_mul3_le h11 h23 h32)
  have p3 := abs_le.1 (abs_mul3_le h12 h21 h33)
  have p4 := abs_le.1 (abs_mul3_le h12 h23 h31)
  have p5 := abs_le.1 (abs_mul3_le h13 h21 h32)
  have p6 := abs_le.1 (abs_mul3_le h13 h22 h31)
  have e : det ⟨x11, x12, x13, x21, x22, x23, x31, x32, x33⟩ =
      x11 * x22 * x33 - x11 * x23 * x32 - x12 * x21 * x33 + x12 * x23 * x31 +
        x13 * x21 * x32 - x13 * x22 * x31 := by
    simp only [det]
    ring
  rw [e, abs_le]
  constructor <;> linarith [p1.1, p1.2, p2.1, p2.2, p3.1, p3.2, p4.1, p4.2, p5.1, p5.2,
    p6.1, p6.2]

theorem abs_add_le {a b α β : ℚ} (ha : |a| ≤ α) (hb : |b| ≤ β) : |a + b| ≤ α + β :=
  le_trans (abs_add a b) (add_le_add ha hb)

/-- The determinant of a perturbed matrix: entries of size at most `x`, perturbation of
size at most `e`. -/
theorem det_perturbed {a b : Matrix3D} {x e : ℚ} (ha : a.EntriesLe x) (hb : b.EntriesLe e) :
    |(a.add b).det - a.det| ≤ 18 * (e * (x + e) ^ 2) := by
  have hx : 0 ≤ x := ha.nonneg
  have he : 0 ≤ e := hb.nonneg
  obtain ⟨a11, a12, a13, a21, a22, a23, a31, a32, a33⟩ := ha
  obtain ⟨b11, b12, b13, b21, b22, b23, b31, b32, b33⟩ := hb
  have d1 := abs_det_le b11 b12 b13 (abs_add_le a21 b21) (abs_add_le a22 b22)
    (abs_add_le a23 b23) (abs_add_le a31 b31) (abs_add_le a32 b32) (abs_add_le a33 b33)
  have d2 := abs_det_le a11 a12 a13 b21 b22 b23 (abs_add_le a31 b31) (abs_add_le a32 b32)
    (abs_add_le a33 b33)
  have d3 := abs_det_le a11 a12 a13 a21 a22 a23 b31 b32 b33
  have e0 : (a.add b).det - a.det =
      det ⟨b.m11, b.m12, b.m13, a.m21 + b.m21, a.m22 + b.m22, a.m23 + b.m23,
        a.m31 + b.m31, a.m32 + b.m32, a.m33 + b.m33⟩ +
      det ⟨a.m11, a.m12, a.m13, b.m21, b.m22, b.m23,
        a.m31 + b.m31, a.m32 + b.m32, a.m33 + b.m33⟩ +
      det ⟨a.m11, a.m12, a.m13, a.m21, a.m22, a.m23, b.m31, b.m32, b.m33⟩ := by
    simp only [add, det]
    ring
  rw [e0]
  have q1 := abs_le.1 d1
  have q2 := abs_le.1 d2
  have q3 := abs_le.1 d3
  have k1 : 0 ≤ e * e * (x + e) := mul_nonneg (mul_nonneg he he) (add_nonneg hx he)
  have k2 : 0 ≤ x * e * e := mul_nonneg (mul_nonneg hx he) he
  have k3 : 0 ≤ e * e * e := mul_nonneg (mul_nonneg he he) he
  have m1 : x * e * (x + e) ≤ e * (x + e) ^ 2 := by
    have : e * (x + e) ^ 2 - x * e * (x + e) = e * e * (x + e) := by ring
    linarith
  have m2 : x * x * e ≤ e * (x + e) ^ 2 := by
    have : e * (x + e) ^ 2 - x * x * e = 2 * (x * e * e) + e * e * e := by ring
    linarith
  have m3 : e * (x + e) * (x + e) = e * (x + e) ^ 2 := by ring
  rw [abs_le]
  constructor <;> linarith [q1.1, q1.2, q2.1, q2.2, q3.1, q3.2]

theorem Identity_add_defect (a : Matrix3D) :
    geometry.Identity.add a.defect = a.mul a.Transpose := by
  simp only [defect, add, sub, geometry.Identity, Matrix3D.mul, Transpose,
    Matrix3D.mk.injEq]
  refine ⟨?_, ?_, ?_, ?_, ?_, ?_, ?_, ?_, ?_⟩ <;> ring

theorem Identity_entries : geometry.Identity.EntriesLe 1 := by
  simp only [EntriesLe, geometry.Identity]
  norm_num

theorem Identity_det : geometry.Identity.det = 1 := by
  simp only [geometry.Identity, det]
  norm_num

/-- The square of the determinant of a matrix with a small defect of orthogonality is
near 1. -/
theorem det_sq_near {a : Matrix3D} {d : ℚ} (h : a.defect.EntriesLe d) (hd : d ≤ 1 / 2 ^ 20) :
    |a.det ^ 2 - 1| ≤ 19 * d := by
  have hd0 : 0 ≤ d := h.nonneg
  have hp := det_perturbed Identity_entries h
  rw [Identity_add_defect, det_mul, det_Transpose, Identity_det] at hp
  have e : a.det * a.det = a.det ^ 2 := by ring
  rw [e] at hp
  refine le_trans hp ?_
  nlinarith [mul_nonneg hd0 hd0, mul_nonneg (mul_nonneg hd0 hd0) hd0]

/-- A positive number whose square is near 1 is near 1. -/
theorem near_one_of_sq {t c : ℚ} (ht : 0 < t) (h : |t ^ 2 - 1| ≤ c) : |t - 1| ≤ c := by
  have h' := abs_le.1 h
  rw [abs_le]
  constructor <;> nlinarith

/-- One rounded multiplication by a matrix near a rotation keeps the determinant
positive. -/
theorem mul64_det_pos {a r : Matrix3D} (hae : a.EntriesLe (1 + 1 / 2 ^ 50))
    (hre : r.EntriesLe (1 + 1 / 2 ^ 20)) (hda : 1 - 1 / 2 ^ 50 ≤ a.det)
    (hdr : 1 / 2 ≤ r.det) : 0 < (a.mul64 r).det := by
  have hE : ((a.mul64 r).sub (a.mul r)).EntriesLe (1 / 2 ^ 49) :=
    (mul64_err hae hre).weaken (by norm_num)
  have hX : (a.mul r).EntriesLe 4 := (hae.prod hre).weaken (by norm_num)
  have hp := abs_le.1 (det_perturbed hX hE)
  rw [sub_add_cancel3, det_mul] at hp
  have : (1 - 1 / 2 ^ 50) * (1 / 2) ≤ a.det * r.det :=
    mul_le_mul hda hdr (by norm_num) (le_trans (by norm_num) hda)
  norm_num at hp this
  linarith [hp.1]

end Matrix3D

namespace geometry

theorem RotationX_det_near {T : Trig} (hT : T.NearPythagorean) (theta : ℚ) :
    1 - 1 / 2 ^ 50 ≤ (RotationX T theta).det := by
  have h := abs_le.1 (hT theta)
  simp only [RotationX, Matrix3D.det]
  linarith [h.1]

theorem RotationY_det_near {T : Trig} (hT : T.NearPythagorean) (theta : ℚ) :
    1 - 1 / 2 ^ 50 ≤ (RotationY T theta).det := by
  have h := abs_le.1 (hT theta)
  simp only [RotationY, Matrix3D.det]
  linarith [h.1]

end geometry

namespace rubiks

namespace RubiksCube

/-- The entry in row 2 and column 3 of the rounded product of the default view matrix with
its transpose, which is 0 in the identity matrix. -/
theorem defaultView64_product_entry :
    (defaultView64.mul64 defaultView64.Transpose).m23 = 1 / 18014398509481984 := by
  have f0 : ieee.mul (6369051672525771 / 18014398509481984)
    (-2757880273211543 / 4503599627370496) = -975057921444245 / 4503599627370496 :=
    ieee.mul_neg_eval (-55) (-7800463371553960) (by norm_num) (by norm_num)
      (ieee.roundEven_of_lt (by norm_num) (by norm_num)) (by norm_num)
  have f1 : ieee.mul (7800463371553963 / 9007199254740992) (9007199254740991 / 18014398509481984)
    = 3900231685776981 / 9007199254740992 :=
    ieee.mul_pos_eval (-54) 7800463371553962 (by norm_num) (by norm_num)
      (ieee.roundEven_of_lt (by norm_num) (by norm_num)) (by norm_num)
  have f2 : ieee.add (-975057921444245 / 4503599627370496) (3900231685776981 / 9007199254740992)
    = 1950115842888491 / 9007199254740992 :=
    ieee.add_pos_eval (-55) 7800463371553964 (by norm_num) (by norm_num)
      (ieee.roundEven_of_lt (by norm_num) (by norm_num)) (by norm_num)
  have f3 : ieee.mul (-1592262918131443 / 4503599627370496) (5515760546423087 / 9007199254740992)
    = -3900231685776981 / 18014398509481984 :=
    ieee.mul_neg_eval (-55) (-7800463371553962) (by norm_num) (by norm_num)
      (ieee.roundEven_of_lt (by norm_num) (by norm_num)) (by norm_num)
  have f4 : ieee.add (1950115842888491 / 9007199254740992)
    (-3900231685776981 / 18014398509481984) = 1 / 18014398509481984 :=
    ieee.add_pos_eval (-106) 4503599627370496 (by norm_num) (by norm_num)
      (ieee.roundEven_of_lt (by norm_num) (by norm_num)) (by norm_num)
  simp only [defaultView64, Matrix3D.mul64, Matrix3D.Transpose,
    f0, f1, f2, f3, f4]

end RubiksCube

end rubiks

namespace rubiks

theorem nearest_NearPythagorean : Trig.nearest.NearPythagorean := by
  intro theta
  unfold Trig.nearest
  rw [abs_le]
  dsimp only
  split_ifs <;> constructor <;> norm_num

namespace RubiksCube

/-- In a state reached by `n < 2 ^ 20` calls of `GlobalRotate` since the last
`InitializeGlobalRotation`, the defect of orthogonality of the view matrix stretches no
vector by more than `(n + 1) / 2 ^ 42` and the determinant is positive. -/
theorem ViewReachable64_inv {T : Trig} (hT : T.NearPythagorean) {n : Nat} {r : RubiksCube}
    (h : ViewReachable64 T n r) (hn : n < 2 ^ 20) :
    r.global_rotation.defect.OpLe (((n : ℚ) + 1) / 2 ^ 42) ∧ 0 < r.global_rotation.det := by
  refine ⟨ViewReachable64_defect hT h hn, ?_⟩
  induction h with
  | init r =>
    obtain ⟨x1, -, -⟩ := geometry.RotationX_near hT (ieee.div RUBIKS_PI64 6)
    obtain ⟨y1, -, -⟩ := geometry.RotationY_near hT (ieee.div RUBIKS_PI64 4)
    have hy := geometry.RotationY_det_near hT (ieee.div RUBIKS_PI64 4)
    exact Matrix3D.mul64_det_pos x1.entries (y1.entries.weaken (by norm_num))
      (geometry.RotationX_det_near hT _) (le_trans (by norm_num) hy)
  | keep n r r' _ hr ih =>
    rw [hr]
    exact ih hn
  | rotate n r delta hreach ih =>
    have hn' : n < 2 ^ 20 := by omega
    have hpos := ih hn'
    have hdef := ViewReachable64_defect hT hreach hn'
    have hq : ((n : ℚ) + 1) ≤ 2 ^ 20 := by
      have : ((n + 1 : Nat) : ℚ) ≤ ((2 ^ 20 : Nat) : ℚ) := by exact_mod_cast hn.le
      push_cast at this
      linarith
    have hd : ((n : ℚ) + 1) / 2 ^ 42 ≤ 1 / 2 ^ 22 := by
      have : ((n : ℚ) + 1) / 2 ^ 42 ≤ 2 ^ 20 / 2 ^ 42 :=
        div_le_div_of_nonneg_right hq (by norm_num)
      norm_num at this ⊢
      linarith
    obtain ⟨x1, x2, x3⟩ :=
      geometry.RotationX_near hT (delta.smul64 ROTATION_SPEED64).y
    obtain ⟨y1, -, -⟩ :=
      geometry.RotationY_near hT (-(delta.smul64 ROTATION_SPEED64).x)
    have half : ∀ {a : Matrix3D} {d : ℚ}, a.defect.OpLe d → d ≤ 1 / 2 ^ 21 → 0 < a.det →
        a.EntriesLe (1 + 1 / 2 ^ 20) ∧ 1 / 2 ≤ a.det := by
      intro a d ha hd' hp
      have he := ha.entries
      have hs := Matrix3D.near_one_of_sq hp
        (Matrix3D.det_sq_near he (le_trans hd' (by norm_num)))
      have hd0 : 0 ≤ d := ha.1
      have h21 : (1 : ℚ) / 2 ^ 21 ≤ 1 / 2 ^ 20 := by norm_num
      refine ⟨(Matrix3D.entries_of_defect he).weaken (by linarith), ?_⟩
      have := (abs_le.1 hs).1
      norm_num at hd'
      linarith
    obtain ⟨e0, d0⟩ := half hdef (le_trans hd (by norm_num)) hpos
    have p1 : 0 < ((geometry.RotationX T (delta.smul64 ROTATION_SPEED64).y).mul64
        r.global_rotation).det :=
      Matrix3D.mul64_det_pos x1.entries e0 (geometry.RotationX_det_near hT _) d0
    have s1 := Matrix3D.mul64_defect x1 x2 x3 hdef (le_trans hd (by norm_num))
    obtain ⟨e1, d1⟩ := half s1 (by norm_num at hd ⊢; linarith) p1
    exact Matrix3D.mul64_det_pos y1.entries e1 (geometry.RotationY_det_near hT _) d1

/-- C22: the view matrix is orthogonal up to rounding. Let `std::sin` and `std::cos` return
values on the unit circle up to `2 ^ (-50)`, and let every operation on `double` be
rounded. In every state reached by `n` calls of `GlobalRotate(delta)`, for any `delta`,
since the last call of `InitializeGlobalRotation` (which `Initialize` makes), with
`n < 2 ^ 20`, every entry of `global_rotation * global_rotation.Transpose()` differs from
the entry of the identity matrix by at most `(n + 1) / 2 ^ 42`, and the determinant of
`global_rotation` differs from 1 by at most `19 * (n + 1) / 2 ^ 42`. -/
theorem C22_view_rotation_near_orthogonal (T : Trig) (hT : T.NearPythagorean) (n : Nat)
    (r : RubiksCube) (h : ViewReachable64 T n r) (hn : n < 2 ^ 20) :
    r.global_rotation.NearOrthogonal (((n : ℚ) + 1) / 2 ^ 42) ∧
    |r.global_rotation.det - 1| ≤ 19 * (((n : ℚ) + 1) / 2 ^ 42) := by
  obtain ⟨hdef, hpos⟩ := ViewReachable64_inv hT h hn
  have hq : ((n : ℚ) + 1) ≤ 2 ^ 20 := by
    have : ((n + 1 : Nat) : ℚ) ≤ ((2 ^ 20 : Nat) : ℚ) := by exact_mod_cast Nat.succ_le_of_lt hn
    push_cast at this
    linarith
  have hd : ((n : ℚ) + 1) / 2 ^ 42 ≤ 1 / 2 ^ 20 := by
    have : ((n : ℚ) + 1) / 2 ^ 42 ≤ 2 ^ 20 / 2 ^ 42 :=
      div_le_div_of_nonneg_right hq (by norm_num)
    norm_num at this ⊢
    linarith
  exact ⟨hdef.entries, Matrix3D.near_one_of_sq hpos (Matrix3D.det_sq_near hdef.entries hd)⟩

theorem sampleDraggedView_reachable : ViewReachable64 Trig.nearest 1 sampleDraggedView :=
  ViewReachable64.rotate 0 sampleDefaultView ⟨-90, 0, 0⟩ (ViewReachable64.init sample)

theorem C22_view_rotation_near_orthogonal_witness :
    Trig.nearest.NearPythagorean ∧ ViewReachable64 Trig.nearest 1 sampleDraggedView ∧
    (1 : Nat) < 2 ^ 20 ∧
    sampleDraggedView.global_rotation.NearOrthogonal ((((1 : Nat) : ℚ) + 1) / 2 ^ 42) ∧
    |sampleDraggedView.global_rotation.det - 1| ≤ 19 * ((((1 : Nat) : ℚ) + 1) / 2 ^ 42) :=
  ⟨nearest_NearPythagorean, sampleDraggedView_reachable, by norm_num,
    C22_view_rotation_near_orthogonal Trig.nearest nearest_NearPythagorean 1
      sampleDraggedView sampleDraggedView_reachable (by norm_num)⟩

/-- C22, the claim fails in rounded arithmetic: with the values of `std::sin` and
`std::cos` that are nearest to the true ones, the view matrix that
`InitializeGlobalRotation` sets is not orthogonal. The exact product with its transpose has
an entry in row 1 and column 1 other than 1, the product computed in `double` has the
entry `2 ^ (-54)` in row 2 and column 3 where the identity matrix has 0, and the
determinant is not 1. -/
theorem C22_exact_orthogonality_counterexample :
    Trig.nearest.NearPythagorean ∧
    ViewReachable64 Trig.nearest 0 sampleDefaultView ∧
    (sampleDefaultView.global_rotation.mul sampleDefaultView.global_rotation.Transpose).m11
      ≠ geometry.Identity.m11 ∧
    (sampleDefaultView.global_rotation.mul64
      sampleDefaultView.global_rotation.Transpose).m23 = 1 / 18014398509481984 ∧
    (sampleDefaultView.global_rotation.mul64
      sampleDefaultView.global_rotation.Transpose).m23 ≠ geometry.Identity.m23 ∧
    ¬ sampleDefaultView.global_rotation.Orthogonal ∧
    sampleDefaultView.global_rotation.det ≠ 1 := by
  have h11 : (sampleDefaultView.global_rotation.mul
      sampleDefaultView.global_rotation.Transpose).m11 ≠ geometry.Identity.m11 := by
    rw [sampleDefaultView_rotation]
    simp only [defaultView64, Matrix3D.mul, Matrix3D.Transpose, geometry.Identity]
    norm_num
  refine ⟨nearest_NearPythagorean, ViewReachable64.init sample, h11, ?_, ?_, ?_, ?_⟩
  · rw [sampleDefaultView_rotation]
    exact defaultView64_product_entry
  · rw [sampleDefaultView_rotation, defaultView64_product_entry]
    simp only [geometry.Identity]
    norm_num
  · intro ho
    exact h11 (by rw [ho.1])
  · rw [sampleDefaultView_rotation]
    simp only [defaultView64, Matrix3D.det]
    norm_num

end RubiksCube

end rubiks

namespace rubiks

namespace MouseHandler

/-- A drag that is released at a tiny negative angle: `UnClick` builds the entry from
`360 - 2 ^ (-44)` to 360 degrees, whose speed is less than a quarter of the gap between
neighbouring values of `double` there, so that `m_degree += speed` leaves the running
angle where it is. -/
theorem sampleDragTiny_queue :
    normalizedTheta64 sampleDragTiny.m_rotation_theta = 6333186975989759 / 17592186044416 ∧
    (unclickQueue64 sampleDragTiny).degree_start = 6333186975989759 / 17592186044416 ∧
    (unclickQueue64 sampleDragTiny).degree_end = 360 ∧
    (unclickQueue64 sampleDragTiny).speed = 3602879701896397 / 316912650057057350374175801344 ∧
    ∀ k, AnimationHandler.runAngle (unclickQueue64 sampleDragTiny) k =
      6333186975989759 / 17592186044416 := by
  have f0 : ieee.mul (-1 / 1125899906842624) (1007958012753983 / 17592186044416) =
    -1007958012753983 / 19807040628566084398385987584 :=
    ieee.mul_neg_eval (-97) (-8063664102031864) (by norm_num) (by norm_num)
      (ieee.roundEven_of_lt (by norm_num) (by norm_num)) (by norm_num)
  have f1 : ieee.add (-1007958012753983 / 19807040628566084398385987584) 360 = 6333186975989759 /
    17592186044416 :=
    ieee.add_pos_eval (-44) 6333186975989759 (by norm_num) (by norm_num)
      (ieee.roundEven_of_lt (by norm_num) (by norm_num)) (by norm_num)
  have f2 : ieee.sub 360 (6333186975989759 / 17592186044416) = 1 / 17592186044416 :=
    ieee.sub_pos_eval (-96) 4503599627370496 (by norm_num) (by norm_num)
      (ieee.roundEven_of_lt (by norm_num) (by norm_num)) (by norm_num)
  have f3 : ieee.div (1 / 17592186044416) 5 = 3602879701896397 / 316912650057057350374175801344
    :=
    ieee.div_pos_eval (-99) 7205759403792794 (by norm_num) (by norm_num)
      (ieee.roundEven_of_lt (by norm_num) (by norm_num)) (by norm_num)
  have f4 : ieee.add (6333186975989759 / 17592186044416)
    (3602879701896397 / 316912650057057350374175801344) = 6333186975989759 / 17592186044416 :=
    ieee.add_pos_eval (-44) 6333186975989759 (by norm_num) (by norm_num)
      (ieee.roundEven_of_lt (by norm_num) (by norm_num)) (by norm_num)
  have h360 : (0 : ℚ) < 360 := by norm_num
  have e1 : fmod (-1007958012753983 / 19807040628566084398385987584) 360 = -1007958012753983 / 19807040628566084398385987584 := by
    have hc : ⌈(-1007958012753983 / 19807040628566084398385987584 : ℚ) / 360⌉ = 0 := by
      rw [Int.ceil_eq_iff]
      constructor <;> norm_num
    rw [fmod, truncate, if_neg (by norm_num), hc]
    norm_num
  have e2 : fmod (6333186975989759 / 17592186044416) 360 = 6333186975989759 / 17592186044416 := by
    rw [fmod_eq h360 0 (le_refl 0) (by norm_num) (by norm_num)]
    norm_num
  have hth : normalizedTheta64 sampleDragTiny.m_rotation_theta = 6333186975989759 / 17592186044416 := by
    show normalizedTheta64 (-1 / 1125899906842624) = _
    rw [normalizedTheta64, RUBIKS_PI64_eq, div_180_pi, f0, e1, f1, e2]
  obtain ⟨d1, -, d3, -, d5⟩ := unclickQueue64_degrees sampleDragTiny
  have hs : (unclickQueue64 sampleDragTiny).degree_start = 6333186975989759 / 17592186044416 := by
    rw [d1, hth]
  have he : (unclickQueue64 sampleDragTiny).degree_end = 360 :=
    (d3 (by rw [hth]; norm_num)).2
  have hv : (unclickQueue64 sampleDragTiny).speed = 3602879701896397 / 316912650057057350374175801344 := by
    rw [d5, he, hs, f2, f3]
  refine ⟨hth, hs, he, hv, ?_⟩
  intro k
  induction k with
  | zero => exact hs
  | succ k ih => rw [AnimationHandler.runAngle, ih, hv, f4]

/-- The entry that `UnClick` pushes for the drag `sampleDragTiny` is never consumed: it is
pushed, no call of `Step` is terminal for it, and after any number of calls it is still
the front of the queue. -/
theorem unclick_entry_never_consumed :
    sampleDragTiny.m_state = MOUSE_STATE_ROTATE_FACE ∧
    sampleDragTiny.m_animation_handler.m_animation_queues = [] ∧
    sampleDragTiny.m_animation_handler.IsAnimating = false ∧
    sampleDragTiny.UnClick64.m_animation_handler.m_animation_queues =
      [unclickQueue64 sampleDragTiny] ∧
    (∀ n, ¬ AnimationHandler.ConsumedAt64 (unclickQueue64 sampleDragTiny) n) ∧
    ∀ k, ∃ hk, AnimationHandler.stepN64 Trig.flat k
        sampleDragTiny.UnClick64.m_animation_handler = some hk ∧
      hk.m_animation_queues = [unclickQueue64 sampleDragTiny] := by
  obtain ⟨-, hs, he, hv, hrun⟩ := sampleDragTiny_queue
  have hsp : (unclickQueue64 sampleDragTiny).speed ≠ 0 := by
    rw [hv]
    norm_num
  have hnt : ∀ k, ¬ AnimationHandler.Terminal (unclickQueue64 sampleDragTiny)
      (AnimationHandler.runAngle (unclickQueue64 sampleDragTiny) k) := by
    intro k
    unfold AnimationHandler.Terminal
    rw [hrun k, hv, he]
    norm_num
  have hpush : sampleDragTiny.UnClick64.m_animation_handler =
      sampleDragTiny.m_animation_handler.Push (unclickQueue64 sampleDragTiny) := by
    rw [UnClick64_handler, if_pos ⟨rfl, hsp⟩]
  have hco : (unclickQueue64 sampleDragTiny).CoordsOK := unclickQueue64_coords _ (by decide)
  refine ⟨rfl, rfl, rfl, ?_, fun n hn => hnt n hn.2.1, ?_⟩
  · rw [hpush]
    rfl
  · intro k
    rw [hpush]
    obtain ⟨hk, e, hq, -⟩ := AnimationHandler.stepN64_running Trig.flat
      sampleDragTiny.m_animation_handler (unclickQueue64 sampleDragTiny) (k + 1) rfl rfl
      RubiksCube.sample_WF hco (fun m _ _ => hnt m) k (Nat.lt_succ_self k)
    exact ⟨hk, e, hq⟩

end MouseHandler

end rubiks
